import Mathlib

/-!
# tg-vote-bot: the persistence layer (`internal/storage/sqlite.go`)

A shallow embedding of the SQLite-backed `Store`.  The database is a record of
four tables (lists of rows) plus one id counter per table; every method of
`Store` is the relational reading of the SQL statement it executes.

* Go `int64` values (ids, user ids, counts) are `Int`; no statement here does
  arithmetic that could overflow.
* `time.Time` values are `Int` (an instant on the engine's time line).
* A method returning `(T, error)` becomes a function from the database to a
  pair: the `Except StoreError T` it returns and the database after the call.
  A method whose statement is a `SELECT` hands the database back as it was.
* Failures of the engine that are not a consequence of the data (I/O, locking)
  are outside the model; constraint violations are inside it.
-/

namespace TgVoteBot

/-! ## Data model -/

/-- Row of table `rooms`. -/
structure RoomRow where
  id : Int
  owner_user_id : Int
  title : String
  password : String
  created_at : Int
deriving DecidableEq

/-- Row of table `nominations`. -/
structure NominationRow where
  id : Int
  room_id : Int
  name : String
  description : String
deriving DecidableEq

/-- Row of table `nominees`; the two media columns are nullable. -/
structure NomineeRow where
  id : Int
  nomination_id : Int
  name : String
  media_file_id : Option String
  media_type : Option String
deriving DecidableEq

/-- Row of table `votes`. -/
structure VoteRow where
  id : Int
  user_hash : String
  nomination_id : Int
  nominee_id : Int
  created_at : Int
deriving DecidableEq

/-- Modelled from the spec: the embedded `schema.sql` is not part of the
sources.  The database holds the four tables `rooms`, `nominations`,
`nominees`, `votes`; identifiers are assigned monotonically, so each table
carries the next identifier to hand out. -/
structure DB where
  rooms : List RoomRow
  nominations : List NominationRow
  nominees : List NomineeRow
  votes : List VoteRow
  next_room_id : Int
  next_nomination_id : Int
  next_nominee_id : Int
  next_vote_id : Int
deriving DecidableEq

/-- Database right after `InitSchema` on a fresh file. -/
def DB.empty : DB :=
  { rooms := [], nominations := [], nominees := [], votes := [],
    next_room_id := 1, next_nomination_id := 1, next_nominee_id := 1, next_vote_id := 1 }

/-- Modelled from the spec: the constraints of the missing `schema.sql`.
Primary keys are unique and below the table's counter; the foreign keys are
`nominations.room_id → rooms.id`, `nominees.nomination_id → nominations.id`
and `votes.nominee_id → nominees.id`; `votes(user_hash, nomination_id)` is
unique. -/
structure DB.Valid (s : DB) : Prop where
  rooms_pk : (s.rooms.map (·.id)).Nodup
  nominations_pk : (s.nominations.map (·.id)).Nodup
  nominees_pk : (s.nominees.map (·.id)).Nodup
  votes_pk : (s.votes.map (·.id)).Nodup
  rooms_seq : ∀ r ∈ s.rooms, r.id < s.next_room_id
  nominations_seq : ∀ n ∈ s.nominations, n.id < s.next_nomination_id
  nominees_seq : ∀ n ∈ s.nominees, n.id < s.next_nominee_id
  votes_seq : ∀ v ∈ s.votes, v.id < s.next_vote_id
  nominations_fk : ∀ n ∈ s.nominations, ∃ r ∈ s.rooms, r.id = n.room_id
  nominees_fk : ∀ n ∈ s.nominees, ∃ m ∈ s.nominations, m.id = n.nomination_id
  votes_fk : ∀ v ∈ s.votes, ∃ n ∈ s.nominees, n.id = v.nominee_id
  votes_unique : (s.votes.map (fun v => (v.user_hash, v.nomination_id))).Nodup

/-- Errors a `Store` method can return: the package's `ErrNotFound`, the
engine's error for a statement that violates a constraint, or the error of an
engine that is failing. -/
inductive StoreError where
  | ErrNotFound
  | constraint
  | failure
deriving DecidableEq

deriving instance DecidableEq for Except

/-- The Go struct `domain.Room`. -/
structure Room where
  ID : Int
  OwnerUserID : Int
  Title : String
  Password : String
  CreatedAt : Int
deriving DecidableEq

/-- The Go struct `domain.Nomination`. -/
structure Nomination where
  ID : Int
  RoomID : Int
  Name : String
  Description : String
deriving DecidableEq

/-- The Go struct `domain.Nominee`. -/
structure Nominee where
  ID : Int
  NominationID : Int
  Name : String
  MediaFileID : String
  MediaType : String
deriving DecidableEq

/-- The Go struct `domain.NomineeResult`. -/
structure NomineeResult where
  ID : Int
  Name : String
  Votes : Int
deriving DecidableEq

/-! ## Rooms -/

/-- Method `Store.CreateRoom`: `INSERT INTO rooms(owner_user_id, title, password)`;
`created_at` is filled in by the engine with the current time `now`.  Returns
`LastInsertId`. -/
def CreateRoom (s : DB) (ownerID : Int) (title password : String) (now : Int) :
    Except StoreError Int × DB :=
  (.ok s.next_room_id,
    { s with
      rooms := s.rooms ++ [⟨s.next_room_id, ownerID, title, password, now⟩]
      next_room_id := s.next_room_id + 1 })

/-- Ordering of `ORDER BY created_at DESC`. -/
def createdAtDesc (a b : RoomRow) : Prop := b.created_at ≤ a.created_at

instance : DecidableRel createdAtDesc := fun a b =>
  inferInstanceAs (Decidable (b.created_at ≤ a.created_at))

/-- Method `Store.ListRoomsByOwner`: `SELECT id, title FROM rooms WHERE
owner_user_id = ? ORDER BY created_at DESC`; every scanned row becomes a
`domain.Room` whose other fields keep their zero value. -/
def ListRoomsByOwner (s : DB) (ownerID : Int) : Except StoreError (List Room) × DB :=
  (.ok (((s.rooms.filter (fun r => r.owner_user_id = ownerID)).insertionSort createdAtDesc).map
    (fun r => { ID := r.id, OwnerUserID := ownerID, Title := r.title, Password := "",
                CreatedAt := 0 })), s)

/-- Method `Store.GetRoomByIDAndPassword`: `SELECT ... FROM rooms WHERE id = ? AND
password = ?`, first row; `sql.ErrNoRows` becomes `ErrNotFound`. -/
def GetRoomByIDAndPassword (s : DB) (id : Int) (password : String) :
    Except StoreError Room × DB :=
  match s.rooms.find? (fun r => r.id = id ∧ r.password = password) with
  | some r => (.ok { ID := r.id, OwnerUserID := r.owner_user_id, Title := r.title,
                     Password := r.password, CreatedAt := r.created_at }, s)
  | none => (.error .ErrNotFound, s)

/-- Method `Store.IsRoomOwner`: `SELECT COUNT(1) FROM rooms WHERE id = ? AND
owner_user_id = ?`, then `cnt > 0`. -/
def IsRoomOwner (s : DB) (roomID userID : Int) : Except StoreError Bool × DB :=
  let cnt := (s.rooms.filter (fun r => r.id = roomID ∧ r.owner_user_id = userID)).length
  (.ok (decide (cnt > 0)), s)

/-- Method `Store.GetRoomTitle`: `SELECT title FROM rooms WHERE id = ?`, first row. -/
def GetRoomTitle (s : DB) (roomID : Int) : Except StoreError String × DB :=
  match s.rooms.find? (fun r => r.id = roomID) with
  | some r => (.ok r.title, s)
  | none => (.error .ErrNotFound, s)

/-! ## Nominations -/

/-- Method `Store.ListNominations`: `SELECT id, name, description FROM
nominations WHERE room_id = ? ORDER BY id`. -/
def ListNominations (s : DB) (roomID : Int) : Except StoreError (List Nomination) × DB :=
  (.ok (((s.nominations.filter (fun n => n.room_id = roomID)).insertionSort
      (fun a b => a.id ≤ b.id)).map
    (fun n => { ID := n.id, RoomID := roomID, Name := n.name, Description := n.description })), s)

/-- Method `Store.CreateNomination`: `INSERT INTO nominations(room_id, name,
description)`; the insert is rejected when `room_id` references no room. -/
def CreateNomination (s : DB) (roomID : Int) (name description : String) :
    Except StoreError Int × DB :=
  if s.rooms.any (fun r => r.id = roomID) then
    (.ok s.next_nomination_id,
      { s with
        nominations := s.nominations ++ [⟨s.next_nomination_id, roomID, name, description⟩]
        next_nomination_id := s.next_nomination_id + 1 })
  else (.error .constraint, s)

/-- Method `Store.DeleteNomination`: `DELETE FROM nominations WHERE id = ?`.
The nominees of each deleted nomination are deleted by `ON DELETE CASCADE`,
and in turn the votes of each deleted nominee.  `RowsAffected` counts the
nomination rows deleted by the statement itself. -/
def DeleteNomination (s : DB) (nominationID : Int) : Except StoreError Bool × DB :=
  let gone := s.nominations.filter (fun n => n.id = nominationID)
  let goneNominees := s.nominees.filter (fun n => gone.any (fun m => m.id = n.nomination_id))
  let affected := gone.length
  (.ok (decide (affected > 0)),
    { s with
      nominations := s.nominations.filter (fun n => ¬ n.id = nominationID)
      nominees := s.nominees.filter (fun n => ¬ gone.any (fun m => m.id = n.nomination_id))
      votes := s.votes.filter (fun v => ¬ goneNominees.any (fun n => n.id = v.nominee_id)) })

/-- Method `Store.IsNominationOwner`: `SELECT COUNT(1) FROM nominations nom
JOIN rooms r ON nom.room_id = r.id WHERE nom.id = ? AND r.owner_user_id = ?`,
then `cnt > 0`. -/
def IsNominationOwner (s : DB) (nominationID userID : Int) : Except StoreError Bool × DB :=
  let joined := s.nominations.flatMap (fun nom =>
    (s.rooms.filter (fun r => nom.room_id = r.id)).map (fun r => (nom, r)))
  let cnt := (joined.filter (fun p => p.1.id = nominationID ∧ p.2.owner_user_id = userID)).length
  (.ok (decide (cnt > 0)), s)

/-- Method `Store.GetNominationRoomID`: `SELECT room_id FROM nominations WHERE
id = ?`, first row. -/
def GetNominationRoomID (s : DB) (nominationID : Int) : Except StoreError Int × DB :=
  match s.nominations.find? (fun n => n.id = nominationID) with
  | some n => (.ok n.room_id, s)
  | none => (.error .ErrNotFound, s)

/-- Method `Store.GetNominationName`: `SELECT name FROM nominations WHERE
id = ?`, first row. -/
def GetNominationName (s : DB) (nominationID : Int) : Except StoreError String × DB :=
  match s.nominations.find? (fun n => n.id = nominationID) with
  | some n => (.ok n.name, s)
  | none => (.error .ErrNotFound, s)

/-- Method `Store.CheckNominationInRoom`: `SELECT COUNT(1) FROM nominations
WHERE id = ? AND room_id = ?`, then `cnt > 0`. -/
def CheckNominationInRoom (s : DB) (nominationID roomID : Int) : Except StoreError Bool × DB :=
  let cnt := (s.nominations.filter (fun n => n.id = nominationID ∧ n.room_id = roomID)).length
  (.ok (decide (cnt > 0)), s)

/-! ## Nominees -/

/-- Method `Store.CreateNominee`: `INSERT INTO nominees(nomination_id, name)`;
the media columns stay `NULL`; the insert is rejected when `nomination_id`
references no nomination. -/
def CreateNominee (s : DB) (nominationID : Int) (name : String) : Except StoreError Int × DB :=
  if s.nominations.any (fun n => n.id = nominationID) then
    (.ok s.next_nominee_id,
      { s with
        nominees := s.nominees ++ [⟨s.next_nominee_id, nominationID, name, none, none⟩]
        next_nominee_id := s.next_nominee_id + 1 })
  else (.error .constraint, s)

/-- Method `Store.ListNominees`: `SELECT id, name, IFNULL(media_file_id, ''),
IFNULL(media_type, '') FROM nominees WHERE nomination_id = ? ORDER BY id`. -/
def ListNominees (s : DB) (nominationID : Int) : Except StoreError (List Nominee) × DB :=
  (.ok (((s.nominees.filter (fun n => n.nomination_id = nominationID)).insertionSort
      (fun a b => a.id ≤ b.id)).map
    (fun n => { ID := n.id, NominationID := nominationID, Name := n.name,
                MediaFileID := n.media_file_id.getD "", MediaType := n.media_type.getD "" })), s)

/-- Method `Store.DeleteNominee`: `DELETE FROM nominees WHERE id = ?`; the
votes of each deleted nominee are deleted by `ON DELETE CASCADE`. -/
def DeleteNominee (s : DB) (nomineeID : Int) : Except StoreError Bool × DB :=
  let gone := s.nominees.filter (fun n => n.id = nomineeID)
  let affected := gone.length
  (.ok (decide (affected > 0)),
    { s with
      nominees := s.nominees.filter (fun n => ¬ n.id = nomineeID)
      votes := s.votes.filter (fun v => ¬ gone.any (fun n => n.id = v.nominee_id)) })

/-- Method `Store.IsNomineeOwner`: `SELECT COUNT(1) FROM nominees n JOIN
nominations nom ON n.nomination_id = nom.id JOIN rooms r ON nom.room_id = r.id
WHERE n.id = ? AND r.owner_user_id = ?`, then `cnt > 0`. -/
def IsNomineeOwner (s : DB) (nomineeID userID : Int) : Except StoreError Bool × DB :=
  let joined := s.nominees.flatMap (fun n =>
    (s.nominations.filter (fun nom => n.nomination_id = nom.id)).flatMap (fun nom =>
      (s.rooms.filter (fun r => nom.room_id = r.id)).map (fun r => (n, nom, r))))
  let cnt := (joined.filter (fun p => p.1.id = nomineeID ∧ p.2.2.owner_user_id = userID)).length
  (.ok (decide (cnt > 0)), s)

/-- Method `Store.UpdateNomineeMedia`: `UPDATE nominees SET media_file_id = ?,
media_type = ? WHERE id = ?`; only the error is returned. -/
def UpdateNomineeMedia (s : DB) (nomineeID : Int) (fileID mediaType : String) :
    Except StoreError Unit × DB :=
  (.ok (),
    { s with
      nominees := s.nominees.map (fun n =>
        if n.id = nomineeID then
          { n with media_file_id := some fileID, media_type := some mediaType }
        else n) })

/-- Method `Store.GetNomineeName`: `SELECT name FROM nominees WHERE id = ?`,
first row. -/
def GetNomineeName (s : DB) (nomineeID : Int) : Except StoreError String × DB :=
  match s.nominees.find? (fun n => n.id = nomineeID) with
  | some n => (.ok n.name, s)
  | none => (.error .ErrNotFound, s)

/-- Method `Store.GetNomineeNominationAndRoom`: `SELECT n.nomination_id,
nom.room_id FROM nominees n JOIN nominations nom ON n.nomination_id = nom.id
WHERE n.id = ?`, first row. -/
def GetNomineeNominationAndRoom (s : DB) (nomineeID : Int) : Except StoreError (Int × Int) × DB :=
  let joined := s.nominees.flatMap (fun n =>
    (s.nominations.filter (fun nom => n.nomination_id = nom.id)).map (fun nom => (n, nom)))
  match joined.find? (fun p => p.1.id = nomineeID) with
  | some p => (.ok (p.1.nomination_id, p.2.room_id), s)
  | none => (.error .ErrNotFound, s)

/-! ## Votes and results -/

/-- Row transformer of the `DO UPDATE` branch of `RecordVote`: it rewrites the
row that conflicts on `(user_hash, nomination_id)` and no other. -/
def upsertRow (userHash : String) (nominationID nomineeID createdAt : Int) (v : VoteRow) :
    VoteRow :=
  if v.user_hash = userHash ∧ v.nomination_id = nominationID then
    { v with nominee_id := nomineeID, created_at := createdAt }
  else v

/-- Method `Store.RecordVote`: `INSERT INTO votes(...) VALUES (?, ?, ?, ?) ON
CONFLICT(user_hash, nomination_id) DO UPDATE SET nominee_id =
excluded.nominee_id, created_at = excluded.created_at`.  A row that conflicts
on `(user_hash, nomination_id)` is updated in place, otherwise a new row is
inserted; either way the statement is rejected when `nominee_id` references no
nominee. -/
def RecordVote (s : DB) (userHash : String) (nominationID nomineeID : Int) (createdAt : Int) :
    Except StoreError Unit × DB :=
  if s.nominees.any (fun n => n.id = nomineeID) then
    if s.votes.any (fun v => v.user_hash = userHash ∧ v.nomination_id = nominationID) then
      (.ok (),
        { s with
          votes := s.votes.map (upsertRow userHash nominationID nomineeID createdAt) })
    else
      (.ok (),
        { s with
          votes := s.votes ++ [⟨s.next_vote_id, userHash, nominationID, nomineeID, createdAt⟩]
          next_vote_id := s.next_vote_id + 1 })
  else (.error .constraint, s)

/-- Rows of `nominees n LEFT JOIN votes v ON v.nominee_id = n.id`: a nominee
without a matching vote yields one row whose vote columns are `NULL`. -/
def leftJoinVotes (nominees : List NomineeRow) (votes : List VoteRow) :
    List (NomineeRow × Option VoteRow) :=
  nominees.flatMap (fun n =>
    match votes.filter (fun v => v.nominee_id = n.id) with
    | [] => [(n, none)]
    | vs => vs.map (fun v => (n, some v)))

/-- Ordering of `ORDER BY votes DESC, n.id`. -/
def resultOrder (a b : NomineeResult) : Prop :=
  b.Votes < a.Votes ∨ (a.Votes = b.Votes ∧ a.ID ≤ b.ID)

instance : DecidableRel resultOrder := fun a b =>
  inferInstanceAs (Decidable (b.Votes < a.Votes ∨ (a.Votes = b.Votes ∧ a.ID ≤ b.ID)))

/-- Method `Store.ResultsByNomination`: `SELECT n.id, n.name, COUNT(v.id) as
votes FROM nominees n LEFT JOIN votes v ON v.nominee_id = n.id WHERE
n.nomination_id = ? GROUP BY n.id, n.name ORDER BY votes DESC, n.id`.
`COUNT(v.id)` counts the rows of a group whose vote columns are not `NULL`. -/
def ResultsByNomination (s : DB) (nominationID : Int) :
    Except StoreError (List NomineeResult) × DB :=
  let rows := (leftJoinVotes s.nominees s.votes).filter (fun p => p.1.nomination_id = nominationID)
  let groups := (rows.map (fun p => (p.1.id, p.1.name))).dedup
  let agg : List NomineeResult := groups.map (fun g =>
    { ID := g.1, Name := g.2,
      Votes := ((rows.filter (fun p => (p.1.id, p.1.name) = g ∧ p.2.isSome)).length : Int) })
  (.ok (agg.insertionSort resultOrder), s)

/-! ## Go library functions used by the application

Go strings that reach the application are valid UTF-8 (they come from the
transport's JSON and from the database), so a Go `string` is a `String` and the
functions below act on its characters; `bytesOf` gives the bytes where the
source looks at bytes. -/

/-- Predicate `unicode.IsSpace` of Go: the white space characters of Unicode. -/
def isSpace (c : Char) : Bool :=
  let n := c.toNat
  n = 9 ∨ n = 10 ∨ n = 11 ∨ n = 12 ∨ n = 13 ∨ n = 32 ∨ n = 0x85 ∨ n = 0xA0 ∨ n = 0x1680 ∨
    (0x2000 ≤ n ∧ n ≤ 0x200A) ∨ n = 0x2028 ∨ n = 0x2029 ∨ n = 0x202F ∨ n = 0x205F ∨ n = 0x3000

/-- Function `strings.TrimSpace` of Go: the string without its leading and
trailing white space. -/
def TrimSpace (s : String) : String :=
  ⟨(s.data.dropWhile isSpace).rdropWhile isSpace⟩

/-- Splitting of a character sequence at the first `k` occurrences of `sep`:
the loop of `genSplit` in Go's `strings` package. -/
def splitChars (sep : Char) : Nat → List Char → List (List Char)
  | 0, cs => [cs]
  | _, [] => [[]]
  | k + 1, c :: cs =>
    if c = sep then [] :: splitChars sep k cs
    else
      let r := splitChars sep (k + 1) cs
      (c :: r.headD []) :: r.tail

/-- Function `strings.SplitN(s, sep, n)` of Go for a one-character separator:
no substring for `n = 0`, every substring for `n < 0`, at most `n` substrings
for `n > 0`, the last one being the unsplit remainder. -/
def SplitN (s : String) (sep : Char) (n : Int) : List String :=
  if n = 0 then []
  else if n < 0 then (splitChars sep s.data.length s.data).map String.mk
  else (splitChars sep (n.toNat - 1) s.data).map String.mk

/-- Function `strings.Fields` of Go: the maximal runs of characters that are
not white space. -/
def Fields (s : String) : List String :=
  ((s.data.splitOnP isSpace).filter (fun f => f ≠ [])).map String.mk

/-- Function `strconv.ParseInt(s, 10, 64)` of Go: an optional sign followed by
one or more decimal digits, within the range of `int64`; `none` stands for the
error. -/
def ParseInt (s : String) : Option Int :=
  let cs := s.data
  let neg := cs.head? = some '-'
  let ds := if cs.head? = some '-' ∨ cs.head? = some '+' then cs.tail else cs
  if ds = [] ∨ ¬ ds.all (fun c => 48 ≤ c.toNat ∧ c.toNat ≤ 57) then none
  else
    let v : Int := ds.foldl (fun a c => a * 10 + ((c.toNat - 48 : Nat) : Int)) 0
    let i := if neg then -v else v
    if -9223372036854775808 ≤ i ∧ i ≤ 9223372036854775807 then some i else none

/-- Function `strings.HasPrefix` of Go. -/
def HasPrefix (s pre : String) : Bool := pre.data.isPrefixOf s.data

/-- Function `strings.TrimPrefix` of Go. -/
def TrimPrefix (s pre : String) : String :=
  if HasPrefix s pre then ⟨s.data.drop pre.data.length⟩ else s

/-- Function `strings.Contains` of Go. -/
def Contains (s sub : String) : Bool := decide (sub.data <:+: s.data)

/-- UTF-8 encoding of a character. -/
def utf8Char (c : Char) : List Nat :=
  let n := c.toNat
  if n < 0x80 then [n]
  else if n < 0x800 then [0xC0 + n / 64, 0x80 + n % 64]
  else if n < 0x10000 then [0xE0 + n / 4096, 0x80 + n / 64 % 64, 0x80 + n % 64]
  else [0xF0 + n / 262144, 0x80 + n / 4096 % 64, 0x80 + n / 64 % 64, 0x80 + n % 64]

/-- Conversion `[]byte(s)` of Go: the bytes of a string. -/
def bytesOf (s : String) : List Nat := s.data.flatMap utf8Char

/-- Round constants of SHA-256 (FIPS 180-4, section 4.2.2). -/
def sha256K : List Nat :=
  [ 0x428a2f98, 0x71374491, 0xb5c0fbcf, 0xe9b5dba5, 0x3956c25b, 0x59f111f1, 0x923f82a4, 0xab1c5ed5,
    0xd807aa98, 0x12835b01, 0x243185be, 0x550c7dc3, 0x72be5d74, 0x80deb1fe, 0x9bdc06a7, 0xc19bf174,
    0xe49b69c1, 0xefbe4786, 0x0fc19dc6, 0x240ca1cc, 0x2de92c6f, 0x4a7484aa, 0x5cb0a9dc, 0x76f988da,
    0x983e5152, 0xa831c66d, 0xb00327c8, 0xbf597fc7, 0xc6e00bf3, 0xd5a79147, 0x06ca6351, 0x14292967,
    0x27b70a85, 0x2e1b2138, 0x4d2c6dfc, 0x53380d13, 0x650a7354, 0x766a0abb, 0x81c2c92e, 0x92722c85,
    0xa2bfe8a1, 0xa81a664b, 0xc24b8b70, 0xc76c51a3, 0xd192e819, 0xd6990624, 0xf40e3585, 0x106aa070,
    0x19a4c116, 0x1e376c08, 0x2748774c, 0x34b0bcb5, 0x391c0cb3, 0x4ed8aa4a, 0x5b9cca4f, 0x682e6ff3,
    0x748f82ee, 0x78a5636f, 0x84c87814, 0x8cc70208, 0x90befffa, 0xa4506ceb, 0xbef9a3f7, 0xc67178f2 ]

/-- Initial hash value of SHA-256 (FIPS 180-4, section 5.3.3). -/
def sha256Init : List Nat :=
  [0x6a09e667, 0xbb67ae85, 0x3c6ef372, 0xa54ff53a, 0x510e527f, 0x9b05688c, 0x1f83d9ab, 0x5be0cd19]

/-- Rotation of a 32-bit word to the right. -/
def rotr (x n : Nat) : Nat := ((x >>> n) ||| (x <<< (32 - n))) % 4294967296

/-- Addition of 32-bit words. -/
def add32 (a b : Nat) : Nat := (a + b) % 4294967296

/-- Function `Ch` of SHA-256. -/
def sha256Ch (x y z : Nat) : Nat := (x &&& y) ^^^ ((4294967295 - x) &&& z)

/-- Function `Maj` of SHA-256. -/
def sha256Maj (x y z : Nat) : Nat := (x &&& y) ^^^ (x &&& z) ^^^ (y &&& z)

/-- Function `Σ0` of SHA-256. -/
def bigSigma0 (x : Nat) : Nat := rotr x 2 ^^^ rotr x 13 ^^^ rotr x 22

/-- Function `Σ1` of SHA-256. -/
def bigSigma1 (x : Nat) : Nat := rotr x 6 ^^^ rotr x 11 ^^^ rotr x 25

/-- Function `σ0` of SHA-256. -/
def smallSigma0 (x : Nat) : Nat := rotr x 7 ^^^ rotr x 18 ^^^ (x >>> 3)

/-- Function `σ1` of SHA-256. -/
def smallSigma1 (x : Nat) : Nat := rotr x 17 ^^^ rotr x 19 ^^^ (x >>> 10)

/-- Padding of a message to a multiple of 64 bytes: the byte `0x80`, zero
bytes, and the bit length as a 64-bit big-endian number. -/
def sha256Pad (msg : List Nat) : List Nat :=
  let len := msg.length
  let zeros := (64 - (len + 9) % 64) % 64
  let bits := 8 * len
  msg ++ [0x80] ++ List.replicate zeros 0 ++
    (List.range 8).map (fun i => (bits >>> (8 * (7 - i))) % 256)

/-- Big-endian 32-bit words of a sequence of bytes. -/
def wordsOfBytes : List Nat → List Nat
  | a :: b :: c :: d :: rest => (a * 16777216 + b * 65536 + c * 256 + d) :: wordsOfBytes rest
  | _ => []

/-- Message schedule of SHA-256: `k` more words appended to `w`. -/
def sha256Schedule : Nat → List Nat → List Nat
  | 0, w => w
  | k + 1, w =>
    let i := w.length
    sha256Schedule k (w ++ [add32 (add32 (smallSigma1 (w.getD (i - 2) 0)) (w.getD (i - 7) 0))
      (add32 (smallSigma0 (w.getD (i - 15) 0)) (w.getD (i - 16) 0))])

/-- One round of the compression function on the eight working variables. -/
def sha256Round (v : List Nat) (kw : Nat × Nat) : List Nat :=
  match v with
  | [a, b, c, d, e, f, g, h] =>
    let t1 := add32 (add32 (add32 h (bigSigma1 e)) (add32 (sha256Ch e f g) kw.1)) kw.2
    let t2 := add32 (bigSigma0 a) (sha256Maj a b c)
    [add32 t1 t2, a, b, c, add32 d t1, e, f, g]
  | _ => v

/-- Compression of one 64-byte block into the hash value. -/
def sha256Block (hash : List Nat) (block : List Nat) : List Nat :=
  let w := sha256Schedule 48 (wordsOfBytes block)
  let v := (sha256K.zip w).foldl sha256Round hash
  List.zipWith add32 hash v

/-- The first `k` 64-byte blocks of a padded message. -/
def blocksOf : Nat → List Nat → List (List Nat)
  | 0, _ => []
  | k + 1, bytes => bytes.take 64 :: blocksOf k (bytes.drop 64)

/-- Function `sha256.Sum256` of the Go library: the SHA-256 digest (FIPS
180-4) of a sequence of bytes, as 32 bytes. -/
def Sum256 (msg : List Nat) : List Nat :=
  let padded := sha256Pad msg
  let hash := (blocksOf (padded.length / 64) padded).foldl sha256Block sha256Init
  hash.flatMap (fun w => [w / 16777216 % 256, w / 65536 % 256, w / 256 % 256, w % 256])

/-- Function `hex.EncodeToString` of the Go library: two digits of
`0123456789abcdef` per byte, the high half first. -/
def EncodeToString (bytes : List Nat) : String :=
  ⟨bytes.flatMap (fun b => ["0123456789abcdef".data.getD (b / 16) '0',
    "0123456789abcdef".data.getD (b % 16) '0'])⟩

/-! ## Helpers of `app.go` -/

/-- Method `App.hashUserID`: `fmt.Sprintf("%s:%d", a.voteSalt, userID)`, its
SHA-256 digest, in hexadecimal. -/
def hashUserID (voteSalt : String) (userID : Int) : String :=
  let data := voteSalt ++ ":" ++ toString userID
  let sum := Sum256 (bytesOf data)
  EncodeToString sum

/-- Function `splitPipeArgs` of `app.go`: the segments of `SplitN(s, "|", n)`,
each trimmed, the empty ones left out. -/
def splitPipeArgs (s : String) (n : Int) : List String :=
  let raw := SplitN s '|' n
  raw.foldl (fun out part =>
    let p := TrimSpace part
    if p ≠ "" then out ++ [p] else out) []

/-! ## Sessions (`internal/session/session.go`) -/

/-- The Go struct `session.Session`. -/
structure Session where
  ActiveRoomID : Int
  WaitingMediaForNomineeID : Int
  CreatingNomineeForNominationID : Int
deriving DecidableEq

/-- The Go struct `session.Manager`: the map from user id to session record,
as an association list (the mutex is not modelled: events are handled one at a
time). -/
structure Manager where
  sessions : List (Int × Session)
deriving DecidableEq

/-- Function `session.NewManager`. -/
def NewManager : Manager := ⟨[]⟩

/-- Method `Manager.Get`: the record of `userID`, created all-zero when the
map has none; returns the record and the map after the call. -/
def Manager.Get (m : Manager) (userID : Int) : Session × Manager :=
  match m.sessions.lookup userID with
  | some s => (s, m)
  | none => (⟨0, 0, 0⟩, ⟨m.sessions ++ [(userID, ⟨0, 0, 0⟩)]⟩)

/-- Writes through the pointer `Manager.Get` returned: the record of `userID`
becomes `s`. -/
def Manager.put (m : Manager) (userID : Int) (s : Session) : Manager :=
  ⟨m.sessions.map (fun p => if p.1 = userID then (userID, s) else p)⟩

/-! ## The transport and the events -/

/-- Modelled from the spec: the photo reference of a `TextEvent` (section 6);
the Telegram library is not part of the sources.  Only the file id is read. -/
structure PhotoSize where
  FileID : String
deriving DecidableEq

/-- Modelled from the spec: the video reference of a `TextEvent` (section 6). -/
structure Video where
  FileID : String
deriving DecidableEq

/-- Modelled from the spec: the `TextEvent` of section 6 (the library type
`tgbotapi.Message` is not part of the sources): sender (`nil` possible), chat,
text, the results of the methods `IsCommand()`, `Command()` and
`CommandArguments()`, the photo sizes and the video. -/
structure Message where
  From : Option Int
  ChatID : Int
  Text : String
  IsCommand : Bool
  Command : String
  CommandArguments : String
  Photo : List PhotoSize
  Video : Option Video
deriving DecidableEq

/-- Modelled from the spec: the `ButtonEvent` of section 6 (the library type
`tgbotapi.CallbackQuery` is not part of the sources): query id, sender (`nil`
possible), the chat of the message the button is attached to, and the payload. -/
structure CallbackQuery where
  ID : String
  From : Option Int
  ChatID : Int
  Data : String
deriving DecidableEq

/-- An inline keyboard button: label and payload. -/
structure Button where
  Text : String
  Data : String
deriving DecidableEq

/-- File of an outbound photo or video: a path on disk or a Telegram file id. -/
inductive FileRef where
  | FilePath (path : String)
  | FileID (id : String)
deriving DecidableEq

/-- What the handlers pass to `bot.Send` and `bot.Request`.  Texts are kept as
bytes, as Go strings are, since the results text is cut at a byte position. -/
inductive Chattable where
  | Message (chatID : Int) (text : List Nat) (markup : List (List Button))
  | Photo (chatID : Int) (file : FileRef) (caption : List Nat) (markup : List (List Button))
  | Video (chatID : Int) (file : FileRef) (caption : List Nat) (markup : List (List Button))
  | Callback (id : String)
deriving DecidableEq

/-- A call of a `Store` method, with its arguments (for `CreateRoom` also the
engine's time of the insert). -/
inductive StoreCall where
  | CreateRoom (ownerID : Int) (title password : String) (now : Int)
  | ListRoomsByOwner (ownerID : Int)
  | GetRoomByIDAndPassword (id : Int) (password : String)
  | IsRoomOwner (roomID userID : Int)
  | GetRoomTitle (roomID : Int)
  | ListNominations (roomID : Int)
  | CreateNomination (roomID : Int) (name description : String)
  | DeleteNomination (nominationID : Int)
  | IsNominationOwner (nominationID userID : Int)
  | GetNominationRoomID (nominationID : Int)
  | CheckNominationInRoom (nominationID roomID : Int)
  | GetNominationName (nominationID : Int)
  | CreateNominee (nominationID : Int) (name : String)
  | ListNominees (nominationID : Int)
  | DeleteNominee (nomineeID : Int)
  | IsNomineeOwner (nomineeID userID : Int)
  | UpdateNomineeMedia (nomineeID : Int) (fileID mediaType : String)
  | GetNomineeName (nomineeID : Int)
  | GetNomineeNominationAndRoom (nomineeID : Int)
  | RecordVote (userHash : String) (nominationID nomineeID : Int) (createdAt : Int)
  | ResultsByNomination (nominationID : Int)
deriving DecidableEq

/-- The Go struct `storage.Store` as the application sees it: the database
behind the handle, whether the engine is failing (it then rejects every
statement with a storage error and changes nothing), and the journal of the
methods called so far. -/
structure Store where
  db : DB
  failing : Bool
  journal : List StoreCall
deriving DecidableEq

/-- One call of a `Store` method: the call is journalled; a failing engine
answers with a storage error, a working one runs the statement. -/
def Store.exec {α : Type} (st : Store) (c : StoreCall) (f : DB → Except StoreError α × DB) :
    Except StoreError α × Store :=
  if st.failing then (.error .failure, { st with journal := st.journal ++ [c] })
  else ((f st.db).1, { st with db := (f st.db).2, journal := st.journal ++ [c] })

/-- The Go struct `App`: what was sent through `bot` so far, the store, the
session manager and the vote salt; `log` collects the tags of the `log.Println`
calls. -/
structure App where
  bot : List Chattable
  store : Store
  sessions : Manager
  voteSalt : String
  log : List String
deriving DecidableEq

/-- The application after a call of a store method left the store `st`. -/
def App.withStore (a : App) (st : Store) : App := { a with store := st }

/-- Call `a.bot.Send(c)` (or `a.bot.Request(c)`); the transport is taken to
accept every call. -/
def App.Send (a : App) (c : Chattable) : App := { a with bot := a.bot ++ [c] }

/-- Call `a.bot.Send(tgbotapi.NewMessage(chatID, text))`. -/
def App.say (a : App) (chatID : Int) (text : String) : App :=
  a.Send (.Message chatID (bytesOf text) [])

/-- Call `log.Println(tag, ...)`. -/
def App.Println (a : App) (tag : String) : App := { a with log := a.log ++ [tag] }

/-- The one-button keyboard that leads back to the nomination list. -/
def backKeyboard : List (List Button) :=
  [[⟨"⬅️ Назад к номинациям", "back:nominations"⟩]]

/-! ## The store as the handlers call it -/

/-- Call of `Store.CreateRoom` through the handle (`created_at` is the engine's
current time `now`). -/
def Store.CreateRoom (st : Store) (ownerID : Int) (title password : String) (now : Int) :
    Except StoreError Int × Store :=
  st.exec (.CreateRoom ownerID title password now)
    (fun db => TgVoteBot.CreateRoom db ownerID title password now)

/-- Call of `Store.ListRoomsByOwner` through the handle. -/
def Store.ListRoomsByOwner (st : Store) (ownerID : Int) :
    Except StoreError (List Room) × Store :=
  st.exec (.ListRoomsByOwner ownerID) (fun db => TgVoteBot.ListRoomsByOwner db ownerID)

/-- Call of `Store.GetRoomByIDAndPassword` through the handle. -/
def Store.GetRoomByIDAndPassword (st : Store) (id : Int) (password : String) :
    Except StoreError Room × Store :=
  st.exec (.GetRoomByIDAndPassword id password)
    (fun db => TgVoteBot.GetRoomByIDAndPassword db id password)

/-- Call of `Store.IsRoomOwner` through the handle. -/
def Store.IsRoomOwner (st : Store) (roomID userID : Int) :
    Except StoreError Bool × Store :=
  st.exec (.IsRoomOwner roomID userID) (fun db => TgVoteBot.IsRoomOwner db roomID userID)

/-- Call of `Store.GetRoomTitle` through the handle. -/
def Store.GetRoomTitle (st : Store) (roomID : Int) :
    Except StoreError String × Store :=
  st.exec (.GetRoomTitle roomID) (fun db => TgVoteBot.GetRoomTitle db roomID)

/-- Call of `Store.ListNominations` through the handle. -/
def Store.ListNominations (st : Store) (roomID : Int) :
    Except StoreError (List Nomination) × Store :=
  st.exec (.ListNominations roomID) (fun db => TgVoteBot.ListNominations db roomID)

/-- Call of `Store.CreateNomination` through the handle. -/
def Store.CreateNomination (st : Store) (roomID : Int) (name description : String) :
    Except StoreError Int × Store :=
  st.exec (.CreateNomination roomID name description)
    (fun db => TgVoteBot.CreateNomination db roomID name description)

/-- Call of `Store.DeleteNomination` through the handle. -/
def Store.DeleteNomination (st : Store) (nominationID : Int) :
    Except StoreError Bool × Store :=
  st.exec (.DeleteNomination nominationID) (fun db => TgVoteBot.DeleteNomination db nominationID)

/-- Call of `Store.IsNominationOwner` through the handle. -/
def Store.IsNominationOwner (st : Store) (nominationID userID : Int) :
    Except StoreError Bool × Store :=
  st.exec (.IsNominationOwner nominationID userID)
    (fun db => TgVoteBot.IsNominationOwner db nominationID userID)

/-- Call of `Store.GetNominationRoomID` through the handle. -/
def Store.GetNominationRoomID (st : Store) (nominationID : Int) :
    Except StoreError Int × Store :=
  st.exec (.GetNominationRoomID nominationID)
    (fun db => TgVoteBot.GetNominationRoomID db nominationID)

/-- Call of `Store.CheckNominationInRoom` through the handle. -/
def Store.CheckNominationInRoom (st : Store) (nominationID roomID : Int) :
    Except StoreError Bool × Store :=
  st.exec (.CheckNominationInRoom nominationID roomID)
    (fun db => TgVoteBot.CheckNominationInRoom db nominationID roomID)

/-- Call of `Store.GetNominationName` through the handle. -/
def Store.GetNominationName (st : Store) (nominationID : Int) :
    Except StoreError String × Store :=
  st.exec (.GetNominationName nominationID) (fun db => TgVoteBot.GetNominationName db nominationID)

/-- Call of `Store.CreateNominee` through the handle. -/
def Store.CreateNominee (st : Store) (nominationID : Int) (name : String) :
    Except StoreError Int × Store :=
  st.exec (.CreateNominee nominationID name)
    (fun db => TgVoteBot.CreateNominee db nominationID name)

/-- Call of `Store.ListNominees` through the handle. -/
def Store.ListNominees (st : Store) (nominationID : Int) :
    Except StoreError (List Nominee) × Store :=
  st.exec (.ListNominees nominationID) (fun db => TgVoteBot.ListNominees db nominationID)

/-- Call of `Store.DeleteNominee` through the handle. -/
def Store.DeleteNominee (st : Store) (nomineeID : Int) :
    Except StoreError Bool × Store :=
  st.exec (.DeleteNominee nomineeID) (fun db => TgVoteBot.DeleteNominee db nomineeID)

/-- Call of `Store.IsNomineeOwner` through the handle. -/
def Store.IsNomineeOwner (st : Store) (nomineeID userID : Int) :
    Except StoreError Bool × Store :=
  st.exec (.IsNomineeOwner nomineeID userID)
    (fun db => TgVoteBot.IsNomineeOwner db nomineeID userID)

/-- Call of `Store.UpdateNomineeMedia` through the handle. -/
def Store.UpdateNomineeMedia (st : Store) (nomineeID : Int) (fileID mediaType : String) :
    Except StoreError Unit × Store :=
  st.exec (.UpdateNomineeMedia nomineeID fileID mediaType)
    (fun db => TgVoteBot.UpdateNomineeMedia db nomineeID fileID mediaType)

/-- Call of `Store.GetNomineeName` through the handle. -/
def Store.GetNomineeName (st : Store) (nomineeID : Int) :
    Except StoreError String × Store :=
  st.exec (.GetNomineeName nomineeID) (fun db => TgVoteBot.GetNomineeName db nomineeID)

/-- Call of `Store.GetNomineeNominationAndRoom` through the handle. -/
def Store.GetNomineeNominationAndRoom (st : Store) (nomineeID : Int) :
    Except StoreError (Int × Int) × Store :=
  st.exec (.GetNomineeNominationAndRoom nomineeID)
    (fun db => TgVoteBot.GetNomineeNominationAndRoom db nomineeID)

/-- Call of `Store.RecordVote` through the handle. -/
def Store.RecordVote (st : Store) (userHash : String) (nominationID nomineeID : Int)
    (createdAt : Int) : Except StoreError Unit × Store :=
  st.exec (.RecordVote userHash nominationID nomineeID createdAt)
    (fun db => TgVoteBot.RecordVote db userHash nominationID nomineeID createdAt)

/-- Call of `Store.ResultsByNomination` through the handle. -/
def Store.ResultsByNomination (st : Store) (nominationID : Int) :
    Except StoreError (List NomineeResult) × Store :=
  st.exec (.ResultsByNomination nominationID)
    (fun db => TgVoteBot.ResultsByNomination db nominationID)

/-! ## Rendering helpers of `app.go` -/

/-- Method `App.sendNominationsList`: the nominations of the room as one
message with an open button per nomination and, for the owner, a results
button; returns the error of `ListNominations`, if any. -/
def sendNominationsList (a : App) (chatID userID roomID : Int) : Option StoreError × App :=
  let r1 := a.store.ListNominations roomID
  let a1 := a.withStore r1.2
  match r1.1 with
  | .error e => (some e, a1)
  | .ok nominations =>
    if nominations.length = 0 then
      (none, a1.say chatID "В этой комнате пока нет номинаций.")
    else
      let r2 := a1.store.IsRoomOwner roomID userID
      let a2 := a1.withStore r2.2
      let own : Bool × App := match r2.1 with
        | .error _ => (false, a2.Println "IsRoomOwner in sendNominationsList:")
        | .ok b => (b, a2)
      let isOwner := own.1
      let a3 := own.2
      let buttons : List (List Button) := nominations.map (fun n =>
        let openBtn : Button := ⟨"🗳 Открыть", "nomination:" ++ toString n.ID⟩
        if isOwner then [openBtn, ⟨"📊 Результаты", "res_nom:" ++ toString n.ID⟩]
        else [openBtn])
      let text := "Список номинаций в комнате:\n" ++
        String.join (nominations.map (fun n => "ID " ++ toString n.ID ++ " — " ++ n.Name ++ "\n")) ++
        "\nЭти ID можно использовать в командах:\n" ++
        "/add_nominee nominationID | Имя\n" ++
        "/delete_nomination nominationID\n" ++
        "/results nominationID\n"
      (none, a3.Send (.Message chatID (bytesOf text) buttons))

/-- The card of one nominee in `App.sendNominees`: its keyboard and caption,
sent as photo, video or text according to the stored media. -/
def nomineeCard (chatID : Int) (isOwner : Bool) (n : Nominee) : Chattable :=
  let voteRow : List Button := [⟨"✅ Голосовать", "vote:" ++ toString n.ID⟩]
  let adminRows : List (List Button) :=
    if isOwner then
      [[⟨"🖼 Медиа", "setmedia:" ++ toString n.ID⟩, ⟨"🗑 Удалить", "delnom:" ++ toString n.ID⟩]]
    else []
  let kb := [voteRow] ++ adminRows ++ backKeyboard
  let caption := "ID " ++ toString n.ID ++ " — " ++ n.Name ++ "\n\nНажми кнопку, чтобы отдать голос."
  if n.MediaFileID ≠ "" ∧ n.MediaType = "photo" then
    .Photo chatID (.FileID n.MediaFileID) (bytesOf caption) kb
  else if n.MediaFileID ≠ "" ∧ n.MediaType = "video" then
    .Video chatID (.FileID n.MediaFileID) (bytesOf caption) kb
  else .Message chatID (bytesOf caption) kb

/-- Method `App.sendNominees`: header, the owner's management keyboard, and
one card per nominee; returns the error of `ListNominees`, if any. -/
def sendNominees (a : App) (chatID userID nominationID : Int) : Option StoreError × App :=
  let r1 := a.store.GetNominationName nominationID
  let a1 := a.withStore r1.2
  let named : String × App := match r1.1 with
    | .ok name => (name, a1)
    | .error .ErrNotFound => ("", a1)
    | .error _ => ("", a1.Println "get nomination name:")
  let nominationName := named.1
  let r2 := named.2.store.ListNominees nominationID
  let a2 := named.2.withStore r2.2
  match r2.1 with
  | .error e =>
    (some e, (a2.Println "ListNominees:").say chatID "Не удалось получить список номинантов 😔")
  | .ok nominees =>
    let r3 := a2.store.IsNominationOwner nominationID userID
    let a3 := a2.withStore r3.2
    let own : Bool × App := match r3.1 with
      | .error _ => (false, a3.Println "IsNominationOwner(sendNominees):")
      | .ok b => (b, a3)
    let isOwner := own.1
    let a4 :=
      if nominationName ≠ "" then
        own.2.say chatID ("🏆 Номинация: " ++ nominationName ++ " (ID " ++ toString nominationID ++ ")")
      else own.2.say chatID ("🏆 Номинация ID " ++ toString nominationID)
    let a5 :=
      if isOwner then
        a4.Send (.Message chatID (bytesOf "Управление номинацией:")
          ([[⟨"➕ Добавить номинанта", "addnom:" ++ toString nominationID⟩]] ++ backKeyboard))
      else a4
    if nominees.length = 0 then
      (none, a5.Send (.Message chatID (bytesOf "В этой номинации пока нет номинантов.") backKeyboard))
    else
      (none, nominees.foldl (fun acc n => acc.Send (nomineeCard chatID isOwner n)) a5)

/-- The text of a results message: header, one line per nominee, cut after
4000 bytes. -/
def resultsText (roomTitle : String) (roomID : Int) (nominationName : String)
    (nominationID : Int) (results : List NomineeResult) : List Nat :=
  let head := "Результаты голосования\nКомната: " ++ roomTitle ++ " (ID " ++ toString roomID ++
    ")\nНоминация: " ++ nominationName ++ " (ID " ++ toString nominationID ++ ")\n\n"
  let body :=
    if results.length = 0 then "В этой номинации пока нет номинантов.\n"
    else String.join (results.map (fun r =>
      "• " ++ r.Name ++ " (ID " ++ toString r.ID ++ ") — " ++ toString r.Votes ++ " голос(ов)\n"))
  let text := bytesOf (head ++ body)
  if text.length > 4000 then text.take 4000 ++ bytesOf "\n\n(обрезано, слишком много текста)"
  else text

/-! ## Command handlers of `app.go`

Every handler is entered from `handleMessage` after its `msg.From == nil`
check; `userID` is `msg.From.ID`. -/

/-- Method `App.handleCreateRoom`; `now` is the time of the insert. -/
def handleCreateRoom (a : App) (msg : Message) (userID : Int) (now : Int) : App :=
  let args := TrimSpace msg.CommandArguments
  if args = "" then
    a.say msg.ChatID
      "Формат: /create_room Название | Пароль\n\nПример:\n/create_room Новый год 2025 | secret123"
  else
    match splitPipeArgs args 2 with
    | title :: password :: _ =>
      let r := a.store.CreateRoom userID title password now
      let a1 := a.withStore r.2
      match r.1 with
      | .error _ => (a1.Println "create_room:").say msg.ChatID "Не удалось создать комнату 😔"
      | .ok roomID =>
        a1.say msg.ChatID ("Комната создана! 🎉\nID: " ++ toString roomID ++ "\nНазвание: " ++
          title ++ "\nПароль: " ++ password ++ "\n\n" ++
          "Поделись ID и паролем с участниками.\n" ++
          "Чтобы зайти как участник: /room " ++ toString roomID ++ " " ++ password)
    | _ => a.say msg.ChatID "Нужно указать и название, и пароль через '|'"

/-- Method `App.handleMyRooms`. -/
def handleMyRooms (a : App) (msg : Message) (userID : Int) : App :=
  let r := a.store.ListRoomsByOwner userID
  let a1 := a.withStore r.2
  match r.1 with
  | .error _ => (a1.Println "my_rooms:").say msg.ChatID "Не получилось получить список комнат."
  | .ok rooms =>
    if rooms.length = 0 then
      a1.say msg.ChatID "У тебя пока нет комнат. Создай: /create_room Название | Пароль"
    else
      a1.say msg.ChatID ("Твои комнаты:\n" ++
        String.join (rooms.map (fun r => "• ID: " ++ toString r.ID ++ " — " ++ r.Title ++ "\n")) ++
        "\nЧтобы зайти в комнату как участник:\n/room ID Пароль")

/-- Method `App.handleJoinRoom`; the session it fetches with `getSession` is
the record of the sender. -/
def handleJoinRoom (a : App) (msg : Message) (userID : Int) : App :=
  let args := TrimSpace msg.CommandArguments
  if args = "" then
    a.say msg.ChatID "Формат: /room ID Пароль\nПример: /room 1 secret123"
  else
    match Fields args with
    | idField :: password :: _ =>
      match ParseInt idField with
      | none => a.say msg.ChatID "ID комнаты должно быть числом."
      | some roomID =>
        let r := a.store.GetRoomByIDAndPassword roomID password
        let a1 := a.withStore r.2
        match r.1 with
        | .error .ErrNotFound => a1.say msg.ChatID "Комната не найдена или неверный пароль."
        | .error _ => (a1.Println "join room:").say msg.ChatID "Ошибка при входе в комнату."
        | .ok room =>
          let g := a1.sessions.Get userID
          let sess := { g.1 with ActiveRoomID := room.ID }
          let a2 := { a1 with sessions := g.2.put userID sess }
          a2.say msg.ChatID ("Ты вошёл в комнату: " ++ room.Title ++ " (ID " ++ toString room.ID ++
            ")\nТеперь можешь смотреть номинации командой /nominations")
    | _ => a.say msg.ChatID "Нужно указать ID и пароль."

/-- Method `App.handleNominationsCommand`. -/
def handleNominationsCommand (a : App) (msg : Message) (userID : Int) (sess : Session) :
    App × Session :=
  if sess.ActiveRoomID = 0 then
    (a.say msg.ChatID "Сначала зайди в комнату: /room ID Пароль", sess)
  else
    let r := sendNominationsList a msg.ChatID userID sess.ActiveRoomID
    match r.1 with
    | some _ => (r.2.Println "nominations:", sess)
    | none => (r.2, sess)

/-- Method `App.handleAddNomination`. -/
def handleAddNomination (a : App) (msg : Message) (userID : Int) : App :=
  let args := TrimSpace msg.CommandArguments
  if args = "" then
    a.say msg.ChatID ("Формат: /add_nomination roomID | Название | Описание(опц)\n\n" ++
      "Пример:\n/add_nomination 1 | Лучший разработчик | За топовый код")
  else
    match splitPipeArgs args 3 with
    | idPart :: title :: rest =>
      match ParseInt idPart with
      | none => a.say msg.ChatID "roomID должно быть числом."
      | some roomID =>
        let description := rest.headD ""
        let r1 := a.store.IsRoomOwner roomID userID
        let a1 := a.withStore r1.2
        match r1.1 with
        | .error _ => (a1.Println "isRoomOwner:").say msg.ChatID "Ошибка проверки прав."
        | .ok false => a1.say msg.ChatID "Только автор комнаты может добавлять номинации."
        | .ok true =>
          let r2 := a1.store.CreateNomination roomID title description
          let a2 := a1.withStore r2.2
          match r2.1 with
          | .error _ =>
            (a2.Println "add_nomination:").say msg.ChatID "Не получилось добавить номинацию."
          | .ok _ =>
            a2.say msg.ChatID "Номинация добавлена ✅\nID можно посмотреть через /nominations."
    | _ => a.say msg.ChatID "Нужно минимум roomID и название, разделённые '|'"

/-- Method `App.handleAddNominee`. -/
def handleAddNominee (a : App) (msg : Message) (userID : Int) : App :=
  let args := TrimSpace msg.CommandArguments
  if args = "" then
    a.say msg.ChatID "Формат: /add_nominee nominationID | Имя\nПример:\n/add_nominee 1 | Иван Иванов"
  else
    match splitPipeArgs args 2 with
    | idPart :: name :: _ =>
      match ParseInt idPart with
      | none => a.say msg.ChatID "nominationID должно быть числом."
      | some nominationID =>
        let r1 := a.store.IsNominationOwner nominationID userID
        let a1 := a.withStore r1.2
        match r1.1 with
        | .error _ => (a1.Println "isNominationOwner:").say msg.ChatID "Ошибка проверки прав."
        | .ok false => a1.say msg.ChatID "Только автор комнаты может добавлять номинантов."
        | .ok true =>
          let r2 := a1.store.CreateNominee nominationID name
          let a2 := a1.withStore r2.2
          match r2.1 with
          | .error _ =>
            (a2.Println "add_nominee:").say msg.ChatID "Не получилось добавить номинанта."
          | .ok _ =>
            a2.say msg.ChatID ("Номинант добавлен ✅\n" ++
              "Чтобы добавить или сменить медиа, используй команду /set_nominee_media с ID этого номинанта.")
    | _ => a.say msg.ChatID "Нужно указать nominationID и имя, разделённые '|'"

/-- Method `App.handleSetNomineeMedia`. -/
def handleSetNomineeMedia (a : App) (msg : Message) (userID : Int) (sess : Session) :
    App × Session :=
  let args := TrimSpace msg.CommandArguments
  if args = "" then
    (a.say msg.ChatID ("Формат: /set_nominee_media nomineeID\n\n" ++
      "После команды отправь одним сообщением фото или видео для этого номинанта.\n" ++
      "Команду можно вызывать повторно — медиа перезапишется."), sess)
  else
    match ParseInt args with
    | none => (a.say msg.ChatID "nomineeID должно быть числом.", sess)
    | some nomineeID =>
      let r1 := a.store.IsNomineeOwner nomineeID userID
      let a1 := a.withStore r1.2
      match r1.1 with
      | .error _ => ((a1.Println "isNomineeOwner:").say msg.ChatID "Ошибка проверки прав.", sess)
      | .ok false =>
        (a1.say msg.ChatID "Только автор комнаты может менять медиа у номинантов.", sess)
      | .ok true =>
        (a1.say msg.ChatID
            "Ок! Теперь отправь фото или видео для этого номинанта одним следующим сообщением.",
          { sess with WaitingMediaForNomineeID := nomineeID, CreatingNomineeForNominationID := 0 })

/-- Method `App.handleDeleteNomination`. -/
def handleDeleteNomination (a : App) (msg : Message) (userID : Int) : App :=
  let args := TrimSpace msg.CommandArguments
  if args = "" then
    a.say msg.ChatID ("Формат: /delete_nomination nominationID\n\n" ++
      "ID номинации можно посмотреть через /nominations (они указаны в списке).")
  else
    match ParseInt args with
    | none => a.say msg.ChatID "nominationID должно быть числом."
    | some nominationID =>
      let r1 := a.store.IsNominationOwner nominationID userID
      let a1 := a.withStore r1.2
      match r1.1 with
      | .error _ =>
        (a1.Println "isNominationOwner(delete_nomination):").say msg.ChatID "Ошибка проверки прав."
      | .ok false => a1.say msg.ChatID "Только автор комнаты может удалять номинации."
      | .ok true =>
        let r2 := a1.store.DeleteNomination nominationID
        let a2 := a1.withStore r2.2
        match r2.1 with
        | .error _ =>
          (a2.Println "delete nomination:").say msg.ChatID "Не удалось удалить номинацию."
        | .ok false => a2.say msg.ChatID "Номинация с таким ID не найдена."
        | .ok true => a2.say msg.ChatID "Номинация удалена вместе с её номинантами и голосами ✅"

/-- Method `App.handleDeleteNominee`. -/
def handleDeleteNominee (a : App) (msg : Message) (userID : Int) : App :=
  let args := TrimSpace msg.CommandArguments
  if args = "" then
    a.say msg.ChatID ("Формат: /delete_nominee nomineeID\n\n" ++
      "ID номинанта можно увидеть, когда смотришь номинацию — он выводится в подписи к карточке.")
  else
    match ParseInt args with
    | none => a.say msg.ChatID "nomineeID должно быть числом."
    | some nomineeID =>
      let r1 := a.store.IsNomineeOwner nomineeID userID
      let a1 := a.withStore r1.2
      match r1.1 with
      | .error _ =>
        (a1.Println "isNomineeOwner(delete_nominee):").say msg.ChatID "Ошибка проверки прав."
      | .ok false => a1.say msg.ChatID "Только автор комнаты может удалять номинантов."
      | .ok true =>
        let r2 := a1.store.DeleteNominee nomineeID
        let a2 := a1.withStore r2.2
        match r2.1 with
        | .error _ => (a2.Println "delete nominee:").say msg.ChatID "Не удалось удалить номинанта."
        | .ok false => a2.say msg.ChatID "Номинант с таким ID не найден."
        | .ok true => a2.say msg.ChatID "Номинант удалён вместе с его голосами ✅"

/-- The part of `App.handleResults` after room and nomination are known: the
owner check, the titles, the query and the results message. -/
def sendResults (a : App) (chatID userID roomID nominationID : Int) : App :=
  let r1 := a.store.IsRoomOwner roomID userID
  let a1 := a.withStore r1.2
  match r1.1 with
  | .error _ => (a1.Println "isRoomOwner(results):").say chatID "Ошибка проверки прав."
  | .ok false => a1.say chatID "Только автор комнаты может смотреть результаты."
  | .ok true =>
    let r2 := a1.store.GetRoomTitle roomID
    let a2 := a1.withStore r2.2
    let titled : String × App := match r2.1 with
      | .ok title => (title, a2)
      | .error .ErrNotFound => ("ID " ++ toString roomID, a2)
      | .error _ => ("ID " ++ toString roomID, a2.Println "results get room title:")
    let r3 := titled.2.store.GetNominationName nominationID
    let a3 := titled.2.withStore r3.2
    let named : String × App := match r3.1 with
      | .ok name => (name, a3)
      | .error .ErrNotFound => ("ID " ++ toString nominationID, a3)
      | .error _ => ("ID " ++ toString nominationID, a3.Println "results get nomination name:")
    let r4 := named.2.store.ResultsByNomination nominationID
    let a4 := named.2.withStore r4.2
    match r4.1 with
    | .error _ => (a4.Println "results nominees:").say chatID "Не удалось получить результаты."
    | .ok results =>
      a4.Send (.Message chatID (resultsText titled.1 roomID named.1 nominationID results) [])

/-- Method `App.handleResults`. -/
def handleResults (a : App) (msg : Message) (userID : Int) : App :=
  match Fields (TrimSpace msg.CommandArguments) with
  | [] =>
    a.say msg.ChatID ("Форматы:\n" ++
      "/results nominationID – результаты одной номинации\n" ++
      "/results roomID nominationID – то же самое, но с явным указанием комнаты\n\n" ++
      "ID номинации можно посмотреть через /nominations.")
  | [arg] =>
    match ParseInt arg with
    | none => a.say msg.ChatID "nominationID должно быть числом."
    | some nominationID =>
      let r := a.store.GetNominationRoomID nominationID
      let a1 := a.withStore r.2
      match r.1 with
      | .error .ErrNotFound => a1.say msg.ChatID "Номинация не найдена."
      | .error _ =>
        (a1.Println "results get room:").say msg.ChatID "Ошибка при получении номинации."
      | .ok roomID => sendResults a1 msg.ChatID userID roomID nominationID
  | arg0 :: arg1 :: _ =>
    match ParseInt arg0 with
    | none => a.say msg.ChatID "roomID должно быть числом."
    | some roomID =>
      match ParseInt arg1 with
      | none => a.say msg.ChatID "nominationID должно быть числом."
      | some nominationID =>
        let r := a.store.CheckNominationInRoom nominationID roomID
        let a1 := a.withStore r.2
        match r.1 with
        | .error _ =>
          (a1.Println "results check nom in room:").say msg.ChatID "Ошибка при проверке номинации."
        | .ok false => a1.say msg.ChatID "Номинация с таким ID не принадлежит этой комнате."
        | .ok true => sendResults a1 msg.ChatID userID roomID nominationID

/-- Method `App.handleMediaUpload`. -/
def handleMediaUpload (a : App) (msg : Message) (userID : Int) (sess : Session) : App × Session :=
  let nomineeID := sess.WaitingMediaForNomineeID
  let sess1 := { sess with WaitingMediaForNomineeID := 0 }
  if nomineeID = 0 then (a, sess1)
  else
    let r1 := a.store.IsNomineeOwner nomineeID userID
    let a1 := a.withStore r1.2
    match r1.1 with
    | .error _ => ((a1.Println "isNomineeOwner(media):").say msg.ChatID "Ошибка проверки прав.", sess1)
    | .ok false =>
      (a1.say msg.ChatID "Только автор комнаты может менять медиа у номинантов.", sess1)
    | .ok true =>
      let media : Option (String × String) :=
        match msg.Photo.getLast?, msg.Video with
        | some photo, _ => some (photo.FileID, "photo")
        | none, some video => some (video.FileID, "video")
        | none, none => none
      match media with
      | none =>
        (a1.say msg.ChatID "Нужно отправить фото или видео. Команда /set_nominee_media nomineeID.",
          sess1)
      | some (fileID, mediaType) =>
        let r2 := a1.store.UpdateNomineeMedia nomineeID fileID mediaType
        let a2 := a1.withStore r2.2
        match r2.1 with
        | .error _ =>
          ((a2.Println "update nominee media:").say msg.ChatID "Не удалось сохранить медиа.", sess1)
        | .ok _ => (a2.say msg.ChatID "Медиа для номинанта сохранено ✅", sess1)

/-- Method `App.handleCreateNomineeTextStep`. -/
def handleCreateNomineeTextStep (a : App) (msg : Message) (userID : Int) (sess : Session) :
    App × Session :=
  let nominationID := sess.CreatingNomineeForNominationID
  if nominationID = 0 then (a, sess)
  else
    let name := TrimSpace msg.Text
    if name = "" then
      (a.say msg.ChatID "Имя номинанта не может быть пустым. Отправь текстом имя.", sess)
    else
      let sess1 := { sess with CreatingNomineeForNominationID := 0 }
      let r1 := a.store.IsNominationOwner nominationID userID
      let a1 := a.withStore r1.2
      match r1.1 with
      | .error _ =>
        ((a1.Println "IsNominationOwner(create nominee text):").say msg.ChatID
          "Ошибка проверки прав.", sess1)
      | .ok false => (a1.say msg.ChatID "Только автор комнаты может добавлять номинантов.", sess1)
      | .ok true =>
        let r2 := a1.store.CreateNominee nominationID name
        let a2 := a1.withStore r2.2
        match r2.1 with
        | .error _ =>
          ((a2.Println "CreateNominee(create nominee text):").say msg.ChatID
            "Не удалось создать номинанта.", sess1)
        | .ok nomineeID =>
          (a2.say msg.ChatID ("Номинант «" ++ name ++ "» добавлен ✅\n" ++
            "Теперь отправь одним сообщением фото или видео для него (опционально)."),
            { sess1 with WaitingMediaForNomineeID := nomineeID })

/-- The text of the `/start` reply. -/
def startText : String :=
  "Привет! Это бот для голосования по номинациям в комнатах.\n\n" ++
  "Основные команды:\n" ++
  "/create_room Название | Пароль – создать свою комнату\n" ++
  "/my_rooms – список твоих комнат\n" ++
  "/room ID Пароль – войти в комнату как участник\n" ++
  "/nominations – показать номинации в активной комнате (с ID)\n" ++
  "/add_nomination roomID | Название | Описание – добавить номинацию (только автор комнаты)\n" ++
  "/add_nominee nominationID | Имя – добавить номинанта\n" ++
  "/set_nominee_media nomineeID – привязать/сменить фото/видео номинанта\n" ++
  "/delete_nomination nominationID – удалить номинацию\n" ++
  "/delete_nominee nomineeID – удалить номинанта\n" ++
  "/results nominationID – результаты одной номинации (только автор комнаты)"

/-- End of a handler that worked on the session pointer: the record of the
sender in the manager is what the handler left in `sess`. -/
def App.withSession (userID : Int) (r : App × Session) : App :=
  { r.1 with sessions := r.1.sessions.put userID r.2 }

/-- The `switch msg.Command()` of `App.handleMessage`; `sess` is the record
`getSession` returned. -/
def dispatchCommand (a : App) (msg : Message) (userID : Int) (sess : Session) (now : Int) : App :=
  if msg.Command = "start" then
    a.Send (.Photo msg.ChatID (.FilePath "assets/start.jpg") (bytesOf startText) [])
  else if msg.Command = "help" then a.say msg.ChatID "Смотри /start – там всё расписано 🙂"
  else if msg.Command = "create_room" then handleCreateRoom a msg userID now
  else if msg.Command = "my_rooms" then handleMyRooms a msg userID
  else if msg.Command = "room" then handleJoinRoom a msg userID
  else if msg.Command = "nominations" then
    App.withSession userID (handleNominationsCommand a msg userID sess)
  else if msg.Command = "add_nomination" then handleAddNomination a msg userID
  else if msg.Command = "add_nominee" then handleAddNominee a msg userID
  else if msg.Command = "set_nominee_media" then
    App.withSession userID (handleSetNomineeMedia a msg userID sess)
  else if msg.Command = "delete_nomination" then handleDeleteNomination a msg userID
  else if msg.Command = "delete_nominee" then handleDeleteNominee a msg userID
  else if msg.Command = "results" then handleResults a msg userID
  else a.say msg.ChatID "Не знаю такой команды. Попробуй /start"

/-- Method `App.handleMessage`.  `toLower` is Go's `strings.ToLower`, whose
Unicode tables are not reproduced; `now` is the clock reading of the event. -/
def handleMessage (toLower : String → String) (a : App) (msg : Message) (now : Int) : App :=
  match msg.From with
  | none => a
  | some userID =>
    let g := a.sessions.Get userID
    let sess := g.1
    let a0 := { a with sessions := g.2 }
    if sess.WaitingMediaForNomineeID ≠ 0 ∧ (msg.Photo.length > 0 ∨ msg.Video.isSome) then
      App.withSession userID (handleMediaUpload a0 msg userID sess)
    else if sess.CreatingNomineeForNominationID ≠ 0 ∧ msg.IsCommand = false ∧
        TrimSpace msg.Text ≠ "" then
      App.withSession userID (handleCreateNomineeTextStep a0 msg userID sess)
    else if msg.IsCommand = true then dispatchCommand a0 msg userID sess now
    else if Contains (toLower msg.Text) "номинац" = true then
      a0.say msg.ChatID
        "Чтобы увидеть номинации в комнате – используй команду /nominations (после /room)."
    else a0

/-! ## Button handlers of `app.go`: the cases of `App.handleCallback` -/

/-- Case `back:nominations` of `App.handleCallback`. -/
def callbackBack (a : App) (cq : CallbackQuery) (userID : Int) (sess : Session) : App × Session :=
  let sess1 := { sess with WaitingMediaForNomineeID := 0, CreatingNomineeForNominationID := 0 }
  if sess1.ActiveRoomID = 0 then
    (a.say cq.ChatID "Сначала зайди в комнату: /room ID Пароль", sess1)
  else
    let r := sendNominationsList a cq.ChatID userID sess1.ActiveRoomID
    match r.1 with
    | some _ => (r.2.Println "back:nominations -> sendNominationsList:", sess1)
    | none => (r.2, sess1)

/-- Case `nomination:<id>` of `App.handleCallback`. -/
def callbackNomination (a : App) (cq : CallbackQuery) (userID : Int) (sess : Session) :
    App × Session :=
  match ParseInt (TrimPrefix cq.Data "nomination:") with
  | none => (a, sess)
  | some nomID =>
    let r := a.store.GetNominationRoomID nomID
    let a1 := a.withStore r.2
    match r.1 with
    | .error .ErrNotFound => (a1.say cq.ChatID "Эта номинация больше не существует.", sess)
    | .error _ => (a1.Println "get nomination room:", sess)
    | .ok roomID =>
      if sess.ActiveRoomID ≠ roomID then
        (a1.say cq.ChatID
          "У тебя нет доступа к этой комнате. Сначала зайди в неё командой /room.", sess)
      else
        let r2 := sendNominees a1 cq.ChatID userID nomID
        match r2.1 with
        | some _ => (r2.2.Println "sendNominees:", sess)
        | none => (r2.2, sess)

/-- Case `vote:<nomineeID>` of `App.handleCallback`; `now` is `time.Now()`. -/
def callbackVote (a : App) (cq : CallbackQuery) (userID : Int) (sess : Session) (now : Int) :
    App × Session :=
  match ParseInt (TrimPrefix cq.Data "vote:") with
  | none => (a, sess)
  | some nomineeID =>
    let r := a.store.GetNomineeNominationAndRoom nomineeID
    let a1 := a.withStore r.2
    match r.1 with
    | .error .ErrNotFound => (a1.say cq.ChatID "Этот номинант больше не существует.", sess)
    | .error _ => (a1.Println "get nominee nomination/room:", sess)
    | .ok (nominationID, roomID) =>
      if sess.ActiveRoomID ≠ roomID then
        (a1.say cq.ChatID
          "У тебя нет доступа к этой комнате. Сначала зайди в неё командой /room.", sess)
      else
        let userHash := hashUserID a1.voteSalt userID
        let r2 := a1.store.RecordVote userHash nominationID nomineeID now
        let a2 := a1.withStore r2.2
        match r2.1 with
        | .error _ =>
          ((a2.Println "record vote:").say cq.ChatID "Что-то пошло не так, попробуй ещё раз.", sess)
        | .ok _ =>
          let r3 := a2.store.GetNomineeName nomineeID
          let a3 := a2.withStore r3.2
          let named : String × App := match r3.1 with
            | .ok name => (name, a3)
            | .error _ => ("", a3.Println "get nominee name:")
          let name := if named.1 = "" then "выбранного номинанта" else named.1
          let a4 := named.2.say cq.ChatID ("Голос принят! Ты проголосовал за: " ++ name)
          if sess.ActiveRoomID ≠ 0 then
            let r4 := sendNominationsList a4 cq.ChatID userID sess.ActiveRoomID
            match r4.1 with
            | some _ => (r4.2.Println "sendNominationsList(after vote):", sess)
            | none => (r4.2, sess)
          else (a4, sess)

/-- Case `res_nom:<nominationID>` of `App.handleCallback`. -/
def callbackResults (a : App) (cq : CallbackQuery) (userID : Int) (sess : Session) :
    App × Session :=
  match ParseInt (TrimPrefix cq.Data "res_nom:") with
  | none => (a, sess)
  | some nominationID =>
    let r := a.store.GetNominationRoomID nominationID
    let a1 := a.withStore r.2
    match r.1 with
    | .error .ErrNotFound => (a1.say cq.ChatID "Номинация не найдена.", sess)
    | .error _ =>
      ((a1.Println "res_nom get room:").say cq.ChatID "Ошибка при получении номинации.", sess)
    | .ok roomID =>
      let r1 := a1.store.IsRoomOwner roomID userID
      let a2 := a1.withStore r1.2
      match r1.1 with
      | .error _ => ((a2.Println "IsRoomOwner(res_nom):").say cq.ChatID "Ошибка проверки прав.", sess)
      | .ok false => (a2.say cq.ChatID "Результаты может смотреть только автор комнаты.", sess)
      | .ok true =>
        let r2 := a2.store.GetRoomTitle roomID
        let a3 := a2.withStore r2.2
        let titled : String × App := match r2.1 with
          | .ok title => (title, a3)
          | .error .ErrNotFound => ("", a3)
          | .error _ => ("", a3.Println "res_nom get room title:")
        let roomTitle := if titled.1 = "" then "ID " ++ toString roomID else titled.1
        let r3 := titled.2.store.GetNominationName nominationID
        let a4 := titled.2.withStore r3.2
        let named : String × App := match r3.1 with
          | .ok name => (name, a4)
          | .error .ErrNotFound => ("", a4)
          | .error _ => ("", a4.Println "res_nom get nomination name:")
        let nominationName := if named.1 = "" then "ID " ++ toString nominationID else named.1
        let r4 := named.2.store.ResultsByNomination nominationID
        let a5 := named.2.withStore r4.2
        match r4.1 with
        | .error _ =>
          ((a5.Println "res_nom results:").say cq.ChatID "Не удалось получить результаты.", sess)
        | .ok results =>
          (a5.Send (.Message cq.ChatID
            (resultsText roomTitle roomID nominationName nominationID results) backKeyboard), sess)

/-- Case `addnom:<nominationID>` of `App.handleCallback`. -/
def callbackAddNominee (a : App) (cq : CallbackQuery) (userID : Int) (sess : Session) :
    App × Session :=
  match ParseInt (TrimPrefix cq.Data "addnom:") with
  | none => (a, sess)
  | some nominationID =>
    let r := a.store.IsNominationOwner nominationID userID
    let a1 := a.withStore r.2
    match r.1 with
    | .error _ =>
      ((a1.Println "IsNominationOwner(addnom):").say cq.ChatID "Ошибка проверки прав.", sess)
    | .ok false => (a1.say cq.ChatID "Только автор комнаты может добавлять номинантов.", sess)
    | .ok true =>
      (a1.Send (.Message cq.ChatID
          (bytesOf "Отправь имя нового номинанта одним текстовым сообщением.") backKeyboard),
        { sess with CreatingNomineeForNominationID := nominationID, WaitingMediaForNomineeID := 0 })

/-- Case `setmedia:<nomineeID>` of `App.handleCallback`. -/
def callbackSetMedia (a : App) (cq : CallbackQuery) (userID : Int) (sess : Session) :
    App × Session :=
  match ParseInt (TrimPrefix cq.Data "setmedia:") with
  | none => (a, sess)
  | some nomineeID =>
    let r := a.store.IsNomineeOwner nomineeID userID
    let a1 := a.withStore r.2
    match r.1 with
    | .error _ =>
      ((a1.Println "IsNomineeOwner(setmedia):").say cq.ChatID "Ошибка проверки прав.", sess)
    | .ok false =>
      (a1.say cq.ChatID "Только автор комнаты может менять медиа у номинантов.", sess)
    | .ok true =>
      (a1.Send (.Message cq.ChatID (bytesOf
          "Ок! Теперь отправь фото или видео для этого номинанта одним следующим сообщением.")
          backKeyboard),
        { sess with WaitingMediaForNomineeID := nomineeID, CreatingNomineeForNominationID := 0 })

/-- Case `delnom:<nomineeID>` of `App.handleCallback`. -/
def callbackDeleteNominee (a : App) (cq : CallbackQuery) (userID : Int) (sess : Session) :
    App × Session :=
  match ParseInt (TrimPrefix cq.Data "delnom:") with
  | none => (a, sess)
  | some nomineeID =>
    let r := a.store.IsNomineeOwner nomineeID userID
    let a1 := a.withStore r.2
    match r.1 with
    | .error _ =>
      ((a1.Println "IsNomineeOwner(delnom):").say cq.ChatID "Ошибка проверки прав.", sess)
    | .ok false => (a1.say cq.ChatID "Только автор комнаты может удалять номинантов.", sess)
    | .ok true =>
      let r2 := a1.store.DeleteNominee nomineeID
      let a2 := a1.withStore r2.2
      match r2.1 with
      | .error _ =>
        ((a2.Println "DeleteNominee(delnom):").say cq.ChatID "Не удалось удалить номинанта.", sess)
      | .ok false => (a2.say cq.ChatID "Номинант с таким ID не найден.", sess)
      | .ok true =>
        (a2.Send (.Message cq.ChatID (bytesOf ("Номинант удалён вместе с его голосами ✅\n" ++
          "Если хочешь обновить список, просто снова открой эту номинацию.")) backKeyboard), sess)

/-- Method `App.handleCallback`; `now` is the clock reading of the event. -/
def handleCallback (a : App) (cq : CallbackQuery) (now : Int) : App :=
  match cq.From with
  | none => a
  | some userID =>
    let g := a.sessions.Get userID
    let sess := g.1
    let a0 := ({ a with sessions := g.2 } : App).Send (.Callback cq.ID)
    if cq.Data = "back:nominations" then App.withSession userID (callbackBack a0 cq userID sess)
    else if HasPrefix cq.Data "nomination:" = true then
      App.withSession userID (callbackNomination a0 cq userID sess)
    else if HasPrefix cq.Data "vote:" = true then
      App.withSession userID (callbackVote a0 cq userID sess now)
    else if HasPrefix cq.Data "res_nom:" = true then
      App.withSession userID (callbackResults a0 cq userID sess)
    else if HasPrefix cq.Data "addnom:" = true then
      App.withSession userID (callbackAddNominee a0 cq userID sess)
    else if HasPrefix cq.Data "setmedia:" = true then
      App.withSession userID (callbackSetMedia a0 cq userID sess)
    else if HasPrefix cq.Data "delnom:" = true then
      App.withSession userID (callbackDeleteNominee a0 cq userID sess)
    else App.withSession userID (a0, sess)

/-- An inbound event: a message or a button press, with the clock reading. -/
inductive Update where
  | Message (msg : Message) (now : Int)
  | CallbackQuery (cq : CallbackQuery) (now : Int)
deriving DecidableEq

/-- Body of the loop of `App.Run` for one update. -/
def handleUpdate (toLower : String → String) (a : App) : Update → App
  | .Message msg now => handleMessage toLower a msg now
  | .CallbackQuery cq now => handleCallback a cq now

/-- The loop of `App.Run` over the updates received, in order. -/
def run (toLower : String → String) (a : App) (updates : List Update) : App :=
  updates.foldl (handleUpdate toLower) a

/-- Function `app.New` on a store: nothing sent, a fresh session manager. -/
def New (store : Store) (voteSalt : String) : App :=
  { bot := [], store := store, sessions := NewManager, voteSalt := voteSalt, log := [] }

/-! ## Vocabulary of the statements -/

/-- Arguments of one `RecordVote` call. -/
structure VoteCall where
  userHash : String
  nominationID : Int
  nomineeID : Int
  createdAt : Int
deriving DecidableEq

/-- Database after a sequence of `RecordVote` calls made one after the other. -/
def recordVotes (s : DB) : List VoteCall → DB
  | [] => s
  | c :: cs => recordVotes (RecordVote s c.userHash c.nominationID c.nomineeID c.createdAt).2 cs

/-- Vote rows of the pair `(userHash, nominationID)`. -/
def votesOfPair (s : DB) (userHash : String) (nominationID : Int) : List VoteRow :=
  s.votes.filter (fun v => v.user_hash = userHash ∧ v.nomination_id = nominationID)

/-- Number of vote rows whose `nominee_id` is `nomineeID`. -/
def voteCount (s : DB) (nomineeID : Int) : Int :=
  ((s.votes.filter (fun v => v.nominee_id = nomineeID)).length : Int)

/-- Result list the specification describes, before ordering: one entry per
nominee whose nomination is `nominationID`, carrying the nominee's name and
the number of vote rows whose nominee id is that nominee. -/
def resultRows (s : DB) (nominationID : Int) : List NomineeResult :=
  (s.nominees.filter (fun x => x.nomination_id = nominationID)).map
    (fun x => { ID := x.id, Name := x.name, Votes := voteCount s x.id })

/-- The count a result list shows for nominee `nomineeID`, if it lists it. -/
def shownCount (rs : Except StoreError (List NomineeResult)) (nomineeID : Int) : Option Int :=
  match rs with
  | .ok l => (l.find? (fun r => r.ID = nomineeID)).map (·.Votes)
  | .error _ => none

/-- Concatenation of character sequences with `sep` between them. -/
def joinChars (sep : Char) : List (List Char) → List Char
  | [] => []
  | [x] => x
  | x :: y :: rest => x ++ sep :: joinChars sep (y :: rest)

/-- Function `strings.Join(elems, sep)` of Go for a one-character separator. -/
def Join (elems : List String) (sep : Char) : String :=
  ⟨joinChars sep (elems.map String.data)⟩

/-- Lowercase hexadecimal encoding of a sequence of bytes, two digits per
byte. -/
def hexLower (bytes : List Nat) : String :=
  ⟨bytes.flatMap (fun b => [Nat.digitChar (b / 16), Nat.digitChar (b % 16)])⟩

/-- The UTF-8 bytes of a string as Lean's own encoder `String.toUTF8` gives
them, as natural numbers. -/
def utf8Bytes (s : String) : List Nat := s.toUTF8.data.toList.map UInt8.toNat

/-- The user hash as the specification words it: the lowercase hexadecimal
encoding of the SHA-256 digest of the UTF-8 bytes of the salt, followed by `:`
(byte 58), followed by the decimal representation of the user id. -/
def specUserHash (salt : String) (userID : Int) : String :=
  hexLower (Sum256 (utf8Bytes salt ++ [58] ++ utf8Bytes (toString userID)))

/-- The session of user `userID` as `getSession` would return it. -/
def App.session (a : App) (userID : Int) : Session := (a.sessions.Get userID).1

/-- The sender of an update, if it has one. -/
def Update.sender : Update → Option Int
  | .Message msg _ => msg.From
  | .CallbackQuery cq _ => cq.From

/-- User `userID` owns room `roomID`. -/
def ownsRoom (db : DB) (roomID userID : Int) : Prop :=
  ∃ r ∈ db.rooms, r.id = roomID ∧ r.owner_user_id = userID

/-- User `userID` owns the room of nomination `nominationID`. -/
def ownsNomination (db : DB) (nominationID userID : Int) : Prop :=
  ∃ m ∈ db.nominations, m.id = nominationID ∧
    ∃ r ∈ db.rooms, r.id = m.room_id ∧ r.owner_user_id = userID

/-- User `userID` owns the room of the nomination of nominee `nomineeID`. -/
def ownsNominee (db : DB) (nomineeID userID : Int) : Prop :=
  ∃ x ∈ db.nominees, x.id = nomineeID ∧ ∃ m ∈ db.nominations, m.id = x.nomination_id ∧
    ∃ r ∈ db.rooms, r.id = m.room_id ∧ r.owner_user_id = userID

/-- The owner gate on a store call: a write on nominations or nominees, and
the results query, require that `userID` owns the room of the target in `db`;
every other call is free. -/
def StoreCall.permitted (db : DB) (userID : Int) : StoreCall → Prop
  | .CreateNomination roomID _ _ => ownsRoom db roomID userID
  | .CreateNominee nominationID _ => ownsNomination db nominationID userID
  | .DeleteNomination nominationID => ownsNomination db nominationID userID
  | .DeleteNominee nomineeID => ownsNominee db nomineeID userID
  | .UpdateNomineeMedia nomineeID _ _ => ownsNominee db nomineeID userID
  | .ResultsByNomination nominationID => ownsNomination db nominationID userID
  | _ => True

/-- The database after the statement of a store call. -/
def StoreCall.effect : StoreCall → DB → DB
  | .CreateRoom ownerID title password now, db =>
    (TgVoteBot.CreateRoom db ownerID title password now).2
  | .CreateNomination roomID name description, db =>
    (TgVoteBot.CreateNomination db roomID name description).2
  | .DeleteNomination nominationID, db => (TgVoteBot.DeleteNomination db nominationID).2
  | .CreateNominee nominationID name, db => (TgVoteBot.CreateNominee db nominationID name).2
  | .DeleteNominee nomineeID, db => (TgVoteBot.DeleteNominee db nomineeID).2
  | .UpdateNomineeMedia nomineeID fileID mediaType, db =>
    (TgVoteBot.UpdateNomineeMedia db nomineeID fileID mediaType).2
  | .RecordVote userHash nominationID nomineeID createdAt, db =>
    (TgVoteBot.RecordVote db userHash nominationID nomineeID createdAt).2
  | _, db => db

/-- The store after one journalled call. -/
def Store.after (st : Store) (c : StoreCall) : Store :=
  { db := if st.failing then st.db else c.effect st.db
    failing := st.failing
    journal := st.journal ++ [c] }

/-- The store after a sequence of calls. -/
def Store.afterAll (st : Store) (calls : List StoreCall) : Store :=
  calls.foldl Store.after st

/-- Every call of the sequence passes the owner gate for user `userID` in the
database as it stands when the call is made. -/
def Store.permittedAll (userID : Int) : Store → List StoreCall → Prop
  | _, [] => True
  | st, c :: cs => StoreCall.permitted st.db userID c ∧ Store.permittedAll userID (st.after c) cs

/-- Application `b` comes from `a` by store calls that each pass the owner
gate for user `userID` at the moment of the call, with the session manager and
the salt untouched. -/
def Gated (userID : Int) (a b : App) : Prop :=
  ∃ calls, b.store = a.store.afterAll calls ∧ Store.permittedAll userID a.store calls ∧
    b.sessions = a.sessions ∧ b.voteSalt = a.voteSalt

/-- Outcome of one event of user `userID`: `b` comes from `a` by store calls
that each pass the owner gate at the moment of the call, the salt is kept, the
session of `userID` is `s` afterwards and every other session is as before. -/
def Handled (userID : Int) (a b : App) (s : Session) : Prop :=
  (∃ calls, b.store = a.store.afterAll calls ∧ Store.permittedAll userID a.store calls) ∧
  b.voteSalt = a.voteSalt ∧
  ∀ v, b.session v = if v = userID then s else a.session v

/-- Scenario of the storage tests: one room, one nomination, nominees Pizza
(id 1) and Sushi (id 2). -/
def dishes : DB :=
  let s0 := (CreateRoom DB.empty 1 "Party" "pw1" 0).2
  let s1 := (CreateNomination s0 1 "Best Dish" "").2
  let s2 := (CreateNominee s1 1 "Pizza").2
  (CreateNominee s2 1 "Sushi").2

/-- The scenario after user `userA` voted for Pizza. -/
def dishesVoted : DB := (RecordVote dishes "userA" 1 1 100).2

/-- Scenario with two nominations: the dishes (Pizza 1, Sushi 2) and a second
nomination 2 with nominee Tea (id 3); `userA` voted Pizza and Tea, `userB`
voted Sushi. -/
def party : DB :=
  let s1 := (CreateNomination dishes 1 "Best Drink" "").2
  let s2 := (CreateNominee s1 2 "Tea").2
  let s3 := (RecordVote s2 "userA" 1 1 100).2
  let s4 := (RecordVote s3 "userB" 1 2 110).2
  (RecordVote s4 "userA" 2 3 120).2

/-- Scenario: the owner of the dishes room (user 1) is in room 1 with both
pending fields set: media awaited for Sushi (nominee 2), a name awaited for
nomination 1. -/
def bothPendingApp : App :=
  { bot := [], store := ⟨dishes, false, []⟩, sessions := ⟨[(1, ⟨1, 2, 1⟩)]⟩,
    voteSalt := "salt", log := [] }

/-- A message of user 1 that is a command and carries two photo sizes. -/
def photoCommandMessage : Message :=
  ⟨some 1, 10, "/add_nominee 1 | Burger", true, "add_nominee", "1 | Burger",
    [⟨"small"⟩, ⟨"big"⟩], none⟩

/-- Scenario: user 2, who owns no room, is in the dishes room with a nominee
name awaited for nomination 1. -/
def nameStepApp : App :=
  { bot := [], store := ⟨dishes, false, []⟩, sessions := ⟨[(2, ⟨1, 0, 1⟩)]⟩,
    voteSalt := "salt", log := [] }

/-- The text message `Burger` of user `u` in chat `chat`. -/
def burgerMessage (u chat : Int) : Message :=
  ⟨some u, chat, "Burger", false, "", "", [], none⟩

/-- The text message `Burger` of user `u` as an update. -/
def burgerUpdate (u chat : Int) : Update := .Message (burgerMessage u chat) 500

/-- Scenario: user 2, who owns no room, has media awaited for Sushi (nominee
2), as if left over from a time when the check passed. -/
def strangerAwaitsMediaApp : App :=
  { bot := [], store := ⟨dishes, false, []⟩, sessions := ⟨[(2, ⟨1, 2, 0⟩)]⟩,
    voteSalt := "salt", log := [] }

/-- A message of user 2 that carries a video and no photo. -/
def videoMessage : Message :=
  ⟨some 2, 20, "", false, "", "", [], some ⟨"clip"⟩⟩

/-- Scenario: the owner of the dishes room (user 1) has a nominee name awaited
for nomination 1 and no media awaited. -/
def awaitNameApp : App :=
  { bot := [], store := ⟨dishes, false, []⟩, sessions := ⟨[(1, ⟨1, 0, 1⟩)]⟩,
    voteSalt := "salt", log := [] }

/-- A non-command message of user 1 whose text is three blanks. -/
def blankMessage : Message :=
  ⟨some 1, 10, "   ", false, "", "", [], none⟩

/-- Scenario: user 2 has entered the dishes room and has both pending fields
set. -/
def stuckApp : App :=
  { bot := [], store := ⟨dishes, false, []⟩, sessions := ⟨[(2, ⟨1, 2, 1⟩)]⟩,
    voteSalt := "salt", log := [] }

/-- The press of the back button by user `u`. -/
def backPress (u chat : Int) : CallbackQuery := ⟨"q1", some u, chat, "back:nominations"⟩

/-- The texts with which a results request is turned down: no access, nomination
unknown or not in the room, or a store error.  None of them depends on the
database. -/
def resultsRefusals : List String :=
  ["Только автор комнаты может смотреть результаты.",
   "Результаты может смотреть только автор комнаты.",
   "Номинация не найдена.",
   "Номинация с таким ID не принадлежит этой комнате.",
   "Ошибка проверки прав.",
   "Ошибка при получении номинации.",
   "Ошибка при проверке номинации."]

/-- Scenario: user 2 has entered the dishes room and is idle. -/
def guestApp : App :=
  { bot := [], store := ⟨dishes, false, []⟩, sessions := ⟨[(2, ⟨1, 0, 0⟩)]⟩,
    voteSalt := "salt", log := [] }

/-- The command `/results 1` of user `u`. -/
def resultsCommand (u chat : Int) : Update :=
  .Message ⟨some u, chat, "/results 1", true, "results", "1", [], none⟩ 500

/-- The update is a results request for nomination `n` by user `u`, as the
handlers read it: a `/results` command that reaches the command switch and
whose only argument parses to `n`, or whose first two arguments parse to a room
id and to `n`; or a button press whose payload is `res_nom:` followed by `n`. -/
def requestsResults (a : App) (u n : Int) : Update → Prop
  | .Message msg _ =>
    msg.IsCommand = true ∧ msg.Command = "results" ∧
    ((a.session u).WaitingMediaForNomineeID = 0 ∨ (msg.Photo = [] ∧ msg.Video = none)) ∧
    ((∃ arg, Fields (TrimSpace msg.CommandArguments) = [arg] ∧ ParseInt arg = some n) ∨
      ∃ arg0 arg1 rest r, Fields (TrimSpace msg.CommandArguments) = arg0 :: arg1 :: rest ∧
        ParseInt arg0 = some r ∧ ParseInt arg1 = some n)
  | .CallbackQuery cq _ =>
    HasPrefix cq.Data "res_nom:" = true ∧ ParseInt (TrimPrefix cq.Data "res_nom:") = some n

/-- What was sent before the reply to a request: for a button press the
acknowledgement of the press. -/
def acknowledgement : Update → List Chattable
  | .Message _ _ => []
  | .CallbackQuery cq _ => [.Callback cq.ID]

/-- The chat an update comes from. -/
def Update.chat : Update → Int
  | .Message msg _ => msg.ChatID
  | .CallbackQuery cq _ => cq.ChatID

/-- The command `/room <args>` of user `u`. -/
def roomCommand (u chat : Int) (args : String) : Message :=
  ⟨some u, chat, "/room " ++ args, true, "room", args, [], none⟩

/-- The room ids of the database are positive, and so is the next one. -/
def roomIdsPositive (db : DB) : Prop :=
  (∀ room ∈ db.rooms, 0 < room.id) ∧ 0 < db.next_room_id

/-- Every vote row is recorded under the nomination of the nominee it
references. -/
def votesWellFormed (s : DB) : Prop :=
  ∀ v ∈ s.votes, ∀ x ∈ s.nominees, x.id = v.nominee_id → x.nomination_id = v.nomination_id

/-- The two-nomination scenario after the storage call
`RecordVote("userC", 1, 3, 130)`: a vote under nomination 1 (the dishes) for
nominee 3 (Tea, of nomination 2). -/
def mismatched : DB := (RecordVote party "userC" 1 3 130).2

/-- Scenario: a session map in which user 1 and user 2 have records. -/
def twoUsers : Manager := ⟨[(1, ⟨1, 2, 0⟩), (2, ⟨1, 0, 0⟩)]⟩

/-- At most one pending expectation: the two pending fields of the session are
not both non-zero. -/
def pendingOk (s : Session) : Prop :=
  ¬ (s.WaitingMediaForNomineeID ≠ 0 ∧ s.CreatingNomineeForNominationID ≠ 0)

/-- What one event does to the pending fields of a session: it leaves both as
they are, or it leaves one of them 0. -/
def pendingStep (s t : Session) : Prop :=
  (t.WaitingMediaForNomineeID = s.WaitingMediaForNomineeID ∧
    t.CreatingNomineeForNominationID = s.CreatingNomineeForNominationID) ∨
  t.WaitingMediaForNomineeID = 0 ∨ t.CreatingNomineeForNominationID = 0

/-- The application states reachable from `a0`: by handling an update, or by a
change of the store that happens around the bot and that `interfere` allows. -/
inductive Reachable (toLower : String → String) (interfere : Store → Store → Prop) (a0 : App) :
    App → Prop
  | start : Reachable toLower interfere a0 a0
  | step (a : App) (upd : Update) :
    Reachable toLower interfere a0 a → Reachable toLower interfere a0 (handleUpdate toLower a upd)
  | world (a : App) (st : Store) :
    Reachable toLower interfere a0 a → interfere a.store st →
    Reachable toLower interfere a0 (a.withStore st)

/-- The press of the button `vote:<payload>` by user `u`. -/
def votePress (u chat : Int) (payload : String) : CallbackQuery :=
  ⟨"q1", some u, chat, "vote:" ++ payload⟩

/-- The discipline of the vote call: a `RecordVote` is made under the
nomination of a nominee that has the voted id; every other call is free. -/
def StoreCall.voteSound (db : DB) : StoreCall → Prop
  | .RecordVote _ nominationID nomineeID _ =>
    ∃ x ∈ db.nominees, x.id = nomineeID ∧ x.nomination_id = nominationID
  | _ => True

/-- Every call of the sequence keeps the discipline of the vote call in the
database as it stands when the call is made. -/
def Store.soundAll : Store → List StoreCall → Prop
  | _, [] => True
  | st, c :: cs => StoreCall.voteSound st.db c ∧ Store.soundAll (st.after c) cs

/-- Store `t` comes from store `s` by calls that keep the discipline of the
vote call. -/
def SoundTo (s t : Store) : Prop :=
  ∃ calls, t = s.afterAll calls ∧ Store.soundAll s calls

/-- A command message of user `u`: the command word and its arguments. -/
def commandMessage (u chat : Int) (command args : String) : Message :=
  ⟨some u, chat, "/" ++ command ++ " " ++ args, true, command, args, [], none⟩

/-- A short history from the empty store: user 1 creates a room, a nomination
and a nominee, user 2 enters the room and votes for the nominee. -/
def votingHistory : List Update :=
  [.Message (commandMessage 1 10 "create_room" "Party | pw1") 100,
   .Message (commandMessage 1 10 "add_nomination" "1 | Best Dish") 101,
   .Message (commandMessage 1 10 "add_nominee" "1 | Pizza") 102,
   .Message (commandMessage 2 20 "room" "1 pw1") 103,
   .CallbackQuery (votePress 2 20 "1") 104]

/-- The chat an outbound message goes to; the acknowledgement of a button press
goes to no chat. -/
def Chattable.chat : Chattable → Option Int
  | .Message chatID _ _ => some chatID
  | .Photo chatID _ _ _ => some chatID
  | .Video chatID _ _ _ => some chatID
  | .Callback _ => none

/-- Application `b` has sent what `a` had sent and possibly more. -/
def Extends (a b : App) : Prop := ∃ out, b.bot = a.bot ++ out

/-- Between `a` and `b` at least one message was sent to chat `chatID`. -/
def Replied (chatID : Int) (a b : App) : Prop :=
  ∃ out, b.bot = a.bot ++ out ∧ ∃ c ∈ out, c.chat = some chatID

/-- The payload prefixes of the buttons that carry a numeric id. -/
def buttonPrefixes : List String :=
  ["nomination:", "vote:", "res_nom:", "addnom:", "setmedia:", "delnom:"]

/-- Scenario: as `guestApp`, with a storage engine that fails every call. -/
def brokenApp : App :=
  { bot := [], store := ⟨dishes, true, []⟩, sessions := ⟨[(2, ⟨1, 0, 0⟩)]⟩,
    voteSalt := "salt", log := [] }

/-- Scenario: user 1 has created the room `Party` with the password `my pass` in
an empty store. -/
def spacedRoomApp : App :=
  handleMessage (fun s => s) (New ⟨DB.empty, false, []⟩ "salt")
    (commandMessage 1 10 "create_room" "Party | my pass") 100

/-! ## Lemmas on the result query -/

theorem leftJoinVotes_cons (x : NomineeRow) (L : List NomineeRow) (V : List VoteRow) :
    leftJoinVotes (x :: L) V = leftJoinVotes [x] V ++ leftJoinVotes L V := by
  simp [leftJoinVotes]

theorem leftJoinVotes_nil (V : List VoteRow) : leftJoinVotes [] V = [] := rfl

/-- Every row the join produces for a single nominee carries that nominee. -/
theorem leftJoinVotes_single_fst (x : NomineeRow) (V : List VoteRow) :
    ∀ p ∈ leftJoinVotes [x] V, p.1 = x := by
  intro p hp
  simp only [leftJoinVotes, List.flatMap_cons, List.flatMap_nil, List.append_nil] at hp
  split at hp
  · simpa using congrArg Prod.fst (List.mem_singleton.mp hp)
  · obtain ⟨v, -, rfl⟩ := List.mem_map.mp hp
    rfl

theorem leftJoinVotes_single_ne_nil (x : NomineeRow) (V : List VoteRow) :
    leftJoinVotes [x] V ≠ [] := by
  simp only [leftJoinVotes, List.flatMap_cons, List.flatMap_nil, List.append_nil]
  split
  · simp
  · rename_i h
    simpa using h

/-- The non-`NULL` rows of a single nominee are one per matching vote. -/
theorem leftJoinVotes_single_count (x : NomineeRow) (V : List VoteRow) :
    ((leftJoinVotes [x] V).filter (fun p => p.2.isSome)).length =
      (V.filter (fun v => v.nominee_id = x.id)).length := by
  simp only [leftJoinVotes, List.flatMap_cons, List.flatMap_nil, List.append_nil]
  split
  · rename_i h
    simp [h]
  · simp [List.filter_map, Function.comp_def]

theorem leftJoinVotes_fst_mem (L : List NomineeRow) (V : List VoteRow) :
    ∀ p ∈ leftJoinVotes L V, p.1 ∈ L := by
  induction L with
  | nil => simp [leftJoinVotes_nil]
  | cons x L ih =>
    intro p hp
    rw [leftJoinVotes_cons, List.mem_append] at hp
    rcases hp with hp | hp
    · rw [leftJoinVotes_single_fst x V p hp]; exact List.mem_cons_self _ _
    · exact List.mem_cons_of_mem _ (ih p hp)

/-- The `WHERE` clause only reads columns of `nominees`, so it can be applied
before the join. -/
theorem leftJoinVotes_filter (L : List NomineeRow) (V : List VoteRow) (q : NomineeRow → Bool) :
    (leftJoinVotes L V).filter (fun p => q p.1) = leftJoinVotes (L.filter q) V := by
  induction L with
  | nil => simp [leftJoinVotes_nil]
  | cons x L ih =>
    rw [leftJoinVotes_cons, List.filter_append, ih]
    by_cases hq : q x = true
    · rw [List.filter_cons_of_pos hq, leftJoinVotes_cons (L := L.filter q)]
      congr 1
      apply List.filter_eq_self.mpr
      intro p hp
      rw [leftJoinVotes_single_fst x V p hp]; exact hq
    · rw [List.filter_cons_of_neg hq]
      have : (leftJoinVotes [x] V).filter (fun p => q p.1) = [] := by
        apply List.filter_eq_nil_iff.mpr
        intro p hp
        rw [leftJoinVotes_single_fst x V p hp]; exact hq
      rw [this, List.nil_append]

theorem dedup_replicate_append {α : Type} [DecidableEq α] (a : α) (l : List α) (h : a ∉ l) :
    ∀ k : Nat, (List.replicate (k + 1) a ++ l).dedup = a :: l.dedup := by
  intro k
  induction k with
  | zero => simpa using List.dedup_cons_of_not_mem h
  | succ k ih =>
    rw [List.replicate_succ, List.cons_append, List.dedup_cons_of_mem, ih]
    simp [List.replicate_succ]

/-- With unique nominee ids, `GROUP BY n.id, n.name` has one group per
nominee, in the order of the nominees. -/
theorem leftJoinVotes_groups (L : List NomineeRow) (V : List VoteRow)
    (hL : (L.map (·.id)).Nodup) :
    ((leftJoinVotes L V).map (fun p => (p.1.id, p.1.name))).dedup =
      L.map (fun x => (x.id, x.name)) := by
  induction L with
  | nil => simp [leftJoinVotes_nil]
  | cons x L ih =>
    rw [List.map_cons, List.nodup_cons] at hL
    rw [leftJoinVotes_cons, List.map_append]
    have hrep : (leftJoinVotes [x] V).map (fun p => (p.1.id, p.1.name)) =
        List.replicate (leftJoinVotes [x] V).length (x.id, x.name) := by
      apply List.eq_replicate_iff.mpr
      refine ⟨by simp, ?_⟩
      intro b hb
      obtain ⟨p, hp, rfl⟩ := List.mem_map.mp hb
      rw [leftJoinVotes_single_fst x V p hp]
    obtain ⟨k, hk⟩ := Nat.exists_eq_succ_of_ne_zero
      (fun h0 => leftJoinVotes_single_ne_nil x V (List.length_eq_zero.mp h0))
    have hnot : (x.id, x.name) ∉ (leftJoinVotes L V).map (fun p => (p.1.id, p.1.name)) := by
      intro hmem
      obtain ⟨p, hp, hpe⟩ := List.mem_map.mp hmem
      apply hL.1
      exact List.mem_map.mpr ⟨p.1, leftJoinVotes_fst_mem L V p hp, congrArg Prod.fst hpe⟩
    rw [hrep, hk, dedup_replicate_append _ _ hnot k, ih hL.2]
    rfl

/-- With unique nominee ids, `COUNT(v.id)` of the group of nominee `x` is the
number of vote rows whose `nominee_id` is `x.id`. -/
theorem leftJoinVotes_group_count (L : List NomineeRow) (V : List VoteRow)
    (hL : (L.map (·.id)).Nodup) (x : NomineeRow) (hx : x ∈ L) :
    ((leftJoinVotes L V).filter
        (fun p => (p.1.id, p.1.name) = (x.id, x.name) ∧ p.2.isSome)).length =
      (V.filter (fun v => v.nominee_id = x.id)).length := by
  induction L with
  | nil => cases hx
  | cons y L ih =>
    rw [List.map_cons, List.nodup_cons] at hL
    rw [leftJoinVotes_cons, List.filter_append, List.length_append]
    by_cases hy : y.id = x.id
    · have hxy : x = y := by
        rcases List.mem_cons.mp hx with h | h
        · exact h
        · exact absurd (List.mem_map.mpr ⟨x, h, hy.symm⟩) hL.1
      subst hxy
      have h1 : (leftJoinVotes [x] V).filter
          (fun p => (p.1.id, p.1.name) = (x.id, x.name) ∧ p.2.isSome) =
          (leftJoinVotes [x] V).filter (fun p => p.2.isSome) := by
        apply List.filter_congr
        intro p hp
        rw [leftJoinVotes_single_fst x V p hp]
        simp
      have h2 : (leftJoinVotes L V).filter
          (fun p => (p.1.id, p.1.name) = (x.id, x.name) ∧ p.2.isSome) = [] := by
        apply List.filter_eq_nil_iff.mpr
        intro p hp hq
        have hq1 : p.1.id = x.id := by
          have := of_decide_eq_true hq
          exact congrArg Prod.fst this.1
        exact hL.1 (List.mem_map.mpr ⟨p.1, leftJoinVotes_fst_mem L V p hp, hq1⟩)
      rw [h1, h2, leftJoinVotes_single_count]
      simp
    · have hxL : x ∈ L := by
        rcases List.mem_cons.mp hx with h | h
        · exact absurd (congrArg NomineeRow.id h).symm hy
        · exact h
      have h1 : (leftJoinVotes [y] V).filter
          (fun p => (p.1.id, p.1.name) = (x.id, x.name) ∧ p.2.isSome) = [] := by
        apply List.filter_eq_nil_iff.mpr
        intro p hp hq
        have hq1 : p.1.id = x.id := by
          have := of_decide_eq_true hq
          exact congrArg Prod.fst this.1
        rw [leftJoinVotes_single_fst y V p hp] at hq1
        exact hy hq1
      rw [h1, ih hL.2 hxL]
      simp

/-- With unique nominee ids the query returns `resultRows`, ordered. -/
theorem ResultsByNomination_eq (s : DB) (n : Int) (hpk : (s.nominees.map (·.id)).Nodup) :
    ResultsByNomination s n = (.ok ((resultRows s n).insertionSort resultOrder), s) := by
  have hsub : ((s.nominees.filter (fun x => x.nomination_id = n)).map (·.id)).Nodup :=
    hpk.sublist ((List.filter_sublist _).map _)
  have hrows : (leftJoinVotes s.nominees s.votes).filter (fun p => p.1.nomination_id = n) =
      leftJoinVotes (s.nominees.filter (fun x => x.nomination_id = n)) s.votes :=
    leftJoinVotes_filter s.nominees s.votes (fun x => decide (x.nomination_id = n))
  unfold ResultsByNomination
  simp only [hrows, leftJoinVotes_groups _ _ hsub, List.map_map]
  congr 3
  apply List.map_congr_left
  intro x hx
  simp only [Function.comp_apply, resultRows, voteCount]
  congr 2
  exact leftJoinVotes_group_count _ _ hsub x hx

theorem resultOrder_total (a b : NomineeResult) : resultOrder a b ∨ resultOrder b a := by
  unfold resultOrder
  omega

theorem resultOrder_trans (a b c : NomineeResult) :
    resultOrder a b → resultOrder b c → resultOrder a c := by
  unfold resultOrder
  omega

theorem insertionSort_resultOrder_sorted (l : List NomineeResult) :
    (l.insertionSort resultOrder).Sorted resultOrder := by
  haveI : IsTotal NomineeResult resultOrder := ⟨resultOrder_total⟩
  haveI : IsTrans NomineeResult resultOrder := ⟨resultOrder_trans⟩
  exact List.sorted_insertionSort resultOrder l

/-- In a list with unique ids, looking an id up finds the entry that has it. -/
theorem find_of_mem_nodup (l : List NomineeResult) (hnd : (l.map (·.ID)).Nodup)
    (r : NomineeResult) (hr : r ∈ l) :
    l.find? (fun e => e.ID = r.ID) = some r := by
  induction l with
  | nil => cases hr
  | cons e l ih =>
    rw [List.map_cons, List.nodup_cons] at hnd
    rcases List.mem_cons.mp hr with h | h
    · subst h; simp
    · have hne : ¬ e.ID = r.ID := fun he =>
        hnd.1 (List.mem_map.mpr ⟨r, h, he.symm⟩)
      rw [List.find?_cons_of_neg _ (by simpa using hne)]
      exact ih hnd.2 h

theorem resultRows_ids (s : DB) (n : Int) :
    (resultRows s n).map (·.ID) = (s.nominees.filter (fun x => x.nomination_id = n)).map (·.id) := by
  simp [resultRows, Function.comp_def]

theorem resultRows_nodup (s : DB) (n : Int) (hpk : (s.nominees.map (·.id)).Nodup) :
    ((resultRows s n).map (·.ID)).Nodup := by
  rw [resultRows_ids]
  exact hpk.sublist ((List.filter_sublist _).map _)

/-- The count shown for a nominee of the nomination is its vote count. -/
theorem shownCount_listed (s : DB) (n : Int) (hpk : (s.nominees.map (·.id)).Nodup)
    (x : NomineeRow) (hx : x ∈ s.nominees) (hn : x.nomination_id = n) :
    shownCount (ResultsByNomination s n).1 x.id = some (voteCount s x.id) := by
  rw [ResultsByNomination_eq s n hpk]
  have hperm := List.perm_insertionSort resultOrder (resultRows s n)
  have hnd : (((resultRows s n).insertionSort resultOrder).map (·.ID)).Nodup :=
    (hperm.map _).nodup_iff.mpr (resultRows_nodup s n hpk)
  have hmem : (⟨x.id, x.name, voteCount s x.id⟩ : NomineeResult) ∈
      (resultRows s n).insertionSort resultOrder := by
    rw [List.mem_insertionSort]
    exact List.mem_map.mpr ⟨x, List.mem_filter.mpr ⟨hx, by simpa using hn⟩, rfl⟩
  have := find_of_mem_nodup _ hnd _ hmem
  simp only [shownCount]
  rw [this]
  rfl

/-- An id that is no nominee of the nomination is not listed. -/
theorem shownCount_unlisted (s : DB) (n k : Int) (hpk : (s.nominees.map (·.id)).Nodup)
    (hk : ∀ x ∈ s.nominees, x.nomination_id = n → x.id ≠ k) :
    shownCount (ResultsByNomination s n).1 k = none := by
  rw [ResultsByNomination_eq s n hpk]
  simp only [shownCount, Option.map_eq_none', List.find?_eq_none]
  intro r hr
  rw [List.mem_insertionSort] at hr
  obtain ⟨x, hx, rfl⟩ := List.mem_map.mp hr
  have hx2 := List.mem_filter.mp hx
  simpa using hk x hx2.1 (by simpa using hx2.2)

/-- With unique ids, `ORDER BY votes DESC, n.id` leaves no freedom: two
arrangements of the same entries that both respect it are equal. -/
theorem resultOrder_unique (l₁ l₂ : List NomineeResult) (hp : l₁.Perm l₂)
    (hnd : (l₂.map (·.ID)).Nodup) (h1 : l₁.Pairwise resultOrder)
    (h2 : l₂.Pairwise resultOrder) : l₁ = l₂ := by
  have hnd1 : (l₁.map (·.ID)).Nodup := (hp.map _).nodup_iff.mpr hnd
  have d1 : l₁.Pairwise (fun a b => a.ID ≠ b.ID) := List.pairwise_map.mp hnd1
  have d2 : l₂.Pairwise (fun a b => a.ID ≠ b.ID) := List.pairwise_map.mp hnd
  haveI : IsAntisymm NomineeResult (fun a b => resultOrder a b ∧ a.ID ≠ b.ID) :=
    ⟨fun a b hab hba => by
      exfalso
      have e1 := hab.1
      have e2 := hba.1
      have e3 := hab.2
      unfold resultOrder at e1 e2
      omega⟩
  exact List.eq_of_perm_of_sorted hp (h1.and d1) (h2.and d2)

/-! ## Lemmas on the vote upsert -/

theorem upsertRow_pair (h : String) (n c t : Int) (v : VoteRow) :
    ((upsertRow h n c t v).user_hash, (upsertRow h n c t v).nomination_id) =
      (v.user_hash, v.nomination_id) := by
  unfold upsertRow
  split <;> rfl

theorem upsertRow_id (h : String) (n c t : Int) (v : VoteRow) :
    (upsertRow h n c t v).id = v.id := by
  unfold upsertRow
  split <;> rfl

theorem upsertRow_of_not (h : String) (n c t : Int) (v : VoteRow)
    (hv : ¬ (v.user_hash = h ∧ v.nomination_id = n)) : upsertRow h n c t v = v := by
  unfold upsertRow
  rw [if_neg hv]

theorem map_upsertRow_of_not (h : String) (n c t : Int) (l : List VoteRow)
    (hl : ∀ v ∈ l, ¬ (v.user_hash = h ∧ v.nomination_id = n)) :
    l.map (upsertRow h n c t) = l := by
  induction l with
  | nil => rfl
  | cons v l ih =>
    rw [List.map_cons, upsertRow_of_not h n c t v (hl v (List.mem_cons_self _ _)),
      ih (fun w hw => hl w (List.mem_cons_of_mem _ hw))]

/-- Under the uniqueness constraint the table splits around the one row of a
pair, and the update touches that row only. -/
theorem votes_split (l : List VoteRow)
    (hnd : (l.map (fun v => (v.user_hash, v.nomination_id))).Nodup)
    (v : VoteRow) (hv : v ∈ l) :
    ∃ l1 l2, l = l1 ++ v :: l2 ∧
      (∀ w ∈ l1, ¬ (w.user_hash = v.user_hash ∧ w.nomination_id = v.nomination_id)) ∧
      (∀ w ∈ l2, ¬ (w.user_hash = v.user_hash ∧ w.nomination_id = v.nomination_id)) := by
  obtain ⟨l1, l2, rfl⟩ := List.append_of_mem hv
  refine ⟨l1, l2, rfl, ?_, ?_⟩
  · intro w hw hp
    rw [List.map_append, List.map_cons] at hnd
    have hdis := (List.nodup_append.mp hnd).2.2
    exact hdis (List.mem_map.mpr ⟨w, hw, rfl⟩)
      (by rw [show (w.user_hash, w.nomination_id) = (v.user_hash, v.nomination_id) from
            Prod.ext hp.1 hp.2]; exact List.mem_cons_self _ _)
  · intro w hw hp
    rw [List.map_append, List.map_cons] at hnd
    have hnd2 := (List.nodup_append.mp hnd).2.1
    rw [List.nodup_cons] at hnd2
    exact hnd2.1 (List.mem_map.mpr ⟨w, hw, Prod.ext hp.1 hp.2⟩)

theorem RecordVote_ok (s : DB) (h : String) (n c t : Int)
    (hc : ∃ x ∈ s.nominees, x.id = c) : (RecordVote s h n c t).1 = .ok () := by
  have : s.nominees.any (fun x => decide (x.id = c)) = true := by
    simpa using hc
  unfold RecordVote
  rw [if_pos this]
  split <;> rfl

theorem RecordVote_fail (s : DB) (h : String) (n c t : Int)
    (hc : ¬ ∃ x ∈ s.nominees, x.id = c) : RecordVote s h n c t = (.error .constraint, s) := by
  have : ¬ s.nominees.any (fun x => decide (x.id = c)) = true := by
    simpa using hc
  unfold RecordVote
  rw [if_neg this]

/-- The votes table after an accepted `RecordVote` that hits an existing row. -/
theorem RecordVote_votes_update (s : DB) (h : String) (n c t : Int)
    (hc : ∃ x ∈ s.nominees, x.id = c)
    (hex : ∃ v ∈ s.votes, v.user_hash = h ∧ v.nomination_id = n) :
    (RecordVote s h n c t).2 = { s with votes := s.votes.map (upsertRow h n c t) } := by
  have h1 : s.nominees.any (fun x => decide (x.id = c)) = true := by
    simpa using hc
  have h2 : s.votes.any (fun v => decide (v.user_hash = h ∧ v.nomination_id = n)) = true := by
    simpa using hex
  unfold RecordVote
  rw [if_pos h1, if_pos h2]

/-- The votes table after an accepted `RecordVote` for a pair without a row. -/
theorem RecordVote_votes_insert (s : DB) (h : String) (n c t : Int)
    (hc : ∃ x ∈ s.nominees, x.id = c)
    (hex : ¬ ∃ v ∈ s.votes, v.user_hash = h ∧ v.nomination_id = n) :
    (RecordVote s h n c t).2 =
      { s with votes := s.votes ++ [⟨s.next_vote_id, h, n, c, t⟩]
               next_vote_id := s.next_vote_id + 1 } := by
  have h1 : s.nominees.any (fun x => decide (x.id = c)) = true := by
    simpa using hc
  have h2 : ¬ s.votes.any (fun v => decide (v.user_hash = h ∧ v.nomination_id = n)) = true := by
    simpa using hex
  unfold RecordVote
  rw [if_pos h1, if_neg h2]

theorem RecordVote_nominees (s : DB) (h : String) (n c t : Int) :
    (RecordVote s h n c t).2.nominees = s.nominees := by
  unfold RecordVote
  split
  · split <;> rfl
  · rfl

/-- An accepted or rejected `RecordVote` keeps `votes(user_hash,
nomination_id)` unique. -/
theorem RecordVote_unique (s : DB) (h : String) (n c t : Int)
    (hu : (s.votes.map (fun v => (v.user_hash, v.nomination_id))).Nodup) :
    ((RecordVote s h n c t).2.votes.map (fun v => (v.user_hash, v.nomination_id))).Nodup := by
  by_cases hc : ∃ x ∈ s.nominees, x.id = c
  · by_cases hex : ∃ v ∈ s.votes, v.user_hash = h ∧ v.nomination_id = n
    · rw [RecordVote_votes_update s h n c t hc hex]
      simp only [List.map_map]
      have : ((fun v : VoteRow => (v.user_hash, v.nomination_id)) ∘ upsertRow h n c t) =
          (fun v : VoteRow => (v.user_hash, v.nomination_id)) := by
        funext v
        exact upsertRow_pair h n c t v
      rw [this]
      exact hu
    · rw [RecordVote_votes_insert s h n c t hc hex]
      simp only [List.map_append, List.map_cons, List.map_nil]
      rw [List.nodup_append]
      refine ⟨hu, List.nodup_singleton _, ?_⟩
      intro p hp hq
      rw [List.mem_singleton] at hq
      subst hq
      obtain ⟨v, hv, hve⟩ := List.mem_map.mp hp
      exact hex ⟨v, hv, congrArg Prod.fst hve, congrArg Prod.snd hve⟩
  · rw [RecordVote_fail s h n c t hc]
    exact hu

/-- After an accepted `RecordVote` the pair has exactly one row, carrying the
call's nominee and timestamp. -/
theorem RecordVote_pair (s : DB) (h : String) (n c t : Int)
    (hu : (s.votes.map (fun v => (v.user_hash, v.nomination_id))).Nodup)
    (hc : ∃ x ∈ s.nominees, x.id = c) :
    ∃ v, votesOfPair (RecordVote s h n c t).2 h n = [v] ∧ v.nominee_id = c ∧ v.created_at = t := by
  by_cases hex : ∃ v ∈ s.votes, v.user_hash = h ∧ v.nomination_id = n
  · rw [RecordVote_votes_update s h n c t hc hex]
    obtain ⟨v, hv, hvh, hvn⟩ := hex
    obtain ⟨l1, l2, hl, h1, h2⟩ := votes_split s.votes hu v hv
    rw [hvh, hvn] at h1 h2
    refine ⟨upsertRow h n c t v, ?_, ?_, ?_⟩
    · simp only [votesOfPair]
      rw [hl, List.map_append, List.map_cons, map_upsertRow_of_not h n c t l1 h1,
        map_upsertRow_of_not h n c t l2 h2, List.filter_append, List.filter_cons]
      have e1 : l1.filter (fun v => decide (v.user_hash = h ∧ v.nomination_id = n)) = [] :=
        List.filter_eq_nil_iff.mpr (fun w hw => by simpa using h1 w hw)
      have e2 : l2.filter (fun v => decide (v.user_hash = h ∧ v.nomination_id = n)) = [] :=
        List.filter_eq_nil_iff.mpr (fun w hw => by simpa using h2 w hw)
      have e3 : (upsertRow h n c t v).user_hash = h ∧ (upsertRow h n c t v).nomination_id = n := by
        have := upsertRow_pair h n c t v
        rw [hvh, hvn] at this
        exact ⟨congrArg Prod.fst this, congrArg Prod.snd this⟩
      rw [e1, e2, if_pos (by simpa using e3)]
      rfl
    · simp [upsertRow, hvh, hvn]
    · simp [upsertRow, hvh, hvn]
  · rw [RecordVote_votes_insert s h n c t hc hex]
    refine ⟨⟨s.next_vote_id, h, n, c, t⟩, ?_, rfl, rfl⟩
    simp only [votesOfPair, List.filter_append]
    have e1 : s.votes.filter (fun v => decide (v.user_hash = h ∧ v.nomination_id = n)) = [] :=
      List.filter_eq_nil_iff.mpr (fun w hw hq => hex ⟨w, hw, of_decide_eq_true hq⟩)
    rw [e1]
    simp

/-- A `RecordVote` for another pair, or a rejected one, leaves the rows of the
pair `(h, n)` as they are. -/
theorem RecordVote_other_pair (s : DB) (h h' : String) (n n' c t : Int)
    (hne : (h' = h ∧ n' = n) → ¬ ∃ x ∈ s.nominees, x.id = c) :
    votesOfPair (RecordVote s h' n' c t).2 h n = votesOfPair s h n := by
  by_cases hc : ∃ x ∈ s.nominees, x.id = c
  · have hpair : ¬ (h' = h ∧ n' = n) := fun hp => hne hp hc
    by_cases hex : ∃ v ∈ s.votes, v.user_hash = h' ∧ v.nomination_id = n'
    · rw [RecordVote_votes_update s h' n' c t hc hex]
      simp only [votesOfPair]
      generalize s.votes = l
      induction l with
      | nil => rfl
      | cons w l ih =>
        rw [List.map_cons, List.filter_cons, List.filter_cons, ih]
        by_cases hw : w.user_hash = h' ∧ w.nomination_id = n'
        · have hw2 : ¬ (w.user_hash = h ∧ w.nomination_id = n) := fun hq =>
            hpair ⟨hw.1.symm.trans hq.1, hw.2.symm.trans hq.2⟩
          have hp := upsertRow_pair h' n' c t w
          have hw3 : ¬ ((upsertRow h' n' c t w).user_hash = h ∧
              (upsertRow h' n' c t w).nomination_id = n) := by
            have e1 : (upsertRow h' n' c t w).user_hash = w.user_hash := congrArg Prod.fst hp
            have e2 : (upsertRow h' n' c t w).nomination_id = w.nomination_id :=
              congrArg Prod.snd hp
            rw [e1, e2]
            exact hw2
          rw [if_neg (by simpa using hw3), if_neg (by simpa using hw2)]
        · rw [upsertRow_of_not h' n' c t w hw]
    · rw [RecordVote_votes_insert s h' n' c t hc hex]
      simp only [votesOfPair, List.filter_append]
      have : [(⟨s.next_vote_id, h', n', c, t⟩ : VoteRow)].filter
          (fun v => decide (v.user_hash = h ∧ v.nomination_id = n)) = [] := by
        apply List.filter_eq_nil_iff.mpr
        intro w hw hq
        rw [List.mem_singleton] at hw
        subst hw
        exact hpair (of_decide_eq_true hq)
      rw [this, List.append_nil]
  · rw [RecordVote_fail s h' n' c t hc]

theorem recordVotes_nominees (calls : List VoteCall) :
    ∀ s : DB, (recordVotes s calls).nominees = s.nominees := by
  induction calls with
  | nil => intro s; rfl
  | cons k ks ih =>
    intro s
    rw [recordVotes, ih, RecordVote_nominees]

theorem recordVotes_unique (calls : List VoteCall) :
    ∀ s : DB, (s.votes.map (fun v => (v.user_hash, v.nomination_id))).Nodup →
      ((recordVotes s calls).votes.map (fun v => (v.user_hash, v.nomination_id))).Nodup := by
  induction calls with
  | nil => intro s hs; exact hs
  | cons k ks ih =>
    intro s hs
    rw [recordVotes]
    exact ih _ (RecordVote_unique s _ _ _ _ hs)

theorem recordVotes_append (xs ys : List VoteCall) :
    ∀ s : DB, recordVotes s (xs ++ ys) = recordVotes (recordVotes s xs) ys := by
  induction xs with
  | nil => intro s; rfl
  | cons k ks ih => intro s; rw [List.cons_append, recordVotes, recordVotes, ih]

/-- Calls that are rejected or concern other pairs leave the rows of a pair
as they are. -/
theorem recordVotes_other_pairs (h : String) (n : Int) (calls : List VoteCall) :
    ∀ s : DB,
      (∀ k ∈ calls, k.userHash = h → k.nominationID = n →
        ¬ ∃ x ∈ s.nominees, x.id = k.nomineeID) →
      votesOfPair (recordVotes s calls) h n = votesOfPair s h n := by
  induction calls with
  | nil => intro s _; rfl
  | cons k ks ih =>
    intro s hk
    rw [recordVotes, ih]
    · exact RecordVote_other_pair s h k.userHash n k.nominationID k.nomineeID k.createdAt
        (fun hp => hk k (List.mem_cons_self _ _) hp.1 hp.2)
    · intro k' hk' e1 e2
      rw [RecordVote_nominees]
      exact hk k' (List.mem_cons_of_mem _ hk') e1 e2

/-- Under the uniqueness constraint a pair has at most one row. -/
theorem votesOfPair_length_le_one (s : DB)
    (hu : (s.votes.map (fun v => (v.user_hash, v.nomination_id))).Nodup) (h : String) (n : Int) :
    (votesOfPair s h n).length ≤ 1 := by
  unfold votesOfPair
  generalize s.votes = l at hu
  induction l with
  | nil => simp
  | cons w l ih =>
    rw [List.map_cons, List.nodup_cons] at hu
    rw [List.filter_cons]
    split
    · rename_i hw
      have hw2 : w.user_hash = h ∧ w.nomination_id = n := of_decide_eq_true hw
      have : l.filter (fun v => decide (v.user_hash = h ∧ v.nomination_id = n)) = [] := by
        apply List.filter_eq_nil_iff.mpr
        intro x hx hq
        have hx2 : x.user_hash = h ∧ x.nomination_id = n := of_decide_eq_true hq
        exact hu.1 (List.mem_map.mpr ⟨x, hx, Prod.ext (hx2.1.trans hw2.1.symm)
          (hx2.2.trans hw2.2.symm)⟩)
      rw [this]
      simp
    · exact ih hu.2

/-- Re-voting moves one vote row from nominee `a` to nominee `b`. -/
theorem voteCount_revote (s : DB)
    (hu : (s.votes.map (fun v => (v.user_hash, v.nomination_id))).Nodup)
    (h : String) (n a b t : Int)
    (hb : ∃ x ∈ s.nominees, x.id = b)
    (hvote : ∃ v ∈ s.votes, v.user_hash = h ∧ v.nomination_id = n ∧ v.nominee_id = a)
    (hab : b ≠ a) :
    voteCount (RecordVote s h n b t).2 a = voteCount s a - 1 ∧
    voteCount (RecordVote s h n b t).2 b = voteCount s b + 1 ∧
    ∀ k, k ≠ a → k ≠ b → voteCount (RecordVote s h n b t).2 k = voteCount s k := by
  obtain ⟨v, hv, hvh, hvn, hva⟩ := hvote
  rw [RecordVote_votes_update s h n b t hb ⟨v, hv, hvh, hvn⟩]
  obtain ⟨l1, l2, hl, h1, h2⟩ := votes_split s.votes hu v hv
  rw [hvh, hvn] at h1 h2
  have hmap : s.votes.map (upsertRow h n b t) =
      l1 ++ { v with nominee_id := b, created_at := t } :: l2 := by
    rw [hl, List.map_append, List.map_cons, map_upsertRow_of_not h n b t l1 h1,
      map_upsertRow_of_not h n b t l2 h2]
    simp [upsertRow, hvh, hvn]
  simp only [voteCount, hmap]
  rw [hl]
  simp only [List.filter_append, List.filter_cons, List.length_append]
  have hba : ¬ a = b := fun e => hab e.symm
  refine ⟨?_, ?_, ?_⟩
  · simp [hva, hab]
    omega
  · simp [hva, hba]
    omega
  · intro k hka hkb
    have e1 : ¬ a = k := fun e => hka e.symm
    have e2 : ¬ b = k := fun e => hkb e.symm
    simp [hva, e1, e2]

/-! ## Lemmas on the deletes -/

theorem DeleteNomination_fst (s : DB) (n : Int) :
    (DeleteNomination s n).1 = .ok (decide (∃ m ∈ s.nominations, m.id = n)) := by
  simp only [DeleteNomination]
  congr 1
  by_cases h : ∃ m ∈ s.nominations, m.id = n
  · obtain ⟨m, hm, hmn⟩ := h
    have : m ∈ s.nominations.filter (fun m => decide (m.id = n)) :=
      List.mem_filter.mpr ⟨hm, by simpa using hmn⟩
    have hpos := List.length_pos_of_mem this
    have e1 : decide (∃ m ∈ s.nominations, m.id = n) = true := decide_eq_true ⟨m, hm, hmn⟩
    rw [e1]
    exact decide_eq_true hpos
  · have : s.nominations.filter (fun m => decide (m.id = n)) = [] :=
      List.filter_eq_nil_iff.mpr (fun m hm hq => h ⟨m, hm, of_decide_eq_true hq⟩)
    simp [this, h]

theorem DeleteNomination_rooms (s : DB) (n : Int) :
    (DeleteNomination s n).2.rooms = s.rooms := rfl

theorem DeleteNomination_nominations (s : DB) (n : Int) :
    (DeleteNomination s n).2.nominations = s.nominations.filter (fun m => ¬ m.id = n) := rfl

/-- The cascade removes the nominees of the deleted nomination. -/
theorem DeleteNomination_nominees (s : DB) (n : Int) (hn : ∃ m ∈ s.nominations, m.id = n) :
    (DeleteNomination s n).2.nominees = s.nominees.filter (fun x => ¬ x.nomination_id = n) := by
  simp only [DeleteNomination]
  apply List.filter_congr
  intro x _
  obtain ⟨m, hm, hmn⟩ := hn
  by_cases hx : x.nomination_id = n
  · simp only [hx, not_true_eq_false, decide_False, decide_eq_false_iff_not, not_not]
    simp only [List.any_eq_true, List.mem_filter, decide_eq_true_eq]
    exact ⟨m, ⟨hm, hmn⟩, hmn⟩
  · simp only [hx, not_false_eq_true, decide_True, decide_eq_true_eq]
    simp only [List.any_eq_true, List.mem_filter, decide_eq_true_eq, not_exists, not_and, and_imp]
    intro m' _ hm' e
    exact hx (e.symm.trans hm' |>.symm ▸ rfl)

/-- The cascade removes the votes that reference a nominee of the deleted
nomination. -/
theorem DeleteNomination_votes (s : DB) (n : Int) (hn : ∃ m ∈ s.nominations, m.id = n) :
    (DeleteNomination s n).2.votes =
      s.votes.filter (fun v => ¬ ∃ x ∈ s.nominees, x.nomination_id = n ∧ x.id = v.nominee_id) := by
  simp only [DeleteNomination]
  apply List.filter_congr
  intro v _
  obtain ⟨m, hm, hmn⟩ := hn
  congr 1
  apply propext
  apply not_congr
  simp only [List.any_eq_true, List.mem_filter, decide_eq_true_eq]
  constructor
  · rintro ⟨x, ⟨hx, m', ⟨_, hm'⟩, e⟩, hv⟩
    exact ⟨x, hx, e ▸ hm', hv⟩
  · rintro ⟨x, hx, hxn, hv⟩
    exact ⟨x, ⟨hx, m, ⟨hm, hmn⟩, hmn.trans hxn.symm⟩, hv⟩

theorem DeleteNominee_fst (s : DB) (k : Int) :
    (DeleteNominee s k).1 = .ok (decide (∃ x ∈ s.nominees, x.id = k)) := by
  simp only [DeleteNominee]
  congr 1
  by_cases h : ∃ x ∈ s.nominees, x.id = k
  · obtain ⟨x, hx, hxk⟩ := h
    have : x ∈ s.nominees.filter (fun x => decide (x.id = k)) :=
      List.mem_filter.mpr ⟨hx, by simpa using hxk⟩
    have hpos := List.length_pos_of_mem this
    have e1 : decide (∃ x ∈ s.nominees, x.id = k) = true := decide_eq_true ⟨x, hx, hxk⟩
    rw [e1]
    exact decide_eq_true hpos
  · have : s.nominees.filter (fun x => decide (x.id = k)) = [] :=
      List.filter_eq_nil_iff.mpr (fun x hx hq => h ⟨x, hx, of_decide_eq_true hq⟩)
    simp [this, h]

theorem DeleteNominee_nominees (s : DB) (k : Int) :
    (DeleteNominee s k).2.nominees = s.nominees.filter (fun x => ¬ x.id = k) := rfl

/-- The cascade removes the votes that reference the deleted nominee. -/
theorem DeleteNominee_votes (s : DB) (k : Int) (hk : ∃ x ∈ s.nominees, x.id = k) :
    (DeleteNominee s k).2.votes = s.votes.filter (fun v => ¬ v.nominee_id = k) := by
  simp only [DeleteNominee]
  apply List.filter_congr
  intro v _
  obtain ⟨x, hx, hxk⟩ := hk
  congr 1
  apply propext
  apply not_congr
  simp only [List.any_eq_true, List.mem_filter, decide_eq_true_eq]
  constructor
  · rintro ⟨y, ⟨_, hy⟩, e⟩
    exact e.symm.trans hy
  · intro hv
    exact ⟨x, ⟨hx, hxk⟩, hxk.trans hv.symm⟩

/-! ## Lemmas on the ownership checks -/

theorem decide_length_pos {α : Type} (l : List α) (q : Prop) [Decidable q]
    (h : (∃ a, a ∈ l) ↔ q) : decide (l.length > 0) = decide q := by
  by_cases hq : q
  · obtain ⟨a, ha⟩ := h.mpr hq
    rw [decide_eq_true hq, decide_eq_true (List.length_pos_of_mem ha)]
  · have : l = [] := List.eq_nil_iff_forall_not_mem.mpr (fun a ha => hq (h.mp ⟨a, ha⟩))
    rw [decide_eq_false hq, this]
    rfl

theorem IsRoomOwner_eq (s : DB) (roomID userID : Int) :
    IsRoomOwner s roomID userID =
      (.ok (decide (∃ r ∈ s.rooms, r.id = roomID ∧ r.owner_user_id = userID)), s) := by
  simp only [IsRoomOwner]
  congr 2
  apply decide_length_pos
  simp [List.mem_filter]

theorem IsNominationOwner_eq (s : DB) (nominationID userID : Int) :
    IsNominationOwner s nominationID userID =
      (.ok (decide (∃ m ∈ s.nominations, m.id = nominationID ∧
        ∃ r ∈ s.rooms, r.id = m.room_id ∧ r.owner_user_id = userID)), s) := by
  simp only [IsNominationOwner]
  congr 2
  apply decide_length_pos
  constructor
  · rintro ⟨⟨m, r⟩, hp⟩
    simp only [List.mem_filter, List.mem_flatMap, List.mem_map, decide_eq_true_eq,
      Prod.mk.injEq] at hp
    obtain ⟨⟨m', hm', r', ⟨hr', hmr⟩, e1, e2⟩, hid, hown⟩ := hp
    subst e1 e2
    exact ⟨m', hm', hid, r', hr', hmr.symm, hown⟩
  · rintro ⟨m, hm, hid, r, hr, hmr, hown⟩
    refine ⟨(m, r), ?_⟩
    simp only [List.mem_filter, List.mem_flatMap, List.mem_map, decide_eq_true_eq,
      Prod.mk.injEq]
    exact ⟨⟨m, hm, r, ⟨hr, hmr.symm⟩, rfl, rfl⟩, hid, hown⟩

theorem IsNomineeOwner_eq (s : DB) (nomineeID userID : Int) :
    IsNomineeOwner s nomineeID userID =
      (.ok (decide (∃ x ∈ s.nominees, x.id = nomineeID ∧
        ∃ m ∈ s.nominations, m.id = x.nomination_id ∧
        ∃ r ∈ s.rooms, r.id = m.room_id ∧ r.owner_user_id = userID)), s) := by
  simp only [IsNomineeOwner]
  congr 2
  apply decide_length_pos
  constructor
  · rintro ⟨⟨x, m, r⟩, hp⟩
    simp only [List.mem_filter, List.mem_flatMap, List.mem_map, decide_eq_true_eq,
      Prod.mk.injEq] at hp
    obtain ⟨⟨x', hx', m', ⟨hm', hxm⟩, r', ⟨hr', hmr⟩, e1, e2, e3⟩, hid, hown⟩ := hp
    subst e1 e2 e3
    exact ⟨x', hx', hid, m', hm', hxm.symm, r', hr', hmr.symm, hown⟩
  · rintro ⟨x, hx, hid, m, hm, hxm, r, hr, hmr, hown⟩
    refine ⟨(x, m, r), ?_⟩
    simp only [List.mem_filter, List.mem_flatMap, List.mem_map, decide_eq_true_eq,
      Prod.mk.injEq]
    exact ⟨⟨x, hx, m, ⟨hm, hxm.symm⟩, r, ⟨hr, hmr.symm⟩, rfl, rfl, rfl⟩, hid, hown⟩

/-! ## The schema constraints are an invariant of the store -/

theorem nodup_map_snoc {α β : Type} (f : α → β) (l : List α) (y : α)
    (hl : (l.map f).Nodup) (hy : ∀ x ∈ l, f x ≠ f y) : ((l ++ [y]).map f).Nodup := by
  rw [List.map_append, List.nodup_append]
  refine ⟨hl, List.nodup_singleton _, ?_⟩
  intro b hb hb2
  obtain ⟨x, hx, rfl⟩ := List.mem_map.mp hb
  simp only [List.map_cons, List.map_nil, List.mem_singleton] at hb2
  exact hy x hx hb2

theorem DB.empty_valid : DB.empty.Valid := by
  constructor <;> simp [DB.empty]

theorem CreateRoom_valid (s : DB) (hs : s.Valid) (ownerID : Int) (title password : String)
    (now : Int) : (CreateRoom s ownerID title password now).2.Valid := by
  refine { hs with rooms_pk := ?_, rooms_seq := ?_, nominations_fk := ?_ }
  · exact nodup_map_snoc _ _ _ hs.rooms_pk (fun x hx => ne_of_lt (hs.rooms_seq x hx))
  · intro r hr
    simp only [CreateRoom, List.mem_append, List.mem_singleton] at hr
    rcases hr with hr | rfl
    · have := hs.rooms_seq r hr
      simp only [CreateRoom]
      omega
    · simp only [CreateRoom]
      omega
  · intro m hm
    obtain ⟨r, hr, hrm⟩ := hs.nominations_fk m hm
    exact ⟨r, List.mem_append_left _ hr, hrm⟩

theorem CreateNomination_valid (s : DB) (hs : s.Valid) (roomID : Int) (name description : String) :
    (CreateNomination s roomID name description).2.Valid := by
  unfold CreateNomination
  split
  · rename_i hroom
    have hroom2 : ∃ r ∈ s.rooms, r.id = roomID := by simpa using hroom
    refine { hs with nominations_pk := ?_, nominations_seq := ?_, nominations_fk := ?_,
                     nominees_fk := ?_ }
    · exact nodup_map_snoc _ _ _ hs.nominations_pk
        (fun x hx => ne_of_lt (hs.nominations_seq x hx))
    · intro m hm
      simp only [List.mem_append, List.mem_singleton] at hm
      rcases hm with hm | rfl
      · have := hs.nominations_seq m hm
        show m.id < s.next_nomination_id + 1
        omega
      · show s.next_nomination_id < s.next_nomination_id + 1
        omega
    · intro m hm
      simp only [List.mem_append, List.mem_singleton] at hm
      rcases hm with hm | rfl
      · exact hs.nominations_fk m hm
      · exact hroom2
    · intro x hx
      obtain ⟨m, hm, hmx⟩ := hs.nominees_fk x hx
      exact ⟨m, List.mem_append_left _ hm, hmx⟩
  · exact hs

theorem CreateNominee_valid (s : DB) (hs : s.Valid) (nominationID : Int) (name : String) :
    (CreateNominee s nominationID name).2.Valid := by
  unfold CreateNominee
  split
  · rename_i hnom
    have hnom2 : ∃ m ∈ s.nominations, m.id = nominationID := by simpa using hnom
    refine { hs with nominees_pk := ?_, nominees_seq := ?_, nominees_fk := ?_, votes_fk := ?_ }
    · exact nodup_map_snoc _ _ _ hs.nominees_pk (fun x hx => ne_of_lt (hs.nominees_seq x hx))
    · intro x hx
      simp only [List.mem_append, List.mem_singleton] at hx
      rcases hx with hx | rfl
      · have := hs.nominees_seq x hx
        show x.id < s.next_nominee_id + 1
        omega
      · show s.next_nominee_id < s.next_nominee_id + 1
        omega
    · intro x hx
      simp only [List.mem_append, List.mem_singleton] at hx
      rcases hx with hx | rfl
      · exact hs.nominees_fk x hx
      · exact hnom2
    · intro v hv
      obtain ⟨x, hx, hxv⟩ := hs.votes_fk v hv
      exact ⟨x, List.mem_append_left _ hx, hxv⟩
  · exact hs

theorem RecordVote_valid (s : DB) (hs : s.Valid) (h : String) (n c t : Int) :
    (RecordVote s h n c t).2.Valid := by
  have hu := RecordVote_unique s h n c t hs.votes_unique
  by_cases hc : ∃ x ∈ s.nominees, x.id = c
  · by_cases hex : ∃ v ∈ s.votes, v.user_hash = h ∧ v.nomination_id = n
    · rw [RecordVote_votes_update s h n c t hc hex] at hu ⊢
      refine { hs with votes_pk := ?_, votes_seq := ?_, votes_fk := ?_, votes_unique := hu }
      · have : (s.votes.map (upsertRow h n c t)).map (·.id) = s.votes.map (·.id) := by
          rw [List.map_map]
          apply List.map_congr_left
          intro v _
          exact upsertRow_id h n c t v
        show ((s.votes.map (upsertRow h n c t)).map (·.id)).Nodup
        rw [this]
        exact hs.votes_pk
      · intro v hv
        obtain ⟨w, hw, rfl⟩ := List.mem_map.mp hv
        rw [upsertRow_id]
        exact hs.votes_seq w hw
      · intro v hv
        obtain ⟨w, hw, rfl⟩ := List.mem_map.mp hv
        unfold upsertRow
        split
        · exact hc
        · exact hs.votes_fk w hw
    · rw [RecordVote_votes_insert s h n c t hc hex] at hu ⊢
      refine { hs with votes_pk := ?_, votes_seq := ?_, votes_fk := ?_, votes_unique := hu }
      · exact nodup_map_snoc _ _ _ hs.votes_pk (fun x hx => ne_of_lt (hs.votes_seq x hx))
      · intro v hv
        simp only [List.mem_append, List.mem_singleton] at hv
        rcases hv with hv | rfl
        · have := hs.votes_seq v hv
          show v.id < s.next_vote_id + 1
          omega
        · show s.next_vote_id < s.next_vote_id + 1
          omega
      · intro v hv
        simp only [List.mem_append, List.mem_singleton] at hv
        rcases hv with hv | rfl
        · exact hs.votes_fk v hv
        · exact hc
  · rw [RecordVote_fail s h n c t hc]
    exact hs

theorem DeleteNominee_valid (s : DB) (hs : s.Valid) (k : Int) : (DeleteNominee s k).2.Valid := by
  refine { hs with nominees_pk := ?_, votes_pk := ?_, nominees_seq := ?_, votes_seq := ?_,
                   nominees_fk := ?_, votes_fk := ?_, votes_unique := ?_ }
  · exact hs.nominees_pk.sublist ((List.filter_sublist _).map _)
  · exact hs.votes_pk.sublist ((List.filter_sublist _).map _)
  · intro x hx
    exact hs.nominees_seq x (List.mem_filter.mp hx).1
  · intro v hv
    exact hs.votes_seq v (List.mem_filter.mp hv).1
  · intro x hx
    exact hs.nominees_fk x (List.mem_filter.mp hx).1
  · intro v hv
    have hv2 := List.mem_filter.mp hv
    obtain ⟨x, hx, hxv⟩ := hs.votes_fk v hv2.1
    refine ⟨x, List.mem_filter.mpr ⟨hx, decide_eq_true ?_⟩, hxv⟩
    intro hxk
    have hgone : (s.nominees.filter (fun y => decide (y.id = k))).any
        (fun y => decide (y.id = v.nominee_id)) = true := by
      rw [List.any_eq_true]
      exact ⟨x, List.mem_filter.mpr ⟨hx, decide_eq_true hxk⟩, decide_eq_true hxv⟩
    exact of_decide_eq_true hv2.2 hgone
  · exact hs.votes_unique.sublist ((List.filter_sublist _).map _)

theorem DeleteNomination_valid (s : DB) (hs : s.Valid) (n : Int) :
    (DeleteNomination s n).2.Valid := by
  refine { hs with nominations_pk := ?_, nominees_pk := ?_, votes_pk := ?_,
                   nominations_seq := ?_, nominees_seq := ?_, votes_seq := ?_,
                   nominations_fk := ?_, nominees_fk := ?_, votes_fk := ?_, votes_unique := ?_ }
  · exact hs.nominations_pk.sublist ((List.filter_sublist _).map _)
  · exact hs.nominees_pk.sublist ((List.filter_sublist _).map _)
  · exact hs.votes_pk.sublist ((List.filter_sublist _).map _)
  · intro m hm
    exact hs.nominations_seq m (List.mem_filter.mp hm).1
  · intro x hx
    exact hs.nominees_seq x (List.mem_filter.mp hx).1
  · intro v hv
    exact hs.votes_seq v (List.mem_filter.mp hv).1
  · intro m hm
    exact hs.nominations_fk m (List.mem_filter.mp hm).1
  · intro x hx
    have hx2 := List.mem_filter.mp hx
    obtain ⟨m, hm, hmx⟩ := hs.nominees_fk x hx2.1
    refine ⟨m, List.mem_filter.mpr ⟨hm, decide_eq_true ?_⟩, hmx⟩
    intro hmn
    have hgone : (s.nominations.filter (fun y => decide (y.id = n))).any
        (fun y => decide (y.id = x.nomination_id)) = true := by
      rw [List.any_eq_true]
      exact ⟨m, List.mem_filter.mpr ⟨hm, decide_eq_true hmn⟩, decide_eq_true hmx⟩
    exact of_decide_eq_true hx2.2 hgone
  · intro v hv
    have hv2 := List.mem_filter.mp hv
    obtain ⟨x, hx, hxv⟩ := hs.votes_fk v hv2.1
    refine ⟨x, List.mem_filter.mpr ⟨hx, decide_eq_true ?_⟩, hxv⟩
    intro hxg
    have hgone : (s.nominees.filter (fun y => decide
        ((s.nominations.filter (fun m => decide (m.id = n))).any
          (fun m => decide (m.id = y.nomination_id)) = true))).any
        (fun y => decide (y.id = v.nominee_id)) = true := by
      rw [List.any_eq_true]
      exact ⟨x, List.mem_filter.mpr ⟨hx, decide_eq_true hxg⟩, decide_eq_true hxv⟩
    exact of_decide_eq_true hv2.2 (by simpa using hgone)
  · exact hs.votes_unique.sublist ((List.filter_sublist _).map _)

theorem UpdateNomineeMedia_valid (s : DB) (hs : s.Valid) (k : Int) (fileID mediaType : String) :
    (UpdateNomineeMedia s k fileID mediaType).2.Valid := by
  have hid : ∀ x : NomineeRow,
      (if x.id = k then { x with media_file_id := some fileID, media_type := some mediaType }
        else x).id = x.id := by
    intro x; split <;> rfl
  have hnom : ∀ x : NomineeRow,
      (if x.id = k then { x with media_file_id := some fileID, media_type := some mediaType }
        else x).nomination_id = x.nomination_id := by
    intro x; split <;> rfl
  refine { hs with nominees_pk := ?_, nominees_seq := ?_, nominees_fk := ?_, votes_fk := ?_ }
  · show ((s.nominees.map (fun x : NomineeRow =>
        if x.id = k then { x with media_file_id := some fileID, media_type := some mediaType }
        else x)).map (fun x : NomineeRow => x.id)).Nodup
    rw [List.map_map]
    have : ((fun x : NomineeRow => x.id) ∘ fun x : NomineeRow =>
        if x.id = k then { x with media_file_id := some fileID, media_type := some mediaType }
        else x) = fun x => x.id := funext hid
    rw [this]
    exact hs.nominees_pk
  · intro x hx
    obtain ⟨y, hy, rfl⟩ := List.mem_map.mp hx
    rw [hid]
    exact hs.nominees_seq y hy
  · intro x hx
    obtain ⟨y, hy, rfl⟩ := List.mem_map.mp hx
    rw [hnom]
    exact hs.nominees_fk y hy
  · intro v hv
    obtain ⟨x, hx, hxv⟩ := hs.votes_fk v hv
    exact ⟨_, List.mem_map.mpr ⟨x, hx, rfl⟩, (hid x).trans hxv⟩

/-! ## The claims -/

/-- C1: in a database that satisfies its schema, a `RecordVote(h, n, c, t)`
for an existing nominee `c` succeeds and leaves exactly one vote row for the
pair `(h, n)`, whose nominee is `c` and whose timestamp is `t`, whether or not
the pair had a row before.  Hence after any sequence of `RecordVote` calls
every pair has at most one row, and the row of a pair carries the arguments
of the last accepted call for that pair. -/
theorem RecordVote_upsert (s : DB) (hs : s.Valid) (h : String) (n c t : Int)
    (hc : ∃ x ∈ s.nominees, x.id = c) :
    (RecordVote s h n c t).1 = .ok () ∧
    (∃ v, votesOfPair (RecordVote s h n c t).2 h n = [v] ∧ v.nominee_id = c ∧ v.created_at = t) ∧
    (∀ (calls : List VoteCall) (h' : String) (n' : Int),
      (votesOfPair (recordVotes s calls) h' n').length ≤ 1) ∧
    (∀ (pre post : List VoteCall) (last : VoteCall),
      (∃ x ∈ s.nominees, x.id = last.nomineeID) →
      (∀ k ∈ post, k.userHash = last.userHash → k.nominationID = last.nominationID →
        ¬ ∃ x ∈ s.nominees, x.id = k.nomineeID) →
      ∃ v, votesOfPair (recordVotes s (pre ++ last :: post)) last.userHash last.nominationID = [v] ∧
        v.nominee_id = last.nomineeID ∧ v.created_at = last.createdAt) := by
  refine ⟨RecordVote_ok s h n c t hc, RecordVote_pair s h n c t hs.votes_unique hc, ?_, ?_⟩
  · intro calls h' n'
    exact votesOfPair_length_le_one _ (recordVotes_unique calls s hs.votes_unique) h' n'
  · intro pre post last hlast hpost
    have hpre := recordVotes_unique pre s hs.votes_unique
    have hnom := recordVotes_nominees pre s
    obtain ⟨v, hv, hv1, hv2⟩ := RecordVote_pair (recordVotes s pre) last.userHash
      last.nominationID last.nomineeID last.createdAt hpre (by rw [hnom]; exact hlast)
    refine ⟨v, ?_, hv1, hv2⟩
    rw [recordVotes_append, recordVotes, recordVotes_other_pairs, hv]
    intro k hk e1 e2
    rw [RecordVote_nominees, hnom]
    exact hpost k hk e1 e2

/-- Witness of C1 on the test scenario: the user who voted Pizza votes Sushi. -/
theorem RecordVote_upsert_witness :
    dishesVoted.Valid ∧ (∃ x ∈ dishesVoted.nominees, x.id = 2) ∧
    (RecordVote dishesVoted "userA" 1 2 200).1 = .ok () ∧
    ∃ v, votesOfPair (RecordVote dishesVoted "userA" 1 2 200).2 "userA" 1 = [v] ∧
      v.nominee_id = 2 ∧ v.created_at = 200 :=
  have hv : dishesVoted.Valid := by constructor <;> decide
  have hc : ∃ x ∈ dishesVoted.nominees, x.id = 2 := by decide
  ⟨hv, hc, (RecordVote_upsert dishesVoted hv "userA" 1 2 200 hc).1,
    (RecordVote_upsert dishesVoted hv "userA" 1 2 200 hc).2.1⟩

/-- C2: re-voting moves the tally.  In a database that satisfies its schema,
where the vote of user hash `h` in nomination `n` is for nominee `a` of `n`,
and `b` is another nominee of `n`: `RecordVote(h, n, b, t)` succeeds, and
afterwards `ResultsByNomination(n)` shows the count of `a` one lower, the
count of `b` one higher and every other count as before.  In the test
scenario (nominees Pizza then Sushi, one user voting Pizza and then Sushi) the
result is `[(Sushi, 1), (Pizza, 0)]`. -/
theorem revote_moves_tally (s : DB) (hs : s.Valid) (h : String) (n a b t : Int)
    (hvote : ∃ v ∈ s.votes, v.user_hash = h ∧ v.nomination_id = n ∧ v.nominee_id = a)
    (ha : ∃ x ∈ s.nominees, x.id = a ∧ x.nomination_id = n)
    (hb : ∃ x ∈ s.nominees, x.id = b ∧ x.nomination_id = n)
    (hab : b ≠ a) :
    (RecordVote s h n b t).1 = .ok () ∧
    (∃ ca cb : Int,
      shownCount (ResultsByNomination s n).1 a = some ca ∧
      shownCount (ResultsByNomination s n).1 b = some cb ∧
      shownCount (ResultsByNomination (RecordVote s h n b t).2 n).1 a = some (ca - 1) ∧
      shownCount (ResultsByNomination (RecordVote s h n b t).2 n).1 b = some (cb + 1) ∧
      ∀ k, k ≠ a → k ≠ b →
        shownCount (ResultsByNomination (RecordVote s h n b t).2 n).1 k =
          shownCount (ResultsByNomination s n).1 k) ∧
    (ResultsByNomination (RecordVote dishesVoted "userA" 1 2 200).2 1).1 =
      .ok [⟨2, "Sushi", 1⟩, ⟨1, "Pizza", 0⟩] := by
  obtain ⟨xa, hxa, hxa1, hxa2⟩ := ha
  obtain ⟨xb, hxb, hxb1, hxb2⟩ := hb
  have hbex : ∃ x ∈ s.nominees, x.id = b := ⟨xb, hxb, hxb1⟩
  obtain ⟨c1, c2, c3⟩ := voteCount_revote s hs.votes_unique h n a b t hbex hvote hab
  have hnom := RecordVote_nominees s h n b t
  have hpk := hs.nominees_pk
  have hpk2 : ((RecordVote s h n b t).2.nominees.map (·.id)).Nodup := by rw [hnom]; exact hpk
  refine ⟨RecordVote_ok s h n b t hbex, ⟨voteCount s a, voteCount s b, ?_, ?_, ?_, ?_, ?_⟩, by decide⟩
  · have e := shownCount_listed s n hpk xa hxa hxa2
    rw [hxa1] at e; exact e
  · have e := shownCount_listed s n hpk xb hxb hxb2
    rw [hxb1] at e; exact e
  · have e := shownCount_listed _ n hpk2 xa (by rw [hnom]; exact hxa) hxa2
    rw [hxa1, c1] at e; exact e
  · have e := shownCount_listed _ n hpk2 xb (by rw [hnom]; exact hxb) hxb2
    rw [hxb1, c2] at e; exact e
  · intro k hka hkb
    by_cases hk : ∃ x ∈ s.nominees, x.nomination_id = n ∧ x.id = k
    · obtain ⟨x, hx, hx1, hx2⟩ := hk
      have e1 := shownCount_listed s n hpk x hx hx1
      have e2 := shownCount_listed _ n hpk2 x (by rw [hnom]; exact hx) hx1
      rw [hx2] at e1 e2
      rw [e1, e2, c3 k hka hkb]
    · have hk2 : ∀ x ∈ s.nominees, x.nomination_id = n → x.id ≠ k :=
        fun x hx e1 e2 => hk ⟨x, hx, e1, e2⟩
      rw [shownCount_unlisted s n k hpk hk2,
        shownCount_unlisted _ n k hpk2 (by rw [hnom]; exact hk2)]

/-- Witness of C2 on the test scenario. -/
theorem revote_moves_tally_witness :
    dishesVoted.Valid ∧
    (∃ v ∈ dishesVoted.votes, v.user_hash = "userA" ∧ v.nomination_id = 1 ∧ v.nominee_id = 1) ∧
    (∃ ca cb : Int,
      shownCount (ResultsByNomination dishesVoted 1).1 1 = some ca ∧
      shownCount (ResultsByNomination dishesVoted 1).1 2 = some cb ∧
      shownCount (ResultsByNomination (RecordVote dishesVoted "userA" 1 2 200).2 1).1 1 =
        some (ca - 1) ∧
      shownCount (ResultsByNomination (RecordVote dishesVoted "userA" 1 2 200).2 1).1 2 =
        some (cb + 1) ∧
      ∀ k, k ≠ 1 → k ≠ 2 →
        shownCount (ResultsByNomination (RecordVote dishesVoted "userA" 1 2 200).2 1).1 k =
          shownCount (ResultsByNomination dishesVoted 1).1 k) :=
  have hv : dishesVoted.Valid := by constructor <;> decide
  have h1 : ∃ v ∈ dishesVoted.votes,
      v.user_hash = "userA" ∧ v.nomination_id = 1 ∧ v.nominee_id = 1 := by decide
  ⟨hv, h1, (revote_moves_tally dishesVoted hv "userA" 1 1 2 200 h1 (by decide) (by decide)
    (by decide)).2.1⟩

/-- C3: in a database that satisfies its schema, `DeleteNomination(n)` of an
existing nomination returns true; afterwards nomination `n` is gone, no
nominee has nomination id `n` and no vote references a nominee that belonged
to `n`.  Rooms are unchanged, the nominations table is the old one without
`n`, the nominees table is the old one without the nominees of `n`, and the
votes table is the old one without the votes of those nominees: every vote
that references a nominee of another nomination is still there. -/
theorem DeleteNomination_cascade (s : DB) (hs : s.Valid) (n : Int)
    (hn : ∃ m ∈ s.nominations, m.id = n) :
    (DeleteNomination s n).1 = .ok true ∧
    (∀ m ∈ (DeleteNomination s n).2.nominations, m.id ≠ n) ∧
    (∀ x ∈ (DeleteNomination s n).2.nominees, x.nomination_id ≠ n) ∧
    (∀ v ∈ (DeleteNomination s n).2.votes,
      ¬ ∃ x ∈ s.nominees, x.nomination_id = n ∧ x.id = v.nominee_id) ∧
    (DeleteNomination s n).2.rooms = s.rooms ∧
    (DeleteNomination s n).2.nominations = s.nominations.filter (fun m => ¬ m.id = n) ∧
    (DeleteNomination s n).2.nominees = s.nominees.filter (fun x => ¬ x.nomination_id = n) ∧
    (DeleteNomination s n).2.votes =
      s.votes.filter (fun v => ¬ ∃ x ∈ s.nominees, x.nomination_id = n ∧ x.id = v.nominee_id) ∧
    (∀ v ∈ s.votes, (∃ x ∈ s.nominees, x.id = v.nominee_id ∧ x.nomination_id ≠ n) →
      v ∈ (DeleteNomination s n).2.votes) := by
  have e1 := DeleteNomination_nominations s n
  have e2 := DeleteNomination_nominees s n hn
  have e3 := DeleteNomination_votes s n hn
  refine ⟨?_, ?_, ?_, ?_, rfl, e1, e2, e3, ?_⟩
  · rw [DeleteNomination_fst, decide_eq_true hn]
  · intro m hm
    rw [e1] at hm
    simpa using (List.mem_filter.mp hm).2
  · intro x hx
    rw [e2] at hx
    simpa using (List.mem_filter.mp hx).2
  · intro v hv
    rw [e3] at hv
    exact of_decide_eq_true (List.mem_filter.mp hv).2
  · intro v hv hx
    obtain ⟨x, hx, hxv, hxn⟩ := hx
    rw [e3]
    refine List.mem_filter.mpr ⟨hv, decide_eq_true ?_⟩
    rintro ⟨y, hy, hyn, hyv⟩
    have hxy : x = y := List.inj_on_of_nodup_map hs.nominees_pk hx hy (hxv.trans hyv.symm)
    exact hxn (hxy ▸ hyn)

/-- Witness of C3: deleting the dishes nomination of the two-nomination
scenario. -/
theorem DeleteNomination_cascade_witness :
    party.Valid ∧ (∃ m ∈ party.nominations, m.id = 1) ∧
    (DeleteNomination party 1).1 = .ok true ∧
    (DeleteNomination party 1).2.nominees = [⟨3, 2, "Tea", none, none⟩] ∧
    (DeleteNomination party 1).2.votes = [⟨3, "userA", 2, 3, 120⟩] ∧
    (∀ v ∈ party.votes, (∃ x ∈ party.nominees, x.id = v.nominee_id ∧ x.nomination_id ≠ 1) →
      v ∈ (DeleteNomination party 1).2.votes) :=
  have hv : party.Valid := by constructor <;> decide
  have hn : ∃ m ∈ party.nominations, m.id = 1 := by decide
  ⟨hv, hn, (DeleteNomination_cascade party hv 1 hn).1, by decide, by decide,
    (DeleteNomination_cascade party hv 1 hn).2.2.2.2.2.2.2.2⟩

/-- C4: in a database that satisfies its schema, `DeleteNominee(k)` of an
existing nominee returns true; afterwards no vote references `k` and no
`ResultsByNomination` list has an entry for `k`.  The nominees table is the old
one without `k`, the votes table is the old one without the votes for `k`,
nominations and rooms are unchanged, and every other nominee is shown with the
same count as before. -/
theorem DeleteNominee_cascade (s : DB) (hs : s.Valid) (k : Int)
    (hk : ∃ x ∈ s.nominees, x.id = k) :
    (DeleteNominee s k).1 = .ok true ∧
    (∀ v ∈ (DeleteNominee s k).2.votes, v.nominee_id ≠ k) ∧
    (∀ n, ∃ rs, (ResultsByNomination (DeleteNominee s k).2 n).1 = .ok rs ∧ ∀ r ∈ rs, r.ID ≠ k) ∧
    (DeleteNominee s k).2.nominees = s.nominees.filter (fun x => ¬ x.id = k) ∧
    (DeleteNominee s k).2.votes = s.votes.filter (fun v => ¬ v.nominee_id = k) ∧
    (DeleteNominee s k).2.nominations = s.nominations ∧
    (DeleteNominee s k).2.rooms = s.rooms ∧
    (∀ n j, j ≠ k →
      shownCount (ResultsByNomination (DeleteNominee s k).2 n).1 j =
        shownCount (ResultsByNomination s n).1 j) := by
  have e1 := DeleteNominee_nominees s k
  have e2 := DeleteNominee_votes s k hk
  have hpk := hs.nominees_pk
  have hpk2 : ((DeleteNominee s k).2.nominees.map (·.id)).Nodup := by
    rw [e1]
    exact hpk.sublist ((List.filter_sublist _).map _)
  have hcount : ∀ j, j ≠ k → voteCount (DeleteNominee s k).2 j = voteCount s j := by
    intro j hj
    simp only [voteCount, e2, List.filter_filter]
    congr 2
    apply List.filter_congr
    intro v _
    by_cases hv : v.nominee_id = j
    · simp [hv, hj]
    · simp [hv]
  refine ⟨?_, ?_, ?_, e1, e2, rfl, rfl, ?_⟩
  · rw [DeleteNominee_fst, decide_eq_true hk]
  · intro v hv
    rw [e2] at hv
    simpa using (List.mem_filter.mp hv).2
  · intro n
    refine ⟨_, congrArg Prod.fst (ResultsByNomination_eq _ n hpk2), ?_⟩
    intro r hr
    rw [List.mem_insertionSort] at hr
    obtain ⟨x, hx, rfl⟩ := List.mem_map.mp hr
    have hx2 := (List.mem_filter.mp hx).1
    rw [e1] at hx2
    simpa using (List.mem_filter.mp hx2).2
  · intro n j hj
    by_cases hl : ∃ x ∈ s.nominees, x.nomination_id = n ∧ x.id = j
    · obtain ⟨x, hx, hxn, hxj⟩ := hl
      have hx2 : x ∈ (DeleteNominee s k).2.nominees := by
        rw [e1]
        exact List.mem_filter.mpr ⟨hx, by simpa [hxj] using hj⟩
      have a1 := shownCount_listed s n hpk x hx hxn
      have a2 := shownCount_listed _ n hpk2 x hx2 hxn
      rw [hxj] at a1 a2
      rw [a1, a2, hcount j hj]
    · have b1 : ∀ x ∈ s.nominees, x.nomination_id = n → x.id ≠ j :=
        fun x hx h1 h2 => hl ⟨x, hx, h1, h2⟩
      have b2 : ∀ x ∈ (DeleteNominee s k).2.nominees, x.nomination_id = n → x.id ≠ j := by
        intro x hx
        rw [e1] at hx
        exact b1 x (List.mem_filter.mp hx).1
      rw [shownCount_unlisted s n j hpk b1, shownCount_unlisted _ n j hpk2 b2]

/-- Witness of C4: deleting Pizza from the two-nomination scenario leaves
Sushi with its one vote. -/
theorem DeleteNominee_cascade_witness :
    party.Valid ∧ (∃ x ∈ party.nominees, x.id = 1) ∧
    (DeleteNominee party 1).1 = .ok true ∧
    (ResultsByNomination (DeleteNominee party 1).2 1).1 = .ok [⟨2, "Sushi", 1⟩] ∧
    (∀ n j, j ≠ 1 →
      shownCount (ResultsByNomination (DeleteNominee party 1).2 n).1 j =
        shownCount (ResultsByNomination party n).1 j) :=
  have hv : party.Valid := by constructor <;> decide
  have hk : ∃ x ∈ party.nominees, x.id = 1 := by decide
  ⟨hv, hk, (DeleteNominee_cascade party hv 1 hk).1, by decide,
    (DeleteNominee_cascade party hv 1 hk).2.2.2.2.2.2.2⟩

/-- C5: for every database, id and user id, each ownership check returns a
boolean and no error.  `IsNomineeOwner(k, u)` is true exactly when a nominee
`k` exists whose nomination exists in a room owned by `u`;
`IsNominationOwner(n, u)` is true exactly when a nomination `n` exists in a
room owned by `u`; `IsRoomOwner(r, u)` is true exactly when a room `r` owned by
`u` exists.  For an id that does not exist each returns false. -/
theorem IsOwner_chain (s : DB) (id u : Int) :
    (IsNomineeOwner s id u).1 = .ok (decide (∃ x ∈ s.nominees, x.id = id ∧
      ∃ m ∈ s.nominations, m.id = x.nomination_id ∧
      ∃ r ∈ s.rooms, r.id = m.room_id ∧ r.owner_user_id = u)) ∧
    (IsNominationOwner s id u).1 = .ok (decide (∃ m ∈ s.nominations, m.id = id ∧
      ∃ r ∈ s.rooms, r.id = m.room_id ∧ r.owner_user_id = u)) ∧
    (IsRoomOwner s id u).1 = .ok (decide (∃ r ∈ s.rooms, r.id = id ∧ r.owner_user_id = u)) ∧
    ((¬ ∃ x ∈ s.nominees, x.id = id) → (IsNomineeOwner s id u).1 = .ok false) ∧
    ((¬ ∃ m ∈ s.nominations, m.id = id) → (IsNominationOwner s id u).1 = .ok false) ∧
    ((¬ ∃ r ∈ s.rooms, r.id = id) → (IsRoomOwner s id u).1 = .ok false) := by
  rw [IsNomineeOwner_eq, IsNominationOwner_eq, IsRoomOwner_eq]
  refine ⟨rfl, rfl, rfl, ?_, ?_, ?_⟩
  · intro h
    exact congrArg Except.ok (decide_eq_false (fun ⟨x, hx, hid, _⟩ => h ⟨x, hx, hid⟩))
  · intro h
    exact congrArg Except.ok (decide_eq_false (fun ⟨m, hm, hid, _⟩ => h ⟨m, hm, hid⟩))
  · intro h
    exact congrArg Except.ok (decide_eq_false (fun ⟨r, hr, hid, _⟩ => h ⟨r, hr, hid⟩))

/-- Witness of C5 on the two-nomination scenario, whose room 1 is owned by
user 1: the owner passes the three checks, user 2 and dangling ids fail them. -/
theorem IsOwner_chain_witness :
    (IsNomineeOwner party 3 1).1 = .ok true ∧ (IsNomineeOwner party 3 2).1 = .ok false ∧
    (IsNominationOwner party 2 1).1 = .ok true ∧ (IsNominationOwner party 2 2).1 = .ok false ∧
    (IsRoomOwner party 1 1).1 = .ok true ∧ (IsRoomOwner party 1 2).1 = .ok false ∧
    (IsNomineeOwner party 9 1).1 = .ok false ∧ (IsNominationOwner party 9 1).1 = .ok false ∧
    (IsRoomOwner party 9 1).1 = .ok false :=
  ⟨by decide, by decide, by decide, by decide, by decide, by decide,
    (IsOwner_chain party 9 1).2.2.2.1 (by decide),
    (IsOwner_chain party 9 1).2.2.2.2.1 (by decide),
    (IsOwner_chain party 9 1).2.2.2.2.2 (by decide)⟩

/-- C6: for every database and nomination id, `ResultsByNomination` returns a
list (and hands the database back unchanged) that is sorted by descending vote
count, entries of equal count being in ascending nominee id; a second call on
the database the first call left returns the same list.  In a database that
satisfies its schema the order leaves no freedom: any arrangement of the same
entries that respects `ORDER BY votes DESC, n.id` is the returned list. -/
theorem ResultsByNomination_sorted (s : DB) (n : Int) :
    ∃ rs, ResultsByNomination s n = (.ok rs, s) ∧
      rs.Pairwise (fun a b => b.Votes ≤ a.Votes) ∧
      rs.Pairwise (fun a b => a.Votes = b.Votes → a.ID ≤ b.ID) ∧
      (ResultsByNomination (ResultsByNomination s n).2 n).1 = .ok rs ∧
      (s.Valid → ∀ l : List NomineeResult, l.Perm rs → l.Pairwise resultOrder → l = rs) := by
  refine ⟨_, rfl, ?_, ?_, rfl, ?_⟩
  · refine (insertionSort_resultOrder_sorted _).imp ?_
    intro a b hab
    unfold resultOrder at hab
    omega
  · refine (insertionSort_resultOrder_sorted _).imp ?_
    intro a b hab
    unfold resultOrder at hab
    omega
  · intro hs l hl hsorted
    have heq := ResultsByNomination_eq s n hs.nominees_pk
    unfold ResultsByNomination at heq
    simp only [Prod.mk.injEq, Except.ok.injEq, and_true] at heq
    rw [heq] at hl ⊢
    have hnd : (((resultRows s n).insertionSort resultOrder).map (·.ID)).Nodup :=
      ((List.perm_insertionSort resultOrder _).map _).nodup_iff.mpr
        (resultRows_nodup s n hs.nominees_pk)
    exact resultOrder_unique _ _ hl hnd hsorted (insertionSort_resultOrder_sorted _)

/-- Witness of C6 on the two-nomination scenario after `userB` moved to Pizza:
Pizza (2 votes) comes before Sushi (0 votes); in the scenario itself Pizza and
Sushi tie at one vote and come in ascending id. -/
theorem ResultsByNomination_sorted_witness :
    (ResultsByNomination (RecordVote party "userB" 1 1 130).2 1).1 =
      .ok [⟨1, "Pizza", 2⟩, ⟨2, "Sushi", 0⟩] ∧
    (ResultsByNomination party 1).1 = .ok [⟨1, "Pizza", 1⟩, ⟨2, "Sushi", 1⟩] ∧
    ∃ rs, ResultsByNomination party 1 = (.ok rs, party) ∧
      rs.Pairwise (fun a b => b.Votes ≤ a.Votes) :=
  ⟨by decide, by decide, (ResultsByNomination_sorted party 1).imp (fun _ h => ⟨h.1, h.2.1⟩)⟩

/-- C7: in a database that satisfies its schema, `ResultsByNomination(n)`
returns a list that has exactly one entry for each nominee whose nomination is
`n` and no other entry; the entry of a nominee carries its id, its name and the
number of vote rows whose nominee id is that nominee, which is 0 for a nominee
nobody voted for.  With no nominee in `n`, or no nomination `n`, the list is
empty and no error is returned. -/
theorem ResultsByNomination_entries (s : DB) (hs : s.Valid) (n : Int) :
    ∃ rs, (ResultsByNomination s n).1 = .ok rs ∧
      rs.Perm (resultRows s n) ∧
      (rs.map (·.ID)).Nodup ∧
      (∀ x ∈ s.nominees, x.nomination_id = n → ⟨x.id, x.name, voteCount s x.id⟩ ∈ rs) ∧
      (∀ x ∈ s.nominees, x.nomination_id = n → (∀ v ∈ s.votes, v.nominee_id ≠ x.id) →
        ⟨x.id, x.name, 0⟩ ∈ rs) ∧
      (∀ r ∈ rs, ∃ x ∈ s.nominees,
        x.nomination_id = n ∧ r = ⟨x.id, x.name, voteCount s x.id⟩) ∧
      ((∀ x ∈ s.nominees, x.nomination_id ≠ n) → rs = []) ∧
      ((¬ ∃ m ∈ s.nominations, m.id = n) → rs = []) := by
  have hpk := hs.nominees_pk
  have hperm := List.perm_insertionSort resultOrder (resultRows s n)
  have hmem : ∀ x ∈ s.nominees, x.nomination_id = n →
      (⟨x.id, x.name, voteCount s x.id⟩ : NomineeResult) ∈
        (resultRows s n).insertionSort resultOrder := by
    intro x hx hxn
    rw [List.mem_insertionSort]
    exact List.mem_map.mpr ⟨x, List.mem_filter.mpr ⟨hx, by simpa using hxn⟩, rfl⟩
  have hnone : (∀ x ∈ s.nominees, x.nomination_id ≠ n) →
      (resultRows s n).insertionSort resultOrder = [] := by
    intro h
    have : s.nominees.filter (fun x => decide (x.nomination_id = n)) = [] :=
      List.filter_eq_nil_iff.mpr (fun x hx hq => h x hx (of_decide_eq_true hq))
    simp [resultRows, this]
  refine ⟨_, congrArg Prod.fst (ResultsByNomination_eq s n hpk), hperm,
    (hperm.map _).nodup_iff.mpr (resultRows_nodup s n hpk), hmem, ?_, ?_, hnone, ?_⟩
  · intro x hx hxn hv
    have h0 : voteCount s x.id = 0 := by
      have : s.votes.filter (fun v => decide (v.nominee_id = x.id)) = [] :=
        List.filter_eq_nil_iff.mpr (fun v hv' hq => hv v hv' (of_decide_eq_true hq))
      simp [voteCount, this]
    have := hmem x hx hxn
    rw [h0] at this
    exact this
  · intro r hr
    rw [List.mem_insertionSort] at hr
    obtain ⟨x, hx, rfl⟩ := List.mem_map.mp hr
    have hx2 := List.mem_filter.mp hx
    exact ⟨x, hx2.1, of_decide_eq_true hx2.2, rfl⟩
  · intro h
    apply hnone
    intro x hx hxn
    obtain ⟨m, hm, hmx⟩ := hs.nominees_fk x hx
    exact h ⟨m, hm, hmx.trans hxn⟩

/-- Witness of C7: the dishes of the two-nomination scenario, and an id that
is no nomination. -/
theorem ResultsByNomination_entries_witness :
    party.Valid ∧
    (ResultsByNomination party 1).1 = .ok [⟨1, "Pizza", 1⟩, ⟨2, "Sushi", 1⟩] ∧
    (ResultsByNomination dishes 1).1 = .ok [⟨1, "Pizza", 0⟩, ⟨2, "Sushi", 0⟩] ∧
    (ResultsByNomination party 9).1 = .ok [] ∧
    ∃ rs, (ResultsByNomination party 1).1 = .ok rs ∧ rs.Perm (resultRows party 1) :=
  have hv : party.Valid := by constructor <;> decide
  ⟨hv, by decide, by decide, by decide,
    (ResultsByNomination_entries party hv 1).imp (fun _ h => ⟨h.1, h.2.1⟩)⟩

/-- C8: `DeleteNomination` and `DeleteNominee` report whether a row was
deleted and are idempotent.  For every database and id the call returns true
exactly when a row with that id existed; when none exists it returns false, no
error, and the database is unchanged; a second call with the same id returns
false and leaves the database the first call produced. -/
theorem Delete_idempotent (s : DB) (id : Int) :
    (DeleteNomination s id).1 = .ok (decide (∃ m ∈ s.nominations, m.id = id)) ∧
    (DeleteNominee s id).1 = .ok (decide (∃ x ∈ s.nominees, x.id = id)) ∧
    ((¬ ∃ m ∈ s.nominations, m.id = id) → DeleteNomination s id = (.ok false, s)) ∧
    ((¬ ∃ x ∈ s.nominees, x.id = id) → DeleteNominee s id = (.ok false, s)) ∧
    DeleteNomination (DeleteNomination s id).2 id = (.ok false, (DeleteNomination s id).2) ∧
    DeleteNominee (DeleteNominee s id).2 id = (.ok false, (DeleteNominee s id).2) := by
  have hnom : ∀ t : DB, (¬ ∃ m ∈ t.nominations, m.id = id) →
      DeleteNomination t id = (.ok false, t) := by
    intro t h
    have h1 : t.nominations.filter (fun m => decide (m.id = id)) = [] :=
      List.filter_eq_nil_iff.mpr (fun m hm hq => h ⟨m, hm, of_decide_eq_true hq⟩)
    have h2 : t.nominations.filter (fun m => !decide (m.id = id)) = t.nominations :=
      List.filter_eq_self.mpr (fun m hm => by simpa using fun e => h ⟨m, hm, e⟩)
    simp [DeleteNomination, h1, h2]
  have hnee : ∀ t : DB, (¬ ∃ x ∈ t.nominees, x.id = id) →
      DeleteNominee t id = (.ok false, t) := by
    intro t h
    have h1 : t.nominees.filter (fun x => decide (x.id = id)) = [] :=
      List.filter_eq_nil_iff.mpr (fun x hx hq => h ⟨x, hx, of_decide_eq_true hq⟩)
    have h2 : t.nominees.filter (fun x => !decide (x.id = id)) = t.nominees :=
      List.filter_eq_self.mpr (fun x hx => by simpa using fun e => h ⟨x, hx, e⟩)
    simp [DeleteNominee, h1, h2]
  refine ⟨DeleteNomination_fst s id, DeleteNominee_fst s id, hnom s, hnee s, ?_, ?_⟩
  · apply hnom
    rintro ⟨m, hm, hid⟩
    rw [DeleteNomination_nominations] at hm
    exact of_decide_eq_true (List.mem_filter.mp hm).2 hid
  · apply hnee
    rintro ⟨x, hx, hid⟩
    rw [DeleteNominee_nominees] at hx
    exact of_decide_eq_true (List.mem_filter.mp hx).2 hid

/-- Witness of C8 on the two-nomination scenario: deleting twice, and deleting
ids that are not there. -/
theorem Delete_idempotent_witness :
    (DeleteNomination party 1).1 = .ok true ∧
    DeleteNomination (DeleteNomination party 1).2 1 = (.ok false, (DeleteNomination party 1).2) ∧
    (DeleteNominee party 2).1 = .ok true ∧
    DeleteNominee (DeleteNominee party 2).2 2 = (.ok false, (DeleteNominee party 2).2) ∧
    DeleteNomination party 9 = (.ok false, party) ∧
    DeleteNominee party 9 = (.ok false, party) :=
  ⟨by decide, (Delete_idempotent party 1).2.2.2.2.1, by decide,
    (Delete_idempotent party 2).2.2.2.2.2,
    (Delete_idempotent party 9).2.2.1 (by decide),
    (Delete_idempotent party 9).2.2.2.1 (by decide)⟩

/-- C9: in a database that satisfies its schema, `CreateRoom(owner, title,
password)` returns an id `r`, and `GetRoomByIDAndPassword(r, password)` on the
resulting database returns the room with id `r`, that owner and that title.
For every database, id and password, `GetRoomByIDAndPassword` returns
`ErrNotFound` exactly when no room has both that id and that password, so a
wrong password and a missing room give the same answer, and it hands the
database back unchanged. -/
theorem CreateRoom_then_get (s : DB) (owner : Int) (title password : String) (now : Int) :
    (s.Valid → ∃ r room, (CreateRoom s owner title password now).1 = .ok r ∧
      GetRoomByIDAndPassword (CreateRoom s owner title password now).2 r password =
        (.ok room, (CreateRoom s owner title password now).2) ∧
      room.ID = r ∧ room.OwnerUserID = owner ∧ room.Title = title) ∧
    (∀ (id : Int) (p : String),
      (GetRoomByIDAndPassword s id p).1 = .error .ErrNotFound ↔
        ¬ ∃ r ∈ s.rooms, r.id = id ∧ r.password = p) ∧
    (∀ (id : Int) (p : String), (GetRoomByIDAndPassword s id p).2 = s) := by
  refine ⟨?_, ?_, ?_⟩
  · intro hs
    refine ⟨s.next_room_id, ⟨s.next_room_id, owner, title, password, now⟩, rfl, ?_, rfl, rfl, rfl⟩
    have hold : s.rooms.find? (fun r => decide (r.id = s.next_room_id ∧ r.password = password))
        = none := by
      rw [List.find?_eq_none]
      intro r hr hq
      have := hs.rooms_seq r hr
      have hq2 := (of_decide_eq_true hq).1
      omega
    simp only [GetRoomByIDAndPassword, CreateRoom, List.find?_append, hold]
    simp
  · intro id p
    simp only [GetRoomByIDAndPassword]
    split
    · rename_i r hr
      have h1 := List.find?_some hr
      have h2 := List.mem_of_find?_eq_some hr
      constructor
      · intro h; cases h
      · intro h
        exact absurd ⟨r, h2, of_decide_eq_true h1⟩ h
    · rename_i hr
      rw [List.find?_eq_none] at hr
      constructor
      · rintro - ⟨r, hr1, hr2⟩
        exact hr r hr1 (decide_eq_true hr2)
      · intro _; rfl
  · intro id p
    simp only [GetRoomByIDAndPassword]
    split <;> rfl

/-- Witness of C9: the room of the storage test, fetched with the right
password and with a wrong one. -/
theorem CreateRoom_then_get_witness :
    party.Valid ∧
    (CreateRoom party 777 "test room" "secret" 5).1 = .ok 2 ∧
    (GetRoomByIDAndPassword (CreateRoom party 777 "test room" "secret" 5).2 2 "secret").1 =
      .ok ⟨2, 777, "test room", "secret", 5⟩ ∧
    (GetRoomByIDAndPassword (CreateRoom party 777 "test room" "secret" 5).2 2 "nope").1 =
      .error .ErrNotFound ∧
    ∃ r room, (CreateRoom party 777 "test room" "secret" 5).1 = .ok r ∧
      GetRoomByIDAndPassword (CreateRoom party 777 "test room" "secret" 5).2 r "secret" =
        (.ok room, (CreateRoom party 777 "test room" "secret" 5).2) ∧
      room.ID = r ∧ room.OwnerUserID = 777 ∧ room.Title = "test room" :=
  have hv : party.Valid := by constructor <;> decide
  ⟨hv, by decide, by decide, by decide,
    (CreateRoom_then_get party 777 "test room" "secret" 5).1 hv⟩

/-- Counterexample to C10 as stated: on the two-nomination scenario there is no
room 9, no nomination 9 and no room owned by user 2, yet the three list
accessors return the empty list and no error, not `ErrNotFound`. -/
theorem list_accessors_not_ErrNotFound :
    (¬ ∃ r ∈ party.rooms, r.id = 9) ∧
    (ListNominations party 9).1 = .ok [] ∧ (ListNominations party 9).1 ≠ .error .ErrNotFound ∧
    (¬ ∃ m ∈ party.nominations, m.id = 9) ∧
    (ListNominees party 9).1 = .ok [] ∧ (ListNominees party 9).1 ≠ .error .ErrNotFound ∧
    (¬ ∃ r ∈ party.rooms, r.owner_user_id = 2) ∧
    (ListRoomsByOwner party 2).1 = .ok [] ∧ (ListRoomsByOwner party 2).1 ≠ .error .ErrNotFound := by
  decide

/-- C10, amended: for every database and id no list accessor returns an error,
`ErrNotFound` included, and each hands the database back unchanged.
`ListRoomsByOwner(u)` with no room owned by `u` returns the empty list; in a
database that satisfies its schema, `ListNominations(r)` with no room `r` and
`ListNominees(n)` with no nomination `n` return the empty list. -/
theorem list_accessors_empty (s : DB) (id : Int) :
    (∀ e, (ListNominations s id).1 ≠ .error e ∧ (ListNominees s id).1 ≠ .error e ∧
      (ListRoomsByOwner s id).1 ≠ .error e) ∧
    ((ListNominations s id).2 = s ∧ (ListNominees s id).2 = s ∧ (ListRoomsByOwner s id).2 = s) ∧
    ((¬ ∃ r ∈ s.rooms, r.owner_user_id = id) → (ListRoomsByOwner s id).1 = .ok []) ∧
    (s.Valid → (¬ ∃ r ∈ s.rooms, r.id = id) → (ListNominations s id).1 = .ok []) ∧
    (s.Valid → (¬ ∃ m ∈ s.nominations, m.id = id) → (ListNominees s id).1 = .ok []) := by
  refine ⟨?_, ⟨rfl, rfl, rfl⟩, ?_, ?_, ?_⟩
  · intro e
    refine ⟨?_, ?_, ?_⟩ <;> intro h <;> cases h
  · intro h
    have : s.rooms.filter (fun r => decide (r.owner_user_id = id)) = [] :=
      List.filter_eq_nil_iff.mpr (fun r hr hq => h ⟨r, hr, of_decide_eq_true hq⟩)
    simp [ListRoomsByOwner, this]
  · intro hs h
    have : s.nominations.filter (fun m => decide (m.room_id = id)) = [] := by
      apply List.filter_eq_nil_iff.mpr
      intro m hm hq
      obtain ⟨r, hr, hrm⟩ := hs.nominations_fk m hm
      exact h ⟨r, hr, hrm.trans (of_decide_eq_true hq)⟩
    simp [ListNominations, this]
  · intro hs h
    have : s.nominees.filter (fun x => decide (x.nomination_id = id)) = [] := by
      apply List.filter_eq_nil_iff.mpr
      intro x hx hq
      obtain ⟨m, hm, hmx⟩ := hs.nominees_fk x hx
      exact h ⟨m, hm, hmx.trans (of_decide_eq_true hq)⟩
    simp [ListNominees, this]

/-- Witness of the amended C10 on the two-nomination scenario. -/
theorem list_accessors_empty_witness :
    party.Valid ∧ (¬ ∃ r ∈ party.rooms, r.id = 9) ∧ (ListNominations party 9).1 = .ok [] ∧
    (¬ ∃ m ∈ party.nominations, m.id = 9) ∧ (ListNominees party 9).1 = .ok [] ∧
    (¬ ∃ r ∈ party.rooms, r.owner_user_id = 2) ∧ (ListRoomsByOwner party 2).1 = .ok [] :=
  have hv : party.Valid := by constructor <;> decide
  have h1 : ¬ ∃ r ∈ party.rooms, r.id = 9 := by decide
  have h2 : ¬ ∃ m ∈ party.nominations, m.id = 9 := by decide
  have h3 : ¬ ∃ r ∈ party.rooms, r.owner_user_id = 2 := by decide
  ⟨hv, h1, (list_accessors_empty party 9).2.2.2.1 hv h1, h2,
    (list_accessors_empty party 9).2.2.2.2 hv h2,
    h3, (list_accessors_empty party 2).2.2.1 h3⟩

/-! ## Lemmas on the Go string functions -/

/-- The shape of a split: the segments before the last one hold no separator,
there are at most `k` of them, the last one holds no separator unless the
limit was reached, and joining the segments gives the input back. -/
theorem splitChars_spec (sep : Char) : ∀ (cs : List Char) (k : Nat),
    ∃ early rest, splitChars sep k cs = early ++ [rest] ∧ (∀ e ∈ early, sep ∉ e) ∧
      early.length ≤ k ∧ (early.length < k → sep ∉ rest) ∧
      joinChars sep (early ++ [rest]) = cs := by
  intro cs
  induction cs with
  | nil =>
    intro k
    refine ⟨[], [], ?_, by simp, by simp, by simp, rfl⟩
    cases k <;> rfl
  | cons c cs ih =>
    intro k
    cases k with
    | zero => exact ⟨[], c :: cs, rfl, by simp, by simp, by simp, rfl⟩
    | succ k =>
      by_cases hc : c = sep
      · obtain ⟨early, rest, h1, h2, h3, h4, h5⟩ := ih k
        refine ⟨[] :: early, rest, ?_, ?_, ?_, ?_, ?_⟩
        · simp [splitChars, hc, h1]
        · intro e he
          rcases List.mem_cons.mp he with rfl | he
          · simp
          · exact h2 e he
        · simpa using h3
        · intro hlt
          exact h4 (by simpa using hlt)
        · cases early with
          | nil =>
            simp only [List.nil_append] at h5 ⊢
            simp only [List.cons_append, List.nil_append, joinChars] at h5 ⊢
            simp [h5, hc]
          | cons e es =>
            simp only [List.cons_append, joinChars] at h5 ⊢
            simp [h5, hc]
      · obtain ⟨early, rest, h1, h2, h3, h4, h5⟩ := ih (k + 1)
        cases early with
        | nil =>
          refine ⟨[], c :: rest, ?_, by simp, by simp, ?_, ?_⟩
          · simp [splitChars, hc, h1]
          · intro _
            have := h4 (by simp)
            simp only [List.mem_cons, not_or]
            exact ⟨fun e => hc e.symm, this⟩
          · simp only [List.nil_append, joinChars] at h5 ⊢
            rw [h5]
        | cons e es =>
          refine ⟨(c :: e) :: es, rest, ?_, ?_, h3, h4, ?_⟩
          · simp [splitChars, hc, h1]
          · intro x hx
            rcases List.mem_cons.mp hx with rfl | hx
            · simp only [List.mem_cons, not_or]
              exact ⟨fun e' => hc e'.symm, h2 e (List.mem_cons_self _ _)⟩
            · exact h2 x (List.mem_cons_of_mem _ hx)
          · cases es with
            | nil =>
              simp only [List.cons_append, List.nil_append, joinChars] at h5 ⊢
              simp [← h5]
            | cons e2 es2 =>
              simp only [List.cons_append, joinChars] at h5 ⊢
              simp [← h5]

/-- The loop of `splitPipeArgs` collects the trimmed segments that are not
empty, in order. -/
theorem splitPipeArgs_loop (raw : List String) : ∀ out : List String,
    raw.foldl (fun out part =>
      if TrimSpace part ≠ "" then out ++ [TrimSpace part] else out) out =
    out ++ (raw.map TrimSpace).filter (fun p => p ≠ "") := by
  induction raw with
  | nil => intro out; simp
  | cons x xs ih =>
    intro out
    rw [List.foldl_cons, ih]
    by_cases hx : TrimSpace x = ""
    · simp [hx]
    · simp [hx]

theorem splitPipeArgs_eq (s : String) (n : Int) :
    splitPipeArgs s n = ((SplitN s '|' n).map TrimSpace).filter (fun p => p ≠ "") := by
  unfold splitPipeArgs
  simpa using splitPipeArgs_loop (SplitN s '|' n) []

/-- A trimmed string starts and ends with a character that is no white space,
and trimming it again changes nothing. -/
theorem TrimSpace_spec (s : String) :
    TrimSpace (TrimSpace s) = TrimSpace s ∧
    (∀ c, (TrimSpace s).data.head? = some c → isSpace c = false) ∧
    (∀ c, (TrimSpace s).data.getLast? = some c → isSpace c = false) := by
  have hpre : (s.data.dropWhile isSpace).rdropWhile isSpace <+: s.data.dropWhile isSpace :=
    List.rdropWhile_prefix isSpace _
  have hhead : ∀ c, ((s.data.dropWhile isSpace).rdropWhile isSpace).head? = some c →
      isSpace c = false := by
    intro c hc
    have hne : (s.data.dropWhile isSpace).rdropWhile isSpace ≠ [] := by
      intro h; rw [h] at hc; cases hc
    have h1 := hpre.head hne
    have hne2 : s.data.dropWhile isSpace ≠ [] := by
      intro h
      apply hne
      rw [h]
      rfl
    have h2 := List.head_dropWhile_not isSpace s.data hne2
    rw [List.head?_eq_head hne] at hc
    have hc2 : ((s.data.dropWhile isSpace).rdropWhile isSpace).head hne = c := by
      simpa using hc
    rw [← hc2, h1]
    exact h2
  have hlast : ∀ c, ((s.data.dropWhile isSpace).rdropWhile isSpace).getLast? = some c →
      isSpace c = false := by
    intro c hc
    have hne : (s.data.dropWhile isSpace).rdropWhile isSpace ≠ [] := by
      intro h; rw [h] at hc; cases hc
    have h1 := List.rdropWhile_last_not isSpace (s.data.dropWhile isSpace) hne
    rw [List.getLast?_eq_getLast _ hne] at hc
    have hc2 : ((s.data.dropWhile isSpace).rdropWhile isSpace).getLast hne = c := by
      simpa using hc
    rw [← hc2]
    simpa using h1
  refine ⟨?_, hhead, hlast⟩
  unfold TrimSpace
  congr 1
  show ((((s.data.dropWhile isSpace).rdropWhile isSpace).dropWhile isSpace).rdropWhile isSpace)
    = (s.data.dropWhile isSpace).rdropWhile isSpace
  have e1 : ((s.data.dropWhile isSpace).rdropWhile isSpace).dropWhile isSpace =
      (s.data.dropWhile isSpace).rdropWhile isSpace := by
    cases h : (s.data.dropWhile isSpace).rdropWhile isSpace with
    | nil => rfl
    | cons c cs =>
      have := hhead c (by rw [h]; rfl)
      simp [List.dropWhile, this]
  rw [e1, List.rdropWhile_idempotent]

theorem String_ne_empty_iff (p : String) : p ≠ "" ↔ p.data ≠ [] := by
  constructor
  · intro h hd
    apply h
    cases p
    simp_all
  · intro h hp
    apply h
    rw [hp]

theorem TrimSpace_mem (s : String) (c : Char) (h : c ∈ (TrimSpace s).data) : c ∈ s.data := by
  have h1 : (s.data.dropWhile isSpace).rdropWhile isSpace <+: s.data.dropWhile isSpace :=
    List.rdropWhile_prefix isSpace _
  have h2 : s.data.dropWhile isSpace <:+ s.data := List.dropWhile_suffix isSpace
  exact h2.subset (h1.subset h)

/-- The substrings of `SplitN` for a limit other than zero are the split of
the characters, with as many cuts as the limit allows. -/
theorem SplitN_eq (s : String) (n : Int) (hn : n ≠ 0) :
    SplitN s '|' n =
      (splitChars '|' (if n < 0 then s.data.length else n.toNat - 1) s.data).map String.mk := by
  unfold SplitN
  rw [if_neg hn]
  split <;> rfl

theorem map_data_mk (l : List (List Char)) : (l.map String.mk).map String.data = l := by
  induction l with
  | nil => rfl
  | cons x xs ih => rw [List.map_cons, List.map_cons, ih]

/-- C17: for every string `s` and every integer `n`, every element of
`splitPipeArgs(s, n)` is non-empty and has no leading or trailing white space
(it equals its own trimmed form); the elements are the trimmed segments of
`SplitN(s, "|", n)` that are not empty, in the order of the segments, and for
`n ≠ 0` the segments joined with `|` are `s`. -/
theorem splitPipeArgs_trimmed (s : String) (n : Int) :
    (∀ p ∈ splitPipeArgs s n, p ≠ "" ∧ TrimSpace p = p ∧
      (∀ c, p.data.head? = some c → isSpace c = false) ∧
      (∀ c, p.data.getLast? = some c → isSpace c = false)) ∧
    splitPipeArgs s n = ((SplitN s '|' n).map TrimSpace).filter (fun p => p ≠ "") ∧
    (n ≠ 0 → Join (SplitN s '|' n) '|' = s) := by
  refine ⟨?_, splitPipeArgs_eq s n, ?_⟩
  · intro p hp
    rw [splitPipeArgs_eq] at hp
    obtain ⟨hp1, hp2⟩ := List.mem_filter.mp hp
    obtain ⟨q, -, rfl⟩ := List.mem_map.mp hp1
    have := TrimSpace_spec q
    exact ⟨of_decide_eq_true hp2, this.1, this.2.1, this.2.2⟩
  · intro hn
    rw [SplitN_eq s n hn]
    obtain ⟨early, rest, h1, -, -, -, h5⟩ :=
      splitChars_spec '|' s.data (if n < 0 then s.data.length else n.toNat - 1)
    unfold Join
    rw [map_data_mk, h1, h5]

/-- Witness of C17 on the inputs of the unit test. -/
theorem splitPipeArgs_trimmed_witness :
    splitPipeArgs "  A   |   B  " 2 = ["A", "B"] ∧ splitPipeArgs "A||B" 3 = ["A", "B"] ∧
    splitPipeArgs " | P" 2 = ["P"] ∧ splitPipeArgs "T | " 2 = ["T"] ∧
    splitPipeArgs "|x|" (-4) = ["x"] ∧
    (∀ p ∈ splitPipeArgs "  A   |   B  " 2, p ≠ "" ∧ TrimSpace p = p ∧
      (∀ c, p.data.head? = some c → isSpace c = false) ∧
      (∀ c, p.data.getLast? = some c → isSpace c = false)) :=
  ⟨by decide, by decide, by decide, by decide, by decide,
    (splitPipeArgs_trimmed "  A   |   B  " 2).1⟩

/-- C18: `splitPipeArgs(s, 0)` is empty; for `n > 0` the result has at most
`n` elements: `SplitN` cuts `s` at no more than `n - 1` separators, so the
segments before the last hold no `|`, the last segment is the whole remainder
of `s` (it holds a `|` only when the `n - 1` cuts were used up) and is returned
trimmed as one element, and every element that comes from an earlier segment
holds no `|`.  With `n = 2`, `A|B|C` gives `A` and `B|C`. -/
theorem splitPipeArgs_limit (s : String) (n : Int) :
    splitPipeArgs s 0 = [] ∧
    (0 < n → ((splitPipeArgs s n).length : Int) ≤ n) ∧
    (0 < n → ∃ (early : List String) (rest : String),
      SplitN s '|' n = early ++ [rest] ∧ Join (early ++ [rest]) '|' = s ∧
      (early.length : Int) ≤ n - 1 ∧ (∀ e ∈ early, '|' ∉ e.data) ∧
      ((early.length : Int) < n - 1 → '|' ∉ rest.data) ∧
      splitPipeArgs s n = (early.map TrimSpace).filter (fun p => p ≠ "") ++
        (if TrimSpace rest ≠ "" then [TrimSpace rest] else []) ∧
      ∀ p ∈ (early.map TrimSpace).filter (fun p => p ≠ ""), '|' ∉ p.data) ∧
    splitPipeArgs "A|B|C" 2 = ["A", "B|C"] := by
  have hmain : 0 < n → ∃ (early : List String) (rest : String),
      SplitN s '|' n = early ++ [rest] ∧ Join (early ++ [rest]) '|' = s ∧
      (early.length : Int) ≤ n - 1 ∧ (∀ e ∈ early, '|' ∉ e.data) ∧
      ((early.length : Int) < n - 1 → '|' ∉ rest.data) ∧
      splitPipeArgs s n = (early.map TrimSpace).filter (fun p => p ≠ "") ++
        (if TrimSpace rest ≠ "" then [TrimSpace rest] else []) ∧
      ∀ p ∈ (early.map TrimSpace).filter (fun p => p ≠ ""), '|' ∉ p.data := by
    intro hn
    have hn0 : n ≠ 0 := by omega
    have hneg : ¬ n < 0 := by omega
    have hsplit := SplitN_eq s n hn0
    rw [if_neg hneg] at hsplit
    obtain ⟨early, rest, h1, h2, h3, h4, h5⟩ := splitChars_spec '|' s.data (n.toNat - 1)
    have hsplit2 : SplitN s '|' n = early.map String.mk ++ [String.mk rest] := by
      rw [hsplit, h1]; simp
    refine ⟨early.map String.mk, String.mk rest, hsplit2, ?_, ?_, ?_, ?_, ?_, ?_⟩
    · unfold Join
      have : (early.map String.mk ++ [String.mk rest]).map String.data = early ++ [rest] := by
        rw [List.map_append, map_data_mk]
        rfl
      rw [this, h5]
    · simp only [List.length_map]
      omega
    · intro e he
      obtain ⟨x, hx, rfl⟩ := List.mem_map.mp he
      exact h2 x hx
    · intro hlt
      simp only [List.length_map] at hlt
      exact h4 (by omega)
    · rw [splitPipeArgs_eq, hsplit2, List.map_append, List.filter_append]
      congr 1
      by_cases hr : TrimSpace (String.mk rest) = ""
      · simp [hr]
      · simp [hr]
    · intro p hp
      obtain ⟨hp1, -⟩ := List.mem_filter.mp hp
      obtain ⟨q, hq, rfl⟩ := List.mem_map.mp hp1
      obtain ⟨x, hx, rfl⟩ := List.mem_map.mp hq
      intro hmem
      exact h2 x hx (TrimSpace_mem _ _ hmem)
  refine ⟨by simp [splitPipeArgs, SplitN], ?_, hmain, by decide⟩
  intro hn
  obtain ⟨early, rest, -, -, h3, -, -, h6, -⟩ := hmain hn
  rw [h6]
  have h7 : ((early.map TrimSpace).filter (fun p => p ≠ "")).length ≤ early.length := by
    have := List.length_filter_le (fun p => decide (p ≠ "")) (early.map TrimSpace)
    simpa using this
  have h8 : (if TrimSpace rest ≠ "" then [TrimSpace rest] else []).length ≤ 1 := by
    split <;> simp
  rw [List.length_append]
  push_cast
  omega

/-- Witness of C18 on the inputs of the unit test. -/
theorem splitPipeArgs_limit_witness :
    splitPipeArgs "A | B | C" 3 = ["A", "B", "C"] ∧ splitPipeArgs "A | B | C" 2 = ["A", "B | C"] ∧
    splitPipeArgs "A | B | C" 1 = ["A | B | C"] ∧ splitPipeArgs "A | B | C" 0 = [] ∧
    ((splitPipeArgs "A | B | C" 2).length : Int) ≤ 2 :=
  ⟨by decide, by decide, by decide, by decide, (splitPipeArgs_limit "A | B | C" 2).2.1 (by decide)⟩

/-! ## Lemmas on the user hash -/

theorem sha256Round_length (v : List Nat) (kw : Nat × Nat) :
    (sha256Round v kw).length = v.length := by
  unfold sha256Round
  split <;> simp

theorem sha256Rounds_length (kws : List (Nat × Nat)) :
    ∀ v : List Nat, (kws.foldl sha256Round v).length = v.length := by
  induction kws with
  | nil => intro v; rfl
  | cons kw kws ih => intro v; rw [List.foldl_cons, ih, sha256Round_length]

theorem sha256Block_length (hash block : List Nat) :
    (sha256Block hash block).length = hash.length := by
  unfold sha256Block
  simp [sha256Rounds_length]

theorem sha256Blocks_length (blocks : List (List Nat)) :
    ∀ hash : List Nat, (blocks.foldl sha256Block hash).length = hash.length := by
  induction blocks with
  | nil => intro hash; rfl
  | cons b bs ih => intro hash; rw [List.foldl_cons, ih, sha256Block_length]

/-- A digest is 32 bytes. -/
theorem wordBytes_length (hash : List Nat) (h8 : hash.length = 8) :
    (hash.flatMap
      (fun w => [w / 16777216 % 256, w / 65536 % 256, w / 256 % 256, w % 256])).length = 32 := by
  match hash, h8 with
  | [_, _, _, _, _, _, _, _], _ => rfl

theorem Sum256_length (msg : List Nat) : (Sum256 msg).length = 32 := by
  unfold Sum256
  exact wordBytes_length _ (by rw [sha256Blocks_length]; rfl)

theorem Sum256_byte (msg : List Nat) : ∀ b ∈ Sum256 msg, b < 256 := by
  intro b hb
  unfold Sum256 at hb
  simp only [List.mem_flatMap, List.mem_cons, List.mem_singleton, List.not_mem_nil,
    or_false] at hb
  obtain ⟨w, -, hw⟩ := hb
  rcases hw with rfl | rfl | rfl | rfl <;> exact Nat.mod_lt _ (by decide)

theorem hexDigit_eq (d : Nat) (hd : d < 16) :
    "0123456789abcdef".data.getD d '0' = Nat.digitChar d := by
  interval_cases d <;> rfl

/-- On bytes, Go's encoder and the lowercase hexadecimal encoding agree. -/
theorem EncodeToString_eq (bytes : List Nat) (hb : ∀ b ∈ bytes, b < 256) :
    EncodeToString bytes = hexLower bytes := by
  unfold EncodeToString hexLower
  congr 1
  induction bytes with
  | nil => rfl
  | cons b bs ih =>
    have hb1 : b < 256 := hb b (List.mem_cons_self _ _)
    rw [List.flatMap_cons, List.flatMap_cons, ih (fun x hx => hb x (List.mem_cons_of_mem _ hx)),
      hexDigit_eq (b / 16) (by omega), hexDigit_eq (b % 16) (Nat.mod_lt _ (by decide))]

theorem EncodeToString_length (bytes : List Nat) :
    (EncodeToString bytes).length = 2 * bytes.length := by
  unfold EncodeToString
  show (bytes.flatMap _).length = _
  induction bytes with
  | nil => rfl
  | cons b bs ih =>
    rw [List.flatMap_cons, List.length_append, ih]
    simp only [List.length_cons, List.length_nil]
    omega

theorem EncodeToString_digits (bytes : List Nat) (hb : ∀ b ∈ bytes, b < 256) :
    ∀ c ∈ (EncodeToString bytes).data, c ∈ "0123456789abcdef".data := by
  intro c hc
  unfold EncodeToString at hc
  simp only [List.mem_flatMap, List.mem_cons, List.mem_singleton, List.not_mem_nil,
    or_false] at hc
  obtain ⟨b, hbm, hcb⟩ := hc
  have hb1 := hb b hbm
  have h1 : b / 16 < 16 := by omega
  have h2 : b % 16 < 16 := Nat.mod_lt _ (by decide)
  rcases hcb with rfl | rfl
  · generalize b / 16 = d at h1
    interval_cases d <;> decide
  · generalize b % 16 = d at h2
    interval_cases d <;> decide

theorem bytesOf_append (s t : String) : bytesOf (s ++ t) = bytesOf s ++ bytesOf t := by
  unfold bytesOf
  rw [String.data_append, List.flatMap_append]

theorem UInt8_toNat_and (a b : UInt8) : (a &&& b).toNat = a.toNat &&& b.toNat := by
  show (a.toBitVec &&& b.toBitVec).toNat = _
  rw [BitVec.toNat_and]
  rfl

theorem UInt8_toNat_or (a b : UInt8) : (a ||| b).toNat = a.toNat ||| b.toNat := by
  show (a.toBitVec ||| b.toBitVec).toNat = _
  rw [BitVec.toNat_or]
  rfl

theorem UInt32_toNat_shiftRight (v : UInt32) (k : Nat) (hk : k < 32) :
    (v >>> (UInt32.ofNat k)).toNat = v.toNat / 2 ^ k := by
  show (v.toBitVec >>> (UInt32.mod (UInt32.ofNat k) 32).toBitVec).toNat = _
  rw [BitVec.ushiftRight_eq', BitVec.toNat_ushiftRight]
  have : (UInt32.mod (UInt32.ofNat k) 32).toBitVec.toNat = k := by
    show ((UInt32.ofNat k).toBitVec % (32 : UInt32).toBitVec).toNat = k
    rw [BitVec.toNat_umod]
    show (k % 4294967296) % 32 = k
    omega
  rw [this, Nat.shiftRight_eq_div_pow]
  rfl

theorem UInt32_toUInt8_toNat (v : UInt32) : (v.toUInt8).toNat = v.toNat % 256 := rfl

set_option maxRecDepth 100000 in
theorem continuation_byte : ∀ m < 256, (m &&& 63) ||| 128 = 128 + m % 64 := by decide

theorem lead_byte2 : ∀ m < 32, (m &&& 31) ||| 192 = 192 + m := by decide

theorem lead_byte3 : ∀ m < 16, (m &&& 15) ||| 224 = 224 + m := by decide

theorem lead_byte4 : ∀ m < 8, (m &&& 7) ||| 240 = 240 + m := by decide

/-- The continuation byte for the six bits of `v` from bit `k` on, as Lean's
encoder computes it. -/
theorem continuation_toNat (v : UInt32) (k : Nat) (hk : k < 32) :
    ((v >>> (UInt32.ofNat k)).toUInt8 &&& 0x3f ||| 0x80).toNat = 128 + v.toNat / 2 ^ k % 64 := by
  rw [UInt8_toNat_or, UInt8_toNat_and, UInt32_toUInt8_toNat, UInt32_toNat_shiftRight v k hk]
  show (v.toNat / 2 ^ k % 256 &&& 63) ||| 128 = _
  rw [continuation_byte _ (Nat.mod_lt _ (by decide))]
  omega

theorem continuation0_toNat (v : UInt32) :
    (v.toUInt8 &&& 0x3f ||| 0x80).toNat = 128 + v.toNat % 64 := by
  rw [UInt8_toNat_or, UInt8_toNat_and, UInt32_toUInt8_toNat]
  show (v.toNat % 256 &&& 63) ||| 128 = _
  rw [continuation_byte _ (Nat.mod_lt _ (by decide))]
  omega

theorem continuation6_toNat (v : UInt32) :
    ((v >>> 6).toUInt8 &&& 0x3f ||| 0x80).toNat = 128 + v.toNat / 64 % 64 :=
  continuation_toNat v 6 (by decide)

theorem continuation12_toNat (v : UInt32) :
    ((v >>> 12).toUInt8 &&& 0x3f ||| 0x80).toNat = 128 + v.toNat / 4096 % 64 :=
  continuation_toNat v 12 (by decide)

theorem lead2_toNat (v : UInt32) (h : v.toNat ≤ 2047) :
    ((v >>> 6).toUInt8 &&& 0x1f ||| 0xc0).toNat = 192 + v.toNat / 64 := by
  rw [UInt8_toNat_or, UInt8_toNat_and, UInt32_toUInt8_toNat]
  have hs : (v >>> 6).toNat = v.toNat / 2 ^ 6 := UInt32_toNat_shiftRight v 6 (by decide)
  have hp : (2 : Nat) ^ 6 = 64 := by decide
  rw [hs, hp]
  show (v.toNat / 64 % 256 &&& 31) ||| 192 = _
  rw [Nat.mod_eq_of_lt (by omega), lead_byte2 _ (by omega)]

theorem lead3_toNat (v : UInt32) (h : v.toNat ≤ 65535) :
    ((v >>> 12).toUInt8 &&& 0x0f ||| 0xe0).toNat = 224 + v.toNat / 4096 := by
  rw [UInt8_toNat_or, UInt8_toNat_and, UInt32_toUInt8_toNat]
  have hs : (v >>> 12).toNat = v.toNat / 2 ^ 12 := UInt32_toNat_shiftRight v 12 (by decide)
  have hp : (2 : Nat) ^ 12 = 4096 := by decide
  rw [hs, hp]
  show (v.toNat / 4096 % 256 &&& 15) ||| 224 = _
  rw [Nat.mod_eq_of_lt (by omega), lead_byte3 _ (by omega)]

theorem lead4_toNat (v : UInt32) (h : v.toNat < 1114112) :
    ((v >>> 18).toUInt8 &&& 0x07 ||| 0xf0).toNat = 240 + v.toNat / 262144 := by
  rw [UInt8_toNat_or, UInt8_toNat_and, UInt32_toUInt8_toNat]
  have hs : (v >>> 18).toNat = v.toNat / 2 ^ 18 := UInt32_toNat_shiftRight v 18 (by decide)
  have hp : (2 : Nat) ^ 18 = 262144 := by decide
  rw [hs, hp]
  show (v.toNat / 262144 % 256 &&& 7) ||| 240 = _
  rw [Nat.mod_eq_of_lt (by omega), lead_byte4 _ (by omega)]

/-- The model's encoding of a character is the one of Lean's own UTF-8 encoder. -/
theorem utf8Char_eq (c : Char) : utf8Char c = (String.utf8EncodeChar c).map UInt8.toNat := by
  have hv : c.val.toNat < 0xd800 ∨ (0xdfff < c.val.toNat ∧ c.val.toNat < 0x110000) := c.valid
  have hn : c.toNat = c.val.toNat := rfl
  unfold utf8Char String.utf8EncodeChar
  simp only [hn]
  by_cases h1 : c.val ≤ 0x7f
  · have h1n : c.val.toNat ≤ 127 := h1
    rw [if_pos h1, if_pos (by omega)]
    show _ = [c.val.toNat % 256]
    rw [Nat.mod_eq_of_lt (by omega)]
  rw [if_neg h1]
  have h1n : ¬ c.val.toNat ≤ 127 := h1
  rw [if_neg (by omega)]
  by_cases h2 : c.val ≤ 0x7ff
  · have h2n : c.val.toNat ≤ 2047 := h2
    rw [if_pos h2, if_pos (by omega)]
    simp only [List.map_cons, List.map_nil]
    rw [lead2_toNat c.val h2n, continuation0_toNat]
  rw [if_neg h2]
  have h2n : ¬ c.val.toNat ≤ 2047 := h2
  rw [if_neg (by omega)]
  by_cases h3 : c.val ≤ 0xffff
  · have h3n : c.val.toNat ≤ 65535 := h3
    rw [if_pos h3, if_pos (by omega)]
    simp only [List.map_cons, List.map_nil]
    rw [lead3_toNat c.val h3n, continuation6_toNat, continuation0_toNat]
  rw [if_neg h3]
  have h3n : ¬ c.val.toNat ≤ 65535 := h3
  rw [if_neg (by omega)]
  simp only [List.map_cons, List.map_nil]
  rw [lead4_toNat c.val (by omega), continuation12_toNat, continuation6_toNat,
    continuation0_toNat]

/-- The bytes of a string in the model are the bytes of Lean's `String.toUTF8`. -/
theorem bytesOf_toUTF8 (s : String) : bytesOf s = s.toUTF8.data.toList.map UInt8.toNat := by
  unfold bytesOf String.toUTF8
  show _ = (s.data.flatMap String.utf8EncodeChar).map UInt8.toNat
  induction s.data with
  | nil => rfl
  | cons c cs ih =>
    rw [List.flatMap_cons, List.flatMap_cons, List.map_append, ih, utf8Char_eq]

theorem toDigitsCore_digits : ∀ (fuel n : Nat) (ds : List Char), 0 < n → n < fuel →
    Nat.toDigitsCore 10 fuel n ds = (Nat.digits 10 n).reverse.map Nat.digitChar ++ ds := by
  intro fuel
  induction fuel with
  | zero => intro n ds _ h; omega
  | succ k ih =>
    intro n ds hpos hlt
    have hd : Nat.digits 10 n = n % 10 :: Nat.digits 10 (n / 10) :=
      Nat.digits_def' (by decide) hpos
    unfold Nat.toDigitsCore
    simp only []
    by_cases h0 : n / 10 = 0
    · rw [if_pos h0, hd, h0]
      simp
    · rw [if_neg h0, ih (n / 10) _ (Nat.pos_of_ne_zero h0) (by omega), hd]
      simp

/-- The digits Lean prints for a natural number: most significant first, each
below ten, no leading zero except for the number 0, and their value is the
number. -/
theorem repr_digits (n : Nat) : ∃ ds : List Nat,
    (Nat.repr n).data = ds.map Nat.digitChar ∧ (∀ d ∈ ds, d < 10) ∧ ds ≠ [] ∧
    (ds.head? = some 0 → ds = [0]) ∧ ds.foldl (fun a d => 10 * a + d) 0 = n := by
  by_cases hn : n = 0
  · subst hn
    exact ⟨[0], rfl, by simp, by simp, fun _ => rfl, rfl⟩
  · have hpos : 0 < n := Nat.pos_of_ne_zero hn
    refine ⟨(Nat.digits 10 n).reverse, ?_, ?_, ?_, ?_, ?_⟩
    · show Nat.toDigitsCore 10 (n + 1) n [] = _
      rw [toDigitsCore_digits (n + 1) n [] hpos (by omega), List.append_nil]
    · intro d hd
      exact Nat.digits_lt_base (by decide) (List.mem_reverse.mp hd)
    · intro h
      rw [List.reverse_eq_nil_iff] at h
      exact hn (Nat.digits_eq_nil_iff_eq_zero.mp h)
    · intro h
      exfalso
      have hne : Nat.digits 10 n ≠ [] := fun e => hn (Nat.digits_eq_nil_iff_eq_zero.mp e)
      have hl := Nat.getLast_digit_ne_zero 10 hn
      rw [List.head?_reverse] at h
      rw [List.getLast?_eq_getLast _ hne] at h
      exact hl (Option.some.inj h)
    · rw [List.foldl_reverse]
      have : ∀ l : List Nat, l.foldr (fun d a => 10 * a + d) 0 = Nat.ofDigits 10 l := by
        intro l
        induction l with
        | nil => rfl
        | cons d l ih =>
          rw [List.foldr_cons, ih, Nat.ofDigits_cons]
          omega
      rw [this, Nat.ofDigits_digits]

theorem utf8Char_digit : ∀ d < 10, utf8Char (Nat.digitChar d) = [d + 48] := by decide

theorem bytesOf_digits (ds : List Nat) (h : ∀ d ∈ ds, d < 10) :
    bytesOf ⟨ds.map Nat.digitChar⟩ = ds.map (· + 48) := by
  unfold bytesOf
  show (ds.map Nat.digitChar).flatMap utf8Char = _
  induction ds with
  | nil => rfl
  | cons d ds ih =>
    rw [List.map_cons, List.flatMap_cons, ih (fun x hx => h x (List.mem_cons_of_mem _ hx)),
      utf8Char_digit d (h d (List.mem_cons_self _ _))]
    rfl

/-- The bytes of the decimal form of an integer: a minus sign (byte 45) when it
is negative, then the digits of its absolute value as the bytes 48 to 57, most
significant first and without a leading zero. -/
theorem bytesOf_decimal (i : Int) : ∃ ds : List Nat,
    bytesOf (toString i) = (if i < 0 then [45] else []) ++ ds.map (· + 48) ∧
    (∀ d ∈ ds, d < 10) ∧ ds ≠ [] ∧ (ds.head? = some 0 → ds = [0]) ∧
    ds.foldl (fun a d => 10 * a + d) 0 = i.natAbs := by
  cases i with
  | ofNat m =>
    obtain ⟨ds, hrepr, hlt, hne, hlead, hval⟩ := repr_digits m
    refine ⟨ds, ?_, hlt, hne, hlead, hval⟩
    have hs : toString (Int.ofNat m) = ⟨ds.map Nat.digitChar⟩ := by
      show Nat.repr m = _
      rw [← hrepr]
    rw [hs, bytesOf_digits ds hlt, if_neg (by simp)]
    rfl
  | negSucc m =>
    obtain ⟨ds, hrepr, hlt, hne, hlead, hval⟩ := repr_digits (m + 1)
    refine ⟨ds, ?_, hlt, hne, hlead, hval⟩
    have hs : toString (Int.negSucc m) = "-" ++ ⟨ds.map Nat.digitChar⟩ := by
      show "-" ++ Nat.repr (m + 1) = _
      rw [← hrepr]
    rw [hs, bytesOf_append, bytesOf_digits ds hlt, if_pos (Int.negSucc_lt_zero m)]
    rfl

theorem lengthBytes_value (bits : Nat) :
    ((List.range 8).map (fun i => (bits >>> (8 * (7 - i))) % 256)).foldl
      (fun a b => 256 * a + b) 0 = bits % 18446744073709551616 := by
  have hr : List.range 8 = [0, 1, 2, 3, 4, 5, 6, 7] := by decide
  rw [hr]
  simp only [List.map_cons, List.map_nil, List.foldl_cons, List.foldl_nil,
    Nat.shiftRight_eq_div_pow]
  norm_num
  omega

/-- The padding of FIPS 180-4, section 5.1.1: the message, the byte `0x80`, the
least number of zero bytes that makes the length a multiple of 64, and the bit
length of the message as eight bytes, most significant first. -/
theorem sha256Pad_spec (msg : List Nat) : ∃ (z : Nat) (len : List Nat),
    sha256Pad msg = msg ++ [128] ++ List.replicate z 0 ++ len ∧ z < 64 ∧
    (sha256Pad msg).length % 64 = 0 ∧ len.length = 8 ∧ (∀ b ∈ len, b < 256) ∧
    len.foldl (fun a b => 256 * a + b) 0 = 8 * msg.length % 18446744073709551616 := by
  refine ⟨(64 - (msg.length + 9) % 64) % 64,
    (List.range 8).map (fun i => ((8 * msg.length) >>> (8 * (7 - i))) % 256),
    rfl, Nat.mod_lt _ (by decide), ?_, by simp, ?_, lengthBytes_value _⟩
  · unfold sha256Pad
    simp only [List.length_append, List.length_replicate, List.length_map, List.length_range,
      List.length_cons, List.length_nil]
    omega
  · intro b hb
    rw [List.mem_map] at hb
    obtain ⟨i, _, rfl⟩ := hb
    exact Nat.mod_lt _ (by decide)

/-- The blocks of a sequence whose length is a multiple of 64: consecutive
pieces of 64 bytes that together make up the sequence. -/
theorem blocksOf_spec : ∀ (k : Nat) (bytes : List Nat), bytes.length = 64 * k →
    (blocksOf k bytes).flatten = bytes ∧ (blocksOf k bytes).length = k ∧
    ∀ b ∈ blocksOf k bytes, b.length = 64 := by
  intro k
  induction k with
  | zero =>
    intro bytes h
    have : bytes = [] := List.length_eq_zero.mp (by omega)
    subst this
    exact ⟨rfl, rfl, by simp [blocksOf]⟩
  | succ k ih =>
    intro bytes h
    obtain ⟨h1, h2, h3⟩ := ih (bytes.drop 64) (by rw [List.length_drop]; omega)
    refine ⟨?_, ?_, ?_⟩
    · show bytes.take 64 ++ (blocksOf k (bytes.drop 64)).flatten = bytes
      rw [h1, List.take_append_drop]
    · show (blocksOf k (bytes.drop 64)).length + 1 = k + 1
      rw [h2]
    · intro b hb
      change b ∈ bytes.take 64 :: blocksOf k (bytes.drop 64) at hb
      rcases List.mem_cons.mp hb with rfl | hb
      · rw [List.length_take]
        omega
      · exact h3 b hb

theorem bytesOf_utf8Bytes (s : String) : bytesOf s = utf8Bytes s := bytesOf_toUTF8 s

set_option maxRecDepth 1000000 in
/-- C19: for every salt and every user id, `hashUserID` is the lowercase
hexadecimal encoding of the SHA-256 digest of the UTF-8 bytes of the salt (as
Lean's own encoder gives them), a colon and the decimal user id; it has 64
characters, all of them digits of `0123456789abcdef`; it is a function of the
salt and the user id alone (of the application it reads the salt only).  The
bytes the model hashes are the UTF-8 bytes of Lean's encoder; the decimal form
is an optional minus sign and the digits of the absolute value, most significant
first and without a leading zero.  The digest pads every message as FIPS 180-4
prescribes and works through the padded message in blocks of 64 bytes; it gives
the published digests of the four FIPS test messages (empty, `abc`, the 56-byte
and the 112-byte message), and for `hashUserID` the digests that `sha256sum`
gives on the input of the unit test (salt `pepper`, user 123), on salts with
two-, three- and four-byte characters, on inputs of 55, 56 and 120 bytes (one,
two and three blocks) and on the least 64-bit user id. -/
theorem hashUserID_spec (salt : String) (userID : Int) :
    hashUserID salt userID = specUserHash salt userID ∧
    (hashUserID salt userID).length = 64 ∧
    (∀ c ∈ (hashUserID salt userID).data, c ∈ "0123456789abcdef".data) ∧
    (∀ a b : App, a.voteSalt = b.voteSalt →
      hashUserID a.voteSalt userID = hashUserID b.voteSalt userID) ∧
    bytesOf (salt ++ ":" ++ toString userID) =
      utf8Bytes salt ++ [58] ++ bytesOf (toString userID) ∧
    (∃ ds : List Nat,
      bytesOf (toString userID) = (if userID < 0 then [45] else []) ++ ds.map (· + 48) ∧
      (∀ d ∈ ds, d < 10) ∧ ds ≠ [] ∧ (ds.head? = some 0 → ds = [0]) ∧
      ds.foldl (fun a d => 10 * a + d) 0 = userID.natAbs) ∧
    (∀ msg : List Nat, ∃ (z : Nat) (len : List Nat),
      sha256Pad msg = msg ++ [128] ++ List.replicate z 0 ++ len ∧ z < 64 ∧
      (sha256Pad msg).length % 64 = 0 ∧ len.length = 8 ∧ (∀ b ∈ len, b < 256) ∧
      len.foldl (fun a b => 256 * a + b) 0 = 8 * msg.length % 18446744073709551616) ∧
    (∀ msg : List Nat,
      (blocksOf ((sha256Pad msg).length / 64) (sha256Pad msg)).flatten = sha256Pad msg ∧
      ∀ b ∈ blocksOf ((sha256Pad msg).length / 64) (sha256Pad msg), b.length = 64) ∧
    hexLower (Sum256 (bytesOf "")) =
      "e3b0c44298fc1c149afbf4c8996fb92427ae41e4649b934ca495991b7852b855" ∧
    hexLower (Sum256 (bytesOf "abc")) =
      "ba7816bf8f01cfea414140de5dae2223b00361a396177a9cb410ff61f20015ad" ∧
    hexLower (Sum256 (bytesOf "abcdbcdecdefdefgefghfghighijhijkijkljklmklmnlmnomnopnopq")) =
      "248d6a61d20638b8e5c026930c3e6039a33ce45964ff2167f6ecedd419db06c1" ∧
    hexLower (Sum256 (bytesOf
      ("abcdefghbcdefghicdefghijdefghijkefghijklfghijklmghijklmn" ++
        "hijklmnoijklmnopjklmnopqklmnopqrlmnopqrsmnopqrstnopqrstu"))) =
      "cf5b16a778af8380036ce59e7b0492370b249b11e8f07a51afac45037afee9d1" ∧
    hashUserID "pepper" 123 =
      "cd01930da94fed3d86296f08632968468798be9d97575e9be3a6ed1e6d666f6f" ∧
    hashUserID "соль" 123 =
      "331e71cb561ae6ba5bfbf1ae4f53f7d935bfdbc78691ba7a9506fe3ad8d1e2e9" ∧
    hashUserID "€🎉" (-7) =
      "293ec421ec172c39dbb1b7292eb1776a47588d9a3b2b5ba8b8126a51c014c1fc" ∧
    hashUserID ⟨List.replicate 51 'a'⟩ 123 =
      "f3f240728b027d66e9b97857546f212b06876b6b76d098e858e301eedc53a016" ∧
    hashUserID ⟨List.replicate 52 'a'⟩ 123 =
      "5573f4757f9a3c2b8275ff2a1d671429967812862d137e7cc3e5f3b6ded9ec19" ∧
    hashUserID ⟨List.replicate 116 'a'⟩ 123 =
      "665b797924d3fc59a5c0cb5a93f5fd9eea834b897e79ddbd21be14ae701c2b63" ∧
    hashUserID "salt" (-9223372036854775808) =
      "e28149a5c222682ffff271a9fef2782f7b07ec775f0c7f4ab70c1cf0330ddb6f" := by
  refine ⟨?_, ?_, ?_, ?_, ?_, bytesOf_decimal userID, sha256Pad_spec, ?_,
    by decide, by decide, by decide, by decide, by decide, by decide, by decide, by decide, by decide, by decide, by decide⟩
  · unfold hashUserID specUserHash
    simp only []
    rw [EncodeToString_eq _ (Sum256_byte _), bytesOf_append, bytesOf_append,
      bytesOf_utf8Bytes salt, bytesOf_utf8Bytes (toString userID)]
    rfl
  · unfold hashUserID
    simp only []
    rw [EncodeToString_length, Sum256_length]
  · unfold hashUserID
    exact EncodeToString_digits _ (Sum256_byte _)
  · intro a b h
    rw [h]
  · rw [bytesOf_append, bytesOf_append, bytesOf_utf8Bytes salt]
    rfl
  · intro msg
    obtain ⟨_, _, _, _, hlen, _⟩ := sha256Pad_spec msg
    obtain ⟨h1, _, h3⟩ := blocksOf_spec ((sha256Pad msg).length / 64) (sha256Pad msg) (by omega)
    exact ⟨h1, h3⟩

/-- Witness of C19: the hash of the unit test changes with the salt and with the
user; for a salt in Cyrillic letters and a negative user id the hash is the
specified one, and the bytes hashed are those of Lean's encoder. -/
theorem hashUserID_spec_witness :
    hashUserID "different" 123 ≠ hashUserID "pepper" 123 ∧
    hashUserID "pepper" 124 ≠ hashUserID "pepper" 123 ∧
    hashUserID "соль" (-7) = specUserHash "соль" (-7) ∧
    (hashUserID "соль" (-7)).length = 64 ∧
    bytesOf ("соль" ++ ":" ++ toString (-7 : Int)) =
      [209, 129, 208, 190, 208, 187, 209, 140, 58, 45, 55] ∧
    bytesOf ("соль" ++ ":" ++ toString (-7 : Int)) =
      utf8Bytes "соль" ++ [58] ++ bytesOf (toString (-7 : Int)) :=
  ⟨by decide, by decide, (hashUserID_spec "соль" (-7)).1, (hashUserID_spec "соль" (-7)).2.1,
    by decide, (hashUserID_spec "соль" (-7)).2.2.2.2.1⟩

/-! ## Lemmas on the store as the handlers call it -/

theorem exec_snd_read {α : Type} (st : Store) (c : StoreCall)
    (f : DB → Except StoreError α × DB) (hf : ∀ db, (f db).2 = db)
    (hc : ∀ db, c.effect db = db) : (st.exec c f).2 = st.after c := by
  unfold Store.exec Store.after
  by_cases h : st.failing = true
  · simp [h]
  · simp [h, hf, hc]

theorem exec_snd_write {α : Type} (st : Store) (c : StoreCall)
    (f : DB → Except StoreError α × DB) (hc : ∀ db, c.effect db = (f db).2) :
    (st.exec c f).2 = st.after c := by
  unfold Store.exec Store.after
  by_cases h : st.failing = true
  · simp [h]
  · simp [h, hc]

/-- A call that returned a value ran on a working engine. -/
theorem exec_ok {α : Type} (st : Store) (c : StoreCall)
    (f : DB → Except StoreError α × DB) (v : α) (h : (st.exec c f).1 = .ok v) :
    st.failing = false ∧ (f st.db).1 = .ok v := by
  unfold Store.exec at h
  split at h
  · cases h
  · rename_i hf
    exact ⟨by simpa using hf, h⟩

theorem exec_fst_working {α : Type} (st : Store) (c : StoreCall)
    (f : DB → Except StoreError α × DB) (h : st.failing = false) :
    (st.exec c f).1 = (f st.db).1 := by
  unfold Store.exec
  simp [h]

theorem exec_fst_failing {α : Type} (st : Store) (c : StoreCall)
    (f : DB → Except StoreError α × DB) (h : st.failing = true) :
    (st.exec c f).1 = .error .failure := by
  unfold Store.exec
  simp [h]

theorem ListRoomsByOwner_snd (db : DB) (ownerID : Int) :
    (TgVoteBot.ListRoomsByOwner db ownerID).2 = db := by
  rfl

theorem GetRoomByIDAndPassword_snd (db : DB) (id : Int) (password : String) :
    (TgVoteBot.GetRoomByIDAndPassword db id password).2 = db := by
  unfold TgVoteBot.GetRoomByIDAndPassword
  split <;> rfl

theorem IsRoomOwner_snd (db : DB) (roomID userID : Int) :
    (TgVoteBot.IsRoomOwner db roomID userID).2 = db := by
  rfl

theorem GetRoomTitle_snd (db : DB) (roomID : Int) :
    (TgVoteBot.GetRoomTitle db roomID).2 = db := by
  unfold TgVoteBot.GetRoomTitle
  split <;> rfl

theorem ListNominations_snd (db : DB) (roomID : Int) :
    (TgVoteBot.ListNominations db roomID).2 = db := by
  rfl

theorem IsNominationOwner_snd (db : DB) (nominationID userID : Int) :
    (TgVoteBot.IsNominationOwner db nominationID userID).2 = db := by
  rfl

theorem GetNominationRoomID_snd (db : DB) (nominationID : Int) :
    (TgVoteBot.GetNominationRoomID db nominationID).2 = db := by
  unfold TgVoteBot.GetNominationRoomID
  split <;> rfl

theorem CheckNominationInRoom_snd (db : DB) (nominationID roomID : Int) :
    (TgVoteBot.CheckNominationInRoom db nominationID roomID).2 = db := by
  rfl

theorem GetNominationName_snd (db : DB) (nominationID : Int) :
    (TgVoteBot.GetNominationName db nominationID).2 = db := by
  unfold TgVoteBot.GetNominationName
  split <;> rfl

theorem ListNominees_snd (db : DB) (nominationID : Int) :
    (TgVoteBot.ListNominees db nominationID).2 = db := by
  rfl

theorem IsNomineeOwner_snd (db : DB) (nomineeID userID : Int) :
    (TgVoteBot.IsNomineeOwner db nomineeID userID).2 = db := by
  rfl

theorem GetNomineeName_snd (db : DB) (nomineeID : Int) :
    (TgVoteBot.GetNomineeName db nomineeID).2 = db := by
  unfold TgVoteBot.GetNomineeName
  split <;> rfl

theorem GetNomineeNominationAndRoom_snd (db : DB) (nomineeID : Int) :
    (TgVoteBot.GetNomineeNominationAndRoom db nomineeID).2 = db := by
  unfold TgVoteBot.GetNomineeNominationAndRoom
  simp only []
  split <;> rfl

theorem ResultsByNomination_snd (db : DB) (nominationID : Int) :
    (TgVoteBot.ResultsByNomination db nominationID).2 = db := by
  rfl

theorem Store_ListRoomsByOwner_snd (st : Store) (ownerID : Int) :
    (st.ListRoomsByOwner ownerID).2 = st.after (.ListRoomsByOwner ownerID) :=
  exec_snd_read st _ _ (fun db => ListRoomsByOwner_snd db ownerID) (fun _ => rfl)

theorem Store_GetRoomByIDAndPassword_snd (st : Store) (id : Int) (password : String) :
    (st.GetRoomByIDAndPassword id password).2 = st.after (.GetRoomByIDAndPassword id password) :=
  exec_snd_read st _ _ (fun db => GetRoomByIDAndPassword_snd db id password) (fun _ => rfl)

theorem Store_IsRoomOwner_snd (st : Store) (roomID userID : Int) :
    (st.IsRoomOwner roomID userID).2 = st.after (.IsRoomOwner roomID userID) :=
  exec_snd_read st _ _ (fun db => IsRoomOwner_snd db roomID userID) (fun _ => rfl)

theorem Store_GetRoomTitle_snd (st : Store) (roomID : Int) :
    (st.GetRoomTitle roomID).2 = st.after (.GetRoomTitle roomID) :=
  exec_snd_read st _ _ (fun db => GetRoomTitle_snd db roomID) (fun _ => rfl)

theorem Store_ListNominations_snd (st : Store) (roomID : Int) :
    (st.ListNominations roomID).2 = st.after (.ListNominations roomID) :=
  exec_snd_read st _ _ (fun db => ListNominations_snd db roomID) (fun _ => rfl)

theorem Store_IsNominationOwner_snd (st : Store) (nominationID userID : Int) :
    (st.IsNominationOwner nominationID userID).2 = st.after (.IsNominationOwner nominationID userID) :=
  exec_snd_read st _ _ (fun db => IsNominationOwner_snd db nominationID userID) (fun _ => rfl)

theorem Store_GetNominationRoomID_snd (st : Store) (nominationID : Int) :
    (st.GetNominationRoomID nominationID).2 = st.after (.GetNominationRoomID nominationID) :=
  exec_snd_read st _ _ (fun db => GetNominationRoomID_snd db nominationID) (fun _ => rfl)

theorem Store_CheckNominationInRoom_snd (st : Store) (nominationID roomID : Int) :
    (st.CheckNominationInRoom nominationID roomID).2 = st.after (.CheckNominationInRoom nominationID roomID) :=
  exec_snd_read st _ _ (fun db => CheckNominationInRoom_snd db nominationID roomID) (fun _ => rfl)

theorem Store_GetNominationName_snd (st : Store) (nominationID : Int) :
    (st.GetNominationName nominationID).2 = st.after (.GetNominationName nominationID) :=
  exec_snd_read st _ _ (fun db => GetNominationName_snd db nominationID) (fun _ => rfl)

theorem Store_ListNominees_snd (st : Store) (nominationID : Int) :
    (st.ListNominees nominationID).2 = st.after (.ListNominees nominationID) :=
  exec_snd_read st _ _ (fun db => ListNominees_snd db nominationID) (fun _ => rfl)

theorem Store_IsNomineeOwner_snd (st : Store) (nomineeID userID : Int) :
    (st.IsNomineeOwner nomineeID userID).2 = st.after (.IsNomineeOwner nomineeID userID) :=
  exec_snd_read st _ _ (fun db => IsNomineeOwner_snd db nomineeID userID) (fun _ => rfl)

theorem Store_GetNomineeName_snd (st : Store) (nomineeID : Int) :
    (st.GetNomineeName nomineeID).2 = st.after (.GetNomineeName nomineeID) :=
  exec_snd_read st _ _ (fun db => GetNomineeName_snd db nomineeID) (fun _ => rfl)

theorem Store_GetNomineeNominationAndRoom_snd (st : Store) (nomineeID : Int) :
    (st.GetNomineeNominationAndRoom nomineeID).2 = st.after (.GetNomineeNominationAndRoom nomineeID) :=
  exec_snd_read st _ _ (fun db => GetNomineeNominationAndRoom_snd db nomineeID) (fun _ => rfl)

theorem Store_ResultsByNomination_snd (st : Store) (nominationID : Int) :
    (st.ResultsByNomination nominationID).2 = st.after (.ResultsByNomination nominationID) :=
  exec_snd_read st _ _ (fun db => ResultsByNomination_snd db nominationID) (fun _ => rfl)

theorem Store_CreateRoom_snd (st : Store) (ownerID : Int) (title password : String) (now : Int) :
    (st.CreateRoom ownerID title password now).2 = st.after (.CreateRoom ownerID title password now) :=
  exec_snd_write st _ _ (fun _ => rfl)

theorem Store_CreateNomination_snd (st : Store) (roomID : Int) (name description : String) :
    (st.CreateNomination roomID name description).2 = st.after (.CreateNomination roomID name description) :=
  exec_snd_write st _ _ (fun _ => rfl)

theorem Store_DeleteNomination_snd (st : Store) (nominationID : Int) :
    (st.DeleteNomination nominationID).2 = st.after (.DeleteNomination nominationID) :=
  exec_snd_write st _ _ (fun _ => rfl)

theorem Store_CreateNominee_snd (st : Store) (nominationID : Int) (name : String) :
    (st.CreateNominee nominationID name).2 = st.after (.CreateNominee nominationID name) :=
  exec_snd_write st _ _ (fun _ => rfl)

theorem Store_DeleteNominee_snd (st : Store) (nomineeID : Int) :
    (st.DeleteNominee nomineeID).2 = st.after (.DeleteNominee nomineeID) :=
  exec_snd_write st _ _ (fun _ => rfl)

theorem Store_UpdateNomineeMedia_snd (st : Store) (nomineeID : Int) (fileID mediaType : String) :
    (st.UpdateNomineeMedia nomineeID fileID mediaType).2 = st.after (.UpdateNomineeMedia nomineeID fileID mediaType) :=
  exec_snd_write st _ _ (fun _ => rfl)

theorem Store_RecordVote_snd (st : Store) (userHash : String) (nominationID nomineeID : Int) (createdAt : Int) :
    (st.RecordVote userHash nominationID nomineeID createdAt).2 = st.after (.RecordVote userHash nominationID nomineeID createdAt) :=
  exec_snd_write st _ _ (fun _ => rfl)

/-! ## Lemmas on gated store calls -/

theorem afterAll_append (st : Store) (l₁ l₂ : List StoreCall) :
    (st.afterAll l₁).afterAll l₂ = st.afterAll (l₁ ++ l₂) := by
  simp [Store.afterAll, List.foldl_append]

theorem afterAll_cons (st : Store) (c : StoreCall) (cs : List StoreCall) :
    st.afterAll (c :: cs) = (st.after c).afterAll cs := rfl

theorem afterAll_journal (calls : List StoreCall) :
    ∀ st : Store, (st.afterAll calls).journal = st.journal ++ calls := by
  induction calls with
  | nil => intro st; simp [Store.afterAll]
  | cons c cs ih =>
    intro st
    rw [afterAll_cons, ih]
    simp [Store.after]

theorem afterAll_failing (calls : List StoreCall) :
    ∀ st : Store, (st.afterAll calls).failing = st.failing := by
  induction calls with
  | nil => intro st; rfl
  | cons c cs ih =>
    intro st
    rw [afterAll_cons, ih]
    rfl

/-- A property of the database that every statement keeps holds after any
sequence of calls. -/
theorem afterAll_invariant (P : DB → Prop) (hP : ∀ (c : StoreCall) (db : DB), P db → P (c.effect db))
    (calls : List StoreCall) : ∀ st : Store, P st.db → P (st.afterAll calls).db := by
  induction calls with
  | nil => intro st h; exact h
  | cons c cs ih =>
    intro st h
    rw [afterAll_cons]
    apply ih
    unfold Store.after
    by_cases hf : st.failing = true
    · simpa [hf] using h
    · simpa [hf] using hP c st.db h

theorem permittedAll_append (u : Int) (l₁ l₂ : List StoreCall) :
    ∀ st : Store, Store.permittedAll u st (l₁ ++ l₂) ↔
      (Store.permittedAll u st l₁ ∧ Store.permittedAll u (st.afterAll l₁) l₂) := by
  induction l₁ with
  | nil => intro st; simp [Store.permittedAll, Store.afterAll]
  | cons c cs ih =>
    intro st
    show (_ ∧ Store.permittedAll u (st.after c) (cs ++ l₂)) ↔ _
    rw [ih, afterAll_cons]
    exact and_assoc.symm

theorem Gated_refl (u : Int) (a : App) : Gated u a a :=
  ⟨[], rfl, trivial, rfl, rfl⟩

theorem Gated_trans {u : Int} {a b c : App} (h₁ : Gated u a b) (h₂ : Gated u b c) :
    Gated u a c := by
  obtain ⟨l₁, e1, p1, s1, v1⟩ := h₁
  obtain ⟨l₂, e2, p2, s2, v2⟩ := h₂
  refine ⟨l₁ ++ l₂, ?_, ?_, s2.trans s1, v2.trans v1⟩
  · rw [e2, e1, afterAll_append]
  · rw [permittedAll_append]
    exact ⟨p1, by rw [← e1]; exact p2⟩

theorem Gated_say {u : Int} {a b : App} {chatID : Int} {text : String}
    (h : Gated u a b) : Gated u a (b.say chatID text) := h

theorem Gated_Send {u : Int} {a b : App} {c : Chattable}
    (h : Gated u a b) : Gated u a (b.Send c) := h

theorem Gated_Println {u : Int} {a b : App} {tag : String}
    (h : Gated u a b) : Gated u a (b.Println tag) := h

theorem Gated_after {u : Int} {a b : App} (c : StoreCall)
    (hc : StoreCall.permitted b.store.db u c) (h : Gated u a b) :
    Gated u a (b.withStore (b.store.after c)) :=
  Gated_trans h ⟨[c], rfl, ⟨hc, trivial⟩, rfl, rfl⟩

theorem Gated_CreateRoom {u : Int} {a b : App} (ownerID : Int) (title password : String) (now : Int)
    (h : Gated u a b) : Gated u a (b.withStore (b.store.CreateRoom ownerID title password now).2) := by
  rw [Store_CreateRoom_snd]
  exact Gated_after _ trivial h

theorem Gated_ListRoomsByOwner {u : Int} {a b : App} (ownerID : Int)
    (h : Gated u a b) : Gated u a (b.withStore (b.store.ListRoomsByOwner ownerID).2) := by
  rw [Store_ListRoomsByOwner_snd]
  exact Gated_after _ trivial h

theorem Gated_GetRoomByIDAndPassword {u : Int} {a b : App} (id : Int) (password : String)
    (h : Gated u a b) : Gated u a (b.withStore (b.store.GetRoomByIDAndPassword id password).2) := by
  rw [Store_GetRoomByIDAndPassword_snd]
  exact Gated_after _ trivial h

theorem Gated_IsRoomOwner {u : Int} {a b : App} (roomID userID : Int)
    (h : Gated u a b) : Gated u a (b.withStore (b.store.IsRoomOwner roomID userID).2) := by
  rw [Store_IsRoomOwner_snd]
  exact Gated_after _ trivial h

theorem Gated_GetRoomTitle {u : Int} {a b : App} (roomID : Int)
    (h : Gated u a b) : Gated u a (b.withStore (b.store.GetRoomTitle roomID).2) := by
  rw [Store_GetRoomTitle_snd]
  exact Gated_after _ trivial h

theorem Gated_ListNominations {u : Int} {a b : App} (roomID : Int)
    (h : Gated u a b) : Gated u a (b.withStore (b.store.ListNominations roomID).2) := by
  rw [Store_ListNominations_snd]
  exact Gated_after _ trivial h

theorem Gated_IsNominationOwner {u : Int} {a b : App} (nominationID userID : Int)
    (h : Gated u a b) : Gated u a (b.withStore (b.store.IsNominationOwner nominationID userID).2) := by
  rw [Store_IsNominationOwner_snd]
  exact Gated_after _ trivial h

theorem Gated_GetNominationRoomID {u : Int} {a b : App} (nominationID : Int)
    (h : Gated u a b) : Gated u a (b.withStore (b.store.GetNominationRoomID nominationID).2) := by
  rw [Store_GetNominationRoomID_snd]
  exact Gated_after _ trivial h

theorem Gated_CheckNominationInRoom {u : Int} {a b : App} (nominationID roomID : Int)
    (h : Gated u a b) : Gated u a (b.withStore (b.store.CheckNominationInRoom nominationID roomID).2) := by
  rw [Store_CheckNominationInRoom_snd]
  exact Gated_after _ trivial h

theorem Gated_GetNominationName {u : Int} {a b : App} (nominationID : Int)
    (h : Gated u a b) : Gated u a (b.withStore (b.store.GetNominationName nominationID).2) := by
  rw [Store_GetNominationName_snd]
  exact Gated_after _ trivial h

theorem Gated_ListNominees {u : Int} {a b : App} (nominationID : Int)
    (h : Gated u a b) : Gated u a (b.withStore (b.store.ListNominees nominationID).2) := by
  rw [Store_ListNominees_snd]
  exact Gated_after _ trivial h

theorem Gated_IsNomineeOwner {u : Int} {a b : App} (nomineeID userID : Int)
    (h : Gated u a b) : Gated u a (b.withStore (b.store.IsNomineeOwner nomineeID userID).2) := by
  rw [Store_IsNomineeOwner_snd]
  exact Gated_after _ trivial h

theorem Gated_GetNomineeName {u : Int} {a b : App} (nomineeID : Int)
    (h : Gated u a b) : Gated u a (b.withStore (b.store.GetNomineeName nomineeID).2) := by
  rw [Store_GetNomineeName_snd]
  exact Gated_after _ trivial h

theorem Gated_GetNomineeNominationAndRoom {u : Int} {a b : App} (nomineeID : Int)
    (h : Gated u a b) : Gated u a (b.withStore (b.store.GetNomineeNominationAndRoom nomineeID).2) := by
  rw [Store_GetNomineeNominationAndRoom_snd]
  exact Gated_after _ trivial h

theorem Gated_RecordVote {u : Int} {a b : App} (userHash : String) (nominationID nomineeID : Int) (createdAt : Int)
    (h : Gated u a b) : Gated u a (b.withStore (b.store.RecordVote userHash nominationID nomineeID createdAt).2) := by
  rw [Store_RecordVote_snd]
  exact Gated_after _ trivial h

theorem Gated_CreateNomination {u : Int} {a b : App} (roomID : Int) (name description : String)
    (ho : ownsRoom b.store.db roomID u) (h : Gated u a b) :
    Gated u a (b.withStore (b.store.CreateNomination roomID name description).2) := by
  rw [Store_CreateNomination_snd]
  exact Gated_after _ ho h

theorem Gated_DeleteNomination {u : Int} {a b : App} (nominationID : Int)
    (ho : ownsNomination b.store.db nominationID u) (h : Gated u a b) :
    Gated u a (b.withStore (b.store.DeleteNomination nominationID).2) := by
  rw [Store_DeleteNomination_snd]
  exact Gated_after _ ho h

theorem Gated_CreateNominee {u : Int} {a b : App} (nominationID : Int) (name : String)
    (ho : ownsNomination b.store.db nominationID u) (h : Gated u a b) :
    Gated u a (b.withStore (b.store.CreateNominee nominationID name).2) := by
  rw [Store_CreateNominee_snd]
  exact Gated_after _ ho h

theorem Gated_DeleteNominee {u : Int} {a b : App} (nomineeID : Int)
    (ho : ownsNominee b.store.db nomineeID u) (h : Gated u a b) :
    Gated u a (b.withStore (b.store.DeleteNominee nomineeID).2) := by
  rw [Store_DeleteNominee_snd]
  exact Gated_after _ ho h

theorem Gated_UpdateNomineeMedia {u : Int} {a b : App} (nomineeID : Int) (fileID mediaType : String)
    (ho : ownsNominee b.store.db nomineeID u) (h : Gated u a b) :
    Gated u a (b.withStore (b.store.UpdateNomineeMedia nomineeID fileID mediaType).2) := by
  rw [Store_UpdateNomineeMedia_snd]
  exact Gated_after _ ho h

theorem Gated_ResultsByNomination {u : Int} {a b : App} (nominationID : Int)
    (ho : ownsNomination b.store.db nominationID u) (h : Gated u a b) :
    Gated u a (b.withStore (b.store.ResultsByNomination nominationID).2) := by
  rw [Store_ResultsByNomination_snd]
  exact Gated_after _ ho h

theorem after_db_read (st : Store) (c : StoreCall) (hc : ∀ db, c.effect db = db) :
    (st.after c).db = st.db := by
  unfold Store.after
  by_cases h : st.failing = true
  · simp [h]
  · simp [h, hc]

@[simp] theorem Store_ListRoomsByOwner_db (st : Store) (ownerID : Int) :
    (st.ListRoomsByOwner ownerID).2.db = st.db := by
  rw [Store_ListRoomsByOwner_snd]
  exact after_db_read _ _ (fun _ => rfl)

@[simp] theorem Store_GetRoomByIDAndPassword_db (st : Store) (id : Int) (password : String) :
    (st.GetRoomByIDAndPassword id password).2.db = st.db := by
  rw [Store_GetRoomByIDAndPassword_snd]
  exact after_db_read _ _ (fun _ => rfl)

@[simp] theorem Store_IsRoomOwner_db (st : Store) (roomID userID : Int) :
    (st.IsRoomOwner roomID userID).2.db = st.db := by
  rw [Store_IsRoomOwner_snd]
  exact after_db_read _ _ (fun _ => rfl)

@[simp] theorem Store_GetRoomTitle_db (st : Store) (roomID : Int) :
    (st.GetRoomTitle roomID).2.db = st.db := by
  rw [Store_GetRoomTitle_snd]
  exact after_db_read _ _ (fun _ => rfl)

@[simp] theorem Store_ListNominations_db (st : Store) (roomID : Int) :
    (st.ListNominations roomID).2.db = st.db := by
  rw [Store_ListNominations_snd]
  exact after_db_read _ _ (fun _ => rfl)

@[simp] theorem Store_IsNominationOwner_db (st : Store) (nominationID userID : Int) :
    (st.IsNominationOwner nominationID userID).2.db = st.db := by
  rw [Store_IsNominationOwner_snd]
  exact after_db_read _ _ (fun _ => rfl)

@[simp] theorem Store_GetNominationRoomID_db (st : Store) (nominationID : Int) :
    (st.GetNominationRoomID nominationID).2.db = st.db := by
  rw [Store_GetNominationRoomID_snd]
  exact after_db_read _ _ (fun _ => rfl)

@[simp] theorem Store_CheckNominationInRoom_db (st : Store) (nominationID roomID : Int) :
    (st.CheckNominationInRoom nominationID roomID).2.db = st.db := by
  rw [Store_CheckNominationInRoom_snd]
  exact after_db_read _ _ (fun _ => rfl)

@[simp] theorem Store_GetNominationName_db (st : Store) (nominationID : Int) :
    (st.GetNominationName nominationID).2.db = st.db := by
  rw [Store_GetNominationName_snd]
  exact after_db_read _ _ (fun _ => rfl)

@[simp] theorem Store_ListNominees_db (st : Store) (nominationID : Int) :
    (st.ListNominees nominationID).2.db = st.db := by
  rw [Store_ListNominees_snd]
  exact after_db_read _ _ (fun _ => rfl)

@[simp] theorem Store_IsNomineeOwner_db (st : Store) (nomineeID userID : Int) :
    (st.IsNomineeOwner nomineeID userID).2.db = st.db := by
  rw [Store_IsNomineeOwner_snd]
  exact after_db_read _ _ (fun _ => rfl)

@[simp] theorem Store_GetNomineeName_db (st : Store) (nomineeID : Int) :
    (st.GetNomineeName nomineeID).2.db = st.db := by
  rw [Store_GetNomineeName_snd]
  exact after_db_read _ _ (fun _ => rfl)

@[simp] theorem Store_GetNomineeNominationAndRoom_db (st : Store) (nomineeID : Int) :
    (st.GetNomineeNominationAndRoom nomineeID).2.db = st.db := by
  rw [Store_GetNomineeNominationAndRoom_snd]
  exact after_db_read _ _ (fun _ => rfl)

@[simp] theorem Store_ResultsByNomination_db (st : Store) (nominationID : Int) :
    (st.ResultsByNomination nominationID).2.db = st.db := by
  rw [Store_ResultsByNomination_snd]
  exact after_db_read _ _ (fun _ => rfl)

@[simp] theorem withStore_store (a : App) (st : Store) : (a.withStore st).store = st := rfl

@[simp] theorem withStore_sessions (a : App) (st : Store) : (a.withStore st).sessions = a.sessions := rfl

/-- A positive answer of `IsRoomOwner` means the user owns the room, also in
the database the call leaves. -/
theorem owns_of_IsRoomOwner (st : Store) (roomID userID : Int)
    (h : (st.IsRoomOwner roomID userID).1 = .ok true) :
    ownsRoom (st.IsRoomOwner roomID userID).2.db roomID userID := by
  have h2 := (exec_ok st _ _ _ h).2
  rw [IsRoomOwner_eq] at h2
  rw [Store_IsRoomOwner_db]
  simpa [ownsRoom] using h2

/-- A positive answer of `IsNominationOwner` means the user owns the room of
the nomination, also in the database the call leaves. -/
theorem owns_of_IsNominationOwner (st : Store) (nominationID userID : Int)
    (h : (st.IsNominationOwner nominationID userID).1 = .ok true) :
    ownsNomination (st.IsNominationOwner nominationID userID).2.db nominationID userID := by
  have h2 := (exec_ok st _ _ _ h).2
  rw [IsNominationOwner_eq] at h2
  rw [Store_IsNominationOwner_db]
  simpa [ownsNomination] using h2

/-- A positive answer of `IsNomineeOwner` means the user owns the room of the
nominee's nomination, also in the database the call leaves. -/
theorem owns_of_IsNomineeOwner (st : Store) (nomineeID userID : Int)
    (h : (st.IsNomineeOwner nomineeID userID).1 = .ok true) :
    ownsNominee (st.IsNomineeOwner nomineeID userID).2.db nomineeID userID := by
  have h2 := (exec_ok st _ _ _ h).2
  rw [IsNomineeOwner_eq] at h2
  rw [Store_IsNomineeOwner_db]
  simpa [ownsNominee] using h2

@[simp] theorem Println_store (a : App) (t : String) : (a.Println t).store = a.store := rfl

@[simp] theorem say_store (a : App) (c : Int) (t : String) : (a.say c t).store = a.store := rfl

@[simp] theorem Send_store (a : App) (c : Chattable) : (a.Send c).store = a.store := rfl

@[simp] theorem Println_sessions (a : App) (t : String) : (a.Println t).sessions = a.sessions := rfl

@[simp] theorem say_sessions (a : App) (c : Int) (t : String) :
    (a.say c t).sessions = a.sessions := rfl

@[simp] theorem Send_sessions (a : App) (c : Chattable) : (a.Send c).sessions = a.sessions := rfl

@[simp] theorem withStore_bot (a : App) (st : Store) : (a.withStore st).bot = a.bot := rfl

@[simp] theorem Println_bot (a : App) (t : String) : (a.Println t).bot = a.bot := rfl

@[simp] theorem say_bot (a : App) (c : Int) (t : String) :
    (a.say c t).bot = a.bot ++ [.Message c (bytesOf t) []] := rfl

@[simp] theorem Send_bot (a : App) (c : Chattable) : (a.Send c).bot = a.bot ++ [c] := rfl

/-! ## The handlers make gated calls only -/

theorem handleCreateRoom_gated (a : App) (msg : Message) (u : Int) (now : Int) :
    Gated u a (handleCreateRoom a msg u now) := by
  unfold handleCreateRoom
  simp only []
  repeat' split
  all_goals
    repeat' first
      | with_reducible exact Gated_refl _ _
      | with_reducible refine Gated_say ?_
      | with_reducible refine Gated_Send ?_
      | with_reducible refine Gated_Println ?_
      | with_reducible refine Gated_CreateRoom _ _ _ _ ?_

theorem handleMyRooms_gated (a : App) (msg : Message) (u : Int) :
    Gated u a (handleMyRooms a msg u) := by
  unfold handleMyRooms
  simp only []
  repeat' split
  all_goals
    repeat' first
      | with_reducible exact Gated_refl _ _
      | with_reducible refine Gated_say ?_
      | with_reducible refine Gated_Send ?_
      | with_reducible refine Gated_Println ?_
      | with_reducible refine Gated_ListRoomsByOwner _ ?_

theorem handleAddNomination_gated (a : App) (msg : Message) (u : Int) :
    Gated u a (handleAddNomination a msg u) := by
  unfold handleAddNomination
  simp only []
  repeat' split
  all_goals
    repeat' first
      | with_reducible exact Gated_refl _ _
      | with_reducible refine Gated_say ?_
      | with_reducible refine Gated_Send ?_
      | with_reducible refine Gated_Println ?_
      | with_reducible refine Gated_IsRoomOwner _ _ ?_
      | with_reducible refine Gated_CreateNomination _ _ _ ?_ ?_
      | exact owns_of_IsRoomOwner _ _ _ (by assumption)

theorem handleAddNominee_gated (a : App) (msg : Message) (u : Int) :
    Gated u a (handleAddNominee a msg u) := by
  unfold handleAddNominee
  simp only []
  repeat' split
  all_goals
    repeat' first
      | with_reducible exact Gated_refl _ _
      | with_reducible refine Gated_say ?_
      | with_reducible refine Gated_Send ?_
      | with_reducible refine Gated_Println ?_
      | with_reducible refine Gated_IsNominationOwner _ _ ?_
      | with_reducible refine Gated_CreateNominee _ _ ?_ ?_
      | exact owns_of_IsNominationOwner _ _ _ (by assumption)

theorem handleDeleteNomination_gated (a : App) (msg : Message) (u : Int) :
    Gated u a (handleDeleteNomination a msg u) := by
  unfold handleDeleteNomination
  simp only []
  repeat' split
  all_goals
    repeat' first
      | with_reducible exact Gated_refl _ _
      | with_reducible refine Gated_say ?_
      | with_reducible refine Gated_Send ?_
      | with_reducible refine Gated_Println ?_
      | with_reducible refine Gated_IsNominationOwner _ _ ?_
      | with_reducible refine Gated_DeleteNomination _ ?_ ?_
      | exact owns_of_IsNominationOwner _ _ _ (by assumption)

theorem handleDeleteNominee_gated (a : App) (msg : Message) (u : Int) :
    Gated u a (handleDeleteNominee a msg u) := by
  unfold handleDeleteNominee
  simp only []
  repeat' split
  all_goals
    repeat' first
      | with_reducible exact Gated_refl _ _
      | with_reducible refine Gated_say ?_
      | with_reducible refine Gated_Send ?_
      | with_reducible refine Gated_Println ?_
      | with_reducible refine Gated_IsNomineeOwner _ _ ?_
      | with_reducible refine Gated_DeleteNominee _ ?_ ?_
      | exact owns_of_IsNomineeOwner _ _ _ (by assumption)

theorem handleSetNomineeMedia_gated (a : App) (msg : Message) (u : Int) (sess : Session) :
    Gated u a (handleSetNomineeMedia a msg u sess).1 := by
  unfold handleSetNomineeMedia
  simp only []
  repeat' split
  all_goals
    repeat' first
      | with_reducible exact Gated_refl _ _
      | with_reducible refine Gated_say ?_
      | with_reducible refine Gated_Send ?_
      | with_reducible refine Gated_Println ?_
      | with_reducible refine Gated_IsNomineeOwner _ _ ?_

theorem handleMediaUpload_gated (a : App) (msg : Message) (u : Int) (sess : Session) :
    Gated u a (handleMediaUpload a msg u sess).1 := by
  unfold handleMediaUpload
  simp only []
  repeat' split
  all_goals
    repeat' first
      | with_reducible exact Gated_refl _ _
      | with_reducible refine Gated_say ?_
      | with_reducible refine Gated_Send ?_
      | with_reducible refine Gated_Println ?_
      | with_reducible refine Gated_IsNomineeOwner _ _ ?_
      | with_reducible refine Gated_UpdateNomineeMedia _ _ _ ?_ ?_
      | exact owns_of_IsNomineeOwner _ _ _ (by assumption)

theorem handleCreateNomineeTextStep_gated (a : App) (msg : Message) (u : Int) (sess : Session) :
    Gated u a (handleCreateNomineeTextStep a msg u sess).1 := by
  unfold handleCreateNomineeTextStep
  simp only []
  repeat' split
  all_goals
    repeat' first
      | with_reducible exact Gated_refl _ _
      | with_reducible refine Gated_say ?_
      | with_reducible refine Gated_Send ?_
      | with_reducible refine Gated_Println ?_
      | with_reducible refine Gated_IsNominationOwner _ _ ?_
      | with_reducible refine Gated_CreateNominee _ _ ?_ ?_
      | exact owns_of_IsNominationOwner _ _ _ (by assumption)

theorem callbackAddNominee_gated (a : App) (cq : CallbackQuery) (u : Int) (sess : Session) :
    Gated u a (callbackAddNominee a cq u sess).1 := by
  unfold callbackAddNominee
  simp only []
  repeat' split
  all_goals
    repeat' first
      | with_reducible exact Gated_refl _ _
      | with_reducible refine Gated_say ?_
      | with_reducible refine Gated_Send ?_
      | with_reducible refine Gated_Println ?_
      | with_reducible refine Gated_IsNominationOwner _ _ ?_

theorem callbackSetMedia_gated (a : App) (cq : CallbackQuery) (u : Int) (sess : Session) :
    Gated u a (callbackSetMedia a cq u sess).1 := by
  unfold callbackSetMedia
  simp only []
  repeat' split
  all_goals
    repeat' first
      | with_reducible exact Gated_refl _ _
      | with_reducible refine Gated_say ?_
      | with_reducible refine Gated_Send ?_
      | with_reducible refine Gated_Println ?_
      | with_reducible refine Gated_IsNomineeOwner _ _ ?_

theorem callbackDeleteNominee_gated (a : App) (cq : CallbackQuery) (u : Int) (sess : Session) :
    Gated u a (callbackDeleteNominee a cq u sess).1 := by
  unfold callbackDeleteNominee
  simp only []
  repeat' split
  all_goals
    repeat' first
      | with_reducible exact Gated_refl _ _
      | with_reducible refine Gated_say ?_
      | with_reducible refine Gated_Send ?_
      | with_reducible refine Gated_Println ?_
      | with_reducible refine Gated_IsNomineeOwner _ _ ?_
      | with_reducible refine Gated_DeleteNominee _ ?_ ?_
      | exact owns_of_IsNomineeOwner _ _ _ (by assumption)

theorem sendNominationsList_gated (a : App) (chatID u roomID : Int) :
    Gated u a (sendNominationsList a chatID u roomID).2 := by
  unfold sendNominationsList
  simp only []
  repeat' split
  all_goals
    repeat' first
      | with_reducible exact Gated_refl _ _
      | with_reducible refine Gated_say ?_
      | with_reducible refine Gated_Send ?_
      | with_reducible refine Gated_Println ?_
      | with_reducible refine Gated_ListNominations _ ?_
      | with_reducible refine Gated_IsRoomOwner _ _ ?_

theorem owns_nomination_of_room {db : DB} {n r u : Int}
    (hn : ∃ m ∈ db.nominations, m.id = n ∧ m.room_id = r) (ho : ownsRoom db r u) :
    ownsNomination db n u := by
  obtain ⟨m, hm, hid, hr⟩ := hn
  exact ⟨m, hm, hid, by rw [hr]; exact ho⟩

theorem sendResults_gated (a : App) (chatID u roomID nominationID : Int)
    (hn : ∃ m ∈ a.store.db.nominations, m.id = nominationID ∧ m.room_id = roomID) :
    Gated u a (sendResults a chatID u roomID nominationID) := by
  unfold sendResults
  simp only []
  repeat' split
  all_goals
    repeat' first
      | with_reducible exact Gated_refl _ _
      | with_reducible refine Gated_say ?_
      | with_reducible refine Gated_Send ?_
      | with_reducible refine Gated_Println ?_
      | with_reducible refine Gated_IsRoomOwner _ _ ?_
      | with_reducible refine Gated_GetRoomTitle _ ?_
      | with_reducible refine Gated_GetNominationName _ ?_
      | with_reducible refine Gated_ResultsByNomination _ ?_ ?_
      | (refine owns_nomination_of_room (r := roomID) ?_ ?_
         · simpa using hn
         · simpa using owns_of_IsRoomOwner a.store roomID u (by assumption))

/-- A room id answered by `GetNominationRoomID` is the room of a nomination
with that id. -/
theorem nomination_of_GetNominationRoomID (st : Store) (n r : Int)
    (h : (st.GetNominationRoomID n).1 = .ok r) :
    ∃ m ∈ (st.GetNominationRoomID n).2.db.nominations, m.id = n ∧ m.room_id = r := by
  have h2 := (exec_ok st _ _ _ h).2
  rw [Store_GetNominationRoomID_db]
  unfold GetNominationRoomID at h2
  split at h2
  · next m hm =>
    have := List.find?_some hm
    refine ⟨m, List.mem_of_find?_eq_some hm, by simpa using this, ?_⟩
    simpa using h2
  · cases h2

/-- A positive answer of `CheckNominationInRoom` names a nomination of the
room. -/
theorem nomination_of_CheckNominationInRoom (st : Store) (n r : Int)
    (h : (st.CheckNominationInRoom n r).1 = .ok true) :
    ∃ m ∈ (st.CheckNominationInRoom n r).2.db.nominations, m.id = n ∧ m.room_id = r := by
  have h2 := (exec_ok st _ _ _ h).2
  rw [Store_CheckNominationInRoom_db]
  unfold CheckNominationInRoom at h2
  simp only [Except.ok.injEq, decide_eq_true_eq] at h2
  obtain ⟨m, hm⟩ := List.exists_mem_of_length_pos h2
  rw [List.mem_filter] at hm
  exact ⟨m, hm.1, by simpa using hm.2⟩

theorem handleResults_gated (a : App) (msg : Message) (u : Int) :
    Gated u a (handleResults a msg u) := by
  unfold handleResults
  simp only []
  repeat' split
  all_goals
    repeat' first
      | with_reducible exact Gated_refl _ _
      | with_reducible refine Gated_say ?_
      | with_reducible refine Gated_Println ?_
      | with_reducible refine Gated_GetNominationRoomID _ ?_
      | with_reducible refine Gated_CheckNominationInRoom _ _ ?_
      | refine Gated_trans ?_ (sendResults_gated _ _ _ _ _
          (nomination_of_GetNominationRoomID _ _ _ (by assumption)))
      | refine Gated_trans ?_ (sendResults_gated _ _ _ _ _
          (nomination_of_CheckNominationInRoom _ _ _ (by assumption)))

theorem callbackResults_gated (a : App) (cq : CallbackQuery) (u : Int) (sess : Session) :
    Gated u a (callbackResults a cq u sess).1 := by
  unfold callbackResults
  simp only []
  split
  · exact Gated_refl _ _
  · next n _ =>
    split
    · exact Gated_say (Gated_GetNominationRoomID _ (Gated_refl _ _))
    · exact Gated_say (Gated_Println (Gated_GetNominationRoomID _ (Gated_refl _ _)))
    · next r hr =>
      split
      · exact Gated_say (Gated_Println (Gated_IsRoomOwner _ _
          (Gated_GetNominationRoomID _ (Gated_refl _ _))))
      · exact Gated_say (Gated_IsRoomOwner _ _ (Gated_GetNominationRoomID _ (Gated_refl _ _)))
      · next ho =>
        have hown : ownsNomination a.store.db n u :=
          owns_nomination_of_room
            (by simpa using nomination_of_GetNominationRoomID a.store n r hr)
            (by simpa using owns_of_IsRoomOwner _ r u ho)
        repeat' split
        all_goals
          repeat' first
            | with_reducible exact Gated_refl _ _
            | with_reducible refine Gated_say ?_
            | with_reducible refine Gated_Send ?_
            | with_reducible refine Gated_Println ?_
            | with_reducible refine Gated_GetNominationRoomID _ ?_
            | with_reducible refine Gated_IsRoomOwner _ _ ?_
            | with_reducible refine Gated_GetRoomTitle _ ?_
            | with_reducible refine Gated_GetNominationName _ ?_
            | with_reducible refine Gated_ResultsByNomination _ ?_ ?_
            | simpa using hown

theorem handleNominationsCommand_gated (a : App) (msg : Message) (u : Int) (sess : Session) :
    Gated u a (handleNominationsCommand a msg u sess).1 := by
  unfold handleNominationsCommand
  simp only []
  repeat' split
  all_goals
    repeat' first
      | with_reducible exact Gated_refl _ _
      | with_reducible refine Gated_say ?_
      | with_reducible refine Gated_Println ?_
      | exact sendNominationsList_gated _ _ _ _

theorem Gated_foldl_Send {α : Type} {u : Int} {a : App} (f : α → Chattable) (l : List α) :
    ∀ b : App, Gated u a b → Gated u a (l.foldl (fun acc n => acc.Send (f n)) b) := by
  induction l with
  | nil => intro b h; exact h
  | cons x l ih => intro b h; exact ih _ (Gated_Send h)

theorem sendNominees_gated (a : App) (chatID u nominationID : Int) :
    Gated u a (sendNominees a chatID u nominationID).2 := by
  unfold sendNominees
  simp only []
  repeat' split
  all_goals
    repeat' first
      | with_reducible exact Gated_refl _ _
      | with_reducible refine Gated_say ?_
      | with_reducible refine Gated_Send ?_
      | with_reducible refine Gated_Println ?_
      | with_reducible refine Gated_foldl_Send _ _ _ ?_
      | with_reducible refine Gated_GetNominationName _ ?_
      | with_reducible refine Gated_ListNominees _ ?_
      | with_reducible refine Gated_IsNominationOwner _ _ ?_

theorem callbackBack_gated (a : App) (cq : CallbackQuery) (u : Int) (sess : Session) :
    Gated u a (callbackBack a cq u sess).1 := by
  unfold callbackBack
  simp only []
  repeat' split
  all_goals
    repeat' first
      | with_reducible exact Gated_refl _ _
      | with_reducible refine Gated_say ?_
      | with_reducible refine Gated_Println ?_
      | exact sendNominationsList_gated _ _ _ _

theorem callbackNomination_gated (a : App) (cq : CallbackQuery) (u : Int) (sess : Session) :
    Gated u a (callbackNomination a cq u sess).1 := by
  unfold callbackNomination
  simp only []
  repeat' split
  all_goals
    repeat' first
      | with_reducible exact Gated_refl _ _
      | with_reducible refine Gated_say ?_
      | with_reducible refine Gated_Println ?_
      | with_reducible refine Gated_GetNominationRoomID _ ?_
      | refine Gated_trans ?_ (sendNominees_gated _ _ _ _)

theorem callbackVote_gated (a : App) (cq : CallbackQuery) (u : Int) (sess : Session) (now : Int) :
    Gated u a (callbackVote a cq u sess now).1 := by
  unfold callbackVote
  simp only []
  repeat' split
  all_goals
    repeat' first
      | with_reducible exact Gated_refl _ _
      | with_reducible refine Gated_say ?_
      | with_reducible refine Gated_Println ?_
      | with_reducible refine Gated_GetNomineeNominationAndRoom _ ?_
      | with_reducible refine Gated_RecordVote _ _ _ _ ?_
      | with_reducible refine Gated_GetNomineeName _ ?_
      | refine Gated_trans ?_ (sendNominationsList_gated _ _ _ _)

/-! ## Lemmas on the session manager -/

theorem lookup_cons_eq (v k : Int) (x : Session) (l : List (Int × Session)) :
    ((k, x) :: l).lookup v = if v = k then some x else l.lookup v := by
  by_cases h : v = k
  · subst h
    simp [List.lookup]
  · have : (v == k) = false := by simpa using h
    simp [List.lookup, this, h]

theorem lookup_map_put (l : List (Int × Session)) (u v : Int) (s : Session) :
    (l.map (fun p => if p.1 = u then (u, s) else p)).lookup v =
      if v = u then (l.lookup u).map (fun _ => s) else l.lookup v := by
  induction l with
  | nil => simp
  | cons p l ih =>
    obtain ⟨k, x⟩ := p
    rw [List.map_cons]
    by_cases hk : k = u
    · rw [if_pos hk, lookup_cons_eq, lookup_cons_eq, ih]
      subst hk
      by_cases hv : v = k
      · simp [hv]
      · simp [hv, lookup_cons_eq]
    · rw [if_neg hk, lookup_cons_eq, lookup_cons_eq, lookup_cons_eq, ih]
      by_cases hv : v = u
      · subst hv
        have hvk : ¬ v = k := fun h => hk h.symm
        simp [hvk]
      · simp [hv]

theorem lookup_append_single (l : List (Int × Session)) (u v : Int) (s : Session)
    (h : l.lookup u = none) :
    (l ++ [(u, s)]).lookup v = if v = u then some s else l.lookup v := by
  induction l with
  | nil =>
    rw [List.nil_append, lookup_cons_eq]
  | cons p l ih =>
    obtain ⟨k, x⟩ := p
    rw [lookup_cons_eq] at h
    by_cases huk : u = k
    · simp [huk] at h
    · rw [if_neg huk] at h
      rw [List.cons_append, lookup_cons_eq, lookup_cons_eq, ih h]
      by_cases hvk : v = k
      · subst hvk
        have hvu : ¬ v = u := fun e => huk e.symm
        simp [hvu]
      · simp [hvk]

theorem Get_fst (m : Manager) (u : Int) :
    (m.Get u).1 = (m.sessions.lookup u).getD ⟨0, 0, 0⟩ := by
  unfold Manager.Get
  split
  · next h => simp [h]
  · next h => simp [h]

theorem Get_snd_lookup (m : Manager) (u v : Int) :
    (m.Get u).2.sessions.lookup v = if v = u then some (m.Get u).1 else m.sessions.lookup v := by
  unfold Manager.Get
  split
  · next s h =>
    by_cases hv : v = u
    · subst hv
      simp [h]
    · simp [hv]
  · next h => simp [lookup_append_single _ _ _ _ h]

/-- The record `Get` returns for `v` is not affected by an earlier `Get`. -/
theorem Get_Get (m : Manager) (u v : Int) : ((m.Get u).2.Get v).1 = (m.Get v).1 := by
  rw [Get_fst, Get_snd_lookup]
  by_cases hv : v = u
  · subst hv
    simp
  · rw [if_neg hv, Get_fst]

/-- Writing through the pointer of `u` changes the record of `u` only. -/
theorem Get_put (m : Manager) (u v : Int) (s : Session) :
    (((m.Get u).2.put u s).Get v).1 = if v = u then s else (m.Get v).1 := by
  rw [Get_fst]
  unfold Manager.put
  simp only [lookup_map_put, Get_snd_lookup]
  by_cases hv : v = u
  · subst hv
    simp
  · simp [hv, Get_fst]

theorem session_withSession (a : App) (b : App) (u v : Int) (s : Session)
    (h : b.sessions = (a.sessions.Get u).2) :
    (App.withSession u (b, s)).session v = if v = u then s else a.session v := by
  unfold App.withSession App.session
  simp only [h]
  exact Get_put _ _ _ _

theorem session_of_Get (a b : App) (u v : Int) (h : b.sessions = (a.sessions.Get u).2) :
    b.session v = a.session v := by
  unfold App.session
  rw [h]
  exact Get_Get _ _ _

/-! ## Outcome of one event -/

theorem Gated_store {u : Int} {a b : App} (h : Gated u a b) :
    ∃ calls, b.store = a.store.afterAll calls ∧ Store.permittedAll u a.store calls := by
  obtain ⟨l, e, p, _, _⟩ := h
  exact ⟨l, e, p⟩

theorem Gated_sessions {u : Int} {a b : App} (h : Gated u a b) : b.sessions = a.sessions := by
  obtain ⟨_, _, _, s, _⟩ := h
  exact s

theorem withSession_session (a a0 : App) (u : Int) (r : App × Session)
    (h0 : a0.sessions = (a.sessions.Get u).2) (hg : Gated u a0 r.1) (v : Int) :
    (App.withSession u r).session v = if v = u then r.2 else a.session v :=
  session_withSession a r.1 u v r.2 ((Gated_sessions hg).trans h0)

theorem Get_of_lookup (m : Manager) (u : Int) (s : Session) (h : m.sessions.lookup u = some s) :
    m.Get u = (s, m) := by
  unfold Manager.Get
  rw [h]

/-- A second `Get` for the same user returns the same record and leaves the
map as it is. -/
theorem Get_Get_self (m : Manager) (u : Int) : (m.Get u).2.Get u = ((m.Get u).1, (m.Get u).2) := by
  apply Get_of_lookup
  rw [Get_snd_lookup, if_pos rfl]

/-- What `handleJoinRoom` does: one read at most, and the session map is as
before or, when the room is found, the sender's active room is that room. -/
theorem handleJoinRoom_spec (a : App) (msg : Message) (u : Int) :
    (∃ calls, (handleJoinRoom a msg u).store = a.store.afterAll calls ∧
      Store.permittedAll u a.store calls) ∧
    (handleJoinRoom a msg u).voteSalt = a.voteSalt ∧
    ((handleJoinRoom a msg u).sessions = a.sessions ∨
      ∃ idField password rest roomID room,
        Fields (TrimSpace msg.CommandArguments) = idField :: password :: rest ∧
        ParseInt idField = some roomID ∧
        (a.store.GetRoomByIDAndPassword roomID password).1 = .ok room ∧
        (handleJoinRoom a msg u).sessions =
          (a.sessions.Get u).2.put u { (a.sessions.Get u).1 with ActiveRoomID := room.ID }) := by
  unfold handleJoinRoom
  simp only []
  split
  · exact ⟨Gated_store (Gated_say (Gated_refl u a)), rfl, Or.inl rfl⟩
  · split
    · next idField password rest hf =>
      split
      · exact ⟨Gated_store (Gated_say (Gated_refl u a)), rfl, Or.inl rfl⟩
      · next roomID hp =>
        split
        · exact ⟨Gated_store (Gated_say (Gated_GetRoomByIDAndPassword _ _ (Gated_refl u a))),
            rfl, Or.inl rfl⟩
        · exact ⟨Gated_store (Gated_say (Gated_Println
            (Gated_GetRoomByIDAndPassword _ _ (Gated_refl u a)))), rfl, Or.inl rfl⟩
        · next room hr =>
          refine ⟨?_, rfl, ?_⟩
          · obtain ⟨l, e, p⟩ :=
              Gated_store (Gated_GetRoomByIDAndPassword roomID password (Gated_refl u a))
            exact ⟨l, e, p⟩
          · exact Or.inr ⟨idField, password, rest, roomID, room, hf, hp, hr, rfl⟩
    · exact ⟨Gated_store (Gated_say (Gated_refl u a)), rfl, Or.inl rfl⟩

theorem Gated_voteSalt {u : Int} {a b : App} (h : Gated u a b) : b.voteSalt = a.voteSalt := by
  obtain ⟨_, _, _, _, v⟩ := h
  exact v

/-- A handler that worked on the session pointer and made gated calls. -/
theorem Handled_pointer (a a0 : App) (u : Int) (r : App × Session)
    (hst : a0.store = a.store) (hs : a0.sessions = (a.sessions.Get u).2)
    (hv : a0.voteSalt = a.voteSalt) (hg : Gated u a0 r.1) :
    Handled u a (App.withSession u r) r.2 := by
  refine ⟨?_, ?_, ?_⟩
  · obtain ⟨l, e, p⟩ := Gated_store hg
    rw [hst] at e p
    exact ⟨l, e, p⟩
  · exact (Gated_voteSalt hg).trans hv
  · intro v
    exact withSession_session a a0 u r hs hg v

/-- A handler that made gated calls and did not touch the sessions. -/
theorem Handled_plain (a a0 b : App) (u : Int)
    (hst : a0.store = a.store) (hs : a0.sessions = (a.sessions.Get u).2)
    (hv : a0.voteSalt = a.voteSalt) (hg : Gated u a0 b) :
    Handled u a b (a.session u) := by
  refine ⟨?_, ?_, ?_⟩
  · obtain ⟨l, e, p⟩ := Gated_store hg
    rw [hst] at e p
    exact ⟨l, e, p⟩
  · exact (Gated_voteSalt hg).trans hv
  · intro v
    rw [session_of_Get a b u v ((Gated_sessions hg).trans hs)]
    split <;> simp_all

theorem handleNominationsCommand_snd (a : App) (msg : Message) (u : Int) (sess : Session) :
    (handleNominationsCommand a msg u sess).2 = sess := by
  unfold handleNominationsCommand
  simp only []
  repeat' split
  all_goals rfl

theorem handleSetNomineeMedia_active (a : App) (msg : Message) (u : Int) (sess : Session) :
    (handleSetNomineeMedia a msg u sess).2.ActiveRoomID = sess.ActiveRoomID := by
  unfold handleSetNomineeMedia
  simp only []
  repeat' split
  all_goals rfl

theorem handleMediaUpload_snd (a : App) (msg : Message) (u : Int) (sess : Session) :
    (handleMediaUpload a msg u sess).2 = { sess with WaitingMediaForNomineeID := 0 } := by
  unfold handleMediaUpload
  simp only []
  repeat' split
  all_goals rfl

theorem handleCreateNomineeTextStep_active (a : App) (msg : Message) (u : Int) (sess : Session) :
    (handleCreateNomineeTextStep a msg u sess).2.ActiveRoomID = sess.ActiveRoomID := by
  unfold handleCreateNomineeTextStep
  simp only []
  repeat' split
  all_goals rfl

theorem callbackBack_snd (a : App) (cq : CallbackQuery) (u : Int) (sess : Session) :
    (callbackBack a cq u sess).2 =
      { sess with WaitingMediaForNomineeID := 0, CreatingNomineeForNominationID := 0 } := by
  unfold callbackBack
  simp only []
  repeat' split
  all_goals rfl

theorem callbackNomination_snd (a : App) (cq : CallbackQuery) (u : Int) (sess : Session) :
    (callbackNomination a cq u sess).2 = sess := by
  unfold callbackNomination
  simp only []
  repeat' split
  all_goals rfl

theorem callbackVote_snd (a : App) (cq : CallbackQuery) (u : Int) (sess : Session) (now : Int) :
    (callbackVote a cq u sess now).2 = sess := by
  unfold callbackVote
  simp only []
  repeat' split
  all_goals rfl

theorem callbackResults_snd (a : App) (cq : CallbackQuery) (u : Int) (sess : Session) :
    (callbackResults a cq u sess).2 = sess := by
  unfold callbackResults
  simp only []
  repeat' split
  all_goals rfl

theorem callbackAddNominee_active (a : App) (cq : CallbackQuery) (u : Int) (sess : Session) :
    (callbackAddNominee a cq u sess).2.ActiveRoomID = sess.ActiveRoomID := by
  unfold callbackAddNominee
  simp only []
  repeat' split
  all_goals rfl

theorem callbackSetMedia_active (a : App) (cq : CallbackQuery) (u : Int) (sess : Session) :
    (callbackSetMedia a cq u sess).2.ActiveRoomID = sess.ActiveRoomID := by
  unfold callbackSetMedia
  simp only []
  repeat' split
  all_goals rfl

theorem callbackDeleteNominee_snd (a : App) (cq : CallbackQuery) (u : Int) (sess : Session) :
    (callbackDeleteNominee a cq u sess).2 = sess := by
  unfold callbackDeleteNominee
  simp only []
  repeat' split
  all_goals rfl

/-- One `/room` command after `getSession`: the sender's session is as before
or, when the room is found, has that room as active room. -/
theorem handleJoinRoom_handled (a a0 : App) (msg : Message) (u : Int)
    (hst : a0.store = a.store) (hs : a0.sessions = (a.sessions.Get u).2)
    (hv : a0.voteSalt = a.voteSalt) :
    ∃ s, Handled u a (handleJoinRoom a0 msg u) s ∧
      (s = a.session u ∨
        ∃ idField password rest roomID room,
          Fields (TrimSpace msg.CommandArguments) = idField :: password :: rest ∧
          ParseInt idField = some roomID ∧
          (a.store.GetRoomByIDAndPassword roomID password).1 = .ok room ∧
          s = { a.session u with ActiveRoomID := room.ID }) := by
  obtain ⟨⟨l, e, p⟩, hsalt, hsess⟩ := handleJoinRoom_spec a0 msg u
  rw [hst] at e p
  rcases hsess with h | ⟨idField, password, rest, roomID, room, hf, hp, hr, h⟩
  · refine ⟨a.session u, ⟨⟨l, e, p⟩, hsalt.trans hv, ?_⟩, Or.inl rfl⟩
    intro v
    rw [session_of_Get a _ u v (h.trans hs)]
    split <;> simp_all
  · refine ⟨{ a.session u with ActiveRoomID := room.ID }, ⟨⟨l, e, p⟩, hsalt.trans hv, ?_⟩,
      Or.inr ⟨idField, password, rest, roomID, room, hf, hp, by rw [← hst]; exact hr, rfl⟩⟩
    intro v
    unfold App.session
    rw [h, hs, Get_Get_self]
    exact Get_put _ _ _ _

/-- The outcome of the command switch. -/
theorem dispatchCommand_handled (a a0 : App) (msg : Message) (u : Int) (now : Int)
    (hst : a0.store = a.store) (hs : a0.sessions = (a.sessions.Get u).2)
    (hv : a0.voteSalt = a.voteSalt) :
    ∃ s, Handled u a (dispatchCommand a0 msg u (a.session u) now) s ∧
      (s.ActiveRoomID = (a.session u).ActiveRoomID ∨
        (msg.Command = "room" ∧ ∃ idField password rest roomID room,
          Fields (TrimSpace msg.CommandArguments) = idField :: password :: rest ∧
          ParseInt idField = some roomID ∧
          (a.store.GetRoomByIDAndPassword roomID password).1 = .ok room ∧
          s = { a.session u with ActiveRoomID := room.ID })) := by
  unfold dispatchCommand
  by_cases hc : msg.Command = "start"
  · rw [if_pos hc]
    exact ⟨_, Handled_plain a a0 _ u hst hs hv (Gated_Send (Gated_refl _ _)), Or.inl rfl⟩
  rw [if_neg hc]
  clear hc
  by_cases hc : msg.Command = "help"
  · rw [if_pos hc]
    exact ⟨_, Handled_plain a a0 _ u hst hs hv (Gated_say (Gated_refl _ _)), Or.inl rfl⟩
  rw [if_neg hc]
  clear hc
  by_cases hc : msg.Command = "create_room"
  · rw [if_pos hc]
    exact ⟨_, Handled_plain a a0 _ u hst hs hv (handleCreateRoom_gated _ _ _ _), Or.inl rfl⟩
  rw [if_neg hc]
  clear hc
  by_cases hc : msg.Command = "my_rooms"
  · rw [if_pos hc]
    exact ⟨_, Handled_plain a a0 _ u hst hs hv (handleMyRooms_gated _ _ _), Or.inl rfl⟩
  rw [if_neg hc]
  clear hc
  by_cases hc : msg.Command = "room"
  · rw [if_pos hc]
    obtain ⟨s, hh, hor⟩ := handleJoinRoom_handled a a0 msg u hst hs hv
    refine ⟨s, hh, ?_⟩
    rcases hor with h | h
    · exact Or.inl (by rw [h])
    · exact Or.inr ⟨hc, h⟩
  rw [if_neg hc]
  clear hc
  by_cases hc : msg.Command = "nominations"
  · rw [if_pos hc]
    exact ⟨_, Handled_pointer a a0 u _ hst hs hv (handleNominationsCommand_gated _ _ _ _),
      Or.inl (by rw [handleNominationsCommand_snd])⟩
  rw [if_neg hc]
  clear hc
  by_cases hc : msg.Command = "add_nomination"
  · rw [if_pos hc]
    exact ⟨_, Handled_plain a a0 _ u hst hs hv (handleAddNomination_gated _ _ _), Or.inl rfl⟩
  rw [if_neg hc]
  clear hc
  by_cases hc : msg.Command = "add_nominee"
  · rw [if_pos hc]
    exact ⟨_, Handled_plain a a0 _ u hst hs hv (handleAddNominee_gated _ _ _), Or.inl rfl⟩
  rw [if_neg hc]
  clear hc
  by_cases hc : msg.Command = "set_nominee_media"
  · rw [if_pos hc]
    exact ⟨_, Handled_pointer a a0 u _ hst hs hv (handleSetNomineeMedia_gated _ _ _ _),
      Or.inl (handleSetNomineeMedia_active _ _ _ _)⟩
  rw [if_neg hc]
  clear hc
  by_cases hc : msg.Command = "delete_nomination"
  · rw [if_pos hc]
    exact ⟨_, Handled_plain a a0 _ u hst hs hv (handleDeleteNomination_gated _ _ _), Or.inl rfl⟩
  rw [if_neg hc]
  clear hc
  by_cases hc : msg.Command = "delete_nominee"
  · rw [if_pos hc]
    exact ⟨_, Handled_plain a a0 _ u hst hs hv (handleDeleteNominee_gated _ _ _), Or.inl rfl⟩
  rw [if_neg hc]
  clear hc
  by_cases hc : msg.Command = "results"
  · rw [if_pos hc]
    exact ⟨_, Handled_plain a a0 _ u hst hs hv (handleResults_gated _ _ _), Or.inl rfl⟩
  rw [if_neg hc]
  clear hc
  exact ⟨_, Handled_plain a a0 _ u hst hs hv (Gated_say (Gated_refl _ _)), Or.inl rfl⟩

/-- The outcome of one message of user `u`. -/
theorem handleMessage_handled (toLower : String → String) (a : App) (msg : Message) (now : Int)
    (u : Int) (h : msg.From = some u) :
    ∃ s, Handled u a (handleMessage toLower a msg now) s ∧
      (s.ActiveRoomID = (a.session u).ActiveRoomID ∨
        (msg.IsCommand = true ∧ msg.Command = "room" ∧ ∃ idField password rest roomID room,
          Fields (TrimSpace msg.CommandArguments) = idField :: password :: rest ∧
          ParseInt idField = some roomID ∧
          (a.store.GetRoomByIDAndPassword roomID password).1 = .ok room ∧
          s = { a.session u with ActiveRoomID := room.ID })) := by
  unfold handleMessage
  simp only [h]
  split
  · exact ⟨_, Handled_pointer a { a with sessions := (a.sessions.Get u).2 } u _ rfl rfl rfl (handleMediaUpload_gated _ _ _ _),
      Or.inl (by rw [handleMediaUpload_snd]; rfl)⟩
  split
  · exact ⟨_, Handled_pointer a { a with sessions := (a.sessions.Get u).2 } u _ rfl rfl rfl (handleCreateNomineeTextStep_gated _ _ _ _),
      Or.inl (by rw [handleCreateNomineeTextStep_active]; rfl)⟩
  split
  · next hc =>
    obtain ⟨s, hh, hor⟩ := dispatchCommand_handled a { a with sessions := (a.sessions.Get u).2 }
      msg u now rfl rfl rfl
    refine ⟨s, hh, ?_⟩
    rcases hor with h | h
    · exact Or.inl h
    · exact Or.inr ⟨hc, h⟩
  split
  · exact ⟨_, Handled_plain a { a with sessions := (a.sessions.Get u).2 } _ u rfl rfl rfl (Gated_say (Gated_refl _ _)), Or.inl rfl⟩
  · exact ⟨_, Handled_plain a { a with sessions := (a.sessions.Get u).2 } _ u rfl rfl rfl (Gated_refl _ _), Or.inl rfl⟩

/-- The outcome of one button press of user `u`: the active room is kept. -/
theorem handleCallback_handled (a : App) (cq : CallbackQuery) (now : Int) (u : Int)
    (h : cq.From = some u) :
    ∃ s, Handled u a (handleCallback a cq now) s ∧
      s.ActiveRoomID = (a.session u).ActiveRoomID := by
  unfold handleCallback
  simp only [h]
  split
  · exact ⟨_, Handled_pointer a
      (({ a with sessions := (a.sessions.Get u).2 } : App).Send (.Callback cq.ID)) u _ rfl rfl rfl (callbackBack_gated _ _ _ _),
      by rw [callbackBack_snd]; rfl⟩
  split
  · exact ⟨_, Handled_pointer a
      (({ a with sessions := (a.sessions.Get u).2 } : App).Send (.Callback cq.ID)) u _ rfl rfl rfl (callbackNomination_gated _ _ _ _),
      by rw [callbackNomination_snd]; rfl⟩
  split
  · exact ⟨_, Handled_pointer a
      (({ a with sessions := (a.sessions.Get u).2 } : App).Send (.Callback cq.ID)) u _ rfl rfl rfl (callbackVote_gated _ _ _ _ _),
      by rw [callbackVote_snd]; rfl⟩
  split
  · exact ⟨_, Handled_pointer a
      (({ a with sessions := (a.sessions.Get u).2 } : App).Send (.Callback cq.ID)) u _ rfl rfl rfl (callbackResults_gated _ _ _ _),
      by rw [callbackResults_snd]; rfl⟩
  split
  · exact ⟨_, Handled_pointer a
      (({ a with sessions := (a.sessions.Get u).2 } : App).Send (.Callback cq.ID)) u _ rfl rfl rfl (callbackAddNominee_gated _ _ _ _),
      by rw [callbackAddNominee_active]; rfl⟩
  split
  · exact ⟨_, Handled_pointer a
      (({ a with sessions := (a.sessions.Get u).2 } : App).Send (.Callback cq.ID)) u _ rfl rfl rfl (callbackSetMedia_gated _ _ _ _),
      by rw [callbackSetMedia_active]; rfl⟩
  split
  · exact ⟨_, Handled_pointer a
      (({ a with sessions := (a.sessions.Get u).2 } : App).Send (.Callback cq.ID)) u _ rfl rfl rfl (callbackDeleteNominee_gated _ _ _ _),
      by rw [callbackDeleteNominee_snd]; rfl⟩
  · exact ⟨_, Handled_pointer a
      (({ a with sessions := (a.sessions.Get u).2 } : App).Send (.Callback cq.ID)) u (_, _)
      rfl rfl rfl (Gated_refl _ _), rfl⟩

/-! ## The media step comes first (C11) -/

theorem afterAll_invariant_of (P : DB → Prop) (calls : List StoreCall)
    (hP : ∀ c ∈ calls, ∀ db : DB, P db → P (c.effect db)) :
    ∀ st : Store, P st.db → P (st.afterAll calls).db := by
  induction calls with
  | nil => intro st h; exact h
  | cons c cs ih =>
    intro st h
    rw [afterAll_cons]
    apply ih (fun c hc => hP c (List.mem_cons_of_mem _ hc))
    unfold Store.after
    by_cases hf : st.failing = true
    · simpa [hf] using h
    · simpa [hf] using hP c (List.mem_cons_self _ _) st.db h

/-- The media step of `handleMessage`: with media awaited and a photo or a
video in the message, the message goes to `handleMediaUpload` and nowhere
else. -/
theorem handleMessage_media (toLower : String → String) (a : App) (msg : Message) (now : Int)
    (u : Int) (hfrom : msg.From = some u)
    (hw : (a.session u).WaitingMediaForNomineeID ≠ 0)
    (hmedia : msg.Photo.length > 0 ∨ msg.Video.isSome = true) :
    handleMessage toLower a msg now =
      App.withSession u
        (handleMediaUpload { a with sessions := (a.sessions.Get u).2 } msg u (a.session u)) := by
  unfold handleMessage
  simp only [hfrom]
  rw [if_pos ⟨hw, hmedia⟩]
  rfl

/-- The store calls of `handleMediaUpload`: the owner check and, at most, the
media update of the awaited nominee. -/
theorem handleMediaUpload_calls (a : App) (msg : Message) (u : Int) (sess : Session) :
    ∃ new, (handleMediaUpload a msg u sess).1.store = a.store.afterAll new ∧
      ∀ c ∈ new, c = .IsNomineeOwner sess.WaitingMediaForNomineeID u ∨
        ∃ fileID mediaType,
          c = .UpdateNomineeMedia sess.WaitingMediaForNomineeID fileID mediaType := by
  unfold handleMediaUpload
  simp only []
  repeat' split
  all_goals simp only [Store_IsNomineeOwner_snd, Store_UpdateNomineeMedia_snd, say_store,
    Println_store, withStore_store]
  all_goals
    first
      | exact ⟨[], rfl, by simp⟩
      | exact ⟨[_], rfl, by simp⟩
      | exact ⟨[_, _], rfl, by simp⟩


theorem handleMediaUpload_ignores_text (a : App) (msg : Message) (u : Int) (sess : Session)
    (text : String) (isCommand : Bool) (command args : String) :
    handleMediaUpload a
        { msg with Text := text, IsCommand := isCommand, Command := command, CommandArguments := args }
        u sess = handleMediaUpload a msg u sess := rfl

/-- Claim C11: when the sender's session has both `WaitingMediaForNomineeID`
and `CreatingNomineeForNominationID` non-zero and the message carries a photo
or a video, `handleMessage` is exactly the media handler followed by the
session write-back: afterwards `WaitingMediaForNomineeID` is 0,
`CreatingNomineeForNominationID` and `ActiveRoomID` are as before, the only
store calls are the owner check and at most the media update of the awaited
nominee (so no `CreateNominee`, and the nominee rows keep their ids,
nominations and names), and the outcome does not depend on the text of the
message nor on whether and which command it is. -/
theorem media_before_name (toLower : String → String) (a : App) (msg : Message) (now : Int)
    (u : Int) (hfrom : msg.From = some u)
    (hw : (a.session u).WaitingMediaForNomineeID ≠ 0)
    (hc : (a.session u).CreatingNomineeForNominationID ≠ 0)
    (hmedia : msg.Photo.length > 0 ∨ msg.Video.isSome = true) :
    handleMessage toLower a msg now =
      App.withSession u
        (handleMediaUpload { a with sessions := (a.sessions.Get u).2 } msg u (a.session u)) ∧
    ((handleMessage toLower a msg now).session u).WaitingMediaForNomineeID = 0 ∧
    ((handleMessage toLower a msg now).session u).CreatingNomineeForNominationID =
      (a.session u).CreatingNomineeForNominationID ∧
    ((handleMessage toLower a msg now).session u).CreatingNomineeForNominationID ≠ 0 ∧
    ((handleMessage toLower a msg now).session u).ActiveRoomID = (a.session u).ActiveRoomID ∧
    (∃ new, (handleMessage toLower a msg now).store.journal = a.store.journal ++ new ∧
      (∀ c ∈ new, c = .IsNomineeOwner (a.session u).WaitingMediaForNomineeID u ∨
        ∃ fileID mediaType,
          c = .UpdateNomineeMedia (a.session u).WaitingMediaForNomineeID fileID mediaType) ∧
      ∀ nominationID name, StoreCall.CreateNominee nominationID name ∉ new) ∧
    (handleMessage toLower a msg now).store.db.nominees.map
        (fun x => (x.id, x.nomination_id, x.name)) =
      a.store.db.nominees.map (fun x => (x.id, x.nomination_id, x.name)) ∧
    (handleMessage toLower a msg now).store.db.next_nominee_id = a.store.db.next_nominee_id ∧
    ∀ (text : String) (isCommand : Bool) (command args : String),
      handleMessage toLower a
        { msg with Text := text, IsCommand := isCommand, Command := command, CommandArguments := args }
        now = handleMessage toLower a msg now := by
  have hm := handleMessage_media toLower a msg now u hfrom hw hmedia
  have hh : Handled u a (handleMessage toLower a msg now)
      (handleMediaUpload { a with sessions := (a.sessions.Get u).2 } msg u (a.session u)).2 := by
    rw [hm]
    exact Handled_pointer a { a with sessions := (a.sessions.Get u).2 } u _ rfl rfl rfl
      (handleMediaUpload_gated _ _ _ _)
  have hsess : (handleMessage toLower a msg now).session u =
      { a.session u with WaitingMediaForNomineeID := 0 } := by
    rw [hh.2.2 u, if_pos rfl, handleMediaUpload_snd]
  obtain ⟨new, hnew, hcalls⟩ :=
    handleMediaUpload_calls { a with sessions := (a.sessions.Get u).2 } msg u (a.session u)
  have hstore : (handleMessage toLower a msg now).store = a.store.afterAll new := by
    rw [hm]
    exact hnew
  have hinv : (handleMessage toLower a msg now).store.db.nominees.map
        (fun x => (x.id, x.nomination_id, x.name)) =
      a.store.db.nominees.map (fun x => (x.id, x.nomination_id, x.name)) ∧
      (handleMessage toLower a msg now).store.db.next_nominee_id =
        a.store.db.next_nominee_id := by
    rw [hstore]
    refine afterAll_invariant_of
      (fun db => db.nominees.map (fun x => (x.id, x.nomination_id, x.name)) =
          a.store.db.nominees.map (fun x => (x.id, x.nomination_id, x.name)) ∧
        db.next_nominee_id = a.store.db.next_nominee_id) new ?_ a.store ⟨rfl, rfl⟩
    intro c hc db hdb
    rcases hcalls c hc with h | ⟨f, t, h⟩
    · subst h
      exact hdb
    · subst h
      refine ⟨?_, hdb.2⟩
      rw [← hdb.1]
      simp only [StoreCall.effect, UpdateNomineeMedia, List.map_map]
      apply List.map_congr_left
      intro x _
      simp only [Function.comp]
      split <;> rfl
  refine ⟨hm, ?_, ?_, ?_, ?_, ⟨new, ?_, hcalls, ?_⟩, hinv.1, hinv.2, ?_⟩
  · rw [hsess]
  · rw [hsess]
  · rw [hsess]
    exact hc
  · rw [hsess]
  · rw [hstore, afterAll_journal]
  · intro n name hmem
    rcases hcalls _ hmem with h | ⟨f, t, h⟩ <;> cases h
  · intro text isCommand command args
    rw [hm]
    exact handleMessage_media toLower a _ now u hfrom hw hmedia

set_option maxRecDepth 100000 in
theorem media_before_name_witness :
    photoCommandMessage.From = some 1 ∧
    (handleMessage (fun s => s) bothPendingApp photoCommandMessage 500).session 1 = ⟨1, 0, 1⟩ ∧
    (handleMessage (fun s => s) bothPendingApp photoCommandMessage 500).store.journal =
      [.IsNomineeOwner 2 1, .UpdateNomineeMedia 2 "big" "photo"] ∧
    (handleMessage (fun s => s) bothPendingApp photoCommandMessage 500).store.db.nominees =
      [⟨1, 1, "Pizza", none, none⟩, ⟨2, 1, "Sushi", some "big", some "photo"⟩] ∧
    ((handleMessage (fun s => s) bothPendingApp photoCommandMessage 500).session 1
      ).WaitingMediaForNomineeID = 0 :=
  ⟨rfl, by decide, by decide, by decide,
    (media_before_name (fun s => s) bothPendingApp photoCommandMessage 500 1 rfl
      (by decide) (by decide) (by decide)).2.1⟩

/-! ## Writes are owner-gated (C16) -/

theorem permittedAll_at (u : Int) (st : Store) (pre : List StoreCall) (c : StoreCall)
    (post : List StoreCall) (h : Store.permittedAll u st (pre ++ c :: post)) :
    StoreCall.permitted (st.afterAll pre).db u c :=
  ((permittedAll_append u pre (c :: post) st).mp h).2.1

/-- The outcome of one update of user `u`. -/
theorem handleUpdate_handled (toLower : String → String) (a : App) (upd : Update) (u : Int)
    (hs : upd.sender = some u) : ∃ s, Handled u a (handleUpdate toLower a upd) s := by
  cases upd with
  | Message msg now =>
    obtain ⟨s, h, _⟩ := handleMessage_handled toLower a msg now u hs
    exact ⟨s, h⟩
  | CallbackQuery cq now =>
    obtain ⟨s, h, _⟩ := handleCallback_handled a cq now u hs
    exact ⟨s, h⟩

/-- Claim C16: during one inbound event of user `u` (any store, any session
state, any message or button press) the handlers make store calls `new` one
after the other, and whenever one of them is `CreateNomination`,
`CreateNominee`, `DeleteNomination`, `DeleteNominee` or `UpdateNomineeMedia`,
then in the database that call runs against `u` owns the room of the target
(the room itself, the room of the nomination, the room of the nominee's
nomination).  The second steps of the multi-step flows are events like any
other, so the gate holds there for the store as it is at that step. -/
theorem writes_owner_gated (toLower : String → String) (a : App) (upd : Update) (u : Int)
    (hs : upd.sender = some u) :
    ∃ new, (handleUpdate toLower a upd).store = a.store.afterAll new ∧
      (handleUpdate toLower a upd).store.journal = a.store.journal ++ new ∧
      ∀ pre c post, new = pre ++ c :: post →
        (∀ roomID name description, c = .CreateNomination roomID name description →
          ownsRoom (a.store.afterAll pre).db roomID u) ∧
        (∀ nominationID name, c = .CreateNominee nominationID name →
          ownsNomination (a.store.afterAll pre).db nominationID u) ∧
        (∀ nominationID, c = .DeleteNomination nominationID →
          ownsNomination (a.store.afterAll pre).db nominationID u) ∧
        (∀ nomineeID, c = .DeleteNominee nomineeID →
          ownsNominee (a.store.afterAll pre).db nomineeID u) ∧
        (∀ nomineeID fileID mediaType, c = .UpdateNomineeMedia nomineeID fileID mediaType →
          ownsNominee (a.store.afterAll pre).db nomineeID u) := by
  obtain ⟨s, ⟨l, e, p⟩, _, _⟩ := handleUpdate_handled toLower a upd u hs
  refine ⟨l, e, by rw [e, afterAll_journal], ?_⟩
  intro pre c post hl
  subst hl
  have hp := permittedAll_at u a.store pre c post p
  refine ⟨?_, ?_, ?_, ?_, ?_⟩
  all_goals
    intros
    subst c
    exact hp

set_option maxRecDepth 100000 in
theorem writes_owner_gated_witness :
    (burgerUpdate 1 10).sender = some 1 ∧
    (handleUpdate (fun s => s) bothPendingApp (burgerUpdate 1 10)).store.journal =
      [.IsNominationOwner 1 1, .CreateNominee 1 "Burger"] ∧
    (handleUpdate (fun s => s) nameStepApp (burgerUpdate 2 20)).store.journal =
      [.IsNominationOwner 1 2] ∧
    ∃ new, (handleUpdate (fun s => s) bothPendingApp (burgerUpdate 1 10)).store =
        bothPendingApp.store.afterAll new ∧
      (handleUpdate (fun s => s) bothPendingApp (burgerUpdate 1 10)).store.journal =
        bothPendingApp.store.journal ++ new ∧
      ∀ pre c post, new = pre ++ c :: post →
        (∀ roomID name description, c = .CreateNomination roomID name description →
          ownsRoom (bothPendingApp.store.afterAll pre).db roomID 1) ∧
        (∀ nominationID name, c = .CreateNominee nominationID name →
          ownsNomination (bothPendingApp.store.afterAll pre).db nominationID 1) ∧
        (∀ nominationID, c = .DeleteNomination nominationID →
          ownsNomination (bothPendingApp.store.afterAll pre).db nominationID 1) ∧
        (∀ nomineeID, c = .DeleteNominee nomineeID →
          ownsNominee (bothPendingApp.store.afterAll pre).db nomineeID 1) ∧
        (∀ nomineeID fileID mediaType, c = .UpdateNomineeMedia nomineeID fileID mediaType →
          ownsNominee (bothPendingApp.store.afterAll pre).db nomineeID 1) :=
  ⟨rfl, by decide, by decide,
    writes_owner_gated (fun s => s) bothPendingApp (burgerUpdate 1 10) 1 rfl⟩

/-! ## The media upload (C13) -/

theorem Store_IsNomineeOwner_true (st : Store) (k u : Int) (hf : st.failing = false)
    (ho : ownsNominee st.db k u) : (st.IsNomineeOwner k u).1 = .ok true := by
  unfold Store.IsNomineeOwner
  rw [exec_fst_working _ _ _ hf, IsNomineeOwner_eq]
  simpa [ownsNominee] using ho

theorem Store_IsNomineeOwner_false (st : Store) (k u : Int) (hf : st.failing = false)
    (ho : ¬ ownsNominee st.db k u) : (st.IsNomineeOwner k u).1 = .ok false := by
  unfold Store.IsNomineeOwner
  rw [exec_fst_working _ _ _ hf, IsNomineeOwner_eq]
  simpa [ownsNominee] using ho

theorem Store_IsNomineeOwner_failing (st : Store) (k u : Int) (hf : st.failing = true) :
    (st.IsNomineeOwner k u).1 = .error .failure := by
  unfold Store.IsNomineeOwner
  rw [exec_fst_failing _ _ _ hf]

theorem after_db_working (st : Store) (c : StoreCall) (hf : st.failing = false) :
    (st.after c).db = c.effect st.db := by
  simp [Store.after, hf]

theorem after_db_failing (st : Store) (c : StoreCall) (hf : st.failing = true) :
    (st.after c).db = st.db := by
  simp [Store.after, hf]

@[simp] theorem after_failing (st : Store) (c : StoreCall) : (st.after c).failing = st.failing := rfl

/-- The database after `handleMediaUpload` when the sender does not own the
awaited nominee or the engine fails: unchanged. -/
theorem handleMediaUpload_db_refused (a : App) (msg : Message) (u : Int) (sess : Session)
    (h : ¬ ownsNominee a.store.db sess.WaitingMediaForNomineeID u ∨ a.store.failing = true) :
    (handleMediaUpload a msg u sess).1.store.db = a.store.db := by
  unfold handleMediaUpload
  simp only []
  split
  · rfl
  · split
    · simp
    · simp
    · next ht =>
      exfalso
      have hf := (exec_ok _ _ _ _ ht).1
      rcases h with h | h
      · rw [Store_IsNomineeOwner_false _ _ _ hf h] at ht
        cases ht
      · rw [hf] at h
        cases h

/-- The database after `handleMediaUpload` when the sender owns the awaited
nominee and the engine works: the media update of that nominee, with the last
photo if there is one and the video otherwise. -/
theorem handleMediaUpload_db_owner (a : App) (msg : Message) (u : Int) (sess : Session)
    (hk : sess.WaitingMediaForNomineeID ≠ 0)
    (ho : ownsNominee a.store.db sess.WaitingMediaForNomineeID u) (hf : a.store.failing = false) :
    (∀ p, msg.Photo.getLast? = some p →
      (handleMediaUpload a msg u sess).1.store.db =
        (UpdateNomineeMedia a.store.db sess.WaitingMediaForNomineeID p.FileID "photo").2) ∧
    (∀ v, msg.Photo = [] → msg.Video = some v →
      (handleMediaUpload a msg u sess).1.store.db =
        (UpdateNomineeMedia a.store.db sess.WaitingMediaForNomineeID v.FileID "video").2) := by
  have ht := Store_IsNomineeOwner_true a.store _ u hf ho
  have hf1 : (a.store.after (.IsNomineeOwner sess.WaitingMediaForNomineeID u)).failing = false := hf
  constructor
  · intro p hp
    unfold handleMediaUpload
    simp only [hk, if_false, ht, hp]
    split <;>
      simp [Store_UpdateNomineeMedia_snd, Store_IsNomineeOwner_snd, after_db_working _ _ hf1,
        after_db_working _ _ hf, StoreCall.effect]
  · intro v hp hv
    unfold handleMediaUpload
    simp only [hk, if_false, ht, hp, hv, List.getLast?_nil]
    split <;>
      simp [Store_UpdateNomineeMedia_snd, Store_IsNomineeOwner_snd, after_db_working _ _ hf1,
        after_db_working _ _ hf, StoreCall.effect]


/-- Claim C13: when the sender's session has `WaitingMediaForNomineeID = k`,
`k` non-zero, and the message carries a photo or a video, then after
`handleMessage` the field is 0 in every outcome.  If the sender owns nominee
`k` (and the engine works) the database differs from the old one in the media
columns of the nominee rows with id `k` only: they hold the file id of the last
photo size with kind `photo` when the message has photos, and the file id of
the video with kind `video` when it has none.  If the sender does not own `k`,
in particular if no nominee has id `k`, or if the engine fails, the database is
unchanged. -/
theorem media_upload_binds (toLower : String → String) (a : App) (msg : Message) (now : Int)
    (u : Int) (hfrom : msg.From = some u)
    (hw : (a.session u).WaitingMediaForNomineeID ≠ 0)
    (hmedia : msg.Photo.length > 0 ∨ msg.Video.isSome = true) :
    ((handleMessage toLower a msg now).session u).WaitingMediaForNomineeID = 0 ∧
    (ownsNominee a.store.db (a.session u).WaitingMediaForNomineeID u → a.store.failing = false →
      (∀ p, msg.Photo.getLast? = some p →
        (handleMessage toLower a msg now).store.db =
          { a.store.db with
            nominees := a.store.db.nominees.map (fun x =>
              if x.id = (a.session u).WaitingMediaForNomineeID then
                { x with media_file_id := some p.FileID, media_type := some "photo" }
              else x) }) ∧
      (∀ v, msg.Photo = [] → msg.Video = some v →
        (handleMessage toLower a msg now).store.db =
          { a.store.db with
            nominees := a.store.db.nominees.map (fun x =>
              if x.id = (a.session u).WaitingMediaForNomineeID then
                { x with media_file_id := some v.FileID, media_type := some "video" }
              else x) })) ∧
    (¬ ownsNominee a.store.db (a.session u).WaitingMediaForNomineeID u →
      (handleMessage toLower a msg now).store.db = a.store.db) ∧
    ((∀ x ∈ a.store.db.nominees, x.id ≠ (a.session u).WaitingMediaForNomineeID) →
      (handleMessage toLower a msg now).store.db = a.store.db) ∧
    (a.store.failing = true → (handleMessage toLower a msg now).store.db = a.store.db) := by
  have hm := handleMessage_media toLower a msg now u hfrom hw hmedia
  have hh : Handled u a (handleMessage toLower a msg now)
      (handleMediaUpload { a with sessions := (a.sessions.Get u).2 } msg u (a.session u)).2 := by
    rw [hm]
    exact Handled_pointer a { a with sessions := (a.sessions.Get u).2 } u _ rfl rfl rfl
      (handleMediaUpload_gated _ _ _ _)
  have hdb : (handleMessage toLower a msg now).store.db =
      (handleMediaUpload { a with sessions := (a.sessions.Get u).2 } msg u
        (a.session u)).1.store.db := by
    rw [hm]
    rfl
  refine ⟨?_, ?_, ?_, ?_, ?_⟩
  · rw [hh.2.2 u, if_pos rfl, handleMediaUpload_snd]
  · intro ho hf
    have h := handleMediaUpload_db_owner { a with sessions := (a.sessions.Get u).2 } msg u
      (a.session u) hw ho hf
    constructor
    · intro p hp
      rw [hdb, h.1 p hp]
      rfl
    · intro v hp hv
      rw [hdb, h.2 v hp hv]
      rfl
  · intro ho
    rw [hdb]
    exact handleMediaUpload_db_refused _ msg u _ (Or.inl ho)
  · intro hno
    rw [hdb]
    refine handleMediaUpload_db_refused _ msg u _ (Or.inl ?_)
    rintro ⟨x, hx, hid, _⟩
    exact hno x hx hid
  · intro hf
    rw [hdb]
    exact handleMediaUpload_db_refused _ msg u _ (Or.inr hf)

set_option maxRecDepth 100000 in
theorem media_upload_binds_witness :
    photoCommandMessage.From = some 1 ∧
    (handleMessage (fun s => s) bothPendingApp photoCommandMessage 500).store.db.nominees =
      [⟨1, 1, "Pizza", none, none⟩, ⟨2, 1, "Sushi", some "big", some "photo"⟩] ∧
    (handleMessage (fun s => s) strangerAwaitsMediaApp videoMessage 500).store.db = dishes ∧
    (handleMessage (fun s => s) strangerAwaitsMediaApp videoMessage 500).session 2 = ⟨1, 0, 0⟩ ∧
    ((handleMessage (fun s => s) bothPendingApp photoCommandMessage 500).session 1
      ).WaitingMediaForNomineeID = 0 :=
  ⟨rfl, by decide, by decide, by decide,
    (media_upload_binds (fun s => s) bothPendingApp photoCommandMessage 500 1 rfl
      (by decide) (by decide)).1⟩

/-! ## The name step (C12) -/

/-- The name step of `handleMessage`: no media awaited, a name awaited, and a
non-command text that is not blank goes to `handleCreateNomineeTextStep`. -/
theorem handleMessage_name (toLower : String → String) (a : App) (msg : Message) (now : Int)
    (u : Int) (hfrom : msg.From = some u)
    (hw : (a.session u).WaitingMediaForNomineeID = 0)
    (hc : (a.session u).CreatingNomineeForNominationID ≠ 0)
    (hcmd : msg.IsCommand = false) (ht : TrimSpace msg.Text ≠ "") :
    handleMessage toLower a msg now =
      App.withSession u
        (handleCreateNomineeTextStep { a with sessions := (a.sessions.Get u).2 } msg u
          (a.session u)) := by
  unfold handleMessage
  simp only [hfrom]
  rw [if_neg (fun h => h.1 hw), if_pos ⟨hc, hcmd, ht⟩]
  rfl

/-- A non-command message with blank text and no media awaited is consumed by
no step of `handleMessage`: store and sessions stay as they are. -/
theorem handleMessage_blank (toLower : String → String) (a : App) (msg : Message) (now : Int)
    (u : Int) (hfrom : msg.From = some u)
    (hw : (a.session u).WaitingMediaForNomineeID = 0)
    (hcmd : msg.IsCommand = false) (ht : TrimSpace msg.Text = "") :
    (handleMessage toLower a msg now).store = a.store ∧
    ∀ v, (handleMessage toLower a msg now).session v = a.session v := by
  unfold handleMessage
  simp only [hfrom]
  rw [if_neg (fun h => h.1 hw), if_neg (fun h => h.2.2 ht), if_neg (by simp [hcmd])]
  split
  · exact ⟨rfl, fun v => session_of_Get a _ u v rfl⟩
  · exact ⟨rfl, fun v => session_of_Get a _ u v rfl⟩

/-- The session `handleCreateNomineeTextStep` leaves for a name that is not
blank: the name is no longer awaited, and media is awaited for the nominee the
store created, if it created one. -/
theorem handleCreateNomineeTextStep_snd (a : App) (msg : Message) (u : Int) (sess : Session)
    (hc : sess.CreatingNomineeForNominationID ≠ 0) (ht : TrimSpace msg.Text ≠ "") :
    (handleCreateNomineeTextStep a msg u sess).2 =
        { sess with CreatingNomineeForNominationID := 0 } ∨
    ∃ nomineeID, ownsNomination a.store.db sess.CreatingNomineeForNominationID u ∧
      a.store.failing = false ∧
      (CreateNominee a.store.db sess.CreatingNomineeForNominationID (TrimSpace msg.Text)).1 =
        .ok nomineeID ∧
      (handleCreateNomineeTextStep a msg u sess).2 =
        { sess with CreatingNomineeForNominationID := 0,
                    WaitingMediaForNomineeID := nomineeID } := by
  unfold handleCreateNomineeTextStep
  simp only [hc, ht, if_false]
  split
  · exact Or.inl rfl
  · exact Or.inl rfl
  · next ho =>
    split
    · exact Or.inl rfl
    · next nomineeID hn =>
      refine Or.inr ⟨nomineeID, ?_, (exec_ok _ _ _ _ ho).1, ?_, rfl⟩
      · simpa using owns_of_IsNominationOwner a.store _ u ho
      · have := (exec_ok _ _ _ _ hn).2
        simpa using this

/-- Counterexample to C12 as stated: the owner has a nominee name awaited and no
media awaited, the message is a non-command text of three blanks (empty after
trimming), and after `handleMessage` the field
`CreatingNomineeForNominationID` is still 1, whatever `strings.ToLower` does. -/
theorem blank_name_keeps_awaiting :
    blankMessage.From = some 1 ∧ blankMessage.IsCommand = false ∧
    TrimSpace blankMessage.Text = "" ∧
    (awaitNameApp.session 1).CreatingNomineeForNominationID = 1 ∧
    (awaitNameApp.session 1).WaitingMediaForNomineeID = 0 ∧
    ∀ toLower : String → String,
      ((handleMessage toLower awaitNameApp blankMessage 500).session 1
        ).CreatingNomineeForNominationID = 1 ∧
      ((handleMessage toLower awaitNameApp blankMessage 500).session 1
        ).CreatingNomineeForNominationID ≠ 0 := by
  refine ⟨rfl, rfl, by decide, by decide, by decide, ?_⟩
  intro toLower
  have h := (handleMessage_blank toLower awaitNameApp blankMessage 500 1 rfl (by decide) rfl
    (by decide)).2 1
  rw [h]
  exact ⟨by decide, by decide⟩

/-- C12, amended: when the sender's session has `CreatingNomineeForNominationID`
non-zero and no media awaited, and the message is a non-command text, then: if
the text is not empty after trimming, afterwards
`CreatingNomineeForNominationID` is 0 and `ActiveRoomID` is as before, and
`WaitingMediaForNomineeID` is 0 (Idle) or the id of the nominee that
`CreateNominee` made with the trimmed text as name, the latter only if the
sender owns the nomination's room, whether or not the sender is owner and
whether or not the nominee was created; if the text is empty after trimming,
the message is not consumed, store and session are unchanged and the field
stays non-zero. -/
theorem name_step_leaves_state (toLower : String → String) (a : App) (msg : Message) (now : Int)
    (u : Int) (hfrom : msg.From = some u)
    (hc : (a.session u).CreatingNomineeForNominationID ≠ 0)
    (hw : (a.session u).WaitingMediaForNomineeID = 0)
    (hcmd : msg.IsCommand = false) :
    (TrimSpace msg.Text ≠ "" →
      ((handleMessage toLower a msg now).session u).CreatingNomineeForNominationID = 0 ∧
      ((handleMessage toLower a msg now).session u).ActiveRoomID = (a.session u).ActiveRoomID ∧
      (((handleMessage toLower a msg now).session u).WaitingMediaForNomineeID = 0 ∨
        ∃ nomineeID,
          ownsNomination a.store.db (a.session u).CreatingNomineeForNominationID u ∧
          a.store.failing = false ∧
          (CreateNominee a.store.db (a.session u).CreatingNomineeForNominationID
            (TrimSpace msg.Text)).1 = .ok nomineeID ∧
          ((handleMessage toLower a msg now).session u).WaitingMediaForNomineeID = nomineeID)) ∧
    (TrimSpace msg.Text = "" →
      (handleMessage toLower a msg now).store = a.store ∧
      (handleMessage toLower a msg now).session u = a.session u ∧
      ((handleMessage toLower a msg now).session u).CreatingNomineeForNominationID ≠ 0) := by
  constructor
  · intro ht
    have hm := handleMessage_name toLower a msg now u hfrom hw hc hcmd ht
    have hh : Handled u a (handleMessage toLower a msg now)
        (handleCreateNomineeTextStep { a with sessions := (a.sessions.Get u).2 } msg u
          (a.session u)).2 := by
      rw [hm]
      exact Handled_pointer a { a with sessions := (a.sessions.Get u).2 } u _ rfl rfl rfl
        (handleCreateNomineeTextStep_gated _ _ _ _)
    have hs := hh.2.2 u
    rw [if_pos rfl] at hs
    rcases handleCreateNomineeTextStep_snd { a with sessions := (a.sessions.Get u).2 } msg u
      (a.session u) hc ht with h | ⟨nomineeID, ho, hf, hn, h⟩
    · rw [h] at hs
      rw [hs]
      exact ⟨rfl, rfl, Or.inl hw⟩
    · rw [h] at hs
      rw [hs]
      exact ⟨rfl, rfl, Or.inr ⟨nomineeID, ho, hf, hn, rfl⟩⟩
  · intro ht
    have h := handleMessage_blank toLower a msg now u hfrom hw hcmd ht
    refine ⟨h.1, h.2 u, ?_⟩
    rw [h.2 u]
    exact hc

set_option maxRecDepth 100000 in
theorem name_step_leaves_state_witness :
    (burgerMessage 1 10).From = some 1 ∧ (burgerMessage 1 10).IsCommand = false ∧
    (awaitNameApp.session 1).CreatingNomineeForNominationID ≠ 0 ∧
    (awaitNameApp.session 1).WaitingMediaForNomineeID = 0 ∧
    TrimSpace (burgerMessage 1 10).Text ≠ "" ∧
    (handleMessage (fun s => s) awaitNameApp (burgerMessage 1 10) 500).session 1 = ⟨1, 3, 0⟩ ∧
    (handleMessage (fun s => s) nameStepApp (burgerMessage 2 20) 500).session 2 = ⟨1, 0, 0⟩ ∧
    ((handleMessage (fun s => s) awaitNameApp (burgerMessage 1 10) 500).session 1
      ).CreatingNomineeForNominationID = 0 :=
  ⟨rfl, rfl, by decide, by decide, by decide, by decide, by decide,
    ((name_step_leaves_state (fun s => s) awaitNameApp (burgerMessage 1 10) 500 1 rfl
      (by decide) (by decide) rfl).1 (by decide)).1⟩

/-! ## The back button (C14) -/

/-- The store calls of `sendNominationsList`: the list query and the owner
check, both reads. -/
theorem sendNominationsList_calls (a : App) (chatID u roomID : Int) :
    ∃ new, (sendNominationsList a chatID u roomID).2.store = a.store.afterAll new ∧
      ∀ c ∈ new, c = .ListNominations roomID ∨ c = .IsRoomOwner roomID u := by
  unfold sendNominationsList
  simp only []
  repeat' split
  all_goals simp only [Store_ListNominations_snd, Store_IsRoomOwner_snd, say_store,
    Println_store, Send_store, withStore_store]
  all_goals
    first
      | exact ⟨[_], rfl, by simp⟩
      | exact ⟨[_, _], rfl, by simp⟩

/-- The back button case of `handleCallback`. -/
theorem handleCallback_back (a : App) (cq : CallbackQuery) (now : Int) (u : Int)
    (hfrom : cq.From = some u) (hdata : cq.Data = "back:nominations") :
    handleCallback a cq now =
      App.withSession u
        (callbackBack (({ a with sessions := (a.sessions.Get u).2 } : App).Send (.Callback cq.ID))
          cq u (a.session u)) := by
  unfold handleCallback
  simp only [hfrom]
  rw [if_pos hdata]
  rfl

/-- Claim C14: a button event whose payload is exactly `back:nominations`
leaves the sender's session with both pending fields 0 and `ActiveRoomID` as it
was; the store calls it makes are reads (the list query and the owner check for
the active room) and the database is unchanged; when `ActiveRoomID` is 0 it
makes no store call and sends, after the acknowledgement of the button, the
enter-a-room prompt; when `ActiveRoomID` is non-zero what it sends and what it
calls is what `sendNominationsList` sends and calls for the active room. -/
theorem back_resets_pending (a : App) (cq : CallbackQuery) (now : Int) (u : Int)
    (hfrom : cq.From = some u) (hdata : cq.Data = "back:nominations") :
    (handleCallback a cq now).session u =
      { a.session u with WaitingMediaForNomineeID := 0, CreatingNomineeForNominationID := 0 } ∧
    ((handleCallback a cq now).session u).WaitingMediaForNomineeID = 0 ∧
    ((handleCallback a cq now).session u).CreatingNomineeForNominationID = 0 ∧
    ((handleCallback a cq now).session u).ActiveRoomID = (a.session u).ActiveRoomID ∧
    (handleCallback a cq now).store.db = a.store.db ∧
    (∃ new, (handleCallback a cq now).store.journal = a.store.journal ++ new ∧
      ∀ c ∈ new, c = .ListNominations (a.session u).ActiveRoomID ∨
        c = .IsRoomOwner (a.session u).ActiveRoomID u) ∧
    ((a.session u).ActiveRoomID = 0 →
      (handleCallback a cq now).store = a.store ∧
      (handleCallback a cq now).bot = a.bot ++ [.Callback cq.ID,
        .Message cq.ChatID (bytesOf "Сначала зайди в комнату: /room ID Пароль") []]) ∧
    ((a.session u).ActiveRoomID ≠ 0 →
      (handleCallback a cq now).store =
        (sendNominationsList
          (({ a with sessions := (a.sessions.Get u).2 } : App).Send (.Callback cq.ID))
          cq.ChatID u (a.session u).ActiveRoomID).2.store ∧
      (handleCallback a cq now).bot =
        (sendNominationsList
          (({ a with sessions := (a.sessions.Get u).2 } : App).Send (.Callback cq.ID))
          cq.ChatID u (a.session u).ActiveRoomID).2.bot) := by
  have hm := handleCallback_back a cq now u hfrom hdata
  have hh : Handled u a (handleCallback a cq now)
      (callbackBack (({ a with sessions := (a.sessions.Get u).2 } : App).Send (.Callback cq.ID))
        cq u (a.session u)).2 := by
    rw [hm]
    exact Handled_pointer a
      (({ a with sessions := (a.sessions.Get u).2 } : App).Send (.Callback cq.ID)) u _
      rfl rfl rfl (callbackBack_gated _ _ _ _)
  have hs := hh.2.2 u
  rw [if_pos rfl, callbackBack_snd] at hs
  have hzero : (a.session u).ActiveRoomID = 0 →
      (handleCallback a cq now).store = a.store ∧
      (handleCallback a cq now).bot = a.bot ++ [.Callback cq.ID,
        .Message cq.ChatID (bytesOf "Сначала зайди в комнату: /room ID Пароль") []] := by
    intro h0
    rw [hm]
    unfold callbackBack App.withSession
    simp only [h0, if_true]
    exact ⟨rfl, by simp⟩
  have hnz : (a.session u).ActiveRoomID ≠ 0 →
      (handleCallback a cq now).store =
        (sendNominationsList
          (({ a with sessions := (a.sessions.Get u).2 } : App).Send (.Callback cq.ID))
          cq.ChatID u (a.session u).ActiveRoomID).2.store ∧
      (handleCallback a cq now).bot =
        (sendNominationsList
          (({ a with sessions := (a.sessions.Get u).2 } : App).Send (.Callback cq.ID))
          cq.ChatID u (a.session u).ActiveRoomID).2.bot := by
    intro h0
    rw [hm]
    unfold callbackBack App.withSession
    simp only [h0, if_false]
    split <;> exact ⟨rfl, rfl⟩
  have hcalls : ∃ new, (handleCallback a cq now).store = a.store.afterAll new ∧
      ∀ c ∈ new, c = .ListNominations (a.session u).ActiveRoomID ∨
        c = .IsRoomOwner (a.session u).ActiveRoomID u := by
    by_cases h0 : (a.session u).ActiveRoomID = 0
    · exact ⟨[], (hzero h0).1, by simp⟩
    · obtain ⟨new, e, hc⟩ := sendNominationsList_calls
        (({ a with sessions := (a.sessions.Get u).2 } : App).Send (.Callback cq.ID))
        cq.ChatID u (a.session u).ActiveRoomID
      exact ⟨new, (hnz h0).1.trans e, hc⟩
  obtain ⟨new, e, hc⟩ := hcalls
  refine ⟨hs, by rw [hs], by rw [hs], by rw [hs], ?_, ⟨new, ?_, hc⟩, hzero, hnz⟩
  · rw [e]
    refine afterAll_invariant_of (fun db => db = a.store.db) new ?_ a.store rfl
    intro c hmem db hdb
    rcases hc c hmem with h | h <;> subst h <;> exact hdb
  · rw [e, afterAll_journal]

set_option maxRecDepth 100000 in
theorem back_resets_pending_witness :
    (backPress 2 20).From = some 2 ∧ (backPress 2 20).Data = "back:nominations" ∧
    stuckApp.session 2 = ⟨1, 2, 1⟩ ∧
    (handleCallback stuckApp (backPress 2 20) 500).store.journal =
      [.ListNominations 1, .IsRoomOwner 1 2] ∧
    (handleCallback stuckApp (backPress 2 20) 500).bot =
      [.Callback "q1",
       .Message 20 (bytesOf ("Список номинаций в комнате:\nID 1 — Best Dish\n" ++
          "\nЭти ID можно использовать в командах:\n" ++
          "/add_nominee nominationID | Имя\n" ++
          "/delete_nomination nominationID\n" ++
          "/results nominationID\n")) [[⟨"🗳 Открыть", "nomination:1"⟩]]] ∧
    (handleCallback stuckApp (backPress 2 20) 500).session 2 = ⟨1, 0, 0⟩ :=
  ⟨rfl, rfl, by decide, by decide, by decide,
    (back_resets_pending stuckApp (backPress 2 20) 500 2 rfl rfl).1⟩

/-! ## Result listings (C15) -/

theorem reads_trans {P : StoreCall → Prop} {s₁ s₂ s₃ : Store}
    (h₁ : ∃ new, s₂ = s₁.afterAll new ∧ ∀ c ∈ new, P c)
    (h₂ : ∃ new, s₃ = s₂.afterAll new ∧ ∀ c ∈ new, P c) :
    ∃ new, s₃ = s₁.afterAll new ∧ ∀ c ∈ new, P c := by
  obtain ⟨l₁, e1, p1⟩ := h₁
  obtain ⟨l₂, e2, p2⟩ := h₂
  refine ⟨l₁ ++ l₂, by rw [e2, e1, afterAll_append], ?_⟩
  intro c hc
  rcases List.mem_append.mp hc with h | h
  · exact p1 c h
  · exact p2 c h

theorem reads_refl {P : StoreCall → Prop} (s : Store) :
    ∃ new, s = s.afterAll new ∧ ∀ c ∈ new, P c := ⟨[], rfl, by simp⟩

theorem reads_after {P : StoreCall → Prop} {s₁ s₂ : Store} (c : StoreCall) (hc : P c)
    (h : ∃ new, s₂ = s₁.afterAll new ∧ ∀ c ∈ new, P c) :
    ∃ new, s₂.after c = s₁.afterAll new ∧ ∀ c ∈ new, P c :=
  reads_trans h ⟨[c], rfl, by simpa using hc⟩

/-- The store calls of `sendResults` are reads, and the only results query is
the one for the nomination asked for. -/
theorem sendResults_calls (a : App) (chatID u roomID nominationID : Int) :
    ∃ new, (sendResults a chatID u roomID nominationID).store = a.store.afterAll new ∧
      ∀ c ∈ new, (∀ db, c.effect db = db) ∧
        ∀ n, c = .ResultsByNomination n → n = nominationID := by
  unfold sendResults
  simp only []
  repeat' split
  all_goals simp only [Store_IsRoomOwner_snd, Store_GetRoomTitle_snd, Store_GetNominationName_snd,
    Store_ResultsByNomination_snd, say_store, Println_store, Send_store, withStore_store]
  all_goals
    repeat' first
      | with_reducible exact reads_refl _
      | with_reducible refine reads_after _ ?_ ?_
      | simp [StoreCall.effect]

theorem handleResults_calls (a : App) (msg : Message) (u n : Int)
    (hreq : (∃ arg, Fields (TrimSpace msg.CommandArguments) = [arg] ∧ ParseInt arg = some n) ∨
      ∃ arg0 arg1 rest r, Fields (TrimSpace msg.CommandArguments) = arg0 :: arg1 :: rest ∧
        ParseInt arg0 = some r ∧ ParseInt arg1 = some n) :
    ∃ new, (handleResults a msg u).store = a.store.afterAll new ∧
      ∀ c ∈ new, (∀ db, c.effect db = db) ∧ ∀ k, c = .ResultsByNomination k → k = n := by
  unfold handleResults
  rcases hreq with ⟨arg, hf, hp⟩ | ⟨arg0, arg1, rest, r, hf, hp0, hp1⟩
  · simp only [hf, hp]
    split
    · simp only [Store_GetNominationRoomID_snd, say_store, withStore_store]
      exact reads_after _ (by simp [StoreCall.effect]) (reads_refl _)
    · simp only [Store_GetNominationRoomID_snd, say_store, Println_store, withStore_store]
      exact reads_after _ (by simp [StoreCall.effect]) (reads_refl _)
    · refine reads_trans ?_ (sendResults_calls _ _ _ _ _)
      simp only [Store_GetNominationRoomID_snd, withStore_store]
      exact reads_after _ (by simp [StoreCall.effect]) (reads_refl _)
  · simp only [hf, hp0, hp1]
    split
    · simp only [Store_CheckNominationInRoom_snd, say_store, Println_store, withStore_store]
      exact reads_after _ (by simp [StoreCall.effect]) (reads_refl _)
    · simp only [Store_CheckNominationInRoom_snd, say_store, withStore_store]
      exact reads_after _ (by simp [StoreCall.effect]) (reads_refl _)
    · refine reads_trans ?_ (sendResults_calls _ _ _ _ _)
      simp only [Store_CheckNominationInRoom_snd, withStore_store]
      exact reads_after _ (by simp [StoreCall.effect]) (reads_refl _)

theorem callbackResults_calls (a : App) (cq : CallbackQuery) (u : Int) (sess : Session) (n : Int)
    (hp : ParseInt (TrimPrefix cq.Data "res_nom:") = some n) :
    ∃ new, (callbackResults a cq u sess).1.store = a.store.afterAll new ∧
      ∀ c ∈ new, (∀ db, c.effect db = db) ∧ ∀ k, c = .ResultsByNomination k → k = n := by
  unfold callbackResults
  simp only [hp]
  repeat' split
  all_goals simp only [Store_IsRoomOwner_snd, Store_GetRoomTitle_snd, Store_GetNominationName_snd,
    Store_ResultsByNomination_snd, Store_GetNominationRoomID_snd, say_store, Println_store,
    Send_store, withStore_store]
  all_goals
    repeat' first
      | with_reducible exact reads_refl _
      | with_reducible refine reads_after _ ?_ ?_
      | simp [StoreCall.effect]

/-- Without ownership of the nomination's room `sendResults` answers with one
of the refusal texts. -/
theorem sendResults_refusal (a : App) (chatID u roomID nominationID : Int)
    (hn : ∃ m ∈ a.store.db.nominations, m.id = nominationID ∧ m.room_id = roomID)
    (hno : ¬ ownsNomination a.store.db nominationID u) :
    ∃ t ∈ resultsRefusals, (sendResults a chatID u roomID nominationID).bot =
      a.bot ++ [.Message chatID (bytesOf t) []] := by
  unfold sendResults
  simp only []
  split
  · exact ⟨"Ошибка проверки прав.", by simp [resultsRefusals], by simp⟩
  · exact ⟨"Только автор комнаты может смотреть результаты.", by simp [resultsRefusals],
      by simp⟩
  · next ho =>
    exfalso
    exact hno (owns_nomination_of_room hn (by simpa using owns_of_IsRoomOwner a.store roomID u ho))

theorem handleResults_refusal (a : App) (msg : Message) (u n : Int)
    (hreq : (∃ arg, Fields (TrimSpace msg.CommandArguments) = [arg] ∧ ParseInt arg = some n) ∨
      ∃ arg0 arg1 rest r, Fields (TrimSpace msg.CommandArguments) = arg0 :: arg1 :: rest ∧
        ParseInt arg0 = some r ∧ ParseInt arg1 = some n)
    (hno : ¬ ownsNomination a.store.db n u) :
    ∃ t ∈ resultsRefusals, (handleResults a msg u).bot =
      a.bot ++ [.Message msg.ChatID (bytesOf t) []] := by
  unfold handleResults
  rcases hreq with ⟨arg, hf, hp⟩ | ⟨arg0, arg1, rest, r, hf, hp0, hp1⟩
  · simp only [hf, hp]
    split
    · exact ⟨"Номинация не найдена.", by simp [resultsRefusals], by simp⟩
    · exact ⟨"Ошибка при получении номинации.", by simp [resultsRefusals], by simp⟩
    · next r hr =>
      have h := sendResults_refusal (a.withStore (a.store.GetNominationRoomID n).2) msg.ChatID u r n
        (nomination_of_GetNominationRoomID a.store n r hr) (by simpa using hno)
      simpa using h
  · simp only [hf, hp0, hp1]
    split
    · exact ⟨"Ошибка при проверке номинации.", by simp [resultsRefusals], by simp⟩
    · exact ⟨"Номинация с таким ID не принадлежит этой комнате.", by simp [resultsRefusals],
        by simp⟩
    · next hr =>
      have h := sendResults_refusal (a.withStore (a.store.CheckNominationInRoom n r).2)
        msg.ChatID u r n (nomination_of_CheckNominationInRoom a.store n r hr) (by simpa using hno)
      simpa using h

theorem callbackResults_refusal (a : App) (cq : CallbackQuery) (u : Int) (sess : Session)
    (n : Int) (hp : ParseInt (TrimPrefix cq.Data "res_nom:") = some n)
    (hno : ¬ ownsNomination a.store.db n u) :
    ∃ t ∈ resultsRefusals, (callbackResults a cq u sess).1.bot =
      a.bot ++ [.Message cq.ChatID (bytesOf t) []] := by
  unfold callbackResults
  simp only [hp]
  split
  · exact ⟨"Номинация не найдена.", by simp [resultsRefusals], by simp⟩
  · exact ⟨"Ошибка при получении номинации.", by simp [resultsRefusals], by simp⟩
  · next r hr =>
    split
    · exact ⟨"Ошибка проверки прав.", by simp [resultsRefusals], by simp⟩
    · exact ⟨"Результаты может смотреть только автор комнаты.", by simp [resultsRefusals],
        by simp⟩
    · next ho =>
      exfalso
      exact hno (owns_nomination_of_room
        (by simpa using nomination_of_GetNominationRoomID a.store n r hr)
        (by simpa using owns_of_IsRoomOwner _ r u ho))

/-- A command message that the media step does not take reaches the command
switch. -/
theorem handleMessage_command (toLower : String → String) (a : App) (msg : Message) (now : Int)
    (u : Int) (hfrom : msg.From = some u) (hcmd : msg.IsCommand = true)
    (hreach : (a.session u).WaitingMediaForNomineeID = 0 ∨
      (msg.Photo = [] ∧ msg.Video = none)) :
    handleMessage toLower a msg now =
      dispatchCommand { a with sessions := (a.sessions.Get u).2 } msg u (a.session u) now := by
  unfold handleMessage
  simp only [hfrom]
  rw [if_neg, if_neg (by simp [hcmd]), if_pos hcmd]
  · rfl
  · rintro ⟨hw, hm⟩
    rcases hreach with h | ⟨hp, hv⟩
    · exact hw h
    · simp [hp, hv] at hm

theorem dispatchCommand_results (a : App) (msg : Message) (u : Int) (sess : Session) (now : Int)
    (h : msg.Command = "results") : dispatchCommand a msg u sess now = handleResults a msg u := by
  unfold dispatchCommand
  rw [h]
  simp only [show ("results" : String) ≠ "start" by decide,
    show ("results" : String) ≠ "help" by decide,
    show ("results" : String) ≠ "create_room" by decide,
    show ("results" : String) ≠ "my_rooms" by decide,
    show ("results" : String) ≠ "room" by decide,
    show ("results" : String) ≠ "nominations" by decide,
    show ("results" : String) ≠ "add_nomination" by decide,
    show ("results" : String) ≠ "add_nominee" by decide,
    show ("results" : String) ≠ "set_nominee_media" by decide,
    show ("results" : String) ≠ "delete_nomination" by decide,
    show ("results" : String) ≠ "delete_nominee" by decide, if_false, if_true]

theorem dispatchCommand_room (a : App) (msg : Message) (u : Int) (sess : Session) (now : Int)
    (h : msg.Command = "room") : dispatchCommand a msg u sess now = handleJoinRoom a msg u := by
  unfold dispatchCommand
  rw [h]
  simp only [show ("room" : String) ≠ "start" by decide,
    show ("room" : String) ≠ "help" by decide,
    show ("room" : String) ≠ "create_room" by decide,
    show ("room" : String) ≠ "my_rooms" by decide, if_false, if_true]

theorem HasPrefix_first (s pre : String) (c : Char) (cs : List Char) (hp : pre.data = c :: cs)
    (h : HasPrefix s pre = true) : ∃ rest, s.data = c :: rest := by
  unfold HasPrefix at h
  rw [hp] at h
  cases hs : s.data with
  | nil => simp [hs, List.isPrefixOf] at h
  | cons d ds =>
    simp [hs, List.isPrefixOf] at h
    exact ⟨ds, by rw [h.1]⟩

theorem HasPrefix_other (s pre : String) (c d : Char) (cs rest : List Char)
    (hp : pre.data = d :: cs) (hs : s.data = c :: rest) (hne : d ≠ c) :
    HasPrefix s pre = false := by
  unfold HasPrefix
  rw [hp, hs]
  simp [List.isPrefixOf, hne]

/-- The results button case of `handleCallback`. -/
theorem handleCallback_results (a : App) (cq : CallbackQuery) (now : Int) (u : Int)
    (hfrom : cq.From = some u) (hpre : HasPrefix cq.Data "res_nom:" = true) :
    handleCallback a cq now =
      App.withSession u
        (callbackResults
          (({ a with sessions := (a.sessions.Get u).2 } : App).Send (.Callback cq.ID))
          cq u (a.session u)) := by
  obtain ⟨rest, hd⟩ := HasPrefix_first cq.Data "res_nom:" 'r' "es_nom:".data rfl hpre
  have h1 : cq.Data ≠ "back:nominations" := by
    intro h
    rw [h] at hd
    cases hd
  have h2 := HasPrefix_other cq.Data "nomination:" 'r' 'n' "omination:".data rest rfl hd
    (by decide)
  have h3 := HasPrefix_other cq.Data "vote:" 'r' 'v' "ote:".data rest rfl hd (by decide)
  unfold handleCallback
  simp only [hfrom]
  rw [if_neg h1, if_neg (by simp [h2]), if_neg (by simp [h3]), if_pos hpre]
  rfl


theorem afterAll_db_reads (st : Store) (calls : List StoreCall)
    (h : ∀ c ∈ calls, ∀ db, c.effect db = db) : (st.afterAll calls).db = st.db :=
  afterAll_invariant_of (fun db => db = st.db) calls
    (fun c hc db hdb => by rw [h c hc db]; exact hdb) st rfl

/-- Calls that are reads and pass the owner gate: the database stays, and a
results query among them is one by an owner of the nomination's room. -/
theorem results_calls_owned (u n : Int) (s t : Store)
    (hr : ∃ new, t = s.afterAll new ∧ ∀ c ∈ new, (∀ db, c.effect db = db) ∧
      ∀ k, c = .ResultsByNomination k → k = n)
    (hg : ∃ calls, t = s.afterAll calls ∧ Store.permittedAll u s calls) :
    ∃ new, t.journal = s.journal ++ new ∧ t.db = s.db ∧
      ∀ k, .ResultsByNomination k ∈ new → k = n ∧ ownsNomination s.db n u := by
  obtain ⟨new, e, hreads⟩ := hr
  obtain ⟨calls, e', hperm⟩ := hg
  have hsame : calls = new := by
    have h1 := afterAll_journal new s
    have h2 := afterAll_journal calls s
    rw [← e] at h1
    rw [← e'] at h2
    exact List.append_cancel_left (h2.symm.trans h1)
  subst hsame
  refine ⟨calls, by rw [e, afterAll_journal], ?_, ?_⟩
  · rw [e]
    exact afterAll_db_reads s calls (fun c hc => (hreads c hc).1)
  · intro k hk
    have hkn := (hreads _ hk).2 k rfl
    refine ⟨hkn, ?_⟩
    obtain ⟨pre, post, hsplit⟩ := List.append_of_mem hk
    have hp : Store.permittedAll u s (pre ++ StoreCall.ResultsByNomination k :: post) := by
      rw [← hsplit]
      exact hperm
    have hown := permittedAll_at u s pre _ post hp
    have hdb : (s.afterAll pre).db = s.db :=
      afterAll_db_reads s pre (fun c hc => (hreads c (by rw [hsplit]; simp [hc])).1)
    rw [hdb, hkn] at hown
    exact hown

/-- Claim C15: for a results request of user `u` for nomination `n` (the
`/results` command with one argument or with room id and nomination id, or the
`res_nom:` button), the store calls of the event are reads that leave the
database as it is, and `ResultsByNomination` is among them only for `n` and
only if `u` owns the room of `n`; when `u` does not own it, the one message
sent in reply (after the acknowledgement of a button press) is one of the fixed
refusal texts, which carry no nominee name and no count. -/
theorem results_owner_only (toLower : String → String) (a : App) (upd : Update) (u n : Int)
    (hs : upd.sender = some u) (hreq : requestsResults a u n upd) :
    (∃ new, (handleUpdate toLower a upd).store.journal = a.store.journal ++ new ∧
      (handleUpdate toLower a upd).store.db = a.store.db ∧
      ∀ k, .ResultsByNomination k ∈ new → k = n ∧ ownsNomination a.store.db n u) ∧
    (¬ ownsNomination a.store.db n u →
      ∃ t ∈ resultsRefusals, (handleUpdate toLower a upd).bot =
        a.bot ++ acknowledgement upd ++ [.Message upd.chat (bytesOf t) []]) := by
  cases upd with
  | Message msg now =>
    obtain ⟨hcmd, hc, hreach, hargs⟩ := hreq
    have hm : handleUpdate toLower a (.Message msg now) =
        handleResults { a with sessions := (a.sessions.Get u).2 } msg u := by
      show handleMessage toLower a msg now = _
      rw [handleMessage_command toLower a msg now u hs hcmd hreach, dispatchCommand_results _ _ _ _ _ hc]
    rw [hm]
    constructor
    · have hg := Gated_store
        (handleResults_gated { a with sessions := (a.sessions.Get u).2 } msg u)
      have hr := handleResults_calls { a with sessions := (a.sessions.Get u).2 } msg u n hargs
      exact results_calls_owned u n a.store _ hr hg
    · intro hno
      obtain ⟨t, ht, hb⟩ :=
        handleResults_refusal { a with sessions := (a.sessions.Get u).2 } msg u n hargs hno
      exact ⟨t, ht, by rw [hb]; simp [acknowledgement, Update.chat]⟩
  | CallbackQuery cq now =>
    obtain ⟨hpre, hp⟩ := hreq
    have hm : handleUpdate toLower a (.CallbackQuery cq now) =
        App.withSession u (callbackResults
          (({ a with sessions := (a.sessions.Get u).2 } : App).Send (.Callback cq.ID))
          cq u (a.session u)) := handleCallback_results a cq now u hs hpre
    rw [hm]
    constructor
    · have hg := Gated_store (callbackResults_gated
        (({ a with sessions := (a.sessions.Get u).2 } : App).Send (.Callback cq.ID))
        cq u (a.session u))
      have hr := callbackResults_calls
        (({ a with sessions := (a.sessions.Get u).2 } : App).Send (.Callback cq.ID))
        cq u (a.session u) n hp
      exact results_calls_owned u n a.store _ hr hg
    · intro hno
      obtain ⟨t, ht, hb⟩ := callbackResults_refusal
        (({ a with sessions := (a.sessions.Get u).2 } : App).Send (.Callback cq.ID))
        cq u (a.session u) n hp hno
      refine ⟨t, ht, ?_⟩
      show (callbackResults _ cq u (a.session u)).1.bot = _
      rw [hb]
      simp [acknowledgement, Update.chat]

set_option maxRecDepth 100000 in
theorem results_owner_only_witness :
    (resultsCommand 2 20).sender = some 2 ∧ requestsResults guestApp 2 1 (resultsCommand 2 20) ∧
    ¬ ownsNomination guestApp.store.db 1 2 ∧
    (handleUpdate (fun s => s) guestApp (resultsCommand 2 20)).store.journal =
      [.GetNominationRoomID 1, .IsRoomOwner 1 2] ∧
    (handleUpdate (fun s => s) guestApp (resultsCommand 2 20)).bot =
      [.Message 20 (bytesOf "Только автор комнаты может смотреть результаты.") []] ∧
    (handleUpdate (fun s => s) awaitNameApp (resultsCommand 1 10)).store.journal =
      [.GetNominationRoomID 1, .IsRoomOwner 1 1, .GetRoomTitle 1, .GetNominationName 1,
       .ResultsByNomination 1] ∧
    ∃ t ∈ resultsRefusals, (handleUpdate (fun s => s) guestApp (resultsCommand 2 20)).bot =
      guestApp.bot ++ acknowledgement (resultsCommand 2 20) ++
        [.Message (resultsCommand 2 20).chat (bytesOf t) []] :=
  have hreq : requestsResults guestApp 2 1 (resultsCommand 2 20) :=
    ⟨rfl, rfl, Or.inl (by decide), Or.inl ⟨"1", by decide, by decide⟩⟩
  have hno : ¬ ownsNomination guestApp.store.db 1 2 := by
    unfold ownsNomination
    decide
  ⟨rfl, hreq, hno, by decide, by decide, by decide,
    (results_owner_only (fun s => s) guestApp (resultsCommand 2 20) 2 1 rfl hreq).2 hno⟩

/-! ## The active room (C20) -/

theorem roomIdsPositive_effect (c : StoreCall) (db : DB) (h : roomIdsPositive db) :
    roomIdsPositive (c.effect db) := by
  cases c
  case CreateRoom ownerID title password now =>
    obtain ⟨h1, h2⟩ := h
    refine ⟨?_, ?_⟩
    · intro room hr
      simp only [StoreCall.effect, CreateRoom, List.mem_append, List.mem_singleton] at hr
      rcases hr with hr | hr
      · exact h1 room hr
      · rw [hr]
        exact h2
    · show 0 < db.next_room_id + 1
      omega
  case RecordVote userHash nominationID nomineeID createdAt =>
    simp only [StoreCall.effect, RecordVote]
    split
    · split <;> exact h
    · exact h
  case CreateNomination roomID name description =>
    simp only [StoreCall.effect, CreateNomination]
    split <;> exact h
  case CreateNominee nominationID name =>
    simp only [StoreCall.effect, CreateNominee]
    split <;> exact h
  all_goals exact h

/-- What `GetRoomByIDAndPassword` finds is a room with that id and password. -/
theorem room_of_GetRoomByIDAndPassword (st : Store) (r : Int) (p : String) (room : Room)
    (h : (st.GetRoomByIDAndPassword r p).1 = .ok room) :
    room.ID = r ∧ ∃ row ∈ st.db.rooms, row.id = r ∧ row.password = p := by
  have h2 := (exec_ok st _ _ _ h).2
  unfold GetRoomByIDAndPassword at h2
  split at h2
  · next row hrow =>
    have hp := List.find?_some hrow
    simp only [decide_eq_true_eq] at hp
    simp only [Except.ok.injEq] at h2
    subst h2
    exact ⟨hp.1, row, List.mem_of_find?_eq_some hrow, hp.1, hp.2⟩
  · cases h2

/-- On a working engine `GetRoomByIDAndPassword` finds a room when one with
that id and password exists. -/
theorem GetRoomByIDAndPassword_found (st : Store) (r : Int) (p : String)
    (hf : st.failing = false) (h : ∃ row ∈ st.db.rooms, row.id = r ∧ row.password = p) :
    ∃ room, (st.GetRoomByIDAndPassword r p).1 = .ok room ∧ room.ID = r := by
  unfold Store.GetRoomByIDAndPassword
  rw [exec_fst_working _ _ _ hf]
  unfold GetRoomByIDAndPassword
  split
  · next row hrow =>
    have hp := List.find?_some hrow
    simp only [decide_eq_true_eq] at hp
    exact ⟨_, rfl, hp.1⟩
  · next hnone =>
    exfalso
    obtain ⟨row, hmem, hid, hpw⟩ := h
    have := List.find?_eq_none.mp hnone row hmem
    simp [hid, hpw] at this

theorem GetRoomByIDAndPassword_missing (st : Store) (r : Int) (p : String)
    (h : ¬ ∃ row ∈ st.db.rooms, row.id = r ∧ row.password = p) :
    ∀ room, (st.GetRoomByIDAndPassword r p).1 ≠ .ok room := by
  intro room hr
  exact h (room_of_GetRoomByIDAndPassword st r p room hr).2


/-- The session map after a `/room` command with two fields, the first a
number: the sender's active room is the room found, if one is found. -/
theorem handleJoinRoom_sessions (a : App) (msg : Message) (u : Int) (idField p : String)
    (rest : List String) (r : Int)
    (hfields : Fields (TrimSpace msg.CommandArguments) = idField :: p :: rest)
    (hparse : ParseInt idField = some r) :
    (∀ room, (a.store.GetRoomByIDAndPassword r p).1 = .ok room →
      (handleJoinRoom a msg u).sessions =
        (a.sessions.Get u).2.put u { (a.sessions.Get u).1 with ActiveRoomID := room.ID }) ∧
    ((∀ room, (a.store.GetRoomByIDAndPassword r p).1 ≠ .ok room) →
      (handleJoinRoom a msg u).sessions = a.sessions) := by
  have hne : TrimSpace msg.CommandArguments ≠ "" := by
    intro h
    have hF : Fields "" = [] := by decide
    rw [h, hF] at hfields
    cases hfields
  unfold handleJoinRoom
  simp only [hne, hfields, hparse, if_false]
  constructor
  · intro room hroom
    simp only [hroom]
    rfl
  · intro hno
    split
    · rfl
    · rfl
    · next room hroom => exact absurd hroom (hno room)

/-- The sender's session after a `/room` command that reaches the command
switch, in terms of the session before. -/
theorem handleMessage_join (toLower : String → String) (a : App) (msg : Message) (now : Int)
    (u : Int) (idField p : String) (rest : List String) (r : Int)
    (hfrom : msg.From = some u) (hcmd : msg.IsCommand = true) (hc : msg.Command = "room")
    (hreach : (a.session u).WaitingMediaForNomineeID = 0 ∨ (msg.Photo = [] ∧ msg.Video = none))
    (hfields : Fields (TrimSpace msg.CommandArguments) = idField :: p :: rest)
    (hparse : ParseInt idField = some r) :
    (∀ room, (a.store.GetRoomByIDAndPassword r p).1 = .ok room →
      (handleMessage toLower a msg now).session u =
        { a.session u with ActiveRoomID := room.ID }) ∧
    ((∀ room, (a.store.GetRoomByIDAndPassword r p).1 ≠ .ok room) →
      (handleMessage toLower a msg now).session u = a.session u) := by
  have hm : handleMessage toLower a msg now =
      handleJoinRoom { a with sessions := (a.sessions.Get u).2 } msg u := by
    rw [handleMessage_command toLower a msg now u hfrom hcmd hreach,
      dispatchCommand_room _ _ _ _ _ hc]
  have hj := handleJoinRoom_sessions { a with sessions := (a.sessions.Get u).2 } msg u idField p
    rest r hfields hparse
  constructor
  · intro room hroom
    have h := hj.1 room hroom
    unfold App.session
    rw [hm, h]
    change ((((a.sessions.Get u).2.Get u).2.put u
      { ((a.sessions.Get u).2.Get u).1 with ActiveRoomID := room.ID }).Get u).1 = _
    rw [Get_Get_self]
    have := Get_put a.sessions u u { (a.sessions.Get u).1 with ActiveRoomID := room.ID }
    rw [if_pos rfl] at this
    exact this
  · intro hno
    have h := hj.2 hno
    unfold App.session
    rw [hm, h]
    exact Get_Get a.sessions u u


theorem handleUpdate_none (toLower : String → String) (a : App) (upd : Update)
    (hs : upd.sender = none) : handleUpdate toLower a upd = a := by
  cases upd with
  | Message msg now =>
    have h : msg.From = none := hs
    show handleMessage toLower a msg now = a
    unfold handleMessage
    rw [h]
  | CallbackQuery cq now =>
    have h : cq.From = none := hs
    show handleCallback a cq now = a
    unfold handleCallback
    rw [h]

/-- One update of user `u`: the sender's active room is kept, or the update is
a `/room` command that found its room and made it the active room. -/
theorem handleUpdate_active (toLower : String → String) (a : App) (upd : Update) (u : Int)
    (hs : upd.sender = some u) :
    ∃ s, Handled u a (handleUpdate toLower a upd) s ∧
      (s.ActiveRoomID = (a.session u).ActiveRoomID ∨
        ∃ msg now idField p rest r, upd = .Message msg now ∧ msg.IsCommand = true ∧
          msg.Command = "room" ∧
          Fields (TrimSpace msg.CommandArguments) = idField :: p :: rest ∧
          ParseInt idField = some r ∧
          (∃ row ∈ a.store.db.rooms, row.id = r ∧ row.password = p) ∧
          s = { a.session u with ActiveRoomID := r }) := by
  cases upd with
  | Message msg now =>
    obtain ⟨s, hh, hor⟩ := handleMessage_handled toLower a msg now u hs
    refine ⟨s, hh, ?_⟩
    rcases hor with h | ⟨hcmd, hc, idField, p, rest, r, room, hf, hp, hroom, hs'⟩
    · exact Or.inl h
    · have hr := room_of_GetRoomByIDAndPassword a.store r p room hroom
      refine Or.inr ⟨msg, now, idField, p, rest, r, rfl, hcmd, hc, hf, hp, hr.2, ?_⟩
      rw [hs', hr.1]
  | CallbackQuery cq now =>
    obtain ⟨s, hh, h⟩ := handleCallback_handled a cq now u hs
    exact ⟨s, hh, Or.inl h⟩

/-- One update keeps a non-zero active room of any user non-zero, when the
room ids are positive; it also keeps the room ids positive. -/
theorem handleUpdate_keeps (toLower : String → String) (a : App) (upd : Update)
    (hpos : roomIdsPositive a.store.db) :
    roomIdsPositive (handleUpdate toLower a upd).store.db ∧
    ∀ v, (a.session v).ActiveRoomID ≠ 0 →
      ((handleUpdate toLower a upd).session v).ActiveRoomID ≠ 0 := by
  cases hs : upd.sender with
  | none =>
    rw [handleUpdate_none toLower a upd hs]
    exact ⟨hpos, fun _ h => h⟩
  | some u =>
    obtain ⟨s, ⟨⟨calls, e, _⟩, _, hsess⟩, hor⟩ := handleUpdate_active toLower a upd u hs
    constructor
    · rw [e]
      exact afterAll_invariant roomIdsPositive roomIdsPositive_effect calls a.store hpos
    · intro v hv
      rw [hsess v]
      by_cases hvu : v = u
      · rw [if_pos hvu]
        subst hvu
        rcases hor with h | ⟨_, _, _, _, _, r, _, _, _, _, _, ⟨row, hrow, hid, _⟩, hs'⟩
        · rw [h]
          exact hv
        · rw [hs']
          have := hpos.1 row hrow
          show r ≠ 0
          omega
      · rw [if_neg hvu]
        exact hv

theorem run_keeps (toLower : String → String) (updates : List Update) :
    ∀ a : App, roomIdsPositive a.store.db →
      ∀ v, (a.session v).ActiveRoomID ≠ 0 →
        ((run toLower a updates).session v).ActiveRoomID ≠ 0 := by
  induction updates with
  | nil => intro a _ v hv; exact hv
  | cons upd rest ih =>
    intro a hpos v hv
    have h := handleUpdate_keeps toLower a upd hpos
    exact ih (handleUpdate toLower a upd) h.1 v (h.2 v hv)

/-- Claim C20: (1) a `/room` command of user `u` that reaches the command
switch, with id field `r` and password field `p`, on a working engine: when a
room with id `r` and password `p` exists the sender's session afterwards is the
old one with `ActiveRoomID := r`, otherwise it is the old one; in either case
the two pending fields are as before.  (2) Any update of `u` leaves the
sessions of all other users as they are, and the sender's `ActiveRoomID` as it
is unless it is a `/room` command whose room exists, which sets it to that
room's id.  (3) An update without sender changes nothing.  (4) Along any
sequence of updates, on a database whose room ids are positive (as the ids the
engine hands out are), an `ActiveRoomID` that is non-zero stays non-zero. -/
theorem active_room_persists (toLower : String → String) (a : App) (u : Int) :
    (∀ (msg : Message) (now : Int) (idField p : String) (rest : List String) (r : Int),
      msg.From = some u → msg.IsCommand = true → msg.Command = "room" →
      ((a.session u).WaitingMediaForNomineeID = 0 ∨ (msg.Photo = [] ∧ msg.Video = none)) →
      Fields (TrimSpace msg.CommandArguments) = idField :: p :: rest →
      ParseInt idField = some r → a.store.failing = false →
      ((∃ row ∈ a.store.db.rooms, row.id = r ∧ row.password = p) →
        (handleMessage toLower a msg now).session u =
          { a.session u with ActiveRoomID := r }) ∧
      ((¬ ∃ row ∈ a.store.db.rooms, row.id = r ∧ row.password = p) →
        (handleMessage toLower a msg now).session u = a.session u) ∧
      ((handleMessage toLower a msg now).session u).WaitingMediaForNomineeID =
        (a.session u).WaitingMediaForNomineeID ∧
      ((handleMessage toLower a msg now).session u).CreatingNomineeForNominationID =
        (a.session u).CreatingNomineeForNominationID) ∧
    (∀ upd : Update, upd.sender = some u →
      (∀ v, v ≠ u → (handleUpdate toLower a upd).session v = a.session v) ∧
      (((handleUpdate toLower a upd).session u).ActiveRoomID = (a.session u).ActiveRoomID ∨
        ∃ msg now idField p rest r, upd = .Message msg now ∧ msg.IsCommand = true ∧
          msg.Command = "room" ∧
          Fields (TrimSpace msg.CommandArguments) = idField :: p :: rest ∧
          ParseInt idField = some r ∧
          (∃ row ∈ a.store.db.rooms, row.id = r ∧ row.password = p) ∧
          (handleUpdate toLower a upd).session u = { a.session u with ActiveRoomID := r })) ∧
    (∀ upd : Update, upd.sender = none → handleUpdate toLower a upd = a) ∧
    (∀ (updates : List Update) (v : Int), roomIdsPositive a.store.db →
      (a.session v).ActiveRoomID ≠ 0 →
      ((run toLower a updates).session v).ActiveRoomID ≠ 0) := by
  refine ⟨?_, ?_, handleUpdate_none toLower a, fun updates v hpos hv =>
    run_keeps toLower updates a hpos v hv⟩
  · intro msg now idField p rest r hfrom hcmd hc hreach hfields hparse hwork
    have hj := handleMessage_join toLower a msg now u idField p rest r hfrom hcmd hc hreach
      hfields hparse
    by_cases hex : ∃ row ∈ a.store.db.rooms, row.id = r ∧ row.password = p
    · obtain ⟨room, hroom, hid⟩ := GetRoomByIDAndPassword_found a.store r p hwork hex
      have h := hj.1 room hroom
      rw [hid] at h
      refine ⟨fun _ => h, fun hno => absurd hex hno, ?_, ?_⟩ <;> rw [h]
    · have h := hj.2 (GetRoomByIDAndPassword_missing a.store r p hex)
      refine ⟨fun hyes => absurd hyes hex, fun _ => h, ?_, ?_⟩ <;> rw [h]
  · intro upd hs
    obtain ⟨s, ⟨_, _, hsess⟩, hor⟩ := handleUpdate_active toLower a upd u hs
    constructor
    · intro v hv
      rw [hsess v, if_neg hv]
    · have hu := hsess u
      rw [if_pos rfl] at hu
      rcases hor with h | ⟨msg, now, idField, p, rest, r, e, hcmd, hc, hf, hp, hex, hs'⟩
      · exact Or.inl (by rw [hu, h])
      · exact Or.inr ⟨msg, now, idField, p, rest, r, e, hcmd, hc, hf, hp, hex, by rw [hu, hs']⟩

set_option maxRecDepth 100000 in
theorem active_room_persists_witness :
    (handleMessage (fun s => s) stuckApp (roomCommand 2 20 "1 pw1") 500).session 2 = ⟨1, 2, 1⟩ ∧
    (handleMessage (fun s => s) (New ⟨dishes, false, []⟩ "salt") (roomCommand 2 20 "1 pw1")
      500).session 2 = ⟨1, 0, 0⟩ ∧
    (handleMessage (fun s => s) guestApp (roomCommand 2 20 "1 wrong") 500).session 2 =
      ⟨1, 0, 0⟩ ∧
    (handleMessage (fun s => s) guestApp (roomCommand 2 20 "7 pw1") 500).session 2 =
      ⟨1, 0, 0⟩ ∧
    roomIdsPositive guestApp.store.db ∧
    ∀ updates : List Update,
      ((run (fun s => s) guestApp updates).session 2).ActiveRoomID ≠ 0 :=
  have hpos : roomIdsPositive guestApp.store.db := by
    unfold roomIdsPositive
    decide
  ⟨by decide, by decide, by decide, by decide, hpos, fun updates =>
    (active_room_persists (fun s => s) guestApp 2).2.2.2 updates 2 hpos (by decide)⟩

/-! ## Cascade of DeleteNomination on votes (C21) -/

/-- Counterexample to C21 as stated: the store state `mismatched` satisfies the
schema and is made by `Store` calls alone; nomination 1 is present and
`DeleteNomination(1)` returns true, yet a vote row with nomination id 1
remains (it references nominee 3, which belongs to nomination 2). -/
theorem DeleteNomination_keeps_mismatched_vote :
    mismatched.Valid ∧ (RecordVote party "userC" 1 3 130).1 = .ok () ∧
    (∃ m ∈ mismatched.nominations, m.id = 1) ∧
    (DeleteNomination mismatched 1).1 = .ok true ∧
    (DeleteNomination mismatched 1).2.votes = [⟨3, "userA", 2, 3, 120⟩, ⟨4, "userC", 1, 3, 130⟩] ∧
    ∃ v ∈ (DeleteNomination mismatched 1).2.votes, v.nomination_id = 1 := by
  refine ⟨by constructor <;> decide, by decide, by decide, by decide, by decide, by decide⟩

/-- C21, amended: when nomination `n` is present, `DeleteNomination(n)` returns
true; afterwards no nominee row has nomination id `n`, and a vote row with
nomination id `n` that is left references only nominees of other nominations;
in a store state that satisfies the schema and in which every vote row is
recorded under the nomination of its nominee, no vote row with nomination id
`n` is left. -/
theorem DeleteNomination_clears (s : DB) (n : Int) (hn : ∃ m ∈ s.nominations, m.id = n) :
    (DeleteNomination s n).1 = .ok true ∧
    (∀ x ∈ (DeleteNomination s n).2.nominees, x.nomination_id ≠ n) ∧
    (∀ v ∈ (DeleteNomination s n).2.votes, v.nomination_id = n →
      ∀ x ∈ s.nominees, x.id = v.nominee_id → x.nomination_id ≠ n) ∧
    (s.Valid → votesWellFormed s → ∀ v ∈ (DeleteNomination s n).2.votes, v.nomination_id ≠ n) := by
  have hvotes := DeleteNomination_votes s n hn
  have hsurv : ∀ v ∈ (DeleteNomination s n).2.votes,
      v ∈ s.votes ∧ ∀ x ∈ s.nominees, x.id = v.nominee_id → x.nomination_id ≠ n := by
    intro v hv
    rw [hvotes, List.mem_filter] at hv
    refine ⟨hv.1, ?_⟩
    intro x hx hid hxn
    have := hv.2
    simp only [decide_not, Bool.not_eq_true', decide_eq_false_iff_not, not_exists, not_and,
      decide_eq_true_eq] at this
    exact this x hx hxn hid
  refine ⟨?_, ?_, ?_, ?_⟩
  · rw [DeleteNomination_fst]
    simpa using hn
  · intro x hx
    rw [DeleteNomination_nominees s n hn, List.mem_filter] at hx
    simpa using hx.2
  · intro v hv _
    exact (hsurv v hv).2
  · intro hval hwf v hv hvn
    obtain ⟨hmem, hno⟩ := hsurv v hv
    obtain ⟨x, hx, hid⟩ := hval.votes_fk v hmem
    exact hno x hx hid ((hwf v hmem x hx hid).trans hvn)

theorem DeleteNomination_clears_witness :
    (∃ m ∈ party.nominations, m.id = 1) ∧ party.Valid ∧ votesWellFormed party ∧
    (DeleteNomination party 1).2.votes = [⟨3, "userA", 2, 3, 120⟩] ∧
    (DeleteNomination party 1).2.nominees = [⟨3, 2, "Tea", none, none⟩] ∧
    ∀ v ∈ (DeleteNomination party 1).2.votes, v.nomination_id ≠ 1 :=
  have hn : ∃ m ∈ party.nominations, m.id = 1 := by decide
  have hval : party.Valid := by constructor <;> decide
  have hwf : votesWellFormed party := by
    unfold votesWellFormed
    decide
  ⟨hn, hval, hwf, by decide, by decide, (DeleteNomination_clears party 1 hn).2.2.2 hval hwf⟩

/-! ## Sessions are per user (C27) -/

theorem Get_put_self (m : Manager) (u : Int) (s : Session) :
    ((m.Get u).2.put u s).Get u = (s, (m.Get u).2.put u s) := by
  apply Get_of_lookup
  unfold Manager.put
  simp only [lookup_map_put, Get_snd_lookup, if_true, Option.map_some']

/-- Claim C27: `Manager.Get(u)` returns the all-zero session when the map has
no record of `u` (so on a new manager); a later `Get(u)` returns the same record
and leaves the map as it is; after a write through the pointer it returns what
was written; neither `Get(u)` nor a write to the record of `u` changes the
record of another user `v` (`Get(u)` does not even touch the map entry of `v`);
and handling an update sent by `u` leaves the session of every other user as it
was. -/
theorem sessions_isolated (toLower : String → String) (a : App) (m : Manager) (u : Int) :
    (m.sessions.lookup u = none → (m.Get u).1 = ⟨0, 0, 0⟩) ∧
    (NewManager.Get u).1 = ⟨0, 0, 0⟩ ∧
    (m.Get u).2.Get u = ((m.Get u).1, (m.Get u).2) ∧
    (∀ s, ((m.Get u).2.put u s).Get u = (s, (m.Get u).2.put u s)) ∧
    (∀ v, v ≠ u → (m.Get u).2.sessions.lookup v = m.sessions.lookup v) ∧
    (∀ v, v ≠ u → ((m.Get u).2.Get v).1 = (m.Get v).1) ∧
    (∀ v s, v ≠ u → (((m.Get u).2.put u s).Get v).1 = (m.Get v).1) ∧
    (∀ upd : Update, upd.sender = some u →
      ∀ v, v ≠ u → (handleUpdate toLower a upd).session v = a.session v) := by
  refine ⟨?_, rfl, Get_Get_self m u, Get_put_self m u, ?_, ?_, ?_, ?_⟩
  · intro h
    rw [Get_fst, h]
    rfl
  · intro v hv
    rw [Get_snd_lookup, if_neg hv]
  · intro v _
    exact Get_Get m u v
  · intro v s hv
    rw [Get_put, if_neg hv]
  · intro upd hs v hv
    obtain ⟨s, _, _, hsess⟩ := handleUpdate_handled toLower a upd u hs
    rw [hsess v, if_neg hv]

set_option maxRecDepth 100000 in
theorem sessions_isolated_witness :
    (twoUsers.Get 3).1 = ⟨0, 0, 0⟩ ∧ (twoUsers.Get 1).1 = ⟨1, 2, 0⟩ ∧
    (((twoUsers.Get 3).2.put 3 ⟨7, 0, 0⟩).Get 3).1 = ⟨7, 0, 0⟩ ∧
    (((twoUsers.Get 3).2.put 3 ⟨7, 0, 0⟩).Get 1).1 = ⟨1, 2, 0⟩ ∧
    (handleUpdate (fun s => s) bothPendingApp (.CallbackQuery (backPress 2 20) 500)).session 1 =
      ⟨1, 2, 1⟩ ∧
    (handleUpdate (fun s => s) bothPendingApp (.CallbackQuery (backPress 2 20) 500)).session 1 =
      bothPendingApp.session 1 :=
  ⟨by decide, by decide, by decide, by decide, by decide,
    (sessions_isolated (fun s => s) bothPendingApp twoUsers 2).2.2.2.2.2.2.2
      (.CallbackQuery (backPress 2 20) 500) rfl 1 (by decide)⟩

/-! ## At most one pending expectation (C25) -/

theorem pendingStep_refl (s : Session) : pendingStep s s := Or.inl ⟨rfl, rfl⟩

theorem pendingOk_step {s t : Session} (h : pendingOk s) (hst : pendingStep s t) : pendingOk t := by
  unfold pendingOk pendingStep at *
  rcases hst with ⟨h1, h2⟩ | h1 | h1
  · rw [h1, h2]
    exact h
  · simp [h1]
  · simp [h1]

theorem handleNominationsCommand_pending (a : App) (msg : Message) (u : Int) (sess : Session) :
    pendingStep sess (handleNominationsCommand a msg u sess).2 := by
  rw [handleNominationsCommand_snd]
  exact pendingStep_refl _

theorem handleSetNomineeMedia_pending (a : App) (msg : Message) (u : Int) (sess : Session) :
    pendingStep sess (handleSetNomineeMedia a msg u sess).2 := by
  unfold handleSetNomineeMedia
  simp only []
  repeat' split
  all_goals first | exact pendingStep_refl _ | exact Or.inr (Or.inr rfl)

theorem handleMediaUpload_pending (a : App) (msg : Message) (u : Int) (sess : Session) :
    pendingStep sess (handleMediaUpload a msg u sess).2 := by
  rw [handleMediaUpload_snd]
  exact Or.inr (Or.inl rfl)

theorem handleCreateNomineeTextStep_pending (a : App) (msg : Message) (u : Int)
    (sess : Session) : pendingStep sess (handleCreateNomineeTextStep a msg u sess).2 := by
  unfold handleCreateNomineeTextStep
  simp only []
  repeat' split
  all_goals first | exact pendingStep_refl _ | exact Or.inr (Or.inr rfl)

theorem callbackBack_pending (a : App) (cq : CallbackQuery) (u : Int) (sess : Session) :
    pendingStep sess (callbackBack a cq u sess).2 := by
  rw [callbackBack_snd]
  exact Or.inr (Or.inl rfl)

theorem callbackAddNominee_pending (a : App) (cq : CallbackQuery) (u : Int) (sess : Session) :
    pendingStep sess (callbackAddNominee a cq u sess).2 := by
  unfold callbackAddNominee
  simp only []
  repeat' split
  all_goals first | exact pendingStep_refl _ | exact Or.inr (Or.inl rfl)

theorem callbackSetMedia_pending (a : App) (cq : CallbackQuery) (u : Int) (sess : Session) :
    pendingStep sess (callbackSetMedia a cq u sess).2 := by
  unfold callbackSetMedia
  simp only []
  repeat' split
  all_goals first | exact pendingStep_refl _ | exact Or.inr (Or.inr rfl)

/-- The session of the sender after a handler that worked on the pointer. -/
theorem pointer_session (a a0 : App) (u : Int) (r : App × Session)
    (hs : a0.sessions = (a.sessions.Get u).2) (hg : Gated u a0 r.1) :
    (App.withSession u r).session u = r.2 := by
  rw [withSession_session a a0 u r hs hg u, if_pos rfl]

/-- The session of the sender after a handler that did not touch the sessions. -/
theorem plain_session (a a0 b : App) (u : Int)
    (hs : a0.sessions = (a.sessions.Get u).2) (hg : Gated u a0 b) :
    b.session u = a.session u :=
  session_of_Get a b u u ((Gated_sessions hg).trans hs)


theorem dispatchCommand_pending (a a0 : App) (msg : Message) (u : Int) (now : Int)
    (hst : a0.store = a.store) (hs : a0.sessions = (a.sessions.Get u).2)
    (hv : a0.voteSalt = a.voteSalt) :
    pendingStep (a.session u) ((dispatchCommand a0 msg u (a.session u) now).session u) := by
  unfold dispatchCommand
  by_cases hc : msg.Command = "start"
  · rw [if_pos hc]
    rw [plain_session a a0 _ u hs (Gated_Send (Gated_refl _ _))]
    exact pendingStep_refl _
  rw [if_neg hc]
  clear hc
  by_cases hc : msg.Command = "help"
  · rw [if_pos hc]
    rw [plain_session a a0 _ u hs (Gated_say (Gated_refl _ _))]
    exact pendingStep_refl _
  rw [if_neg hc]
  clear hc
  by_cases hc : msg.Command = "create_room"
  · rw [if_pos hc]
    rw [plain_session a a0 _ u hs (handleCreateRoom_gated _ _ _ _)]
    exact pendingStep_refl _
  rw [if_neg hc]
  clear hc
  by_cases hc : msg.Command = "my_rooms"
  · rw [if_pos hc]
    rw [plain_session a a0 _ u hs (handleMyRooms_gated _ _ _)]
    exact pendingStep_refl _
  rw [if_neg hc]
  clear hc
  by_cases hc : msg.Command = "room"
  · rw [if_pos hc]
    obtain ⟨t, ⟨_, _, hsess⟩, hor⟩ := handleJoinRoom_handled a a0 msg u hst hs hv
    have ht := hsess u
    rw [if_pos rfl] at ht
    rw [ht]
    rcases hor with h | ⟨_, _, _, _, _, _, _, _, h⟩
    · rw [h]
      exact pendingStep_refl _
    · rw [h]
      exact Or.inl ⟨rfl, rfl⟩
  rw [if_neg hc]
  clear hc
  by_cases hc : msg.Command = "nominations"
  · rw [if_pos hc]
    rw [pointer_session a a0 u _ hs (handleNominationsCommand_gated _ _ _ _)]
    exact handleNominationsCommand_pending _ _ _ _
  rw [if_neg hc]
  clear hc
  by_cases hc : msg.Command = "add_nomination"
  · rw [if_pos hc]
    rw [plain_session a a0 _ u hs (handleAddNomination_gated _ _ _)]
    exact pendingStep_refl _
  rw [if_neg hc]
  clear hc
  by_cases hc : msg.Command = "add_nominee"
  · rw [if_pos hc]
    rw [plain_session a a0 _ u hs (handleAddNominee_gated _ _ _)]
    exact pendingStep_refl _
  rw [if_neg hc]
  clear hc
  by_cases hc : msg.Command = "set_nominee_media"
  · rw [if_pos hc]
    rw [pointer_session a a0 u _ hs (handleSetNomineeMedia_gated _ _ _ _)]
    exact handleSetNomineeMedia_pending _ _ _ _
  rw [if_neg hc]
  clear hc
  by_cases hc : msg.Command = "delete_nomination"
  · rw [if_pos hc]
    rw [plain_session a a0 _ u hs (handleDeleteNomination_gated _ _ _)]
    exact pendingStep_refl _
  rw [if_neg hc]
  clear hc
  by_cases hc : msg.Command = "delete_nominee"
  · rw [if_pos hc]
    rw [plain_session a a0 _ u hs (handleDeleteNominee_gated _ _ _)]
    exact pendingStep_refl _
  rw [if_neg hc]
  clear hc
  by_cases hc : msg.Command = "results"
  · rw [if_pos hc]
    rw [plain_session a a0 _ u hs (handleResults_gated _ _ _)]
    exact pendingStep_refl _
  rw [if_neg hc]
  clear hc
  rw [plain_session a a0 _ u hs (Gated_say (Gated_refl _ _))]
  exact pendingStep_refl _

/-- One update of user `u` leaves the pending fields of the sender's session as
they are, or leaves one of them 0. -/
theorem handleUpdate_pending (toLower : String → String) (a : App) (upd : Update) (u : Int)
    (hs : upd.sender = some u) :
    pendingStep (a.session u) ((handleUpdate toLower a upd).session u) := by
  cases upd with
  | Message msg now =>
    have h : msg.From = some u := hs
    show pendingStep _ ((handleMessage toLower a msg now).session u)
    unfold handleMessage
    simp only [h]
    split
    · rw [pointer_session a { a with sessions := (a.sessions.Get u).2 } u _ rfl
        (handleMediaUpload_gated _ _ _ _)]
      exact handleMediaUpload_pending _ _ _ _
    split
    · rw [pointer_session a { a with sessions := (a.sessions.Get u).2 } u _ rfl
        (handleCreateNomineeTextStep_gated _ _ _ _)]
      exact handleCreateNomineeTextStep_pending _ _ _ _
    split
    · exact dispatchCommand_pending a { a with sessions := (a.sessions.Get u).2 } msg u now
        rfl rfl rfl
    split
    · rw [plain_session a { a with sessions := (a.sessions.Get u).2 } _ u rfl
        (Gated_say (Gated_refl _ _))]
      exact pendingStep_refl _
    · rw [plain_session a { a with sessions := (a.sessions.Get u).2 } _ u rfl (Gated_refl _ _)]
      exact pendingStep_refl _
  | CallbackQuery cq now =>
    have h : cq.From = some u := hs
    show pendingStep _ ((handleCallback a cq now).session u)
    unfold handleCallback
    simp only [h]
    split
    · rw [pointer_session a
        (({ a with sessions := (a.sessions.Get u).2 } : App).Send (.Callback cq.ID)) u _ rfl
        (callbackBack_gated _ _ _ _)]
      exact callbackBack_pending _ _ _ _
    split
    · rw [pointer_session a
        (({ a with sessions := (a.sessions.Get u).2 } : App).Send (.Callback cq.ID)) u _ rfl
        (callbackNomination_gated _ _ _ _), callbackNomination_snd]
      exact pendingStep_refl _
    split
    · rw [pointer_session a
        (({ a with sessions := (a.sessions.Get u).2 } : App).Send (.Callback cq.ID)) u _ rfl
        (callbackVote_gated _ _ _ _ _), callbackVote_snd]
      exact pendingStep_refl _
    split
    · rw [pointer_session a
        (({ a with sessions := (a.sessions.Get u).2 } : App).Send (.Callback cq.ID)) u _ rfl
        (callbackResults_gated _ _ _ _), callbackResults_snd]
      exact pendingStep_refl _
    split
    · rw [pointer_session a
        (({ a with sessions := (a.sessions.Get u).2 } : App).Send (.Callback cq.ID)) u _ rfl
        (callbackAddNominee_gated _ _ _ _)]
      exact callbackAddNominee_pending _ _ _ _
    split
    · rw [pointer_session a
        (({ a with sessions := (a.sessions.Get u).2 } : App).Send (.Callback cq.ID)) u _ rfl
        (callbackSetMedia_gated _ _ _ _)]
      exact callbackSetMedia_pending _ _ _ _
    split
    · rw [pointer_session a
        (({ a with sessions := (a.sessions.Get u).2 } : App).Send (.Callback cq.ID)) u _ rfl
        (callbackDeleteNominee_gated _ _ _ _), callbackDeleteNominee_snd]
      exact pendingStep_refl _
    · rw [pointer_session a
        (({ a with sessions := (a.sessions.Get u).2 } : App).Send (.Callback cq.ID)) u
        ((({ a with sessions := (a.sessions.Get u).2 } : App).Send (.Callback cq.ID)),
          (a.sessions.Get u).1) rfl (Gated_refl _ _)]
      exact pendingStep_refl _

/-- One update keeps the sessions of all users within one pending expectation. -/
theorem handleUpdate_pendingOk (toLower : String → String) (a : App) (upd : Update)
    (h : ∀ v, pendingOk (a.session v)) : ∀ v, pendingOk ((handleUpdate toLower a upd).session v) := by
  intro v
  cases hs : upd.sender with
  | none =>
    rw [handleUpdate_none toLower a upd hs]
    exact h v
  | some u =>
    by_cases hvu : v = u
    · subst hvu
      exact pendingOk_step (h v) (handleUpdate_pending toLower a upd v hs)
    · obtain ⟨s, _, _, hsess⟩ := handleUpdate_handled toLower a upd u hs
      rw [hsess v, if_neg hvu]
      exact h v

theorem New_session (store : Store) (voteSalt : String) (v : Int) :
    (New store voteSalt).session v = ⟨0, 0, 0⟩ := rfl

theorem run_reachable (toLower : String → String) (interfere : Store → Store → Prop)
    (a0 : App) (updates : List Update) :
    ∀ a, Reachable toLower interfere a0 a →
      Reachable toLower interfere a0 (run toLower a updates) := by
  induction updates with
  | nil => intro a h; exact h
  | cons upd rest ih => intro a h; exact ih _ (Reachable.step a upd h)

/-- Claim C25: one event keeps the property that the two pending fields are not
both non-zero, for every user and whatever the store is; hence in every
application state reachable from a new application (no session yet, so every
session all-zero) by handling messages and button presses, with the store
changing in any way in between, no session has `WaitingMediaForNomineeID` and
`CreatingNomineeForNominationID` both non-zero. -/
theorem one_pending_at_a_time (toLower : String → String) (store : Store) (voteSalt : String)
    (b : App) (hb : Reachable toLower (fun _ _ => True) (New store voteSalt) b) :
    ∀ v, ¬ ((b.session v).WaitingMediaForNomineeID ≠ 0 ∧
      (b.session v).CreatingNomineeForNominationID ≠ 0) := by
  induction hb with
  | start =>
    intro v
    rw [New_session]
    simp
  | step a upd _ ih => exact handleUpdate_pendingOk toLower a upd ih
  | world a st _ _ ih => exact ih

set_option maxRecDepth 100000 in
theorem one_pending_at_a_time_witness :
    ((run (fun s => s) (New ⟨dishes, false, []⟩ "salt")
      [.CallbackQuery ⟨"q1", some 1, 10, "setmedia:2"⟩ 500,
       .CallbackQuery ⟨"q2", some 1, 10, "addnom:1"⟩ 501]).session 1) = ⟨0, 0, 1⟩ ∧
    ((run (fun s => s) (New ⟨dishes, false, []⟩ "salt")
      [.CallbackQuery ⟨"q1", some 1, 10, "setmedia:2"⟩ 500]).session 1) = ⟨0, 2, 0⟩ ∧
    ∀ v, ¬ (((run (fun s => s) (New ⟨dishes, false, []⟩ "salt")
      [.CallbackQuery ⟨"q1", some 1, 10, "setmedia:2"⟩ 500,
       .CallbackQuery ⟨"q2", some 1, 10, "addnom:1"⟩ 501]).session v).WaitingMediaForNomineeID ≠ 0 ∧
      ((run (fun s => s) (New ⟨dishes, false, []⟩ "salt")
      [.CallbackQuery ⟨"q1", some 1, 10, "setmedia:2"⟩ 500,
       .CallbackQuery ⟨"q2", some 1, 10, "addnom:1"⟩ 501]).session v
        ).CreatingNomineeForNominationID ≠ 0) :=
  ⟨by decide, by decide,
    one_pending_at_a_time (fun s => s) ⟨dishes, false, []⟩ "salt" _
      (run_reachable _ _ _ _ _ Reachable.start)⟩

/-! ## Voting is gated by the active room (C24) -/

/-- What `GetNomineeNominationAndRoom` answers is the nomination of a nominee
with that id and the room of that nomination; the engine works. -/
theorem pair_of_GetNomineeNominationAndRoom (st : Store) (k n r : Int)
    (h : (st.GetNomineeNominationAndRoom k).1 = .ok (n, r)) :
    st.failing = false ∧ ∃ x ∈ st.db.nominees, x.id = k ∧ x.nomination_id = n ∧
      ∃ m ∈ st.db.nominations, m.id = n ∧ m.room_id = r := by
  obtain ⟨hf, h2⟩ := exec_ok st _ _ _ h
  refine ⟨hf, ?_⟩
  unfold GetNomineeNominationAndRoom at h2
  simp only [] at h2
  split at h2
  · next p hp =>
    have hmem := List.mem_of_find?_eq_some hp
    have hid := List.find?_some hp
    simp only [decide_eq_true_eq] at hid
    simp only [Except.ok.injEq, Prod.mk.injEq] at h2
    rw [List.mem_flatMap] at hmem
    obtain ⟨x, hx, hxm⟩ := hmem
    rw [List.mem_map] at hxm
    obtain ⟨m, hm, hpm⟩ := hxm
    rw [List.mem_filter] at hm
    subst hpm
    have hnm : x.nomination_id = m.id := by simpa using hm.2
    exact ⟨x, hx, hid, h2.1, m, hm.1, by rw [← h2.1]; exact hnm.symm, h2.2⟩
  · cases h2

/-- The vote button case of `handleCallback`. -/
theorem handleCallback_vote (a : App) (cq : CallbackQuery) (now : Int) (u : Int)
    (hfrom : cq.From = some u) (hpre : HasPrefix cq.Data "vote:" = true) :
    handleCallback a cq now =
      App.withSession u
        (callbackVote (({ a with sessions := (a.sessions.Get u).2 } : App).Send (.Callback cq.ID))
          cq u (a.session u) now) := by
  obtain ⟨rest, hd⟩ := HasPrefix_first cq.Data "vote:" 'v' "ote:".data rfl hpre
  have h1 : cq.Data ≠ "back:nominations" := by
    intro h
    rw [h] at hd
    cases hd
  have h2 := HasPrefix_other cq.Data "nomination:" 'v' 'n' "omination:".data rest rfl hd
    (by decide)
  unfold handleCallback
  simp only [hfrom]
  rw [if_neg h1, if_neg (by simp [h2]), if_pos hpre]
  rfl

theorem sendNominationsList_db (a : App) (chatID u roomID : Int) :
    (sendNominationsList a chatID u roomID).2.store.db = a.store.db := by
  obtain ⟨new, e, hc⟩ := sendNominationsList_calls a chatID u roomID
  rw [e]
  apply afterAll_db_reads
  intro c hmem db
  rcases hc c hmem with h | h <;> subst h <;> rfl

theorem Store_RecordVote_db (st : Store) (h : String) (n k t : Int) (hf : st.failing = false) :
    (st.RecordVote h n k t).2.db = (RecordVote st.db h n k t).2 := by
  rw [Store_RecordVote_snd, after_db_working _ _ hf]
  rfl

/-- The database after `callbackVote`, case by case. -/
theorem callbackVote_db (a : App) (cq : CallbackQuery) (u : Int) (sess : Session) (now : Int) :
    (ParseInt (TrimPrefix cq.Data "vote:") = none →
      (callbackVote a cq u sess now).1.store.db = a.store.db) ∧
    (∀ k e, ParseInt (TrimPrefix cq.Data "vote:") = some k →
      (a.store.GetNomineeNominationAndRoom k).1 = .error e →
      (callbackVote a cq u sess now).1.store.db = a.store.db) ∧
    (∀ k n r, ParseInt (TrimPrefix cq.Data "vote:") = some k →
      (a.store.GetNomineeNominationAndRoom k).1 = .ok (n, r) → sess.ActiveRoomID ≠ r →
      (callbackVote a cq u sess now).1.store.db = a.store.db) ∧
    (∀ k n r, ParseInt (TrimPrefix cq.Data "vote:") = some k →
      (a.store.GetNomineeNominationAndRoom k).1 = .ok (n, r) → sess.ActiveRoomID = r →
      (callbackVote a cq u sess now).1.store.db =
        (RecordVote a.store.db (hashUserID a.voteSalt u) n k now).2) := by
  refine ⟨?_, ?_, ?_, ?_⟩
  · intro hp
    unfold callbackVote
    simp only [hp]
  · intro k e hp he
    unfold callbackVote
    simp only [hp, he]
    cases e <;> simp
  · intro k n r hp hok hne
    unfold callbackVote
    simp only [hp, hok, hne, ne_eq, not_false_eq_true, if_true]
    simp
  · intro k n r hp hok heq
    have hf := (exec_ok _ _ _ _ hok).1
    have hf1 : (a.store.GetNomineeNominationAndRoom k).2.failing = false := by
      rw [Store_GetNomineeNominationAndRoom_snd]
      exact hf
    have hdb : ((a.store.GetNomineeNominationAndRoom k).2.RecordVote
        (hashUserID a.voteSalt u) n k now).2.db =
        (RecordVote a.store.db (hashUserID a.voteSalt u) n k now).2 := by
      rw [Store_RecordVote_db _ _ _ _ _ hf1, Store_GetNomineeNominationAndRoom_db]
    unfold callbackVote
    simp only [hp, hok, heq, ne_eq, not_true_eq_false, if_false]
    repeat' split
    all_goals
      simp only [sendNominationsList_db, Println_store, say_store, withStore_store,
        Store_GetNomineeName_db]
      exact hdb


/-- Claim C24: for a button press of user `u` with payload `vote:<k>`, the
sessions are as before in every case, and the database changes only if `<k>` is
a decimal integer `k`, a nominee with id `k` exists, and the sender's
`ActiveRoomID` is the room of that nominee's nomination `n`; the database then
is the one `RecordVote(hashUserID(u), n, k, now)` leaves.  When `<k>` is not a
decimal integer, when no nominee has id `k`, or when `ActiveRoomID` (0
included) is not the room of the nomination of a nominee with id `k`, the
database, the votes table in particular, is unchanged. -/
theorem vote_gated (a : App) (cq : CallbackQuery) (now : Int) (u : Int)
    (hfrom : cq.From = some u) (hpre : HasPrefix cq.Data "vote:" = true) :
    (∀ v, (handleCallback a cq now).session v = a.session v) ∧
    ((handleCallback a cq now).store.db ≠ a.store.db →
      ∃ k n, ParseInt (TrimPrefix cq.Data "vote:") = some k ∧
        (∃ x ∈ a.store.db.nominees, x.id = k ∧ x.nomination_id = n ∧
          ∃ m ∈ a.store.db.nominations, m.id = n ∧
            m.room_id = (a.session u).ActiveRoomID) ∧
        (handleCallback a cq now).store.db =
          (RecordVote a.store.db (hashUserID a.voteSalt u) n k now).2) ∧
    (ParseInt (TrimPrefix cq.Data "vote:") = none →
      (handleCallback a cq now).store.db = a.store.db) ∧
    (∀ k, ParseInt (TrimPrefix cq.Data "vote:") = some k →
      (∀ x ∈ a.store.db.nominees, x.id ≠ k) →
      (handleCallback a cq now).store.db = a.store.db) ∧
    (∀ k, ParseInt (TrimPrefix cq.Data "vote:") = some k →
      (∀ x ∈ a.store.db.nominees, x.id = k → ∀ m ∈ a.store.db.nominations,
        m.id = x.nomination_id → m.room_id ≠ (a.session u).ActiveRoomID) →
      (handleCallback a cq now).store.db = a.store.db) := by
  have hm := handleCallback_vote a cq now u hfrom hpre
  have hdb : (handleCallback a cq now).store.db =
      (callbackVote (({ a with sessions := (a.sessions.Get u).2 } : App).Send (.Callback cq.ID))
        cq u (a.session u) now).1.store.db := by
    rw [hm]
    rfl
  obtain ⟨hA, hB, hC, hD⟩ := callbackVote_db
    (({ a with sessions := (a.sessions.Get u).2 } : App).Send (.Callback cq.ID))
    cq u (a.session u) now
  have hroom : ∀ k, ParseInt (TrimPrefix cq.Data "vote:") = some k →
      (∀ x ∈ a.store.db.nominees, x.id = k → ∀ m ∈ a.store.db.nominations,
        m.id = x.nomination_id → m.room_id ≠ (a.session u).ActiveRoomID) →
      (handleCallback a cq now).store.db = a.store.db := by
    intro k hp hno
    rw [hdb]
    rcases hl : (a.store.GetNomineeNominationAndRoom k).1 with e | ⟨n, r⟩
    · exact hB k e hp hl
    · obtain ⟨_, x, hx, hid, hxn, m, hmm, hmid, hmr⟩ :=
        pair_of_GetNomineeNominationAndRoom a.store k n r hl
      refine hC k n r hp hl ?_
      intro heq
      exact hno x hx hid m hmm (hmid.trans hxn.symm) (hmr.trans heq.symm)
  refine ⟨?_, ?_, ?_, ?_, hroom⟩
  · intro v
    have hh := Handled_pointer a
      (({ a with sessions := (a.sessions.Get u).2 } : App).Send (.Callback cq.ID)) u _
      rfl rfl rfl (callbackVote_gated
        (({ a with sessions := (a.sessions.Get u).2 } : App).Send (.Callback cq.ID))
        cq u (a.session u) now)
    rw [hm, hh.2.2 v, callbackVote_snd]
    split
    · next h => rw [h]
    · rfl
  · intro hne
    rcases hp : ParseInt (TrimPrefix cq.Data "vote:") with _ | k
    · exact absurd (hdb.trans (hA hp)) hne
    · rcases hl : (a.store.GetNomineeNominationAndRoom k).1 with e | ⟨n, r⟩
      · exact absurd (hdb.trans (hB k e hp hl)) hne
      · by_cases heq : (a.session u).ActiveRoomID = r
        · obtain ⟨_, x, hx, hid, hxn, m, hmm, hmid, hmr⟩ :=
            pair_of_GetNomineeNominationAndRoom a.store k n r hl
          exact ⟨k, n, rfl, ⟨x, hx, hid, hxn, m, hmm, hmid, hmr.trans heq.symm⟩,
            hdb.trans (hD k n r hp hl heq)⟩
        · exact absurd (hdb.trans (hC k n r hp hl heq)) hne
  · intro hp
    exact hdb.trans (hA hp)
  · intro k hp hno
    exact hroom k hp (fun x hx hid => absurd hid (hno x hx))

set_option maxRecDepth 100000 in
theorem vote_gated_witness :
    (votePress 2 20 "2").From = some 2 ∧ HasPrefix (votePress 2 20 "2").Data "vote:" = true ∧
    (handleCallback guestApp (votePress 2 20 "2") 500).store.db.votes =
      [⟨1, hashUserID "salt" 2, 1, 2, 500⟩] ∧
    (handleCallback guestApp (votePress 2 20 "9") 500).store.db = dishes ∧
    (handleCallback guestApp (votePress 2 20 "two") 500).store.db = dishes ∧
    (handleCallback (New ⟨dishes, false, []⟩ "salt") (votePress 2 20 "2") 500).store.db = dishes ∧
    ∀ v, (handleCallback guestApp (votePress 2 20 "2") 500).session v = guestApp.session v :=
  ⟨rfl, by decide, by decide, by decide, by decide, by decide,
    (vote_gated guestApp (votePress 2 20 "2") 500 2 rfl (by decide)).1⟩

/-! ## The handlers record votes under the nominee's nomination (C26) -/

theorem soundAll_append (l₁ l₂ : List StoreCall) :
    ∀ st : Store, Store.soundAll st (l₁ ++ l₂) ↔
      (Store.soundAll st l₁ ∧ Store.soundAll (st.afterAll l₁) l₂) := by
  induction l₁ with
  | nil => intro st; simp [Store.soundAll, Store.afterAll]
  | cons c cs ih =>
    intro st
    show (_ ∧ Store.soundAll (st.after c) (cs ++ l₂)) ↔ _
    rw [ih, afterAll_cons]
    exact and_assoc.symm

theorem SoundTo_refl (s : Store) : SoundTo s s := ⟨[], rfl, trivial⟩

theorem SoundTo_trans {s t r : Store} (h₁ : SoundTo s t) (h₂ : SoundTo t r) : SoundTo s r := by
  obtain ⟨l₁, e1, p1⟩ := h₁
  obtain ⟨l₂, e2, p2⟩ := h₂
  refine ⟨l₁ ++ l₂, by rw [e2, e1, afterAll_append], ?_⟩
  rw [soundAll_append]
  exact ⟨p1, by rw [← e1]; exact p2⟩

theorem SoundTo_after {s t : Store} (c : StoreCall) (hc : StoreCall.voteSound t.db c)
    (h : SoundTo s t) : SoundTo s (t.after c) :=
  SoundTo_trans h ⟨[c], rfl, ⟨hc, trivial⟩⟩

theorem Sound_say {s : Store} {b : App} {chatID : Int} {text : String}
    (h : SoundTo s b.store) : SoundTo s (b.say chatID text).store := h

theorem Sound_Send {s : Store} {b : App} {c : Chattable}
    (h : SoundTo s b.store) : SoundTo s (b.Send c).store := h

theorem Sound_Println {s : Store} {b : App} {tag : String}
    (h : SoundTo s b.store) : SoundTo s (b.Println tag).store := h

theorem Sound_RecordVote {s : Store} {b : App} (userHash : String)
    (nominationID nomineeID createdAt : Int)
    (hc : ∃ x ∈ b.store.db.nominees, x.id = nomineeID ∧ x.nomination_id = nominationID)
    (h : SoundTo s b.store) :
    SoundTo s (b.withStore (b.store.RecordVote userHash nominationID nomineeID createdAt).2).store := by
  rw [withStore_store, Store_RecordVote_snd]
  exact SoundTo_after _ hc h

theorem Sound_CreateRoom {s : Store} {b : App} (ownerID : Int) (title password : String) (now : Int)
    (h : SoundTo s b.store) : SoundTo s (b.withStore (b.store.CreateRoom ownerID title password now).2).store := by
  rw [withStore_store, Store_CreateRoom_snd]
  exact SoundTo_after _ trivial h

theorem Sound_ListRoomsByOwner {s : Store} {b : App} (ownerID : Int)
    (h : SoundTo s b.store) : SoundTo s (b.withStore (b.store.ListRoomsByOwner ownerID).2).store := by
  rw [withStore_store, Store_ListRoomsByOwner_snd]
  exact SoundTo_after _ trivial h

theorem Sound_GetRoomByIDAndPassword {s : Store} {b : App} (id : Int) (password : String)
    (h : SoundTo s b.store) : SoundTo s (b.withStore (b.store.GetRoomByIDAndPassword id password).2).store := by
  rw [withStore_store, Store_GetRoomByIDAndPassword_snd]
  exact SoundTo_after _ trivial h

theorem Sound_IsRoomOwner {s : Store} {b : App} (roomID userID : Int)
    (h : SoundTo s b.store) : SoundTo s (b.withStore (b.store.IsRoomOwner roomID userID).2).store := by
  rw [withStore_store, Store_IsRoomOwner_snd]
  exact SoundTo_after _ trivial h

theorem Sound_GetRoomTitle {s : Store} {b : App} (roomID : Int)
    (h : SoundTo s b.store) : SoundTo s (b.withStore (b.store.GetRoomTitle roomID).2).store := by
  rw [withStore_store, Store_GetRoomTitle_snd]
  exact SoundTo_after _ trivial h

theorem Sound_ListNominations {s : Store} {b : App} (roomID : Int)
    (h : SoundTo s b.store) : SoundTo s (b.withStore (b.store.ListNominations roomID).2).store := by
  rw [withStore_store, Store_ListNominations_snd]
  exact SoundTo_after _ trivial h

theorem Sound_CreateNomination {s : Store} {b : App} (roomID : Int) (name description : String)
    (h : SoundTo s b.store) : SoundTo s (b.withStore (b.store.CreateNomination roomID name description).2).store := by
  rw [withStore_store, Store_CreateNomination_snd]
  exact SoundTo_after _ trivial h

theorem Sound_DeleteNomination {s : Store} {b : App} (nominationID : Int)
    (h : SoundTo s b.store) : SoundTo s (b.withStore (b.store.DeleteNomination nominationID).2).store := by
  rw [withStore_store, Store_DeleteNomination_snd]
  exact SoundTo_after _ trivial h

theorem Sound_IsNominationOwner {s : Store} {b : App} (nominationID userID : Int)
    (h : SoundTo s b.store) : SoundTo s (b.withStore (b.store.IsNominationOwner nominationID userID).2).store := by
  rw [withStore_store, Store_IsNominationOwner_snd]
  exact SoundTo_after _ trivial h

theorem Sound_GetNominationRoomID {s : Store} {b : App} (nominationID : Int)
    (h : SoundTo s b.store) : SoundTo s (b.withStore (b.store.GetNominationRoomID nominationID).2).store := by
  rw [withStore_store, Store_GetNominationRoomID_snd]
  exact SoundTo_after _ trivial h

theorem Sound_CheckNominationInRoom {s : Store} {b : App} (nominationID roomID : Int)
    (h : SoundTo s b.store) : SoundTo s (b.withStore (b.store.CheckNominationInRoom nominationID roomID).2).store := by
  rw [withStore_store, Store_CheckNominationInRoom_snd]
  exact SoundTo_after _ trivial h

theorem Sound_GetNominationName {s : Store} {b : App} (nominationID : Int)
    (h : SoundTo s b.store) : SoundTo s (b.withStore (b.store.GetNominationName nominationID).2).store := by
  rw [withStore_store, Store_GetNominationName_snd]
  exact SoundTo_after _ trivial h

theorem Sound_CreateNominee {s : Store} {b : App} (nominationID : Int) (name : String)
    (h : SoundTo s b.store) : SoundTo s (b.withStore (b.store.CreateNominee nominationID name).2).store := by
  rw [withStore_store, Store_CreateNominee_snd]
  exact SoundTo_after _ trivial h

theorem Sound_ListNominees {s : Store} {b : App} (nominationID : Int)
    (h : SoundTo s b.store) : SoundTo s (b.withStore (b.store.ListNominees nominationID).2).store := by
  rw [withStore_store, Store_ListNominees_snd]
  exact SoundTo_after _ trivial h

theorem Sound_DeleteNominee {s : Store} {b : App} (nomineeID : Int)
    (h : SoundTo s b.store) : SoundTo s (b.withStore (b.store.DeleteNominee nomineeID).2).store := by
  rw [withStore_store, Store_DeleteNominee_snd]
  exact SoundTo_after _ trivial h

theorem Sound_IsNomineeOwner {s : Store} {b : App} (nomineeID userID : Int)
    (h : SoundTo s b.store) : SoundTo s (b.withStore (b.store.IsNomineeOwner nomineeID userID).2).store := by
  rw [withStore_store, Store_IsNomineeOwner_snd]
  exact SoundTo_after _ trivial h

theorem Sound_UpdateNomineeMedia {s : Store} {b : App} (nomineeID : Int) (fileID mediaType : String)
    (h : SoundTo s b.store) : SoundTo s (b.withStore (b.store.UpdateNomineeMedia nomineeID fileID mediaType).2).store := by
  rw [withStore_store, Store_UpdateNomineeMedia_snd]
  exact SoundTo_after _ trivial h

theorem Sound_GetNomineeName {s : Store} {b : App} (nomineeID : Int)
    (h : SoundTo s b.store) : SoundTo s (b.withStore (b.store.GetNomineeName nomineeID).2).store := by
  rw [withStore_store, Store_GetNomineeName_snd]
  exact SoundTo_after _ trivial h

theorem Sound_GetNomineeNominationAndRoom {s : Store} {b : App} (nomineeID : Int)
    (h : SoundTo s b.store) : SoundTo s (b.withStore (b.store.GetNomineeNominationAndRoom nomineeID).2).store := by
  rw [withStore_store, Store_GetNomineeNominationAndRoom_snd]
  exact SoundTo_after _ trivial h

theorem Sound_ResultsByNomination {s : Store} {b : App} (nominationID : Int)
    (h : SoundTo s b.store) : SoundTo s (b.withStore (b.store.ResultsByNomination nominationID).2).store := by
  rw [withStore_store, Store_ResultsByNomination_snd]
  exact SoundTo_after _ trivial h

theorem handleCreateRoom_sound (a : App) (msg : Message) (u : Int) (now : Int) :
    SoundTo a.store (handleCreateRoom a msg u now).store := by
  unfold handleCreateRoom
  simp only []
  repeat' split
  all_goals
    repeat' first
      | with_reducible exact SoundTo_refl _
      | with_reducible refine Sound_say ?_
      | with_reducible refine Sound_Send ?_
      | with_reducible refine Sound_Println ?_
      | with_reducible refine Sound_CreateRoom _ _ _ _ ?_

theorem handleMyRooms_sound (a : App) (msg : Message) (u : Int) :
    SoundTo a.store (handleMyRooms a msg u).store := by
  unfold handleMyRooms
  simp only []
  repeat' split
  all_goals
    repeat' first
      | with_reducible exact SoundTo_refl _
      | with_reducible refine Sound_say ?_
      | with_reducible refine Sound_Send ?_
      | with_reducible refine Sound_Println ?_
      | with_reducible refine Sound_ListRoomsByOwner _ ?_

theorem handleJoinRoom_sound (a : App) (msg : Message) (u : Int) :
    SoundTo a.store (handleJoinRoom a msg u).store := by
  unfold handleJoinRoom
  simp only []
  repeat' split
  all_goals
    repeat' first
      | with_reducible exact SoundTo_refl _
      | with_reducible refine Sound_say ?_
      | with_reducible refine Sound_Send ?_
      | with_reducible refine Sound_Println ?_
      | with_reducible refine Sound_GetRoomByIDAndPassword _ _ ?_

theorem handleAddNomination_sound (a : App) (msg : Message) (u : Int) :
    SoundTo a.store (handleAddNomination a msg u).store := by
  unfold handleAddNomination
  simp only []
  repeat' split
  all_goals
    repeat' first
      | with_reducible exact SoundTo_refl _
      | with_reducible refine Sound_say ?_
      | with_reducible refine Sound_Send ?_
      | with_reducible refine Sound_Println ?_
      | with_reducible refine Sound_IsRoomOwner _ _ ?_
      | with_reducible refine Sound_CreateNomination _ _ _ ?_

theorem handleAddNominee_sound (a : App) (msg : Message) (u : Int) :
    SoundTo a.store (handleAddNominee a msg u).store := by
  unfold handleAddNominee
  simp only []
  repeat' split
  all_goals
    repeat' first
      | with_reducible exact SoundTo_refl _
      | with_reducible refine Sound_say ?_
      | with_reducible refine Sound_Send ?_
      | with_reducible refine Sound_Println ?_
      | with_reducible refine Sound_IsNominationOwner _ _ ?_
      | with_reducible refine Sound_CreateNominee _ _ ?_

theorem handleDeleteNomination_sound (a : App) (msg : Message) (u : Int) :
    SoundTo a.store (handleDeleteNomination a msg u).store := by
  unfold handleDeleteNomination
  simp only []
  repeat' split
  all_goals
    repeat' first
      | with_reducible exact SoundTo_refl _
      | with_reducible refine Sound_say ?_
      | with_reducible refine Sound_Send ?_
      | with_reducible refine Sound_Println ?_
      | with_reducible refine Sound_IsNominationOwner _ _ ?_
      | with_reducible refine Sound_DeleteNomination _ ?_

theorem handleDeleteNominee_sound (a : App) (msg : Message) (u : Int) :
    SoundTo a.store (handleDeleteNominee a msg u).store := by
  unfold handleDeleteNominee
  simp only []
  repeat' split
  all_goals
    repeat' first
      | with_reducible exact SoundTo_refl _
      | with_reducible refine Sound_say ?_
      | with_reducible refine Sound_Send ?_
      | with_reducible refine Sound_Println ?_
      | with_reducible refine Sound_IsNomineeOwner _ _ ?_
      | with_reducible refine Sound_DeleteNominee _ ?_

theorem handleSetNomineeMedia_sound (a : App) (msg : Message) (u : Int) (sess : Session) :
    SoundTo a.store (handleSetNomineeMedia a msg u sess).1.store := by
  unfold handleSetNomineeMedia
  simp only []
  repeat' split
  all_goals
    repeat' first
      | with_reducible exact SoundTo_refl _
      | with_reducible refine Sound_say ?_
      | with_reducible refine Sound_Send ?_
      | with_reducible refine Sound_Println ?_
      | with_reducible refine Sound_IsNomineeOwner _ _ ?_

theorem handleMediaUpload_sound (a : App) (msg : Message) (u : Int) (sess : Session) :
    SoundTo a.store (handleMediaUpload a msg u sess).1.store := by
  unfold handleMediaUpload
  simp only []
  repeat' split
  all_goals
    repeat' first
      | with_reducible exact SoundTo_refl _
      | with_reducible refine Sound_say ?_
      | with_reducible refine Sound_Send ?_
      | with_reducible refine Sound_Println ?_
      | with_reducible refine Sound_IsNomineeOwner _ _ ?_
      | with_reducible refine Sound_UpdateNomineeMedia _ _ _ ?_

theorem handleCreateNomineeTextStep_sound (a : App) (msg : Message) (u : Int) (sess : Session) :
    SoundTo a.store (handleCreateNomineeTextStep a msg u sess).1.store := by
  unfold handleCreateNomineeTextStep
  simp only []
  repeat' split
  all_goals
    repeat' first
      | with_reducible exact SoundTo_refl _
      | with_reducible refine Sound_say ?_
      | with_reducible refine Sound_Send ?_
      | with_reducible refine Sound_Println ?_
      | with_reducible refine Sound_IsNominationOwner _ _ ?_
      | with_reducible refine Sound_CreateNominee _ _ ?_

theorem callbackAddNominee_sound (a : App) (cq : CallbackQuery) (u : Int) (sess : Session) :
    SoundTo a.store (callbackAddNominee a cq u sess).1.store := by
  unfold callbackAddNominee
  simp only []
  repeat' split
  all_goals
    repeat' first
      | with_reducible exact SoundTo_refl _
      | with_reducible refine Sound_say ?_
      | with_reducible refine Sound_Send ?_
      | with_reducible refine Sound_Println ?_
      | with_reducible refine Sound_IsNominationOwner _ _ ?_

theorem callbackSetMedia_sound (a : App) (cq : CallbackQuery) (u : Int) (sess : Session) :
    SoundTo a.store (callbackSetMedia a cq u sess).1.store := by
  unfold callbackSetMedia
  simp only []
  repeat' split
  all_goals
    repeat' first
      | with_reducible exact SoundTo_refl _
      | with_reducible refine Sound_say ?_
      | with_reducible refine Sound_Send ?_
      | with_reducible refine Sound_Println ?_
      | with_reducible refine Sound_IsNomineeOwner _ _ ?_

theorem callbackDeleteNominee_sound (a : App) (cq : CallbackQuery) (u : Int) (sess : Session) :
    SoundTo a.store (callbackDeleteNominee a cq u sess).1.store := by
  unfold callbackDeleteNominee
  simp only []
  repeat' split
  all_goals
    repeat' first
      | with_reducible exact SoundTo_refl _
      | with_reducible refine Sound_say ?_
      | with_reducible refine Sound_Send ?_
      | with_reducible refine Sound_Println ?_
      | with_reducible refine Sound_IsNomineeOwner _ _ ?_
      | with_reducible refine Sound_DeleteNominee _ ?_

theorem sendNominationsList_sound (a : App) (chatID u roomID : Int) :
    SoundTo a.store (sendNominationsList a chatID u roomID).2.store := by
  unfold sendNominationsList
  simp only []
  repeat' split
  all_goals
    repeat' first
      | with_reducible exact SoundTo_refl _
      | with_reducible refine Sound_say ?_
      | with_reducible refine Sound_Send ?_
      | with_reducible refine Sound_Println ?_
      | with_reducible refine Sound_ListNominations _ ?_
      | with_reducible refine Sound_IsRoomOwner _ _ ?_

theorem sendResults_sound (a : App) (chatID u roomID nominationID : Int) :
    SoundTo a.store (sendResults a chatID u roomID nominationID).store := by
  unfold sendResults
  simp only []
  repeat' split
  all_goals
    repeat' first
      | with_reducible exact SoundTo_refl _
      | with_reducible refine Sound_say ?_
      | with_reducible refine Sound_Send ?_
      | with_reducible refine Sound_Println ?_
      | with_reducible refine Sound_IsRoomOwner _ _ ?_
      | with_reducible refine Sound_GetRoomTitle _ ?_
      | with_reducible refine Sound_GetNominationName _ ?_
      | with_reducible refine Sound_ResultsByNomination _ ?_

theorem handleResults_sound (a : App) (msg : Message) (u : Int) :
    SoundTo a.store (handleResults a msg u).store := by
  unfold handleResults
  simp only []
  repeat' split
  all_goals
    repeat' first
      | with_reducible exact SoundTo_refl _
      | with_reducible refine Sound_say ?_
      | with_reducible refine Sound_Send ?_
      | with_reducible refine Sound_Println ?_
      | refine SoundTo_trans ?_ (sendResults_sound _ _ _ _ _)
      | with_reducible refine Sound_GetNominationRoomID _ ?_
      | with_reducible refine Sound_CheckNominationInRoom _ _ ?_

theorem callbackResults_sound (a : App) (cq : CallbackQuery) (u : Int) (sess : Session) :
    SoundTo a.store (callbackResults a cq u sess).1.store := by
  unfold callbackResults
  simp only []
  repeat' split
  all_goals
    repeat' first
      | with_reducible exact SoundTo_refl _
      | with_reducible refine Sound_say ?_
      | with_reducible refine Sound_Send ?_
      | with_reducible refine Sound_Println ?_
      | with_reducible refine Sound_GetNominationRoomID _ ?_
      | with_reducible refine Sound_IsRoomOwner _ _ ?_
      | with_reducible refine Sound_GetRoomTitle _ ?_
      | with_reducible refine Sound_GetNominationName _ ?_
      | with_reducible refine Sound_ResultsByNomination _ ?_

theorem handleNominationsCommand_sound (a : App) (msg : Message) (u : Int) (sess : Session) :
    SoundTo a.store (handleNominationsCommand a msg u sess).1.store := by
  unfold handleNominationsCommand
  simp only []
  repeat' split
  all_goals
    repeat' first
      | with_reducible exact SoundTo_refl _
      | with_reducible refine Sound_say ?_
      | with_reducible refine Sound_Send ?_
      | with_reducible refine Sound_Println ?_
      | exact sendNominationsList_sound _ _ _ _

theorem Sound_foldl_Send {α : Type} {s : Store} (f : α → Chattable) (l : List α) :
    ∀ b : App, SoundTo s b.store → SoundTo s (l.foldl (fun acc n => acc.Send (f n)) b).store := by
  induction l with
  | nil => intro b h; exact h
  | cons x l ih => intro b h; exact ih _ (Sound_Send h)

theorem sendNominees_sound (a : App) (chatID u nominationID : Int) :
    SoundTo a.store (sendNominees a chatID u nominationID).2.store := by
  unfold sendNominees
  simp only []
  repeat' split
  all_goals
    repeat' first
      | with_reducible exact SoundTo_refl _
      | with_reducible refine Sound_say ?_
      | with_reducible refine Sound_Send ?_
      | with_reducible refine Sound_Println ?_
      | with_reducible refine Sound_foldl_Send _ _ _ ?_
      | with_reducible refine Sound_GetNominationName _ ?_
      | with_reducible refine Sound_ListNominees _ ?_
      | with_reducible refine Sound_IsNominationOwner _ _ ?_

theorem callbackBack_sound (a : App) (cq : CallbackQuery) (u : Int) (sess : Session) :
    SoundTo a.store (callbackBack a cq u sess).1.store := by
  unfold callbackBack
  simp only []
  repeat' split
  all_goals
    repeat' first
      | with_reducible exact SoundTo_refl _
      | with_reducible refine Sound_say ?_
      | with_reducible refine Sound_Send ?_
      | with_reducible refine Sound_Println ?_
      | exact sendNominationsList_sound _ _ _ _

theorem callbackNomination_sound (a : App) (cq : CallbackQuery) (u : Int) (sess : Session) :
    SoundTo a.store (callbackNomination a cq u sess).1.store := by
  unfold callbackNomination
  simp only []
  repeat' split
  all_goals
    repeat' first
      | with_reducible exact SoundTo_refl _
      | with_reducible refine Sound_say ?_
      | with_reducible refine Sound_Send ?_
      | with_reducible refine Sound_Println ?_
      | refine SoundTo_trans ?_ (sendNominees_sound _ _ _ _)
      | with_reducible refine Sound_GetNominationRoomID _ ?_


theorem callbackVote_sound (a : App) (cq : CallbackQuery) (u : Int) (sess : Session) (now : Int) :
    SoundTo a.store (callbackVote a cq u sess now).1.store := by
  unfold callbackVote
  simp only []
  split
  · exact SoundTo_refl _
  · next k _ =>
    split
    · exact Sound_say (Sound_GetNomineeNominationAndRoom _ (SoundTo_refl _))
    · exact Sound_Println (Sound_GetNomineeNominationAndRoom _ (SoundTo_refl _))
    · next n r hl =>
      have hpair : ∃ x ∈ a.store.db.nominees, x.id = k ∧ x.nomination_id = n := by
        obtain ⟨_, x, hx, hid, hxn, _⟩ := pair_of_GetNomineeNominationAndRoom a.store k n r hl
        exact ⟨x, hx, hid, hxn⟩
      repeat' split
      all_goals
        repeat' first
          | with_reducible exact SoundTo_refl _
          | with_reducible refine Sound_say ?_
          | with_reducible refine Sound_Println ?_
          | with_reducible refine Sound_GetNomineeNominationAndRoom _ ?_
          | with_reducible refine Sound_GetNomineeName _ ?_
          | with_reducible refine Sound_RecordVote _ _ _ _ ?_ ?_
          | refine SoundTo_trans ?_ (sendNominationsList_sound _ _ _ _)
          | simpa using hpair

theorem dispatchCommand_sound (a : App) (msg : Message) (u : Int) (sess : Session) (now : Int) :
    SoundTo a.store (dispatchCommand a msg u sess now).store := by
  unfold dispatchCommand
  by_cases hc : msg.Command = "start"
  · rw [if_pos hc]
    exact SoundTo_refl _
  rw [if_neg hc]
  clear hc
  by_cases hc : msg.Command = "help"
  · rw [if_pos hc]
    exact SoundTo_refl _
  rw [if_neg hc]
  clear hc
  by_cases hc : msg.Command = "create_room"
  · rw [if_pos hc]
    exact handleCreateRoom_sound _ _ _ _
  rw [if_neg hc]
  clear hc
  by_cases hc : msg.Command = "my_rooms"
  · rw [if_pos hc]
    exact handleMyRooms_sound _ _ _
  rw [if_neg hc]
  clear hc
  by_cases hc : msg.Command = "room"
  · rw [if_pos hc]
    exact handleJoinRoom_sound _ _ _
  rw [if_neg hc]
  clear hc
  by_cases hc : msg.Command = "nominations"
  · rw [if_pos hc]
    exact handleNominationsCommand_sound _ _ _ _
  rw [if_neg hc]
  clear hc
  by_cases hc : msg.Command = "add_nomination"
  · rw [if_pos hc]
    exact handleAddNomination_sound _ _ _
  rw [if_neg hc]
  clear hc
  by_cases hc : msg.Command = "add_nominee"
  · rw [if_pos hc]
    exact handleAddNominee_sound _ _ _
  rw [if_neg hc]
  clear hc
  by_cases hc : msg.Command = "set_nominee_media"
  · rw [if_pos hc]
    exact handleSetNomineeMedia_sound _ _ _ _
  rw [if_neg hc]
  clear hc
  by_cases hc : msg.Command = "delete_nomination"
  · rw [if_pos hc]
    exact handleDeleteNomination_sound _ _ _
  rw [if_neg hc]
  clear hc
  by_cases hc : msg.Command = "delete_nominee"
  · rw [if_pos hc]
    exact handleDeleteNominee_sound _ _ _
  rw [if_neg hc]
  clear hc
  by_cases hc : msg.Command = "results"
  · rw [if_pos hc]
    exact handleResults_sound _ _ _
  rw [if_neg hc]
  exact SoundTo_refl _

/-- The store calls of one update keep the discipline of the vote call. -/
theorem handleUpdate_sound (toLower : String → String) (a : App) (upd : Update) :
    SoundTo a.store (handleUpdate toLower a upd).store := by
  cases upd with
  | Message msg now =>
    show SoundTo a.store (handleMessage toLower a msg now).store
    unfold handleMessage
    split
    · exact SoundTo_refl _
    · next u _ =>
      simp only []
      split
      · exact handleMediaUpload_sound { a with sessions := (a.sessions.Get u).2 } msg u _
      split
      · exact handleCreateNomineeTextStep_sound { a with sessions := (a.sessions.Get u).2 } msg u _
      split
      · exact dispatchCommand_sound { a with sessions := (a.sessions.Get u).2 } msg u _ now
      split
      · exact SoundTo_refl _
      · exact SoundTo_refl _
  | CallbackQuery cq now =>
    show SoundTo a.store (handleCallback a cq now).store
    unfold handleCallback
    split
    · exact SoundTo_refl _
    · next u _ =>
      simp only []
      split
      · exact callbackBack_sound
          (({ a with sessions := (a.sessions.Get u).2 } : App).Send (.Callback cq.ID)) cq u _
      split
      · exact callbackNomination_sound
          (({ a with sessions := (a.sessions.Get u).2 } : App).Send (.Callback cq.ID)) cq u _
      split
      · exact callbackVote_sound
          (({ a with sessions := (a.sessions.Get u).2 } : App).Send (.Callback cq.ID)) cq u _ now
      split
      · exact callbackResults_sound
          (({ a with sessions := (a.sessions.Get u).2 } : App).Send (.Callback cq.ID)) cq u _
      split
      · exact callbackAddNominee_sound
          (({ a with sessions := (a.sessions.Get u).2 } : App).Send (.Callback cq.ID)) cq u _
      split
      · exact callbackSetMedia_sound
          (({ a with sessions := (a.sessions.Get u).2 } : App).Send (.Callback cq.ID)) cq u _
      split
      · exact callbackDeleteNominee_sound
          (({ a with sessions := (a.sessions.Get u).2 } : App).Send (.Callback cq.ID)) cq u _
      · exact SoundTo_refl _

theorem nominee_of_id {db : DB} (hv : db.Valid) {x y : NomineeRow} (hx : x ∈ db.nominees)
    (hy : y ∈ db.nominees) (h : x.id = y.id) : x = y :=
  List.inj_on_of_nodup_map hv.nominees_pk hx hy h

theorem votesWellFormed_of_subset {db db2 : DB} (hw : votesWellFormed db)
    (hv : ∀ v ∈ db2.votes, v ∈ db.votes) (hn : ∀ x ∈ db2.nominees, x ∈ db.nominees) :
    votesWellFormed db2 :=
  fun v hv2 x hx hid => hw v (hv v hv2) x (hn x hx) hid

theorem RecordVote_wellFormed (db : DB) (hv : db.Valid) (hw : votesWellFormed db) (h : String)
    (n k t : Int) (hs : ∃ x ∈ db.nominees, x.id = k ∧ x.nomination_id = n) :
    votesWellFormed (RecordVote db h n k t).2 := by
  obtain ⟨x0, hx0, hid0, hn0⟩ := hs
  have hc : ∃ x ∈ db.nominees, x.id = k := ⟨x0, hx0, hid0⟩
  have hnew : ∀ x ∈ db.nominees, x.id = k → x.nomination_id = n := by
    intro x hx hid
    rw [nominee_of_id hv hx hx0 (hid.trans hid0.symm)]
    exact hn0
  by_cases hex : ∃ v ∈ db.votes, v.user_hash = h ∧ v.nomination_id = n
  · rw [RecordVote_votes_update db h n k t hc hex]
    intro v hvm x hx hid
    simp only [List.mem_map] at hvm
    obtain ⟨v0, hv0, rfl⟩ := hvm
    unfold upsertRow at hid ⊢
    split at hid
    · next hcond =>
      rw [if_pos hcond]
      show x.nomination_id = v0.nomination_id
      rw [hcond.2]
      exact hnew x hx hid
    · next hcond =>
      rw [if_neg hcond]
      exact hw v0 hv0 x hx hid
  · rw [RecordVote_votes_insert db h n k t hc hex]
    intro v hvm x hx hid
    simp only [List.mem_append, List.mem_singleton] at hvm
    rcases hvm with hvm | rfl
    · exact hw v hvm x hx hid
    · exact hnew x hx hid

theorem CreateNominee_wellFormed (db : DB) (hv : db.Valid) (hw : votesWellFormed db) (n : Int)
    (name : String) : votesWellFormed (CreateNominee db n name).2 := by
  unfold CreateNominee
  split
  · intro v hvm x hx hid
    simp only [List.mem_append, List.mem_singleton] at hx
    rcases hx with hx | rfl
    · exact hw v hvm x hx hid
    · exfalso
      obtain ⟨y, hy, hyid⟩ := hv.votes_fk v hvm
      have := hv.nominees_seq y hy
      simp only at hid
      omega
  · exact hw

theorem UpdateNomineeMedia_wellFormed (db : DB) (hw : votesWellFormed db) (k : Int)
    (fileID mediaType : String) : votesWellFormed (UpdateNomineeMedia db k fileID mediaType).2 := by
  intro v hvm x hx hid
  simp only [UpdateNomineeMedia, List.mem_map] at hx
  obtain ⟨y, hy, rfl⟩ := hx
  split at hid
  · next hk =>
    rw [if_pos hk]
    exact hw v hvm y hy hid
  · next hk =>
    rw [if_neg hk]
    exact hw v hvm y hy hid

/-- A store call that keeps the discipline of the vote call keeps the schema
constraints and the well-formedness of the votes. -/
theorem effect_keeps (c : StoreCall) (db : DB) (hv : db.Valid) (hw : votesWellFormed db)
    (hs : StoreCall.voteSound db c) : (c.effect db).Valid ∧ votesWellFormed (c.effect db) := by
  cases c
  case CreateRoom ownerID title password now =>
    exact ⟨CreateRoom_valid db hv _ _ _ _, votesWellFormed_of_subset hw (fun _ h => h) (fun _ h => h)⟩
  case CreateNomination roomID name description =>
    refine ⟨CreateNomination_valid db hv _ _ _, ?_⟩
    simp only [StoreCall.effect, CreateNomination]
    split
    · exact votesWellFormed_of_subset hw (fun _ h => h) (fun _ h => h)
    · exact hw
  case DeleteNomination nominationID =>
    refine ⟨DeleteNomination_valid db hv _, votesWellFormed_of_subset hw ?_ ?_⟩
    · intro v hvm
      simp only [StoreCall.effect, DeleteNomination] at hvm
      exact (List.mem_filter.mp hvm).1
    · intro x hx
      simp only [StoreCall.effect, DeleteNomination] at hx
      exact (List.mem_filter.mp hx).1
  case CreateNominee nominationID name =>
    exact ⟨CreateNominee_valid db hv _ _, CreateNominee_wellFormed db hv hw _ _⟩
  case DeleteNominee nomineeID =>
    refine ⟨DeleteNominee_valid db hv _, votesWellFormed_of_subset hw ?_ ?_⟩
    · intro v hvm
      simp only [StoreCall.effect, DeleteNominee] at hvm
      exact (List.mem_filter.mp hvm).1
    · intro x hx
      simp only [StoreCall.effect, DeleteNominee] at hx
      exact (List.mem_filter.mp hx).1
  case UpdateNomineeMedia nomineeID fileID mediaType =>
    exact ⟨UpdateNomineeMedia_valid db hv _ _ _, UpdateNomineeMedia_wellFormed db hw _ _ _⟩
  case RecordVote userHash nominationID nomineeID createdAt =>
    exact ⟨RecordVote_valid db hv _ _ _ _, RecordVote_wellFormed db hv hw _ _ _ _ hs⟩
  all_goals exact ⟨hv, hw⟩

theorem soundAll_keeps (calls : List StoreCall) :
    ∀ st : Store, Store.soundAll st calls → st.db.Valid → votesWellFormed st.db →
      (st.afterAll calls).db.Valid ∧ votesWellFormed (st.afterAll calls).db := by
  induction calls with
  | nil => intro st _ hv hw; exact ⟨hv, hw⟩
  | cons c cs ih =>
    intro st hs hv hw
    rw [afterAll_cons]
    by_cases hf : st.failing = true
    · refine ih _ hs.2 ?_ ?_
      · rw [after_db_failing _ _ hf]
        exact hv
      · rw [after_db_failing _ _ hf]
        exact hw
    · have hf2 : st.failing = false := by simpa using hf
      have hk := effect_keeps c st.db hv hw hs.1
      refine ih _ hs.2 ?_ ?_
      · rw [after_db_working _ _ hf2]
        exact hk.1
      · rw [after_db_working _ _ hf2]
        exact hk.2

/-- One update keeps the schema constraints and the well-formedness of the
votes. -/
theorem handleUpdate_keeps_votes (toLower : String → String) (a : App) (upd : Update)
    (hv : a.store.db.Valid) (hw : votesWellFormed a.store.db) :
    (handleUpdate toLower a upd).store.db.Valid ∧
      votesWellFormed (handleUpdate toLower a upd).store.db := by
  obtain ⟨calls, e, hs⟩ := handleUpdate_sound toLower a upd
  rw [e]
  exact soundAll_keeps calls a.store hs hv hw

/-! ## The counts of the results on reachable states (C26) -/

/-- Among nominees with distinct ids, the number of those with id `k` is 1 if
there is one and 0 otherwise. -/
theorem indicator_sum (L : List NomineeRow) (hnd : (L.map (·.id)).Nodup) (k : Int) :
    (L.map (fun x => if k = x.id then (1 : Int) else 0)).sum =
      if ∃ x ∈ L, x.id = k then 1 else 0 := by
  induction L with
  | nil => simp
  | cons y L ih =>
    rw [List.map_cons, List.nodup_cons] at hnd
    rw [List.map_cons, List.sum_cons, ih hnd.2]
    by_cases hy : k = y.id
    · have hno : ¬ ∃ x ∈ L, x.id = k := by
        rintro ⟨x, hx, hxk⟩
        exact hnd.1 (List.mem_map.mpr ⟨x, hx, by rw [hxk, hy]⟩)
      have hyes : ∃ x ∈ y :: L, x.id = k := ⟨y, List.mem_cons_self _ _, hy.symm⟩
      rw [if_pos hy, if_neg hno, if_pos hyes]
      rfl
    · by_cases hex : ∃ x ∈ L, x.id = k
      · have hyes : ∃ x ∈ y :: L, x.id = k := by
          obtain ⟨x, hx, hxk⟩ := hex
          exact ⟨x, List.mem_cons_of_mem _ hx, hxk⟩
        rw [if_neg hy, if_pos hex, if_pos hyes]
        rfl
      · have hno : ¬ ∃ x ∈ y :: L, x.id = k := by
          rintro ⟨x, hx, hxk⟩
          rcases List.mem_cons.mp hx with rfl | hx
          · exact hy hxk.symm
          · exact hex ⟨x, hx, hxk⟩
        rw [if_neg hy, if_neg hex, if_neg hno]
        rfl

/-- Summing, over nominees with distinct ids, the number of votes for each
counts the votes for one of them. -/
theorem counts_sum (L : List NomineeRow) (hnd : (L.map (·.id)).Nodup) (V : List VoteRow) :
    (L.map (fun x => ((V.filter (fun v => v.nominee_id = x.id)).length : Int))).sum =
      ((V.filter (fun v => ∃ x ∈ L, x.id = v.nominee_id)).length : Int) := by
  induction V with
  | nil => simp
  | cons v V ih =>
    have hsplit : ∀ x : NomineeRow,
        (((v :: V).filter (fun v => v.nominee_id = x.id)).length : Int) =
          (if v.nominee_id = x.id then (1 : Int) else 0) +
            ((V.filter (fun v => v.nominee_id = x.id)).length : Int) := by
      intro x
      by_cases h : v.nominee_id = x.id
      · simp [List.filter_cons, h]
        omega
      · simp [List.filter_cons, h]
    simp only [hsplit]
    rw [List.sum_map_add, ih, indicator_sum L hnd v.nominee_id]
    by_cases hex : ∃ x ∈ L, x.id = v.nominee_id
    · rw [if_pos hex]
      simp [List.filter_cons, hex]
      omega
    · rw [if_neg hex]
      simp [List.filter_cons, hex]

/-- In a database that satisfies the schema and whose votes are well-formed,
the counts of the results of nomination `n` add up to the number of vote rows
recorded under `n`. -/
theorem results_sum (db : DB) (hv : db.Valid) (hw : votesWellFormed db) (n : Int) :
    ∃ rs, ResultsByNomination db n = (.ok rs, db) ∧
      (rs.map (·.Votes)).sum = ((db.votes.filter (fun v => v.nomination_id = n)).length : Int) := by
  refine ⟨_, ResultsByNomination_eq db n hv.nominees_pk, ?_⟩
  have hperm := List.perm_insertionSort resultOrder (resultRows db n)
  rw [(hperm.map (·.Votes)).sum_eq]
  have hmap : (resultRows db n).map (·.Votes) =
      (db.nominees.filter (fun x => x.nomination_id = n)).map
        (fun x => ((db.votes.filter (fun v => v.nominee_id = x.id)).length : Int)) := by
    simp [resultRows, voteCount, Function.comp_def]
  rw [hmap, counts_sum _ (hv.nominees_pk.sublist ((List.filter_sublist _).map _))]
  congr 1
  congr 1
  apply List.filter_congr
  intro v hvm
  congr 1
  apply propext
  constructor
  · rintro ⟨x, hx, hid⟩
    rw [List.mem_filter] at hx
    have := hw v hvm x hx.1 hid
    rw [← this]
    simpa using hx.2
  · intro hvn
    obtain ⟨x, hx, hid⟩ := hv.votes_fk v hvm
    refine ⟨x, List.mem_filter.mpr ⟨hx, ?_⟩, hid⟩
    have := hw v hvm x hx hid
    simpa [this] using hvn

/-- The uniqueness constraint on `votes(user_hash, nomination_id)`: the vote
rows of one nomination come from different user hashes. -/
theorem voters_nodup (db : DB) (hv : db.Valid) (n : Int) :
    ((db.votes.filter (fun v => v.nomination_id = n)).map (·.user_hash)).Nodup := by
  have hsub : ((db.votes.filter (fun v => v.nomination_id = n)).map
      (fun v => (v.user_hash, v.nomination_id))).Nodup :=
    hv.votes_unique.sublist ((List.filter_sublist _).map _)
  refine List.Nodup.map_on ?_ hsub.of_map
  intro x hx y hy hxy
  apply List.inj_on_of_nodup_map hsub hx hy
  have hxn : x.nomination_id = n := by simpa using (List.mem_filter.mp hx).2
  have hyn : y.nomination_id = n := by simpa using (List.mem_filter.mp hy).2
  show (x.user_hash, x.nomination_id) = (y.user_hash, y.nomination_id)
  rw [hxy, hxn, hyn]


theorem soundAll_at (st : Store) (pre : List StoreCall) (c : StoreCall) (post : List StoreCall)
    (h : Store.soundAll st (pre ++ c :: post)) : StoreCall.voteSound (st.afterAll pre).db c :=
  ((soundAll_append pre (c :: post) st).mp h).2.1

/-- Claim C26: (1) in one event, whatever the state, every `RecordVote` call
of the handlers names as nomination the nomination of a nominee that has the
voted id in the database the call runs against.  (2) In every application state
reachable from the empty store by handling messages and button presses (the
engine may start or stop failing in between), the database satisfies the schema
constraints, and every vote row's nomination id is the nomination id of the
nominee it references, which exists.  (3) On those states, for every `n`,
`ResultsByNomination(n)` returns a list whose counts add up to the number of
vote rows with nomination id `n`; these rows have pairwise different user
hashes, so that number is the number of distinct user hashes that voted in
`n`. -/
theorem votes_stay_well_formed (toLower : String → String) (failing : Bool)
    (journal : List StoreCall) (voteSalt : String) (b : App)
    (hb : Reachable toLower (fun s t => t.db = s.db)
      (New ⟨DB.empty, failing, journal⟩ voteSalt) b) :
    (∀ (a : App) (upd : Update), ∃ calls,
      (handleUpdate toLower a upd).store = a.store.afterAll calls ∧
      ∀ pre h n k t post, calls = pre ++ StoreCall.RecordVote h n k t :: post →
        ∃ x ∈ (a.store.afterAll pre).db.nominees, x.id = k ∧ x.nomination_id = n) ∧
    b.store.db.Valid ∧
    (∀ v ∈ b.store.db.votes, ∃ x ∈ b.store.db.nominees, x.id = v.nominee_id ∧
      x.nomination_id = v.nomination_id) ∧
    (∀ v ∈ b.store.db.votes, ∀ x ∈ b.store.db.nominees, x.id = v.nominee_id →
      x.nomination_id = v.nomination_id) ∧
    ∀ n, ∃ rs, ResultsByNomination b.store.db n = (.ok rs, b.store.db) ∧
      (rs.map (·.Votes)).sum =
        ((b.store.db.votes.filter (fun v => v.nomination_id = n)).length : Int) ∧
      ((b.store.db.votes.filter (fun v => v.nomination_id = n)).map (·.user_hash)).Nodup ∧
      (rs.map (·.Votes)).sum =
        ((((b.store.db.votes.filter (fun v => v.nomination_id = n)).map
          (·.user_hash)).dedup.length : Nat) : Int) := by
  have hinv : b.store.db.Valid ∧ votesWellFormed b.store.db := by
    induction hb with
    | start => exact ⟨DB.empty_valid, fun v hv => by cases hv⟩
    | step a upd _ ih => exact handleUpdate_keeps_votes toLower a upd ih.1 ih.2
    | world a st _ hst ih =>
      show st.db.Valid ∧ votesWellFormed st.db
      rw [hst]
      exact ih
  obtain ⟨hv, hw⟩ := hinv
  refine ⟨?_, hv, ?_, hw, ?_⟩
  · intro a upd
    obtain ⟨calls, e, hs⟩ := handleUpdate_sound toLower a upd
    refine ⟨calls, e, ?_⟩
    intro pre h n k t post hsplit
    rw [hsplit] at hs
    exact soundAll_at a.store pre _ post hs
  · intro v hvm
    obtain ⟨x, hx, hid⟩ := hv.votes_fk v hvm
    exact ⟨x, hx, hid, hw v hvm x hx hid⟩
  · intro n
    obtain ⟨rs, hrs, hsum⟩ := results_sum b.store.db hv hw n
    have hnd := voters_nodup b.store.db hv n
    refine ⟨rs, hrs, hsum, hnd, ?_⟩
    rw [hsum, hnd.dedup, List.length_map]

set_option maxRecDepth 1000000 in
theorem votes_stay_well_formed_witness :
    (run (fun s => s) (New ⟨DB.empty, false, []⟩ "salt") votingHistory).store.db.votes =
      [⟨1, hashUserID "salt" 2, 1, 1, 104⟩] ∧
    (run (fun s => s) (New ⟨DB.empty, false, []⟩ "salt") votingHistory).store.db.nominees =
      [⟨1, 1, "Pizza", none, none⟩] ∧
    ∀ v ∈ (run (fun s => s) (New ⟨DB.empty, false, []⟩ "salt") votingHistory).store.db.votes,
      ∃ x ∈ (run (fun s => s) (New ⟨DB.empty, false, []⟩ "salt") votingHistory).store.db.nominees,
        x.id = v.nominee_id ∧ x.nomination_id = v.nomination_id :=
  ⟨by decide, by decide,
    (votes_stay_well_formed (fun s => s) false [] "salt" _
      (run_reachable _ _ _ votingHistory _ Reachable.start)).2.2.1⟩

/-! ## Replies to the sender (C22) -/

theorem Extends_refl (a : App) : Extends a a := ⟨[], by simp⟩

theorem Extends_trans {a b c : App} (h₁ : Extends a b) (h₂ : Extends b c) : Extends a c := by
  obtain ⟨o₁, e1⟩ := h₁
  obtain ⟨o₂, e2⟩ := h₂
  exact ⟨o₁ ++ o₂, by rw [e2, e1, List.append_assoc]⟩

theorem Extends_Send {a b : App} {c : Chattable} (h : Extends a b) : Extends a (b.Send c) :=
  Extends_trans h ⟨[c], rfl⟩

theorem Extends_say {a b : App} {chatID : Int} {text : String} (h : Extends a b) :
    Extends a (b.say chatID text) := Extends_Send h

theorem Extends_Println {a b : App} {tag : String} (h : Extends a b) :
    Extends a (b.Println tag) := h

theorem Extends_withStore {a b : App} {st : Store} (h : Extends a b) :
    Extends a (b.withStore st) := h

theorem Extends_foldl_Send {α : Type} {a : App} (f : α → Chattable) (l : List α) :
    ∀ b : App, Extends a b → Extends a (l.foldl (fun acc n => acc.Send (f n)) b) := by
  induction l with
  | nil => intro b h; exact h
  | cons x l ih => intro b h; exact ih _ (Extends_Send h)

theorem Replied_of_Extends {chatID : Int} {a b c : App} (h₁ : Replied chatID a b)
    (h₂ : Extends b c) : Replied chatID a c := by
  obtain ⟨o₁, e1, x, hx, hc⟩ := h₁
  obtain ⟨o₂, e2⟩ := h₂
  exact ⟨o₁ ++ o₂, by rw [e2, e1, List.append_assoc], x, List.mem_append_left _ hx, hc⟩

theorem Replied_after {chatID : Int} {a b c : App} (h₁ : Extends a b)
    (h₂ : Replied chatID b c) : Replied chatID a c := by
  obtain ⟨o₁, e1⟩ := h₁
  obtain ⟨o₂, e2, x, hx, hc⟩ := h₂
  exact ⟨o₁ ++ o₂, by rw [e2, e1, List.append_assoc], x, List.mem_append_right _ hx, hc⟩

theorem Replied_Send {chatID : Int} {a b : App} (c : Chattable) (hc : c.chat = some chatID)
    (h : Extends a b) : Replied chatID a (b.Send c) := by
  obtain ⟨o, e⟩ := h
  exact ⟨o ++ [c], by rw [Send_bot, e, List.append_assoc], c, by simp, hc⟩

theorem Replied_say {chatID : Int} {a b : App} {text : String} (h : Extends a b) :
    Replied chatID a (b.say chatID text) := Replied_Send _ rfl h

theorem Replied_Message {chatID : Int} {a b : App} {text : List Nat}
    {markup : List (List Button)} (h : Extends a b) :
    Replied chatID a (b.Send (.Message chatID text markup)) := Replied_Send _ rfl h

theorem Replied_Photo {chatID : Int} {a b : App} {file : FileRef} {caption : List Nat}
    {markup : List (List Button)} (h : Extends a b) :
    Replied chatID a (b.Send (.Photo chatID file caption markup)) := Replied_Send _ rfl h

theorem Replied_Println {chatID : Int} {a b : App} {tag : String} (h : Replied chatID a b) :
    Replied chatID a (b.Println tag) := h

theorem Replied_withStore {chatID : Int} {a b : App} {st : Store} (h : Replied chatID a b) :
    Replied chatID a (b.withStore st) := h

theorem Replied_foldl_Send {α : Type} {chatID : Int} {a : App} (f : α → Chattable) (l : List α)
    (b : App) (h : Replied chatID a b) :
    Replied chatID a (l.foldl (fun acc n => acc.Send (f n)) b) :=
  Replied_of_Extends h (Extends_foldl_Send f l b (Extends_refl b))

theorem handleCreateRoom_replied (a : App) (msg : Message) (u : Int) (now : Int) :
    Replied msg.ChatID a (handleCreateRoom a msg u now) := by
  unfold handleCreateRoom
  simp only []
  repeat' split
  all_goals
    repeat' first
      | with_reducible exact Extends_refl _
      | with_reducible refine Replied_say ?_
      | with_reducible refine Replied_Message ?_
      | with_reducible refine Replied_Photo ?_
      | with_reducible refine Replied_Println ?_
      | with_reducible refine Replied_withStore ?_
      | with_reducible refine Replied_foldl_Send _ _ _ ?_
      | with_reducible refine Extends_say ?_
      | with_reducible refine Extends_Send ?_
      | with_reducible refine Extends_Println ?_
      | with_reducible refine Extends_withStore ?_

theorem handleMyRooms_replied (a : App) (msg : Message) (u : Int) :
    Replied msg.ChatID a (handleMyRooms a msg u) := by
  unfold handleMyRooms
  simp only []
  repeat' split
  all_goals
    repeat' first
      | with_reducible exact Extends_refl _
      | with_reducible refine Replied_say ?_
      | with_reducible refine Replied_Message ?_
      | with_reducible refine Replied_Photo ?_
      | with_reducible refine Replied_Println ?_
      | with_reducible refine Replied_withStore ?_
      | with_reducible refine Replied_foldl_Send _ _ _ ?_
      | with_reducible refine Extends_say ?_
      | with_reducible refine Extends_Send ?_
      | with_reducible refine Extends_Println ?_
      | with_reducible refine Extends_withStore ?_

theorem handleJoinRoom_replied (a : App) (msg : Message) (u : Int) :
    Replied msg.ChatID a (handleJoinRoom a msg u) := by
  unfold handleJoinRoom
  simp only []
  repeat' split
  all_goals
    repeat' first
      | with_reducible exact Extends_refl _
      | with_reducible refine Replied_say ?_
      | with_reducible refine Replied_Message ?_
      | with_reducible refine Replied_Photo ?_
      | with_reducible refine Replied_Println ?_
      | with_reducible refine Replied_withStore ?_
      | with_reducible refine Replied_foldl_Send _ _ _ ?_
      | with_reducible refine Extends_say ?_
      | with_reducible refine Extends_Send ?_
      | with_reducible refine Extends_Println ?_
      | with_reducible refine Extends_withStore ?_
      | with_reducible refine Extends_foldl_Send _ _ _ ?_
      | exact ⟨[], by simp⟩

theorem handleAddNomination_replied (a : App) (msg : Message) (u : Int) :
    Replied msg.ChatID a (handleAddNomination a msg u) := by
  unfold handleAddNomination
  simp only []
  repeat' split
  all_goals
    repeat' first
      | with_reducible exact Extends_refl _
      | with_reducible refine Replied_say ?_
      | with_reducible refine Replied_Message ?_
      | with_reducible refine Replied_Photo ?_
      | with_reducible refine Replied_Println ?_
      | with_reducible refine Replied_withStore ?_
      | with_reducible refine Replied_foldl_Send _ _ _ ?_
      | with_reducible refine Extends_say ?_
      | with_reducible refine Extends_Send ?_
      | with_reducible refine Extends_Println ?_
      | with_reducible refine Extends_withStore ?_

theorem handleAddNominee_replied (a : App) (msg : Message) (u : Int) :
    Replied msg.ChatID a (handleAddNominee a msg u) := by
  unfold handleAddNominee
  simp only []
  repeat' split
  all_goals
    repeat' first
      | with_reducible exact Extends_refl _
      | with_reducible refine Replied_say ?_
      | with_reducible refine Replied_Message ?_
      | with_reducible refine Replied_Photo ?_
      | with_reducible refine Replied_Println ?_
      | with_reducible refine Replied_withStore ?_
      | with_reducible refine Replied_foldl_Send _ _ _ ?_
      | with_reducible refine Extends_say ?_
      | with_reducible refine Extends_Send ?_
      | with_reducible refine Extends_Println ?_
      | with_reducible refine Extends_withStore ?_

theorem handleDeleteNomination_replied (a : App) (msg : Message) (u : Int) :
    Replied msg.ChatID a (handleDeleteNomination a msg u) := by
  unfold handleDeleteNomination
  simp only []
  repeat' split
  all_goals
    repeat' first
      | with_reducible exact Extends_refl _
      | with_reducible refine Replied_say ?_
      | with_reducible refine Replied_Message ?_
      | with_reducible refine Replied_Photo ?_
      | with_reducible refine Replied_Println ?_
      | with_reducible refine Replied_withStore ?_
      | with_reducible refine Replied_foldl_Send _ _ _ ?_
      | with_reducible refine Extends_say ?_
      | with_reducible refine Extends_Send ?_
      | with_reducible refine Extends_Println ?_
      | with_reducible refine Extends_withStore ?_

theorem handleDeleteNominee_replied (a : App) (msg : Message) (u : Int) :
    Replied msg.ChatID a (handleDeleteNominee a msg u) := by
  unfold handleDeleteNominee
  simp only []
  repeat' split
  all_goals
    repeat' first
      | with_reducible exact Extends_refl _
      | with_reducible refine Replied_say ?_
      | with_reducible refine Replied_Message ?_
      | with_reducible refine Replied_Photo ?_
      | with_reducible refine Replied_Println ?_
      | with_reducible refine Replied_withStore ?_
      | with_reducible refine Replied_foldl_Send _ _ _ ?_
      | with_reducible refine Extends_say ?_
      | with_reducible refine Extends_Send ?_
      | with_reducible refine Extends_Println ?_
      | with_reducible refine Extends_withStore ?_

theorem handleSetNomineeMedia_replied (a : App) (msg : Message) (u : Int) (sess : Session) :
    Replied msg.ChatID a (handleSetNomineeMedia a msg u sess).1 := by
  unfold handleSetNomineeMedia
  simp only []
  repeat' split
  all_goals
    repeat' first
      | with_reducible exact Extends_refl _
      | with_reducible refine Replied_say ?_
      | with_reducible refine Replied_Message ?_
      | with_reducible refine Replied_Photo ?_
      | with_reducible refine Replied_Println ?_
      | with_reducible refine Replied_withStore ?_
      | with_reducible refine Replied_foldl_Send _ _ _ ?_
      | with_reducible refine Extends_say ?_
      | with_reducible refine Extends_Send ?_
      | with_reducible refine Extends_Println ?_
      | with_reducible refine Extends_withStore ?_

theorem sendResults_replied (a : App) (chatID u roomID nominationID : Int) :
    Replied chatID a (sendResults a chatID u roomID nominationID) := by
  unfold sendResults
  simp only []
  repeat' split
  all_goals
    repeat' first
      | with_reducible exact Extends_refl _
      | with_reducible refine Replied_say ?_
      | with_reducible refine Replied_Message ?_
      | with_reducible refine Replied_Photo ?_
      | with_reducible refine Replied_Println ?_
      | with_reducible refine Replied_withStore ?_
      | with_reducible refine Replied_foldl_Send _ _ _ ?_
      | with_reducible refine Extends_say ?_
      | with_reducible refine Extends_Send ?_
      | with_reducible refine Extends_Println ?_
      | with_reducible refine Extends_withStore ?_

theorem handleResults_replied (a : App) (msg : Message) (u : Int) :
    Replied msg.ChatID a (handleResults a msg u) := by
  unfold handleResults
  simp only []
  repeat' split
  all_goals
    repeat' first
      | with_reducible exact Extends_refl _
      | with_reducible refine Replied_say ?_
      | with_reducible refine Replied_Message ?_
      | with_reducible refine Replied_Photo ?_
      | with_reducible refine Replied_Println ?_
      | with_reducible refine Replied_withStore ?_
      | with_reducible refine Replied_foldl_Send _ _ _ ?_
      | with_reducible refine Extends_say ?_
      | with_reducible refine Extends_Send ?_
      | with_reducible refine Extends_Println ?_
      | with_reducible refine Extends_withStore ?_
      | with_reducible refine Extends_foldl_Send _ _ _ ?_
      | refine Replied_after ?_ (sendResults_replied _ _ _ _ _)

theorem exec_error {α : Type} (st : Store) (c : StoreCall)
    (f : DB → Except StoreError α × DB) (e : StoreError) (hf : st.failing = false)
    (h : (st.exec c f).1 = .error e) : (f st.db).1 = .error e := by
  rw [exec_fst_working _ _ _ hf] at h
  exact h

theorem ListNominations_working (st : Store) (r : Int) (e : StoreError)
    (hf : st.failing = false) : (st.ListNominations r).1 ≠ .error e := by
  intro h
  have := exec_error st _ _ e hf h
  cases this

theorem GetNominationRoomID_working (st : Store) (n : Int) (e : StoreError)
    (hf : st.failing = false) (h : (st.GetNominationRoomID n).1 = .error e) :
    e = .ErrNotFound := by
  have h2 := exec_error st _ _ e hf h
  unfold GetNominationRoomID at h2
  split at h2
  · cases h2
  · cases h2
    rfl

theorem GetNomineeNominationAndRoom_working (st : Store) (k : Int) (e : StoreError)
    (hf : st.failing = false) (h : (st.GetNomineeNominationAndRoom k).1 = .error e) :
    e = .ErrNotFound := by
  have h2 := exec_error st _ _ e hf h
  unfold GetNomineeNominationAndRoom at h2
  simp only [] at h2
  split at h2
  · cases h2
  · cases h2
    rfl

theorem handleMediaUpload_replied (a : App) (msg : Message) (u : Int) (sess : Session)
    (hk : sess.WaitingMediaForNomineeID ≠ 0) :
    Replied msg.ChatID a (handleMediaUpload a msg u sess).1 := by
  unfold handleMediaUpload
  simp only [hk, if_false]
  repeat' split
  all_goals
    repeat' first
      | with_reducible exact Extends_refl _
      | with_reducible refine Replied_say ?_
      | with_reducible refine Replied_Message ?_
      | with_reducible refine Replied_Photo ?_
      | with_reducible refine Replied_Println ?_
      | with_reducible refine Replied_withStore ?_
      | with_reducible refine Replied_foldl_Send _ _ _ ?_
      | with_reducible refine Extends_say ?_
      | with_reducible refine Extends_Send ?_
      | with_reducible refine Extends_Println ?_
      | with_reducible refine Extends_withStore ?_

theorem handleCreateNomineeTextStep_replied (a : App) (msg : Message) (u : Int) (sess : Session)
    (hc : sess.CreatingNomineeForNominationID ≠ 0) :
    Replied msg.ChatID a (handleCreateNomineeTextStep a msg u sess).1 := by
  unfold handleCreateNomineeTextStep
  simp only [hc, if_false]
  repeat' split
  all_goals
    repeat' first
      | with_reducible exact Extends_refl _
      | with_reducible refine Replied_say ?_
      | with_reducible refine Replied_Message ?_
      | with_reducible refine Replied_Photo ?_
      | with_reducible refine Replied_Println ?_
      | with_reducible refine Replied_withStore ?_
      | with_reducible refine Replied_foldl_Send _ _ _ ?_
      | with_reducible refine Extends_say ?_
      | with_reducible refine Extends_Send ?_
      | with_reducible refine Extends_Println ?_
      | with_reducible refine Extends_withStore ?_

theorem sendNominationsList_replied (a : App) (chatID u roomID : Int)
    (hf : a.store.failing = false) :
    Replied chatID a (sendNominationsList a chatID u roomID).2 := by
  unfold sendNominationsList
  simp only []
  split
  · next e he => exact absurd he (ListNominations_working a.store roomID e hf)
  · repeat' split
    all_goals
      repeat' first
        | with_reducible exact Extends_refl _
        | with_reducible refine Replied_say ?_
        | with_reducible refine Replied_Message ?_
        | with_reducible refine Replied_Photo ?_
        | with_reducible refine Replied_Println ?_
        | with_reducible refine Replied_withStore ?_
        | with_reducible refine Replied_foldl_Send _ _ _ ?_
        | with_reducible refine Extends_say ?_
        | with_reducible refine Extends_Send ?_
        | with_reducible refine Extends_Println ?_
        | with_reducible refine Extends_withStore ?_

theorem handleNominationsCommand_replied (a : App) (msg : Message) (u : Int) (sess : Session)
    (h : a.store.failing = false ∨ sess.ActiveRoomID = 0) :
    Replied msg.ChatID a (handleNominationsCommand a msg u sess).1 := by
  unfold handleNominationsCommand
  split
  · exact Replied_say (Extends_refl _)
  · next hne =>
    have hf : a.store.failing = false := h.resolve_right hne
    simp only []
    split
    · exact Replied_Println (sendNominationsList_replied a msg.ChatID u _ hf)
    · exact sendNominationsList_replied a msg.ChatID u _ hf

theorem callbackBack_replied (a : App) (cq : CallbackQuery) (u : Int) (sess : Session)
    (h : a.store.failing = false ∨ sess.ActiveRoomID = 0) :
    Replied cq.ChatID a (callbackBack a cq u sess).1 := by
  unfold callbackBack
  simp only []
  split
  · exact Replied_say (Extends_refl _)
  · next hne =>
    have hf : a.store.failing = false := h.resolve_right hne
    split
    · exact Replied_Println (sendNominationsList_replied a cq.ChatID u _ hf)
    · exact sendNominationsList_replied a cq.ChatID u _ hf

theorem sendNominees_replied (a : App) (chatID u nominationID : Int) :
    Replied chatID a (sendNominees a chatID u nominationID).2 := by
  unfold sendNominees
  simp only []
  repeat' split
  all_goals
    repeat' first
      | with_reducible exact Extends_refl _
      | with_reducible refine Replied_say ?_
      | with_reducible refine Replied_Message ?_
      | with_reducible refine Replied_Photo ?_
      | with_reducible refine Replied_Println ?_
      | with_reducible refine Replied_withStore ?_
      | with_reducible refine Replied_foldl_Send _ _ _ ?_
      | with_reducible refine Extends_say ?_
      | with_reducible refine Extends_Send ?_
      | with_reducible refine Extends_Println ?_
      | with_reducible refine Extends_withStore ?_

theorem callbackResults_replied (a : App) (cq : CallbackQuery) (u : Int) (sess : Session) (k : Int)
    (hp : ParseInt (TrimPrefix cq.Data "res_nom:") = some k) :
    Replied cq.ChatID a (callbackResults a cq u sess).1 := by
  unfold callbackResults
  simp only [hp]
  repeat' split
  all_goals
    repeat' first
      | with_reducible exact Extends_refl _
      | with_reducible refine Replied_say ?_
      | with_reducible refine Replied_Message ?_
      | with_reducible refine Replied_Photo ?_
      | with_reducible refine Replied_Println ?_
      | with_reducible refine Replied_withStore ?_
      | with_reducible refine Replied_foldl_Send _ _ _ ?_
      | with_reducible refine Extends_say ?_
      | with_reducible refine Extends_Send ?_
      | with_reducible refine Extends_Println ?_
      | with_reducible refine Extends_withStore ?_

theorem callbackAddNominee_replied (a : App) (cq : CallbackQuery) (u : Int) (sess : Session) (k : Int)
    (hp : ParseInt (TrimPrefix cq.Data "addnom:") = some k) :
    Replied cq.ChatID a (callbackAddNominee a cq u sess).1 := by
  unfold callbackAddNominee
  simp only [hp]
  repeat' split
  all_goals
    repeat' first
      | with_reducible exact Extends_refl _
      | with_reducible refine Replied_say ?_
      | with_reducible refine Replied_Message ?_
      | with_reducible refine Replied_Photo ?_
      | with_reducible refine Replied_Println ?_
      | with_reducible refine Replied_withStore ?_
      | with_reducible refine Replied_foldl_Send _ _ _ ?_
      | with_reducible refine Extends_say ?_
      | with_reducible refine Extends_Send ?_
      | with_reducible refine Extends_Println ?_
      | with_reducible refine Extends_withStore ?_

theorem callbackSetMedia_replied (a : App) (cq : CallbackQuery) (u : Int) (sess : Session) (k : Int)
    (hp : ParseInt (TrimPrefix cq.Data "setmedia:") = some k) :
    Replied cq.ChatID a (callbackSetMedia a cq u sess).1 := by
  unfold callbackSetMedia
  simp only [hp]
  repeat' split
  all_goals
    repeat' first
      | with_reducible exact Extends_refl _
      | with_reducible refine Replied_say ?_
      | with_reducible refine Replied_Message ?_
      | with_reducible refine Replied_Photo ?_
      | with_reducible refine Replied_Println ?_
      | with_reducible refine Replied_withStore ?_
      | with_reducible refine Replied_foldl_Send _ _ _ ?_
      | with_reducible refine Extends_say ?_
      | with_reducible refine Extends_Send ?_
      | with_reducible refine Extends_Println ?_
      | with_reducible refine Extends_withStore ?_

theorem callbackDeleteNominee_replied (a : App) (cq : CallbackQuery) (u : Int) (sess : Session) (k : Int)
    (hp : ParseInt (TrimPrefix cq.Data "delnom:") = some k) :
    Replied cq.ChatID a (callbackDeleteNominee a cq u sess).1 := by
  unfold callbackDeleteNominee
  simp only [hp]
  repeat' split
  all_goals
    repeat' first
      | with_reducible exact Extends_refl _
      | with_reducible refine Replied_say ?_
      | with_reducible refine Replied_Message ?_
      | with_reducible refine Replied_Photo ?_
      | with_reducible refine Replied_Println ?_
      | with_reducible refine Replied_withStore ?_
      | with_reducible refine Replied_foldl_Send _ _ _ ?_
      | with_reducible refine Extends_say ?_
      | with_reducible refine Extends_Send ?_
      | with_reducible refine Extends_Println ?_
      | with_reducible refine Extends_withStore ?_

theorem sendNominationsList_extends (a : App) (chatID u roomID : Int) :
    Extends a (sendNominationsList a chatID u roomID).2 := by
  unfold sendNominationsList
  simp only []
  repeat' split
  all_goals
    repeat' first
      | with_reducible exact Extends_refl _
      | with_reducible refine Extends_say ?_
      | with_reducible refine Extends_Send ?_
      | with_reducible refine Extends_Println ?_
      | with_reducible refine Extends_withStore ?_

theorem callbackNomination_replied (a : App) (cq : CallbackQuery) (u : Int) (sess : Session)
    (k : Int) (hp : ParseInt (TrimPrefix cq.Data "nomination:") = some k)
    (hf : a.store.failing = false) :
    Replied cq.ChatID a (callbackNomination a cq u sess).1 := by
  unfold callbackNomination
  simp only [hp]
  split
  · exact Replied_say (Extends_withStore (Extends_refl _))
  · next e hne he =>
    exact absurd (GetNominationRoomID_working a.store k e hf he) (fun h => hne (by rw [h]))
  · split
    · exact Replied_say (Extends_withStore (Extends_refl _))
    · split
      · exact Replied_Println (Replied_after (Extends_withStore (Extends_refl _))
          (sendNominees_replied _ _ _ _))
      · exact Replied_after (Extends_withStore (Extends_refl _)) (sendNominees_replied _ _ _ _)

theorem Extends_named {a b : App} (r : Except StoreError String) (h : Extends a b) :
    Extends a (match r with
      | .ok name => (name, b)
      | .error _ => ("", b.Println "get nominee name:") : String × App).2 := by
  cases r <;> exact h

theorem callbackVote_replied (a : App) (cq : CallbackQuery) (u : Int) (sess : Session)
    (now : Int) (k : Int) (hp : ParseInt (TrimPrefix cq.Data "vote:") = some k)
    (hf : a.store.failing = false) :
    Replied cq.ChatID a (callbackVote a cq u sess now).1 := by
  unfold callbackVote
  simp only [hp]
  split
  · exact Replied_say (Extends_withStore (Extends_refl _))
  · next e hne he =>
    exact absurd (GetNomineeNominationAndRoom_working a.store k e hf he)
      (fun h => hne (by rw [h]))
  · split
    · exact Replied_say (Extends_withStore (Extends_refl _))
    · have hsaid : ∀ (r : Except StoreError String) (b : App) (text : String), Extends a b →
          Replied cq.ChatID a ((match r with
            | .ok name => (name, b)
            | .error _ => ("", b.Println "get nominee name:") : String × App).2.say
              cq.ChatID text) :=
        fun r b text h => Replied_say (Extends_named r h)
      split
      · exact Replied_say (Extends_Println (Extends_withStore (Extends_withStore (Extends_refl _))))
      · split
        · split
          · exact Replied_Println (Replied_of_Extends
              (hsaid _ _ _ (Extends_withStore (Extends_withStore (Extends_withStore
                (Extends_refl _))))) (sendNominationsList_extends _ _ _ _))
          · exact Replied_of_Extends
              (hsaid _ _ _ (Extends_withStore (Extends_withStore (Extends_withStore
                (Extends_refl _))))) (sendNominationsList_extends _ _ _ _)
        · exact hsaid _ _ _ (Extends_withStore (Extends_withStore (Extends_withStore
            (Extends_refl _))))

theorem Replied_withSession {chatID : Int} {a : App} {u : Int} {r : App × Session}
    (h : Replied chatID a r.1) : Replied chatID a (App.withSession u r) := h

theorem dispatchCommand_replied (a : App) (msg : Message) (u : Int) (sess : Session) (now : Int)
    (h : a.store.failing = false ∨ msg.Command ≠ "nominations" ∨ sess.ActiveRoomID = 0) :
    Replied msg.ChatID a (dispatchCommand a msg u sess now) := by
  unfold dispatchCommand
  by_cases hc : msg.Command = "start"
  · rw [if_pos hc]
    exact Replied_Send _ rfl (Extends_refl _)
  rw [if_neg hc]
  clear hc
  by_cases hc : msg.Command = "help"
  · rw [if_pos hc]
    exact Replied_Send _ rfl (Extends_refl _)
  rw [if_neg hc]
  clear hc
  by_cases hc : msg.Command = "create_room"
  · rw [if_pos hc]
    exact handleCreateRoom_replied _ _ _ _
  rw [if_neg hc]
  clear hc
  by_cases hc : msg.Command = "my_rooms"
  · rw [if_pos hc]
    exact handleMyRooms_replied _ _ _
  rw [if_neg hc]
  clear hc
  by_cases hc : msg.Command = "room"
  · rw [if_pos hc]
    exact handleJoinRoom_replied _ _ _
  rw [if_neg hc]
  clear hc
  by_cases hc : msg.Command = "nominations"
  · rw [if_pos hc]
    refine Replied_withSession (handleNominationsCommand_replied _ _ _ _ ?_)
    rcases h with h | h | h
    · exact Or.inl h
    · exact absurd hc h
    · exact Or.inr h
  rw [if_neg hc]
  clear hc
  by_cases hc : msg.Command = "add_nomination"
  · rw [if_pos hc]
    exact handleAddNomination_replied _ _ _
  rw [if_neg hc]
  clear hc
  by_cases hc : msg.Command = "add_nominee"
  · rw [if_pos hc]
    exact handleAddNominee_replied _ _ _
  rw [if_neg hc]
  clear hc
  by_cases hc : msg.Command = "set_nominee_media"
  · rw [if_pos hc]
    exact Replied_withSession (handleSetNomineeMedia_replied _ _ _ _)
  rw [if_neg hc]
  clear hc
  by_cases hc : msg.Command = "delete_nomination"
  · rw [if_pos hc]
    exact handleDeleteNomination_replied _ _ _
  rw [if_neg hc]
  clear hc
  by_cases hc : msg.Command = "delete_nominee"
  · rw [if_pos hc]
    exact handleDeleteNominee_replied _ _ _
  rw [if_neg hc]
  clear hc
  by_cases hc : msg.Command = "results"
  · rw [if_pos hc]
    exact handleResults_replied _ _ _
  rw [if_neg hc]
  clear hc
  exact Replied_say (Extends_refl _)

/-- A command message from an identified sender is answered in its chat, unless
the store is failing, the command is the nominations list and a room is
active. -/
theorem handleMessage_replied (toLower : String → String) (a : App) (msg : Message) (now : Int)
    (u : Int) (hfrom : msg.From = some u) (hcmd : msg.IsCommand = true)
    (h : a.store.failing = false ∨ msg.Command ≠ "nominations" ∨
      (a.session u).ActiveRoomID = 0) :
    Replied msg.ChatID a (handleMessage toLower a msg now) := by
  have hext : Extends a { a with sessions := (a.sessions.Get u).2 } := ⟨[], by simp⟩
  unfold handleMessage
  simp only [hfrom]
  split
  · next hm =>
    exact Replied_withSession (Replied_after hext (handleMediaUpload_replied _ _ _ _ hm.1))
  · rw [if_neg (by simp [hcmd])]
    exact Replied_after hext (dispatchCommand_replied _ _ _ _ _ h)

theorem handleCallback_nomination (a : App) (cq : CallbackQuery) (now : Int) (u : Int)
    (hfrom : cq.From = some u) (hpre : HasPrefix cq.Data "nomination:" = true) :
    handleCallback a cq now =
      App.withSession u
        (callbackNomination (({ a with sessions := (a.sessions.Get u).2 } : App).Send (.Callback cq.ID))
          cq u (a.session u)) := by
  obtain ⟨rest, hd⟩ := HasPrefix_first cq.Data "nomination:" 'n' "omination:".data rfl hpre
  have h1 : cq.Data ≠ "back:nominations" := by
    intro h
    rw [h] at hd
    cases hd
  unfold handleCallback
  simp only [hfrom]
  rw [if_neg h1, if_pos hpre]
  rfl

theorem handleCallback_addnom (a : App) (cq : CallbackQuery) (now : Int) (u : Int)
    (hfrom : cq.From = some u) (hpre : HasPrefix cq.Data "addnom:" = true) :
    handleCallback a cq now =
      App.withSession u
        (callbackAddNominee (({ a with sessions := (a.sessions.Get u).2 } : App).Send (.Callback cq.ID))
          cq u (a.session u)) := by
  obtain ⟨rest, hd⟩ := HasPrefix_first cq.Data "addnom:" 'a' "ddnom:".data rfl hpre
  have h1 : cq.Data ≠ "back:nominations" := by
    intro h
    rw [h] at hd
    cases hd
  have k0 := HasPrefix_other cq.Data "nomination:" 'a' 'n' "omination:".data rest rfl hd
    (by decide)
  have k1 := HasPrefix_other cq.Data "vote:" 'a' 'v' "ote:".data rest rfl hd
    (by decide)
  have k2 := HasPrefix_other cq.Data "res_nom:" 'a' 'r' "es_nom:".data rest rfl hd
    (by decide)
  unfold handleCallback
  simp only [hfrom]
  rw [if_neg h1, if_neg (by simp [k0]), if_neg (by simp [k1]), if_neg (by simp [k2]), if_pos hpre]
  rfl

theorem handleCallback_setmedia (a : App) (cq : CallbackQuery) (now : Int) (u : Int)
    (hfrom : cq.From = some u) (hpre : HasPrefix cq.Data "setmedia:" = true) :
    handleCallback a cq now =
      App.withSession u
        (callbackSetMedia (({ a with sessions := (a.sessions.Get u).2 } : App).Send (.Callback cq.ID))
          cq u (a.session u)) := by
  obtain ⟨rest, hd⟩ := HasPrefix_first cq.Data "setmedia:" 's' "etmedia:".data rfl hpre
  have h1 : cq.Data ≠ "back:nominations" := by
    intro h
    rw [h] at hd
    cases hd
  have k0 := HasPrefix_other cq.Data "nomination:" 's' 'n' "omination:".data rest rfl hd
    (by decide)
  have k1 := HasPrefix_other cq.Data "vote:" 's' 'v' "ote:".data rest rfl hd
    (by decide)
  have k2 := HasPrefix_other cq.Data "res_nom:" 's' 'r' "es_nom:".data rest rfl hd
    (by decide)
  have k3 := HasPrefix_other cq.Data "addnom:" 's' 'a' "ddnom:".data rest rfl hd
    (by decide)
  unfold handleCallback
  simp only [hfrom]
  rw [if_neg h1, if_neg (by simp [k0]), if_neg (by simp [k1]), if_neg (by simp [k2]), if_neg (by simp [k3]), if_pos hpre]
  rfl

theorem handleCallback_delnom (a : App) (cq : CallbackQuery) (now : Int) (u : Int)
    (hfrom : cq.From = some u) (hpre : HasPrefix cq.Data "delnom:" = true) :
    handleCallback a cq now =
      App.withSession u
        (callbackDeleteNominee (({ a with sessions := (a.sessions.Get u).2 } : App).Send (.Callback cq.ID))
          cq u (a.session u)) := by
  obtain ⟨rest, hd⟩ := HasPrefix_first cq.Data "delnom:" 'd' "elnom:".data rfl hpre
  have h1 : cq.Data ≠ "back:nominations" := by
    intro h
    rw [h] at hd
    cases hd
  have k0 := HasPrefix_other cq.Data "nomination:" 'd' 'n' "omination:".data rest rfl hd
    (by decide)
  have k1 := HasPrefix_other cq.Data "vote:" 'd' 'v' "ote:".data rest rfl hd
    (by decide)
  have k2 := HasPrefix_other cq.Data "res_nom:" 'd' 'r' "es_nom:".data rest rfl hd
    (by decide)
  have k3 := HasPrefix_other cq.Data "addnom:" 'd' 'a' "ddnom:".data rest rfl hd
    (by decide)
  have k4 := HasPrefix_other cq.Data "setmedia:" 'd' 's' "etmedia:".data rest rfl hd
    (by decide)
  unfold handleCallback
  simp only [hfrom]
  rw [if_neg h1, if_neg (by simp [k0]), if_neg (by simp [k1]), if_neg (by simp [k2]), if_neg (by simp [k3]), if_neg (by simp [k4]), if_pos hpre]
  rfl

theorem Extends_ack (a : App) (u : Int) (id : String) :
    Extends a (({ a with sessions := (a.sessions.Get u).2 } : App).Send (.Callback id)) :=
  ⟨[.Callback id], rfl⟩

/-- The back button is answered in its chat, unless the store is failing and a
room is active. -/
theorem handleCallback_back_replied (a : App) (cq : CallbackQuery) (now : Int) (u : Int)
    (hfrom : cq.From = some u) (hd : cq.Data = "back:nominations")
    (h : a.store.failing = false ∨ (a.session u).ActiveRoomID = 0) :
    Replied cq.ChatID a (handleCallback a cq now) := by
  unfold handleCallback
  simp only [hfrom]
  rw [if_pos hd]
  exact Replied_withSession (Replied_after (Extends_ack a u cq.ID) (callbackBack_replied _ _ _ _ h))

/-- A button whose payload carries a number is answered in its chat, unless the
store is failing and the button is one of the two that only log a failed
lookup. -/
theorem handleCallback_replied (a : App) (cq : CallbackQuery) (now : Int) (u : Int)
    (hfrom : cq.From = some u) (pre : String) (k : Int) (hmem : pre ∈ buttonPrefixes)
    (hpre : HasPrefix cq.Data pre = true) (hp : ParseInt (TrimPrefix cq.Data pre) = some k)
    (h : a.store.failing = false ∨ (pre ≠ "nomination:" ∧ pre ≠ "vote:")) :
    Replied cq.ChatID a (handleCallback a cq now) := by
  have hack := Extends_ack a u cq.ID
  simp only [buttonPrefixes, List.mem_cons, List.mem_singleton, List.not_mem_nil, or_false]
    at hmem
  rcases hmem with rfl | rfl | rfl | rfl | rfl | rfl
  · rw [handleCallback_nomination a cq now u hfrom hpre]
    rcases h with h | h
    · exact Replied_withSession (Replied_after hack (callbackNomination_replied _ _ _ _ k hp h))
    · exact absurd rfl h.1
  · rw [handleCallback_vote a cq now u hfrom hpre]
    rcases h with h | h
    · exact Replied_withSession (Replied_after hack (callbackVote_replied _ _ _ _ _ k hp h))
    · exact absurd rfl h.2
  · rw [handleCallback_results a cq now u hfrom hpre]
    exact Replied_withSession (Replied_after hack (callbackResults_replied _ _ _ _ k hp))
  · rw [handleCallback_addnom a cq now u hfrom hpre]
    exact Replied_withSession (Replied_after hack (callbackAddNominee_replied _ _ _ _ k hp))
  · rw [handleCallback_setmedia a cq now u hfrom hpre]
    exact Replied_withSession (Replied_after hack (callbackSetMedia_replied _ _ _ _ k hp))
  · rw [handleCallback_delnom a cq now u hfrom hpre]
    exact Replied_withSession (Replied_after hack (callbackDeleteNominee_replied _ _ _ _ k hp))

/-- A button whose payload does not carry a number is acknowledged and nothing
else happens: no message, no store call, no log line, sessions as before. -/
theorem handleCallback_malformed (a : App) (cq : CallbackQuery) (now : Int) (u : Int)
    (hfrom : cq.From = some u) (pre : String) (hmem : pre ∈ buttonPrefixes)
    (hpre : HasPrefix cq.Data pre = true) (hp : ParseInt (TrimPrefix cq.Data pre) = none) :
    (handleCallback a cq now).bot = a.bot ++ [.Callback cq.ID] ∧
    (handleCallback a cq now).store = a.store ∧
    (handleCallback a cq now).log = a.log ∧
    ∀ v, (handleCallback a cq now).session v = a.session v := by
  have hs : ∀ v, (App.withSession u
      ((({ a with sessions := (a.sessions.Get u).2 } : App).Send (.Callback cq.ID)),
        a.session u)).session v = a.session v := by
    intro v
    rw [session_withSession a _ u v _ rfl]
    split
    · next hv => rw [hv]
    · rfl
  simp only [buttonPrefixes, List.mem_cons, List.mem_singleton, List.not_mem_nil, or_false]
    at hmem
  rcases hmem with rfl | rfl | rfl | rfl | rfl | rfl
  · rw [handleCallback_nomination a cq now u hfrom hpre]
    unfold callbackNomination
    simp only [hp]
    exact ⟨rfl, rfl, rfl, hs⟩
  · rw [handleCallback_vote a cq now u hfrom hpre]
    unfold callbackVote
    simp only [hp]
    exact ⟨rfl, rfl, rfl, hs⟩
  · rw [handleCallback_results a cq now u hfrom hpre]
    unfold callbackResults
    simp only [hp]
    exact ⟨rfl, rfl, rfl, hs⟩
  · rw [handleCallback_addnom a cq now u hfrom hpre]
    unfold callbackAddNominee
    simp only [hp]
    exact ⟨rfl, rfl, rfl, hs⟩
  · rw [handleCallback_setmedia a cq now u hfrom hpre]
    unfold callbackSetMedia
    simp only [hp]
    exact ⟨rfl, rfl, rfl, hs⟩
  · rw [handleCallback_delnom a cq now u hfrom hpre]
    unfold callbackDeleteNominee
    simp only [hp]
    exact ⟨rfl, rfl, rfl, hs⟩

/-! ## Failures are reported to the sender (C22) -/

/-- A message that the media step or the name step takes is answered in its
chat. -/
theorem handleMessage_pending_replied (toLower : String → String) (a : App) (msg : Message)
    (now : Int) (u : Int) (hfrom : msg.From = some u)
    (h : ((a.session u).WaitingMediaForNomineeID ≠ 0 ∧
        (msg.Photo.length > 0 ∨ msg.Video.isSome)) ∨
      ((a.session u).CreatingNomineeForNominationID ≠ 0 ∧ msg.IsCommand = false ∧
        TrimSpace msg.Text ≠ "")) :
    Replied msg.ChatID a (handleMessage toLower a msg now) := by
  have hext : Extends a { a with sessions := (a.sessions.Get u).2 } := ⟨[], by simp⟩
  unfold handleMessage
  simp only [hfrom]
  split
  · next hm =>
    exact Replied_withSession (Replied_after hext (handleMediaUpload_replied _ _ _ _ hm.1))
  · next hm =>
    split
    · next hn =>
      exact Replied_withSession
        (Replied_after hext (handleCreateNomineeTextStep_replied _ _ _ _ hn.1))
    · next hn =>
      rcases h with h | h
      · exact absurd h hm
      · exact absurd h hn

/-- What the two lookups that only log do on a failing store: the vote button for
nominee 2 is acknowledged, the failure is logged and no message is sent. -/
theorem vote_lookup_failure_logged :
    (handleCallback brokenApp (votePress 2 20 "2") 500).bot = [.Callback "q1"] ∧
    (handleCallback brokenApp (votePress 2 20 "2") 500).log = ["get nominee nomination/room:"] := by
  decide

/-- Counterexample to C22 as stated: user 2 presses a vote button whose payload
is `vote:two`; the numeric id is malformed, and the handler only acknowledges
the press: no message goes to chat 20. -/
theorem malformed_button_unanswered :
    (votePress 2 20 "two").From = some 2 ∧
    HasPrefix (votePress 2 20 "two").Data "vote:" = true ∧
    ParseInt (TrimPrefix (votePress 2 20 "two").Data "vote:") = none ∧
    (handleCallback guestApp (votePress 2 20 "two") 500).bot = [.Callback "q1"] ∧
    ¬ Replied 20 guestApp (handleCallback guestApp (votePress 2 20 "two") 500) := by
  have hb : (handleCallback guestApp (votePress 2 20 "two") 500).bot = [.Callback "q1"] := by
    decide
  refine ⟨rfl, by decide, by decide, hb, ?_⟩
  rintro ⟨out, e, c, hc, hchat⟩
  rw [hb] at e
  have ho : out = [.Callback "q1"] := by
    rw [e]
    rfl
  rw [ho] at hc
  rw [List.mem_singleton] at hc
  rw [hc] at hchat
  cases hchat

/-- C22, amended: for an update from an identified sender `u`, the handler sends
at least one message to the chat the update came from when the update is a
command message, a press of the back button, or a press of a button whose
payload carries a number after its prefix, whatever NotFound, PermissionDenied,
ValidationError or StorageFailure condition the handling hits; the store is
taken as working for the `/nominations` command and the back button with an
active room, and for the `nomination:` and `vote:` buttons.  A press of a button
whose payload has no number after its prefix (a malformed id) is acknowledged
and nothing more: no message is sent, the store is not called, nothing is logged
and the sessions stay.  A message that the media step or the name step takes is
answered as well. -/
theorem failures_reported (toLower : String → String) (a : App) (upd : Update) (u : Int)
    (hfrom : upd.sender = some u) :
    (∀ msg now, upd = .Message msg now → msg.IsCommand = true →
      (a.store.failing = false ∨ msg.Command ≠ "nominations" ∨
        (a.session u).ActiveRoomID = 0) →
      Replied upd.chat a (handleUpdate toLower a upd)) ∧
    (∀ cq now, upd = .CallbackQuery cq now → cq.Data = "back:nominations" →
      (a.store.failing = false ∨ (a.session u).ActiveRoomID = 0) →
      Replied upd.chat a (handleUpdate toLower a upd)) ∧
    (∀ cq now pre k, upd = .CallbackQuery cq now → pre ∈ buttonPrefixes →
      HasPrefix cq.Data pre = true → ParseInt (TrimPrefix cq.Data pre) = some k →
      (a.store.failing = false ∨ (pre ≠ "nomination:" ∧ pre ≠ "vote:")) →
      Replied upd.chat a (handleUpdate toLower a upd)) ∧
    (∀ cq now pre, upd = .CallbackQuery cq now → pre ∈ buttonPrefixes →
      HasPrefix cq.Data pre = true → ParseInt (TrimPrefix cq.Data pre) = none →
      (handleUpdate toLower a upd).bot = a.bot ++ [.Callback cq.ID] ∧
      (handleUpdate toLower a upd).store = a.store ∧
      (handleUpdate toLower a upd).log = a.log ∧
      ∀ v, (handleUpdate toLower a upd).session v = a.session v) ∧
    (∀ msg now, upd = .Message msg now →
      (((a.session u).WaitingMediaForNomineeID ≠ 0 ∧
          (msg.Photo.length > 0 ∨ msg.Video.isSome)) ∨
        ((a.session u).CreatingNomineeForNominationID ≠ 0 ∧ msg.IsCommand = false ∧
          TrimSpace msg.Text ≠ "")) →
      Replied upd.chat a (handleUpdate toLower a upd)) := by
  refine ⟨?_, ?_, ?_, ?_, ?_⟩
  · intro msg now e hcmd h
    subst e
    exact handleMessage_replied toLower a msg now u hfrom hcmd h
  · intro cq now e hd h
    subst e
    exact handleCallback_back_replied a cq now u hfrom hd h
  · intro cq now pre k e hmem hpre hp h
    subst e
    exact handleCallback_replied a cq now u hfrom pre k hmem hpre hp h
  · intro cq now pre e hmem hpre hp
    subst e
    exact handleCallback_malformed a cq now u hfrom pre hmem hpre hp
  · intro msg now e h
    subst e
    exact handleMessage_pending_replied toLower a msg now u hfrom h

set_option maxRecDepth 100000 in
theorem failures_reported_witness :
    (Update.CallbackQuery (votePress 2 20 "9") 500).sender = some 2 ∧
    (handleUpdate (fun s => s) guestApp (.CallbackQuery (votePress 2 20 "9") 500)).bot =
      [.Callback "q1", .Message 20 (bytesOf "Этот номинант больше не существует.") []] ∧
    Replied 20 guestApp
      (handleUpdate (fun s => s) guestApp (.CallbackQuery (votePress 2 20 "9") 500)) ∧
    Replied 20 brokenApp
      (handleUpdate (fun s => s) brokenApp (.Message (commandMessage 2 20 "room" "1 pw1") 500)) :=
  ⟨rfl, by decide,
    (failures_reported (fun s => s) guestApp (.CallbackQuery (votePress 2 20 "9") 500) 2
      rfl).2.2.1 (votePress 2 20 "9") 500 "vote:" 9 rfl (by decide) (by decide) (by decide)
      (Or.inl rfl),
    (failures_reported (fun s => s) brokenApp
      (.Message (commandMessage 2 20 "room" "1 pw1") 500) 2 rfl).1
      (commandMessage 2 20 "room" "1 pw1") 500 rfl rfl (Or.inr (Or.inl (by decide)))⟩

/-! ## Create-then-join round trip (C23) -/

set_option maxRecDepth 1000000 in
/-- Evaluation for C23: after `/create_room Party | my pass` the store holds room
1 with the password `my pass`, which `GetRoomByIDAndPassword` accepts, and the
reply ends with the command `/room 1 my pass`.  That very command, sent by user
2 or by the owner, is turned down with the not-found text and the active room
stays 0, since the handler passes only the field `my` as the password.  With the
password `pw1` the same round trip enters the room. -/
theorem join_with_spaced_password_refused :
    spacedRoomApp.store.db.rooms = [⟨1, 1, "Party", "my pass", 100⟩] ∧
    (GetRoomByIDAndPassword spacedRoomApp.store.db 1 "my pass").1 =
      .ok ⟨1, 1, "Party", "my pass", 100⟩ ∧
    spacedRoomApp.bot = [.Message 10 (bytesOf ("Комната создана! 🎉\nID: 1\nНазвание: Party" ++
      "\nПароль: my pass\n\nПоделись ID и паролем с участниками.\n" ++
      "Чтобы зайти как участник: /room 1 my pass")) []] ∧
    (commandMessage 2 20 "room" "1 my pass").Text = "/room 1 my pass" ∧
    Fields (TrimSpace (commandMessage 2 20 "room" "1 my pass").CommandArguments) =
      ["1", "my", "pass"] ∧
    (handleMessage (fun s => s) spacedRoomApp (commandMessage 2 20 "room" "1 my pass")
      101).bot = spacedRoomApp.bot ++
        [.Message 20 (bytesOf "Комната не найдена или неверный пароль.") []] ∧
    ((handleMessage (fun s => s) spacedRoomApp (commandMessage 2 20 "room" "1 my pass")
      101).session 2).ActiveRoomID = 0 ∧
    ((handleMessage (fun s => s) spacedRoomApp (commandMessage 1 10 "room" "1 my pass")
      101).session 1).ActiveRoomID = 0 ∧
    ((run (fun s => s) (New ⟨DB.empty, false, []⟩ "salt")
      [.Message (commandMessage 1 10 "create_room" "Party | pw1") 100,
       .Message (commandMessage 2 20 "room" "1 pw1") 101]).session 2).ActiveRoomID = 1 := by
  decide

end TgVoteBot
